import Mathlib

/-!
# mockay: the AST deep-copy engine (package astcopy) and the position locator (package mockgen)

A shallow embedding of `astcopy/astcopy.go`, of `mockgen/find.go` and of `copyFieldList` of
`mockgen/ast-helpers.go`, and the properties of the copy functions, of `findAtPosition` and of
`copyFieldList`.

Modelling conventions.

* A Go pointer `*T` is `Option T` (`none` is the nil pointer), a Go interface value is
  `Option` of its dynamic value (`none` is the nil interface), and a Go slice is
  `Option (List _)` (`none` is the nil slice, `some []` a present slice of length zero).
* An interface value holds a pointer to a present node; an interface value that wraps a nil
  pointer is not part of the model.
* `panic(msg)` is `Except.error msg`, and so is the run-time panic of a nil pointer
  dereference; a function of astcopy that can reach a panic returns in
  `Except String`, the others are plain functions.
* The node types are those of `go/ast` (Go 1.11 to 1.17), with their fields in declaration
  order.  The links added by the resolver (`Ident.Obj`, `File.Scope`, `Package.Scope`,
  `Package.Imports`) point across the tree; they are not part of the tree grammar and are left
  out.  Fields named `Type` and `List` in Go are `Type_` and `List_` here.
* A composite literal `&ast.T{F: e, ...}` gives every field it does not list its zero value:
  `token.NoPos`, `token.ILLEGAL`, `""`, `false`, `0`, nil.
* For the locator a tree is what `ast.Inspect` sees of it (`ast.Tree`): each node with the
  results of `Pos()` and `End()` and its non-nil children in the order of `ast.Walk`;
  `ast.Inspect` is the standard library function, modelled after its documentation.  A Go
  closure is a function that takes and returns the value of the variables it captures, and
  the file set is the function `fset.Position`.
-/

namespace token

/-- Go: type Pos int, a compact encoding of a source position. -/
abbrev Pos := Int

/-- Go: const NoPos Pos = 0, the zero value of Pos. -/
def NoPos : Pos := 0

/-- Go: type Token int, the set of lexical tokens. -/
abbrev Token := Int

/-- Go: ILLEGAL Token = iota, the zero value of Token. -/
def ILLEGAL : Token := 0

/-- Go: token.INT. -/
def INT : Token := 5

/-- Go: token.STRING. -/
def STRING : Token := 9

/-- Go: token.ADD. -/
def ADD : Token := 12

/-- Go: token.ASSIGN. -/
def ASSIGN : Token := 42

/-- Go: token.DEFINE. -/
def DEFINE : Token := 47

/-- Go: token.VAR. -/
def VAR : Token := 85

end token

/-! ## The node types of go/ast -/

namespace ast

/-- Go: type ChanDir int, the direction of a channel type (SEND = 1, RECV = 2). -/
abbrev ChanDir := Int

/-- Go struct ast.Comment: a single comment. -/
structure Comment where
  Slash : token.Pos
  Text : String

/-- Go struct ast.CommentGroup: a sequence of comments. -/
structure CommentGroup where
  List_ : Option (List (Option Comment))

/-- Go struct ast.Ident: an identifier. -/
structure Ident where
  NamePos : token.Pos
  Name : String

/-- Go struct ast.BasicLit: a literal of basic type. -/
structure BasicLit where
  ValuePos : token.Pos
  Kind : token.Token
  Value : String

/-- Go struct ast.BadExpr: placeholder for an expression with syntax errors. -/
structure BadExpr where
  From : token.Pos
  To : token.Pos

/-- Go struct ast.BadStmt: placeholder for a statement with syntax errors. -/
structure BadStmt where
  From : token.Pos
  To : token.Pos

/-- Go struct ast.EmptyStmt: an empty statement. -/
structure EmptyStmt where
  Semicolon : token.Pos
  Implicit : Bool

/-- Go struct ast.BranchStmt: a break, continue, goto or fallthrough statement. -/
structure BranchStmt where
  TokPos : token.Pos
  Tok : token.Token
  Label : Option Ident

/-- Go struct ast.ImportSpec: a single package import. -/
structure ImportSpec where
  Doc : Option CommentGroup
  Name : Option Ident
  Path : Option BasicLit
  Comment : Option CommentGroup
  EndPos : token.Pos

/-- Go struct ast.BadDecl: placeholder for a declaration with syntax errors. -/
structure BadDecl where
  From : token.Pos
  To : token.Pos

set_option maxHeartbeats 4000000 in
mutual
/-- Go struct ast.Field. -/
inductive Field where
  | mk (Doc : Option CommentGroup) (Names : Option (List (Option Ident))) (Type_ : Option ExprNode) (Tag : Option BasicLit) (Comment : Option CommentGroup)
/-- Go struct ast.FieldList. -/
inductive FieldList where
  | mk (Opening : token.Pos) (List_ : Option (List (Option Field))) (Closing : token.Pos)
/-- Go struct ast.FuncType. -/
inductive FuncType where
  | mk (Func : token.Pos) (Params : Option FieldList) (Results : Option FieldList)
/-- Go struct ast.CallExpr. -/
inductive CallExpr where
  | mk (Fun : Option ExprNode) (Lparen : token.Pos) (Args : Option (List (Option ExprNode))) (Ellipsis : token.Pos) (Rparen : token.Pos)
/-- Go struct ast.BlockStmt. -/
inductive BlockStmt where
  | mk (Lbrace : token.Pos) (List_ : Option (List (Option StmtNode))) (Rbrace : token.Pos)
/-- Dynamic value of a non-nil ast.Expr: a pointer to a present node of one of the
variants the switch of astcopy handles (carried with its fields, in the order of
the go/ast struct), or a value of another type implementing the interface. -/
inductive ExprNode where
  | BadExpr (x : BadExpr)
  | Ident (x : Ident)
  | Ellipsis (Ellipsis : token.Pos) (Elt : Option ExprNode)
  | BasicLit (x : BasicLit)
  | FuncLit (Type_ : Option FuncType) (Body : Option BlockStmt)
  | CompositeLit (Type_ : Option ExprNode) (Lbrace : token.Pos) (Elts : Option (List (Option ExprNode))) (Rbrace : token.Pos) (Incomplete : Bool)
  | ParenExpr (Lparen : token.Pos) (X : Option ExprNode) (Rparen : token.Pos)
  | SelectorExpr (X : Option ExprNode) (Sel : Option Ident)
  | IndexExpr (X : Option ExprNode) (Lbrack : token.Pos) (Index : Option ExprNode) (Rbrack : token.Pos)
  | SliceExpr (X : Option ExprNode) (Lbrack : token.Pos) (Low : Option ExprNode) (High : Option ExprNode) (Max : Option ExprNode) (Slice3 : Bool) (Rbrack : token.Pos)
  | TypeAssertExpr (X : Option ExprNode) (Lparen : token.Pos) (Type_ : Option ExprNode) (Rparen : token.Pos)
  | CallExpr (x : CallExpr)
  | StarExpr (Star : token.Pos) (X : Option ExprNode)
  | UnaryExpr (OpPos : token.Pos) (Op : token.Token) (X : Option ExprNode)
  | BinaryExpr (X : Option ExprNode) (OpPos : token.Pos) (Op : token.Token) (Y : Option ExprNode)
  | KeyValueExpr (Key : Option ExprNode) (Colon : token.Pos) (Value : Option ExprNode)
  | ArrayType (Lbrack : token.Pos) (Len : Option ExprNode) (Elt : Option ExprNode)
  | StructType (Struct : token.Pos) (Fields : Option FieldList) (Incomplete : Bool)
  | FuncType (x : FuncType)
  | InterfaceType (Interface : token.Pos) (Methods : Option FieldList) (Incomplete : Bool)
  | MapType (Map : token.Pos) (Key : Option ExprNode) (Value : Option ExprNode)
  | ChanType (Begin : token.Pos) (Arrow : token.Pos) (Dir : ChanDir) (Value : Option ExprNode)
  | other (typ : String)
/-- Dynamic value of a non-nil ast.Stmt: a pointer to a present node of one of the
variants the switch of astcopy handles (carried with its fields, in the order of
the go/ast struct), or a value of another type implementing the interface. -/
inductive StmtNode where
  | BadStmt (x : BadStmt)
  | DeclStmt (Decl : Option DeclNode)
  | EmptyStmt (x : EmptyStmt)
  | LabeledStmt (Label : Option Ident) (Colon : token.Pos) (Stmt : Option StmtNode)
  | ExprStmt (X : Option ExprNode)
  | SendStmt (Chan : Option ExprNode) (Arrow : token.Pos) (Value : Option ExprNode)
  | IncDecStmt (X : Option ExprNode) (TokPos : token.Pos) (Tok : token.Token)
  | AssignStmt (Lhs : Option (List (Option ExprNode))) (TokPos : token.Pos) (Tok : token.Token) (Rhs : Option (List (Option ExprNode)))
  | GoStmt (Go : token.Pos) (Call : Option CallExpr)
  | DeferStmt (Defer : token.Pos) (Call : Option CallExpr)
  | ReturnStmt (Return : token.Pos) (Results : Option (List (Option ExprNode)))
  | BranchStmt (x : BranchStmt)
  | BlockStmt (x : BlockStmt)
  | IfStmt (If : token.Pos) (Init : Option StmtNode) (Cond : Option ExprNode) (Body : Option BlockStmt) (Else : Option StmtNode)
  | CaseClause (Case : token.Pos) (List_ : Option (List (Option ExprNode))) (Colon : token.Pos) (Body : Option (List (Option StmtNode)))
  | SwitchStmt (Switch : token.Pos) (Init : Option StmtNode) (Tag : Option ExprNode) (Body : Option BlockStmt)
  | TypeSwitchStmt (Switch : token.Pos) (Init : Option StmtNode) (Assign : Option StmtNode) (Body : Option BlockStmt)
  | CommClause (Case : token.Pos) (Comm : Option StmtNode) (Colon : token.Pos) (Body : Option (List (Option StmtNode)))
  | SelectStmt (Select : token.Pos) (Body : Option BlockStmt)
  | ForStmt (For : token.Pos) (Init : Option StmtNode) (Cond : Option ExprNode) (Post : Option StmtNode) (Body : Option BlockStmt)
  | RangeStmt (For : token.Pos) (Key : Option ExprNode) (Value : Option ExprNode) (TokPos : token.Pos) (Tok : token.Token) (X : Option ExprNode) (Body : Option BlockStmt)
  | other (typ : String)
/-- Dynamic value of a non-nil ast.Spec: a pointer to a present node of one of the
variants the switch of astcopy handles (carried with its fields, in the order of
the go/ast struct), or a value of another type implementing the interface. -/
inductive SpecNode where
  | ImportSpec (x : ImportSpec)
  | ValueSpec (Doc : Option CommentGroup) (Names : Option (List (Option Ident))) (Type_ : Option ExprNode) (Values : Option (List (Option ExprNode))) (Comment : Option CommentGroup)
  | TypeSpec (Doc : Option CommentGroup) (Name : Option Ident) (Assign : token.Pos) (Type_ : Option ExprNode) (Comment : Option CommentGroup)
  | other (typ : String)
/-- Dynamic value of a non-nil ast.Decl: a pointer to a present node of one of the
variants the switch of astcopy handles (carried with its fields, in the order of
the go/ast struct), or a value of another type implementing the interface. -/
inductive DeclNode where
  | BadDecl (x : BadDecl)
  | GenDecl (Doc : Option CommentGroup) (TokPos : token.Pos) (Tok : token.Token) (Lparen : token.Pos) (Specs : Option (List (Option SpecNode))) (Rparen : token.Pos)
  | FuncDecl (Doc : Option CommentGroup) (Recv : Option FieldList) (Name : Option Ident) (Type_ : Option FuncType) (Body : Option BlockStmt)
  | other (typ : String)
end

/-- Go interface ast.Expr: nil, or a dynamic value. -/
abbrev Expr := Option ExprNode
/-- Go interface ast.Stmt: nil, or a dynamic value. -/
abbrev Stmt := Option StmtNode
/-- Go interface ast.Spec: nil, or a dynamic value. -/
abbrev Spec := Option SpecNode
/-- Go interface ast.Decl: nil, or a dynamic value. -/
abbrev Decl := Option DeclNode

/-- Go struct ast.Ellipsis. -/
structure Ellipsis where
  Ellipsis : token.Pos
  Elt : Option ExprNode
/-- The ast.Expr value that holds a pointer to x. -/
def Ellipsis.toExpr (x : ast.Ellipsis) : ast.ExprNode :=
  .Ellipsis x.Ellipsis x.Elt

/-- Go struct ast.FuncLit. -/
structure FuncLit where
  Type_ : Option FuncType
  Body : Option BlockStmt
/-- The ast.Expr value that holds a pointer to x. -/
def FuncLit.toExpr (x : ast.FuncLit) : ast.ExprNode :=
  .FuncLit x.Type_ x.Body

/-- Go struct ast.CompositeLit. -/
structure CompositeLit where
  Type_ : Option ExprNode
  Lbrace : token.Pos
  Elts : Option (List (Option ExprNode))
  Rbrace : token.Pos
  Incomplete : Bool
/-- The ast.Expr value that holds a pointer to x. -/
def CompositeLit.toExpr (x : ast.CompositeLit) : ast.ExprNode :=
  .CompositeLit x.Type_ x.Lbrace x.Elts x.Rbrace x.Incomplete

/-- Go struct ast.ParenExpr. -/
structure ParenExpr where
  Lparen : token.Pos
  X : Option ExprNode
  Rparen : token.Pos
/-- The ast.Expr value that holds a pointer to x. -/
def ParenExpr.toExpr (x : ast.ParenExpr) : ast.ExprNode :=
  .ParenExpr x.Lparen x.X x.Rparen

/-- Go struct ast.SelectorExpr. -/
structure SelectorExpr where
  X : Option ExprNode
  Sel : Option Ident
/-- The ast.Expr value that holds a pointer to x. -/
def SelectorExpr.toExpr (x : ast.SelectorExpr) : ast.ExprNode :=
  .SelectorExpr x.X x.Sel

/-- Go struct ast.IndexExpr. -/
structure IndexExpr where
  X : Option ExprNode
  Lbrack : token.Pos
  Index : Option ExprNode
  Rbrack : token.Pos
/-- The ast.Expr value that holds a pointer to x. -/
def IndexExpr.toExpr (x : ast.IndexExpr) : ast.ExprNode :=
  .IndexExpr x.X x.Lbrack x.Index x.Rbrack

/-- Go struct ast.SliceExpr. -/
structure SliceExpr where
  X : Option ExprNode
  Lbrack : token.Pos
  Low : Option ExprNode
  High : Option ExprNode
  Max : Option ExprNode
  Slice3 : Bool
  Rbrack : token.Pos
/-- The ast.Expr value that holds a pointer to x. -/
def SliceExpr.toExpr (x : ast.SliceExpr) : ast.ExprNode :=
  .SliceExpr x.X x.Lbrack x.Low x.High x.Max x.Slice3 x.Rbrack

/-- Go struct ast.TypeAssertExpr. -/
structure TypeAssertExpr where
  X : Option ExprNode
  Lparen : token.Pos
  Type_ : Option ExprNode
  Rparen : token.Pos
/-- The ast.Expr value that holds a pointer to x. -/
def TypeAssertExpr.toExpr (x : ast.TypeAssertExpr) : ast.ExprNode :=
  .TypeAssertExpr x.X x.Lparen x.Type_ x.Rparen

/-- Go struct ast.StarExpr. -/
structure StarExpr where
  Star : token.Pos
  X : Option ExprNode
/-- The ast.Expr value that holds a pointer to x. -/
def StarExpr.toExpr (x : ast.StarExpr) : ast.ExprNode :=
  .StarExpr x.Star x.X

/-- Go struct ast.UnaryExpr. -/
structure UnaryExpr where
  OpPos : token.Pos
  Op : token.Token
  X : Option ExprNode
/-- The ast.Expr value that holds a pointer to x. -/
def UnaryExpr.toExpr (x : ast.UnaryExpr) : ast.ExprNode :=
  .UnaryExpr x.OpPos x.Op x.X

/-- Go struct ast.BinaryExpr. -/
structure BinaryExpr where
  X : Option ExprNode
  OpPos : token.Pos
  Op : token.Token
  Y : Option ExprNode
/-- The ast.Expr value that holds a pointer to x. -/
def BinaryExpr.toExpr (x : ast.BinaryExpr) : ast.ExprNode :=
  .BinaryExpr x.X x.OpPos x.Op x.Y

/-- Go struct ast.KeyValueExpr. -/
structure KeyValueExpr where
  Key : Option ExprNode
  Colon : token.Pos
  Value : Option ExprNode
/-- The ast.Expr value that holds a pointer to x. -/
def KeyValueExpr.toExpr (x : ast.KeyValueExpr) : ast.ExprNode :=
  .KeyValueExpr x.Key x.Colon x.Value

/-- Go struct ast.ArrayType. -/
structure ArrayType where
  Lbrack : token.Pos
  Len : Option ExprNode
  Elt : Option ExprNode
/-- The ast.Expr value that holds a pointer to x. -/
def ArrayType.toExpr (x : ast.ArrayType) : ast.ExprNode :=
  .ArrayType x.Lbrack x.Len x.Elt

/-- Go struct ast.StructType. -/
structure StructType where
  Struct : token.Pos
  Fields : Option FieldList
  Incomplete : Bool
/-- The ast.Expr value that holds a pointer to x. -/
def StructType.toExpr (x : ast.StructType) : ast.ExprNode :=
  .StructType x.Struct x.Fields x.Incomplete

/-- Go struct ast.InterfaceType. -/
structure InterfaceType where
  Interface : token.Pos
  Methods : Option FieldList
  Incomplete : Bool
/-- The ast.Expr value that holds a pointer to x. -/
def InterfaceType.toExpr (x : ast.InterfaceType) : ast.ExprNode :=
  .InterfaceType x.Interface x.Methods x.Incomplete

/-- Go struct ast.MapType. -/
structure MapType where
  Map : token.Pos
  Key : Option ExprNode
  Value : Option ExprNode
/-- The ast.Expr value that holds a pointer to x. -/
def MapType.toExpr (x : ast.MapType) : ast.ExprNode :=
  .MapType x.Map x.Key x.Value

/-- Go struct ast.ChanType. -/
structure ChanType where
  Begin : token.Pos
  Arrow : token.Pos
  Dir : ChanDir
  Value : Option ExprNode
/-- The ast.Expr value that holds a pointer to x. -/
def ChanType.toExpr (x : ast.ChanType) : ast.ExprNode :=
  .ChanType x.Begin x.Arrow x.Dir x.Value

/-- Go struct ast.DeclStmt. -/
structure DeclStmt where
  Decl : Option DeclNode
/-- The ast.Stmt value that holds a pointer to x. -/
def DeclStmt.toStmt (x : ast.DeclStmt) : ast.StmtNode :=
  .DeclStmt x.Decl

/-- Go struct ast.LabeledStmt. -/
structure LabeledStmt where
  Label : Option Ident
  Colon : token.Pos
  Stmt : Option StmtNode
/-- The ast.Stmt value that holds a pointer to x. -/
def LabeledStmt.toStmt (x : ast.LabeledStmt) : ast.StmtNode :=
  .LabeledStmt x.Label x.Colon x.Stmt

/-- Go struct ast.ExprStmt. -/
structure ExprStmt where
  X : Option ExprNode
/-- The ast.Stmt value that holds a pointer to x. -/
def ExprStmt.toStmt (x : ast.ExprStmt) : ast.StmtNode :=
  .ExprStmt x.X

/-- Go struct ast.SendStmt. -/
structure SendStmt where
  Chan : Option ExprNode
  Arrow : token.Pos
  Value : Option ExprNode
/-- The ast.Stmt value that holds a pointer to x. -/
def SendStmt.toStmt (x : ast.SendStmt) : ast.StmtNode :=
  .SendStmt x.Chan x.Arrow x.Value

/-- Go struct ast.IncDecStmt. -/
structure IncDecStmt where
  X : Option ExprNode
  TokPos : token.Pos
  Tok : token.Token
/-- The ast.Stmt value that holds a pointer to x. -/
def IncDecStmt.toStmt (x : ast.IncDecStmt) : ast.StmtNode :=
  .IncDecStmt x.X x.TokPos x.Tok

/-- Go struct ast.AssignStmt. -/
structure AssignStmt where
  Lhs : Option (List (Option ExprNode))
  TokPos : token.Pos
  Tok : token.Token
  Rhs : Option (List (Option ExprNode))
/-- The ast.Stmt value that holds a pointer to x. -/
def AssignStmt.toStmt (x : ast.AssignStmt) : ast.StmtNode :=
  .AssignStmt x.Lhs x.TokPos x.Tok x.Rhs

/-- Go struct ast.GoStmt. -/
structure GoStmt where
  Go : token.Pos
  Call : Option CallExpr
/-- The ast.Stmt value that holds a pointer to x. -/
def GoStmt.toStmt (x : ast.GoStmt) : ast.StmtNode :=
  .GoStmt x.Go x.Call

/-- Go struct ast.DeferStmt. -/
structure DeferStmt where
  Defer : token.Pos
  Call : Option CallExpr
/-- The ast.Stmt value that holds a pointer to x. -/
def DeferStmt.toStmt (x : ast.DeferStmt) : ast.StmtNode :=
  .DeferStmt x.Defer x.Call

/-- Go struct ast.ReturnStmt. -/
structure ReturnStmt where
  Return : token.Pos
  Results : Option (List (Option ExprNode))
/-- The ast.Stmt value that holds a pointer to x. -/
def ReturnStmt.toStmt (x : ast.ReturnStmt) : ast.StmtNode :=
  .ReturnStmt x.Return x.Results

/-- Go struct ast.IfStmt. -/
structure IfStmt where
  If : token.Pos
  Init : Option StmtNode
  Cond : Option ExprNode
  Body : Option BlockStmt
  Else : Option StmtNode
/-- The ast.Stmt value that holds a pointer to x. -/
def IfStmt.toStmt (x : ast.IfStmt) : ast.StmtNode :=
  .IfStmt x.If x.Init x.Cond x.Body x.Else

/-- Go struct ast.CaseClause. -/
structure CaseClause where
  Case : token.Pos
  List_ : Option (List (Option ExprNode))
  Colon : token.Pos
  Body : Option (List (Option StmtNode))
/-- The ast.Stmt value that holds a pointer to x. -/
def CaseClause.toStmt (x : ast.CaseClause) : ast.StmtNode :=
  .CaseClause x.Case x.List_ x.Colon x.Body

/-- Go struct ast.SwitchStmt. -/
structure SwitchStmt where
  Switch : token.Pos
  Init : Option StmtNode
  Tag : Option ExprNode
  Body : Option BlockStmt
/-- The ast.Stmt value that holds a pointer to x. -/
def SwitchStmt.toStmt (x : ast.SwitchStmt) : ast.StmtNode :=
  .SwitchStmt x.Switch x.Init x.Tag x.Body

/-- Go struct ast.TypeSwitchStmt. -/
structure TypeSwitchStmt where
  Switch : token.Pos
  Init : Option StmtNode
  Assign : Option StmtNode
  Body : Option BlockStmt
/-- The ast.Stmt value that holds a pointer to x. -/
def TypeSwitchStmt.toStmt (x : ast.TypeSwitchStmt) : ast.StmtNode :=
  .TypeSwitchStmt x.Switch x.Init x.Assign x.Body

/-- Go struct ast.CommClause. -/
structure CommClause where
  Case : token.Pos
  Comm : Option StmtNode
  Colon : token.Pos
  Body : Option (List (Option StmtNode))
/-- The ast.Stmt value that holds a pointer to x. -/
def CommClause.toStmt (x : ast.CommClause) : ast.StmtNode :=
  .CommClause x.Case x.Comm x.Colon x.Body

/-- Go struct ast.SelectStmt. -/
structure SelectStmt where
  Select : token.Pos
  Body : Option BlockStmt
/-- The ast.Stmt value that holds a pointer to x. -/
def SelectStmt.toStmt (x : ast.SelectStmt) : ast.StmtNode :=
  .SelectStmt x.Select x.Body

/-- Go struct ast.ForStmt. -/
structure ForStmt where
  For : token.Pos
  Init : Option StmtNode
  Cond : Option ExprNode
  Post : Option StmtNode
  Body : Option BlockStmt
/-- The ast.Stmt value that holds a pointer to x. -/
def ForStmt.toStmt (x : ast.ForStmt) : ast.StmtNode :=
  .ForStmt x.For x.Init x.Cond x.Post x.Body

/-- Go struct ast.RangeStmt. -/
structure RangeStmt where
  For : token.Pos
  Key : Option ExprNode
  Value : Option ExprNode
  TokPos : token.Pos
  Tok : token.Token
  X : Option ExprNode
  Body : Option BlockStmt
/-- The ast.Stmt value that holds a pointer to x. -/
def RangeStmt.toStmt (x : ast.RangeStmt) : ast.StmtNode :=
  .RangeStmt x.For x.Key x.Value x.TokPos x.Tok x.X x.Body

/-- Go struct ast.ValueSpec. -/
structure ValueSpec where
  Doc : Option CommentGroup
  Names : Option (List (Option Ident))
  Type_ : Option ExprNode
  Values : Option (List (Option ExprNode))
  Comment : Option CommentGroup
/-- The ast.Spec value that holds a pointer to x. -/
def ValueSpec.toSpec (x : ast.ValueSpec) : ast.SpecNode :=
  .ValueSpec x.Doc x.Names x.Type_ x.Values x.Comment

/-- Go struct ast.TypeSpec. -/
structure TypeSpec where
  Doc : Option CommentGroup
  Name : Option Ident
  Assign : token.Pos
  Type_ : Option ExprNode
  Comment : Option CommentGroup
/-- The ast.Spec value that holds a pointer to x. -/
def TypeSpec.toSpec (x : ast.TypeSpec) : ast.SpecNode :=
  .TypeSpec x.Doc x.Name x.Assign x.Type_ x.Comment

/-- Go struct ast.GenDecl. -/
structure GenDecl where
  Doc : Option CommentGroup
  TokPos : token.Pos
  Tok : token.Token
  Lparen : token.Pos
  Specs : Option (List (Option SpecNode))
  Rparen : token.Pos
/-- The ast.Decl value that holds a pointer to x. -/
def GenDecl.toDecl (x : ast.GenDecl) : ast.DeclNode :=
  .GenDecl x.Doc x.TokPos x.Tok x.Lparen x.Specs x.Rparen

/-- Go struct ast.FuncDecl. -/
structure FuncDecl where
  Doc : Option CommentGroup
  Recv : Option FieldList
  Name : Option Ident
  Type_ : Option FuncType
  Body : Option BlockStmt
/-- The ast.Decl value that holds a pointer to x. -/
def FuncDecl.toDecl (x : ast.FuncDecl) : ast.DeclNode :=
  .FuncDecl x.Doc x.Recv x.Name x.Type_ x.Body

/-- Field List of ast.FieldList. -/
def FieldList.List_ : FieldList → Option (List (Option Field))
  | .mk _ l _ => l

/-- Go struct ast.File. -/
structure File where
  Doc : Option CommentGroup
  Package : token.Pos
  Name : Option Ident
  Decls : Option (List Decl)
  Imports : Option (List (Option ImportSpec))
  Unresolved : Option (List (Option Ident))
  Comments : Option (List (Option CommentGroup))

/-- Go struct ast.Package.  The map Files is the list of its entries (in the order the range
loop visits them); the keys of a Go map are distinct; `none` is the nil map. -/
structure Package where
  Name : String
  Files : Option (List (String × Option File))

/-- Dynamic value of a non-nil ast.Node: a value that is an ast.Expr, ast.Stmt, ast.Decl or
ast.Spec, a pointer to a present node of one of the other node types of go/ast, or a value of
another type implementing the interface. -/
inductive NodeVal where
  | Expr (x : ExprNode)
  | Stmt (x : StmtNode)
  | Decl (x : DeclNode)
  | Spec (x : SpecNode)
  | Field (x : Field)
  | FieldList (x : FieldList)
  | Comment (x : Comment)
  | CommentGroup (x : CommentGroup)
  | File (x : File)
  | Package (x : Package)
  | other (typ : String)

/-- Go interface ast.Node: nil, or a dynamic value. -/
abbrev Node := Option NodeVal

/-- Conversion of an ast.Expr to ast.Node (the nil interface converts to the nil interface). -/
def Expr.toNode (x : Expr) : Node := x.map NodeVal.Expr

/-- Conversion of an ast.Stmt to ast.Node. -/
def Stmt.toNode (x : Stmt) : Node := x.map NodeVal.Stmt

/-- Conversion of an ast.Decl to ast.Node. -/
def Decl.toNode (x : Decl) : Node := x.map NodeVal.Decl

/-- Conversion of an ast.Spec to ast.Node. -/
def Spec.toNode (x : Spec) : Node := x.map NodeVal.Spec

/-- Go: len(xs) and range over xs see a nil slice as a slice without elements. -/
def elems {α : Type} : Option (List α) → List α
  | none => []
  | some xs => xs

/-- Go: m[k] = v on a map given by its entries. -/
def mapSet {V : Type} : List (String × V) → String → V → List (String × V)
  | [], k, v => [(k, v)]
  | (k1, v1) :: m, k, v => if k1 = k then (k, v) :: m else (k1, v1) :: mapSet m k v

end ast

/-! ## The copy functions of astcopy.go -/

namespace astcopy

/-- BadExpr on a non-nil pointer: the composite literal it returns. -/
def BadExpr.fresh (_ : ast.BadExpr) : ast.BadExpr :=
  { From := token.NoPos, To := token.NoPos }
/-- Go: func BadExpr(x *ast.BadExpr) *ast.BadExpr -/
def BadExpr : Option ast.BadExpr → Option ast.BadExpr
  | none => none
  | some x => some (BadExpr.fresh x)

/-- Ident on a non-nil pointer: the composite literal it returns. -/
def Ident.fresh (x : ast.Ident) : ast.Ident :=
  { NamePos := token.NoPos, Name := x.Name }
/-- Go: func Ident(x *ast.Ident) *ast.Ident -/
def Ident : Option ast.Ident → Option ast.Ident
  | none => none
  | some x => some (Ident.fresh x)

/-- Go: func IdentList(xs []*ast.Ident) []*ast.Ident -/
def IdentList : Option (List (Option ast.Ident)) → Option (List (Option ast.Ident))
  | none => none
  | some xs => some (xs.map Ident)

/-- BasicLit on a non-nil pointer: the composite literal it returns. -/
def BasicLit.fresh (x : ast.BasicLit) : ast.BasicLit :=
  { ValuePos := token.NoPos, Kind := x.Kind, Value := x.Value }
/-- Go: func BasicLit(x *ast.BasicLit) *ast.BasicLit -/
def BasicLit : Option ast.BasicLit → Option ast.BasicLit
  | none => none
  | some x => some (BasicLit.fresh x)

/-- Comment on a non-nil pointer: the composite literal it returns. -/
def Comment.fresh (x : ast.Comment) : ast.Comment :=
  { Slash := token.NoPos, Text := x.Text }
/-- Go: func Comment(x *ast.Comment) *ast.Comment -/
def Comment : Option ast.Comment → Option ast.Comment
  | none => none
  | some x => some (Comment.fresh x)

/-- CommentGroup on a non-nil pointer: the inner list is allocated and filled only when
x.List is not nil. -/
def CommentGroup.fresh (x : ast.CommentGroup) : ast.CommentGroup :=
  match x.List_ with
  | none => { List_ := none }
  | some xs => { List_ := some (xs.map Comment) }
/-- Go: func CommentGroup(x *ast.CommentGroup) *ast.CommentGroup -/
def CommentGroup : Option ast.CommentGroup → Option ast.CommentGroup
  | none => none
  | some x => some (CommentGroup.fresh x)

/-- ImportSpec on a non-nil pointer: the composite literal it returns. -/
def ImportSpec.fresh (x : ast.ImportSpec) : ast.ImportSpec :=
  { Doc := CommentGroup x.Doc, Name := Ident x.Name, Path := BasicLit x.Path, Comment := CommentGroup x.Comment, EndPos := token.NoPos }
/-- Go: func ImportSpec(x *ast.ImportSpec) *ast.ImportSpec -/
def ImportSpec : Option ast.ImportSpec → Option ast.ImportSpec
  | none => none
  | some x => some (ImportSpec.fresh x)

/-- BadStmt on a non-nil pointer: the composite literal it returns. -/
def BadStmt.fresh (_ : ast.BadStmt) : ast.BadStmt :=
  { From := token.NoPos, To := token.NoPos }
/-- Go: func BadStmt(x *ast.BadStmt) *ast.BadStmt -/
def BadStmt : Option ast.BadStmt → Option ast.BadStmt
  | none => none
  | some x => some (BadStmt.fresh x)

/-- EmptyStmt on a non-nil pointer: the composite literal it returns. -/
def EmptyStmt.fresh (x : ast.EmptyStmt) : ast.EmptyStmt :=
  { Semicolon := token.NoPos, Implicit := x.Implicit }
/-- Go: func EmptyStmt(x *ast.EmptyStmt) *ast.EmptyStmt -/
def EmptyStmt : Option ast.EmptyStmt → Option ast.EmptyStmt
  | none => none
  | some x => some (EmptyStmt.fresh x)

/-- BranchStmt on a non-nil pointer: the composite literal it returns. -/
def BranchStmt.fresh (x : ast.BranchStmt) : ast.BranchStmt :=
  { TokPos := token.NoPos, Tok := x.Tok, Label := Ident x.Label }
/-- Go: func BranchStmt(x *ast.BranchStmt) *ast.BranchStmt -/
def BranchStmt : Option ast.BranchStmt → Option ast.BranchStmt
  | none => none
  | some x => some (BranchStmt.fresh x)

/-- BadDecl on a non-nil pointer: the composite literal it returns. -/
def BadDecl.fresh (_ : ast.BadDecl) : ast.BadDecl :=
  { From := token.NoPos, To := token.NoPos }
/-- Go: func BadDecl(x *ast.BadDecl) *ast.BadDecl -/
def BadDecl : Option ast.BadDecl → Option ast.BadDecl
  | none => none
  | some x => some (BadDecl.fresh x)

set_option maxHeartbeats 4000000 in
mutual
/-- Field on a non-nil pointer: the composite literal it returns. -/
def Field.fresh : ast.Field → Except String ast.Field
  | .mk xDoc xNames xType xTag xComment => do
    let cType ← copyExpr xType
    pure (.mk (CommentGroup xDoc) (IdentList xNames) cType (BasicLit xTag) (CommentGroup xComment))
/-- Go: func Field(x *ast.Field) *ast.Field -/
def Field : Option ast.Field → Except String (Option ast.Field)
  | none => pure none
  | some x => do
    let c ← Field.fresh x
    pure (some c)
/-- The loop of FieldList: cp.List[i] = Field(x.List[i]), for i = 0, 1, ... in order. -/
def FieldList.loop : List (Option ast.Field) → Except String (List (Option ast.Field))
  | [] => pure []
  | x :: xs => do
    let c ← Field x
    let cs ← FieldList.loop xs
    pure (c :: cs)
/-- FieldList on a non-nil pointer. -/
def FieldList.fresh : ast.FieldList → Except String ast.FieldList
  | .mk _ none _ => pure (.mk token.NoPos none token.NoPos)
  | .mk _ (some xs) _ => do
    let cp ← FieldList.loop xs
    pure (.mk token.NoPos (some cp) token.NoPos)
/-- Go: func FieldList(x *ast.FieldList) *ast.FieldList -/
def FieldList : Option ast.FieldList → Except String (Option ast.FieldList)
  | none => pure none
  | some x => do
    let c ← FieldList.fresh x
    pure (some c)
/-- FuncType on a non-nil pointer: the composite literal it returns. -/
def FuncType.fresh : ast.FuncType → Except String ast.FuncType
  | .mk _ xParams xResults => do
    let cParams ← FieldList xParams
    let cResults ← FieldList xResults
    pure (.mk token.NoPos cParams cResults)
/-- Go: func FuncType(x *ast.FuncType) *ast.FuncType -/
def FuncType : Option ast.FuncType → Except String (Option ast.FuncType)
  | none => pure none
  | some x => do
    let c ← FuncType.fresh x
    pure (some c)
/-- CallExpr on a non-nil pointer: the composite literal it returns. -/
def CallExpr.fresh : ast.CallExpr → Except String ast.CallExpr
  | .mk xFun _ xArgs _ _ => do
    let cFun ← copyExpr xFun
    let cArgs ← ExprList xArgs
    pure (.mk cFun token.NoPos cArgs token.NoPos token.NoPos)
/-- Go: func CallExpr(x *ast.CallExpr) *ast.CallExpr -/
def CallExpr : Option ast.CallExpr → Except String (Option ast.CallExpr)
  | none => pure none
  | some x => do
    let c ← CallExpr.fresh x
    pure (some c)
/-- BlockStmt on a non-nil pointer: the composite literal it returns. -/
def BlockStmt.fresh : ast.BlockStmt → Except String ast.BlockStmt
  | .mk _ xList _ => do
    let cList ← StmtList xList
    pure (.mk token.NoPos cList token.NoPos)
/-- Go: func BlockStmt(x *ast.BlockStmt) *ast.BlockStmt -/
def BlockStmt : Option ast.BlockStmt → Except String (Option ast.BlockStmt)
  | none => pure none
  | some x => do
    let c ← BlockStmt.fresh x
    pure (some c)
/-- The loop of ExprList: cp[i] = copyExpr(xs[i]), for i = 0, 1, ... in order. -/
def ExprList.loop : List ast.Expr → Except String (List ast.Expr)
  | [] => pure []
  | x :: xs => do
    let c ← copyExpr x
    let cs ← ExprList.loop xs
    pure (c :: cs)
/-- Go: func ExprList(xs []ast.Expr) []ast.Expr -/
def ExprList : Option (List ast.Expr) → Except String (Option (List ast.Expr))
  | none => pure none
  | some xs => do
    let cp ← ExprList.loop xs
    pure (some cp)
/-- Go: func copyExpr(x ast.Expr) ast.Expr; each case carries the body of the function it
calls on the non-nil pointer it holds. -/
def copyExpr : ast.Expr → Except String ast.Expr
  | none => pure none
  | some (.BadExpr x) => pure (some (.BadExpr (BadExpr.fresh x)))
  | some (.Ident x) => pure (some (.Ident (Ident.fresh x)))
  | some (.Ellipsis _ xElt) => do
    let cElt ← copyExpr xElt
    pure (some (.Ellipsis token.NoPos cElt))
  | some (.BasicLit x) => pure (some (.BasicLit (BasicLit.fresh x)))
  | some (.FuncLit xType xBody) => do
    let cType ← FuncType xType
    let cBody ← BlockStmt xBody
    pure (some (.FuncLit cType cBody))
  | some (.CompositeLit xType _ xElts _ xIncomplete) => do
    let cType ← copyExpr xType
    let cElts ← ExprList xElts
    pure (some (.CompositeLit cType token.NoPos cElts token.NoPos xIncomplete))
  | some (.ParenExpr _ xX _) => do
    let cX ← copyExpr xX
    pure (some (.ParenExpr token.NoPos cX token.NoPos))
  | some (.SelectorExpr xX xSel) => do
    let cX ← copyExpr xX
    pure (some (.SelectorExpr cX (Ident xSel)))
  | some (.IndexExpr xX _ xIndex _) => do
    let cX ← copyExpr xX
    let cIndex ← copyExpr xIndex
    pure (some (.IndexExpr cX token.NoPos cIndex token.NoPos))
  | some (.SliceExpr xX _ xLow xHigh xMax xSlice3 _) => do
    let cX ← copyExpr xX
    let cLow ← copyExpr xLow
    let cHigh ← copyExpr xHigh
    let cMax ← copyExpr xMax
    pure (some (.SliceExpr cX token.NoPos cLow cHigh cMax xSlice3 token.NoPos))
  | some (.TypeAssertExpr xX _ xType _) => do
    let cX ← copyExpr xX
    let cType ← copyExpr xType
    pure (some (.TypeAssertExpr cX token.NoPos cType token.NoPos))
  | some (.CallExpr x) => do
    let c ← CallExpr.fresh x
    pure (some (.CallExpr c))
  | some (.StarExpr _ xX) => do
    let cX ← copyExpr xX
    pure (some (.StarExpr token.NoPos cX))
  | some (.UnaryExpr _ xOp xX) => do
    let cX ← copyExpr xX
    pure (some (.UnaryExpr token.NoPos xOp cX))
  | some (.BinaryExpr xX _ xOp xY) => do
    let cX ← copyExpr xX
    let cY ← copyExpr xY
    pure (some (.BinaryExpr cX token.NoPos xOp cY))
  | some (.KeyValueExpr xKey _ xValue) => do
    let cKey ← copyExpr xKey
    let cValue ← copyExpr xValue
    pure (some (.KeyValueExpr cKey token.NoPos cValue))
  | some (.ArrayType _ xLen xElt) => do
    let cLen ← copyExpr xLen
    let cElt ← copyExpr xElt
    pure (some (.ArrayType token.NoPos cLen cElt))
  | some (.StructType _ xFields xIncomplete) => do
    let cFields ← FieldList xFields
    pure (some (.StructType token.NoPos cFields xIncomplete))
  | some (.FuncType x) => do
    let c ← FuncType.fresh x
    pure (some (.FuncType c))
  | some (.InterfaceType _ xMethods xIncomplete) => do
    let cMethods ← FieldList xMethods
    pure (some (.InterfaceType token.NoPos cMethods xIncomplete))
  | some (.MapType _ xKey xValue) => do
    let cKey ← copyExpr xKey
    let cValue ← copyExpr xValue
    pure (some (.MapType token.NoPos cKey cValue))
  | some (.ChanType _ _ xDir xValue) => do
    let cValue ← copyExpr xValue
    pure (some (.ChanType token.NoPos token.NoPos xDir cValue))
  | some (.other _) => throw "unhandled expr"
/-- The loop of StmtList: cp[i] = copyStmt(xs[i]), for i = 0, 1, ... in order. -/
def StmtList.loop : List ast.Stmt → Except String (List ast.Stmt)
  | [] => pure []
  | x :: xs => do
    let c ← copyStmt x
    let cs ← StmtList.loop xs
    pure (c :: cs)
/-- Go: func StmtList(xs []ast.Stmt) []ast.Stmt -/
def StmtList : Option (List ast.Stmt) → Except String (Option (List ast.Stmt))
  | none => pure none
  | some xs => do
    let cp ← StmtList.loop xs
    pure (some cp)
/-- Go: func copyStmt(x ast.Stmt) ast.Stmt; each case carries the body of the function it
calls on the non-nil pointer it holds. -/
def copyStmt : ast.Stmt → Except String ast.Stmt
  | none => pure none
  | some (.BadStmt x) => pure (some (.BadStmt (BadStmt.fresh x)))
  | some (.DeclStmt xDecl) => do
    let cDecl ← copyDecl xDecl
    pure (some (.DeclStmt cDecl))
  | some (.EmptyStmt x) => pure (some (.EmptyStmt (EmptyStmt.fresh x)))
  | some (.LabeledStmt xLabel _ xStmt) => do
    let cStmt ← copyStmt xStmt
    pure (some (.LabeledStmt (Ident xLabel) token.NoPos cStmt))
  | some (.ExprStmt xX) => do
    let cX ← copyExpr xX
    pure (some (.ExprStmt cX))
  | some (.SendStmt xChan _ xValue) => do
    let cChan ← copyExpr xChan
    let cValue ← copyExpr xValue
    pure (some (.SendStmt cChan token.NoPos cValue))
  | some (.IncDecStmt xX _ xTok) => do
    let cX ← copyExpr xX
    pure (some (.IncDecStmt cX token.NoPos xTok))
  | some (.AssignStmt xLhs _ xTok xRhs) => do
    let cLhs ← ExprList xLhs
    let cRhs ← ExprList xRhs
    pure (some (.AssignStmt cLhs token.NoPos xTok cRhs))
  | some (.GoStmt _ xCall) => do
    let cCall ← CallExpr xCall
    pure (some (.GoStmt token.NoPos cCall))
  | some (.DeferStmt _ xCall) => do
    let cCall ← CallExpr xCall
    pure (some (.DeferStmt token.NoPos cCall))
  | some (.ReturnStmt _ xResults) => do
    let cResults ← ExprList xResults
    pure (some (.ReturnStmt token.NoPos cResults))
  | some (.BranchStmt x) => pure (some (.BranchStmt (BranchStmt.fresh x)))
  | some (.BlockStmt x) => do
    let c ← BlockStmt.fresh x
    pure (some (.BlockStmt c))
  | some (.IfStmt _ xInit xCond xBody xElse) => do
    let cInit ← copyStmt xInit
    let cCond ← copyExpr xCond
    let cBody ← BlockStmt xBody
    let cElse ← copyStmt xElse
    pure (some (.IfStmt token.NoPos cInit cCond cBody cElse))
  | some (.CaseClause _ xList _ xBody) => do
    let cList ← ExprList xList
    let cBody ← StmtList xBody
    pure (some (.CaseClause token.NoPos cList token.NoPos cBody))
  | some (.SwitchStmt _ xInit xTag xBody) => do
    let cInit ← copyStmt xInit
    let cTag ← copyExpr xTag
    let cBody ← BlockStmt xBody
    pure (some (.SwitchStmt token.NoPos cInit cTag cBody))
  | some (.TypeSwitchStmt _ xInit xAssign xBody) => do
    let cInit ← copyStmt xInit
    let cAssign ← copyStmt xAssign
    let cBody ← BlockStmt xBody
    pure (some (.TypeSwitchStmt token.NoPos cInit cAssign cBody))
  | some (.CommClause _ xComm _ xBody) => do
    let cComm ← copyStmt xComm
    let cBody ← StmtList xBody
    pure (some (.CommClause token.NoPos cComm token.NoPos cBody))
  | some (.SelectStmt _ xBody) => do
    let cBody ← BlockStmt xBody
    pure (some (.SelectStmt token.NoPos cBody))
  | some (.ForStmt _ xInit xCond xPost xBody) => do
    let cInit ← copyStmt xInit
    let cCond ← copyExpr xCond
    let cPost ← copyStmt xPost
    let cBody ← BlockStmt xBody
    pure (some (.ForStmt token.NoPos cInit cCond cPost cBody))
  | some (.RangeStmt _ xKey xValue _ _ xX xBody) => do
    let cKey ← copyExpr xKey
    let cValue ← copyExpr xValue
    let cX ← copyExpr xX
    let cBody ← BlockStmt xBody
    pure (some (.RangeStmt token.NoPos cKey cValue token.NoPos token.ILLEGAL cX cBody))
  | some (.other _) => throw "unhandled stmt"
/-- The loop of SpecList: cp[i] = Spec(xs[i]), for i = 0, 1, ... in order. -/
def SpecList.loop : List ast.Spec → Except String (List ast.Spec)
  | [] => pure []
  | x :: xs => do
    let c ← Spec x
    let cs ← SpecList.loop xs
    pure (c :: cs)
/-- Go: func SpecList(xs []ast.Spec) []ast.Spec -/
def SpecList : Option (List ast.Spec) → Except String (Option (List ast.Spec))
  | none => pure none
  | some xs => do
    let cp ← SpecList.loop xs
    pure (some cp)
/-- Go: func Spec(x ast.Spec) ast.Spec; each case carries the body of the function it
calls on the non-nil pointer it holds. -/
def Spec : ast.Spec → Except String ast.Spec
  | none => pure none
  | some (.ImportSpec x) => pure (some (.ImportSpec (ImportSpec.fresh x)))
  | some (.ValueSpec xDoc xNames xType xValues xComment) => do
    let cValues ← ExprList xValues
    let cType ← copyExpr xType
    pure (some (.ValueSpec (CommentGroup xDoc) (IdentList xNames) cType cValues (CommentGroup xComment)))
  | some (.TypeSpec xDoc xName _ xType xComment) => do
    let cType ← copyExpr xType
    pure (some (.TypeSpec (CommentGroup xDoc) (Ident xName) token.NoPos cType (CommentGroup xComment)))
  | some (.other _) => throw "unhandled spec"
/-- Go: func copyDecl(x ast.Decl) ast.Decl; each case carries the body of the function it
calls on the non-nil pointer it holds. -/
def copyDecl : ast.Decl → Except String ast.Decl
  | none => pure none
  | some (.BadDecl x) => pure (some (.BadDecl (BadDecl.fresh x)))
  | some (.GenDecl xDoc _ xTok _ xSpecs _) => do
    let cSpecs ← SpecList xSpecs
    pure (some (.GenDecl (CommentGroup xDoc) token.NoPos xTok token.NoPos cSpecs token.NoPos))
  | some (.FuncDecl xDoc xRecv xName xType xBody) => do
    let cRecv ← FieldList xRecv
    let cType ← FuncType xType
    let cBody ← BlockStmt xBody
    pure (some (.FuncDecl (CommentGroup xDoc) cRecv (Ident xName) cType cBody))
  | some (.other _) => throw "unhandled decl"
end

/-- Go: func Ellipsis(x *ast.Ellipsis) *ast.Ellipsis -/
def Ellipsis : Option ast.Ellipsis → Except String (Option ast.Ellipsis)
  | none => pure none
  | some x => do
    let cElt ← copyExpr x.Elt
    pure (some { Ellipsis := token.NoPos, Elt := cElt })

/-- Go: func FuncLit(x *ast.FuncLit) *ast.FuncLit -/
def FuncLit : Option ast.FuncLit → Except String (Option ast.FuncLit)
  | none => pure none
  | some x => do
    let cType ← FuncType x.Type_
    let cBody ← BlockStmt x.Body
    pure (some { Type_ := cType, Body := cBody })

/-- Go: func CompositeLit(x *ast.CompositeLit) *ast.CompositeLit -/
def CompositeLit : Option ast.CompositeLit → Except String (Option ast.CompositeLit)
  | none => pure none
  | some x => do
    let cType ← copyExpr x.Type_
    let cElts ← ExprList x.Elts
    pure (some { Type_ := cType, Lbrace := token.NoPos, Elts := cElts, Rbrace := token.NoPos, Incomplete := x.Incomplete })

/-- Go: func ParenExpr(x *ast.ParenExpr) *ast.ParenExpr -/
def ParenExpr : Option ast.ParenExpr → Except String (Option ast.ParenExpr)
  | none => pure none
  | some x => do
    let cX ← copyExpr x.X
    pure (some { Lparen := token.NoPos, X := cX, Rparen := token.NoPos })

/-- Go: func SelectorExpr(x *ast.SelectorExpr) *ast.SelectorExpr -/
def SelectorExpr : Option ast.SelectorExpr → Except String (Option ast.SelectorExpr)
  | none => pure none
  | some x => do
    let cX ← copyExpr x.X
    pure (some { X := cX, Sel := (Ident x.Sel) })

/-- Go: func IndexExpr(x *ast.IndexExpr) *ast.IndexExpr -/
def IndexExpr : Option ast.IndexExpr → Except String (Option ast.IndexExpr)
  | none => pure none
  | some x => do
    let cX ← copyExpr x.X
    let cIndex ← copyExpr x.Index
    pure (some { X := cX, Lbrack := token.NoPos, Index := cIndex, Rbrack := token.NoPos })

/-- Go: func SliceExpr(x *ast.SliceExpr) *ast.SliceExpr -/
def SliceExpr : Option ast.SliceExpr → Except String (Option ast.SliceExpr)
  | none => pure none
  | some x => do
    let cX ← copyExpr x.X
    let cLow ← copyExpr x.Low
    let cHigh ← copyExpr x.High
    let cMax ← copyExpr x.Max
    pure (some { X := cX, Lbrack := token.NoPos, Low := cLow, High := cHigh, Max := cMax, Slice3 := x.Slice3, Rbrack := token.NoPos })

/-- Go: func TypeAssertExpr(x *ast.TypeAssertExpr) *ast.TypeAssertExpr -/
def TypeAssertExpr : Option ast.TypeAssertExpr → Except String (Option ast.TypeAssertExpr)
  | none => pure none
  | some x => do
    let cX ← copyExpr x.X
    let cType ← copyExpr x.Type_
    pure (some { X := cX, Lparen := token.NoPos, Type_ := cType, Rparen := token.NoPos })

/-- Go: func StarExpr(x *ast.StarExpr) *ast.StarExpr -/
def StarExpr : Option ast.StarExpr → Except String (Option ast.StarExpr)
  | none => pure none
  | some x => do
    let cX ← copyExpr x.X
    pure (some { Star := token.NoPos, X := cX })

/-- Go: func UnaryExpr(x *ast.UnaryExpr) *ast.UnaryExpr -/
def UnaryExpr : Option ast.UnaryExpr → Except String (Option ast.UnaryExpr)
  | none => pure none
  | some x => do
    let cX ← copyExpr x.X
    pure (some { OpPos := token.NoPos, Op := x.Op, X := cX })

/-- Go: func BinaryExpr(x *ast.BinaryExpr) *ast.BinaryExpr -/
def BinaryExpr : Option ast.BinaryExpr → Except String (Option ast.BinaryExpr)
  | none => pure none
  | some x => do
    let cX ← copyExpr x.X
    let cY ← copyExpr x.Y
    pure (some { X := cX, OpPos := token.NoPos, Op := x.Op, Y := cY })

/-- Go: func KeyValueExpr(x *ast.KeyValueExpr) *ast.KeyValueExpr -/
def KeyValueExpr : Option ast.KeyValueExpr → Except String (Option ast.KeyValueExpr)
  | none => pure none
  | some x => do
    let cKey ← copyExpr x.Key
    let cValue ← copyExpr x.Value
    pure (some { Key := cKey, Colon := token.NoPos, Value := cValue })

/-- Go: func ArrayType(x *ast.ArrayType) *ast.ArrayType -/
def ArrayType : Option ast.ArrayType → Except String (Option ast.ArrayType)
  | none => pure none
  | some x => do
    let cLen ← copyExpr x.Len
    let cElt ← copyExpr x.Elt
    pure (some { Lbrack := token.NoPos, Len := cLen, Elt := cElt })

/-- Go: func StructType(x *ast.StructType) *ast.StructType -/
def StructType : Option ast.StructType → Except String (Option ast.StructType)
  | none => pure none
  | some x => do
    let cFields ← FieldList x.Fields
    pure (some { Struct := token.NoPos, Fields := cFields, Incomplete := x.Incomplete })

/-- Go: func InterfaceType(x *ast.InterfaceType) *ast.InterfaceType -/
def InterfaceType : Option ast.InterfaceType → Except String (Option ast.InterfaceType)
  | none => pure none
  | some x => do
    let cMethods ← FieldList x.Methods
    pure (some { Interface := token.NoPos, Methods := cMethods, Incomplete := x.Incomplete })

/-- Go: func MapType(x *ast.MapType) *ast.MapType -/
def MapType : Option ast.MapType → Except String (Option ast.MapType)
  | none => pure none
  | some x => do
    let cKey ← copyExpr x.Key
    let cValue ← copyExpr x.Value
    pure (some { Map := token.NoPos, Key := cKey, Value := cValue })

/-- Go: func ChanType(x *ast.ChanType) *ast.ChanType -/
def ChanType : Option ast.ChanType → Except String (Option ast.ChanType)
  | none => pure none
  | some x => do
    let cValue ← copyExpr x.Value
    pure (some { Begin := token.NoPos, Arrow := token.NoPos, Dir := x.Dir, Value := cValue })

/-- Go: func DeclStmt(x *ast.DeclStmt) *ast.DeclStmt -/
def DeclStmt : Option ast.DeclStmt → Except String (Option ast.DeclStmt)
  | none => pure none
  | some x => do
    let cDecl ← copyDecl x.Decl
    pure (some { Decl := cDecl })

/-- Go: func LabeledStmt(x *ast.LabeledStmt) *ast.LabeledStmt -/
def LabeledStmt : Option ast.LabeledStmt → Except String (Option ast.LabeledStmt)
  | none => pure none
  | some x => do
    let cStmt ← copyStmt x.Stmt
    pure (some { Label := (Ident x.Label), Colon := token.NoPos, Stmt := cStmt })

/-- Go: func ExprStmt(x *ast.ExprStmt) *ast.ExprStmt -/
def ExprStmt : Option ast.ExprStmt → Except String (Option ast.ExprStmt)
  | none => pure none
  | some x => do
    let cX ← copyExpr x.X
    pure (some { X := cX })

/-- Go: func SendStmt(x *ast.SendStmt) *ast.SendStmt -/
def SendStmt : Option ast.SendStmt → Except String (Option ast.SendStmt)
  | none => pure none
  | some x => do
    let cChan ← copyExpr x.Chan
    let cValue ← copyExpr x.Value
    pure (some { Chan := cChan, Arrow := token.NoPos, Value := cValue })

/-- Go: func IncDecStmt(x *ast.IncDecStmt) *ast.IncDecStmt -/
def IncDecStmt : Option ast.IncDecStmt → Except String (Option ast.IncDecStmt)
  | none => pure none
  | some x => do
    let cX ← copyExpr x.X
    pure (some { X := cX, TokPos := token.NoPos, Tok := x.Tok })

/-- Go: func AssignStmt(x *ast.AssignStmt) *ast.AssignStmt -/
def AssignStmt : Option ast.AssignStmt → Except String (Option ast.AssignStmt)
  | none => pure none
  | some x => do
    let cLhs ← ExprList x.Lhs
    let cRhs ← ExprList x.Rhs
    pure (some { Lhs := cLhs, TokPos := token.NoPos, Tok := x.Tok, Rhs := cRhs })

/-- Go: func GoStmt(x *ast.GoStmt) *ast.GoStmt -/
def GoStmt : Option ast.GoStmt → Except String (Option ast.GoStmt)
  | none => pure none
  | some x => do
    let cCall ← CallExpr x.Call
    pure (some { Go := token.NoPos, Call := cCall })

/-- Go: func DeferStmt(x *ast.DeferStmt) *ast.DeferStmt -/
def DeferStmt : Option ast.DeferStmt → Except String (Option ast.DeferStmt)
  | none => pure none
  | some x => do
    let cCall ← CallExpr x.Call
    pure (some { Defer := token.NoPos, Call := cCall })

/-- Go: func ReturnStmt(x *ast.ReturnStmt) *ast.ReturnStmt -/
def ReturnStmt : Option ast.ReturnStmt → Except String (Option ast.ReturnStmt)
  | none => pure none
  | some x => do
    let cResults ← ExprList x.Results
    pure (some { Return := token.NoPos, Results := cResults })

/-- Go: func IfStmt(x *ast.IfStmt) *ast.IfStmt -/
def IfStmt : Option ast.IfStmt → Except String (Option ast.IfStmt)
  | none => pure none
  | some x => do
    let cInit ← copyStmt x.Init
    let cCond ← copyExpr x.Cond
    let cBody ← BlockStmt x.Body
    let cElse ← copyStmt x.Else
    pure (some { If := token.NoPos, Init := cInit, Cond := cCond, Body := cBody, Else := cElse })

/-- Go: func CaseClause(x *ast.CaseClause) *ast.CaseClause -/
def CaseClause : Option ast.CaseClause → Except String (Option ast.CaseClause)
  | none => pure none
  | some x => do
    let cList ← ExprList x.List_
    let cBody ← StmtList x.Body
    pure (some { Case := token.NoPos, List_ := cList, Colon := token.NoPos, Body := cBody })

/-- Go: func SwitchStmt(x *ast.SwitchStmt) *ast.SwitchStmt -/
def SwitchStmt : Option ast.SwitchStmt → Except String (Option ast.SwitchStmt)
  | none => pure none
  | some x => do
    let cInit ← copyStmt x.Init
    let cTag ← copyExpr x.Tag
    let cBody ← BlockStmt x.Body
    pure (some { Switch := token.NoPos, Init := cInit, Tag := cTag, Body := cBody })

/-- Go: func TypeSwitchStmt(x *ast.TypeSwitchStmt) *ast.TypeSwitchStmt -/
def TypeSwitchStmt : Option ast.TypeSwitchStmt → Except String (Option ast.TypeSwitchStmt)
  | none => pure none
  | some x => do
    let cInit ← copyStmt x.Init
    let cAssign ← copyStmt x.Assign
    let cBody ← BlockStmt x.Body
    pure (some { Switch := token.NoPos, Init := cInit, Assign := cAssign, Body := cBody })

/-- Go: func CommClause(x *ast.CommClause) *ast.CommClause -/
def CommClause : Option ast.CommClause → Except String (Option ast.CommClause)
  | none => pure none
  | some x => do
    let cComm ← copyStmt x.Comm
    let cBody ← StmtList x.Body
    pure (some { Case := token.NoPos, Comm := cComm, Colon := token.NoPos, Body := cBody })

/-- Go: func SelectStmt(x *ast.SelectStmt) *ast.SelectStmt -/
def SelectStmt : Option ast.SelectStmt → Except String (Option ast.SelectStmt)
  | none => pure none
  | some x => do
    let cBody ← BlockStmt x.Body
    pure (some { Select := token.NoPos, Body := cBody })

/-- Go: func ForStmt(x *ast.ForStmt) *ast.ForStmt -/
def ForStmt : Option ast.ForStmt → Except String (Option ast.ForStmt)
  | none => pure none
  | some x => do
    let cInit ← copyStmt x.Init
    let cCond ← copyExpr x.Cond
    let cPost ← copyStmt x.Post
    let cBody ← BlockStmt x.Body
    pure (some { For := token.NoPos, Init := cInit, Cond := cCond, Post := cPost, Body := cBody })

/-- Go: func RangeStmt(x *ast.RangeStmt) *ast.RangeStmt -/
def RangeStmt : Option ast.RangeStmt → Except String (Option ast.RangeStmt)
  | none => pure none
  | some x => do
    let cKey ← copyExpr x.Key
    let cValue ← copyExpr x.Value
    let cX ← copyExpr x.X
    let cBody ← BlockStmt x.Body
    pure (some { For := token.NoPos, Key := cKey, Value := cValue, TokPos := token.NoPos, Tok := token.ILLEGAL, X := cX, Body := cBody })

/-- Go: func ValueSpec(x *ast.ValueSpec) *ast.ValueSpec -/
def ValueSpec : Option ast.ValueSpec → Except String (Option ast.ValueSpec)
  | none => pure none
  | some x => do
    let cValues ← ExprList x.Values
    let cType ← copyExpr x.Type_
    pure (some { Doc := (CommentGroup x.Doc), Names := (IdentList x.Names), Type_ := cType, Values := cValues, Comment := (CommentGroup x.Comment) })

/-- Go: func TypeSpec(x *ast.TypeSpec) *ast.TypeSpec -/
def TypeSpec : Option ast.TypeSpec → Except String (Option ast.TypeSpec)
  | none => pure none
  | some x => do
    let cType ← copyExpr x.Type_
    pure (some { Doc := (CommentGroup x.Doc), Name := (Ident x.Name), Assign := token.NoPos, Type_ := cType, Comment := (CommentGroup x.Comment) })

/-- Go: func GenDecl(x *ast.GenDecl) *ast.GenDecl -/
def GenDecl : Option ast.GenDecl → Except String (Option ast.GenDecl)
  | none => pure none
  | some x => do
    let cSpecs ← SpecList x.Specs
    pure (some { Doc := (CommentGroup x.Doc), TokPos := token.NoPos, Tok := x.Tok, Lparen := token.NoPos, Specs := cSpecs, Rparen := token.NoPos })

/-- Go: func FuncDecl(x *ast.FuncDecl) *ast.FuncDecl -/
def FuncDecl : Option ast.FuncDecl → Except String (Option ast.FuncDecl)
  | none => pure none
  | some x => do
    let cRecv ← FieldList x.Recv
    let cType ← FuncType x.Type_
    let cBody ← BlockStmt x.Body
    pure (some { Doc := (CommentGroup x.Doc), Recv := cRecv, Name := (Ident x.Name), Type_ := cType, Body := cBody })

/-- The loop of DeclList: cp[i] = copyDecl(xs[i]), for i = 0, 1, ... in order. -/
def DeclList.loop : List ast.Decl → Except String (List ast.Decl)
  | [] => pure []
  | x :: xs => do
    let c ← copyDecl x
    let cs ← DeclList.loop xs
    pure (c :: cs)

/-- Go: func DeclList(xs []ast.Decl) []ast.Decl -/
def DeclList : Option (List ast.Decl) → Except String (Option (List ast.Decl))
  | none => pure none
  | some xs => do
    let cp ← DeclList.loop xs
    pure (some cp)

/-- Go: func Expr(x ast.Expr) ast.Expr -/
def Expr (x : ast.Expr) : Except String ast.Expr := copyExpr x

/-- Go: func Stmt(x ast.Stmt) ast.Stmt -/
def Stmt (x : ast.Stmt) : Except String ast.Stmt := copyStmt x

/-- Go: func Decl(x ast.Decl) ast.Decl -/
def Decl (x : ast.Decl) : Except String ast.Decl := copyDecl x

/-- Go: func File(x *ast.File) *ast.File.  Imports and Comments are made with
make(..., len(..)) whatever the source slice is, and then filled by a range loop. -/
def File : Option ast.File → Except String (Option ast.File)
  | none => pure none
  | some x => do
    let cDecls ← DeclList x.Decls
    pure (some {
      Doc := CommentGroup x.Doc
      Package := token.NoPos
      Name := Ident x.Name
      Decls := cDecls
      Imports := some ((ast.elems x.Imports).map ImportSpec)
      Unresolved := IdentList x.Unresolved
      Comments := some ((ast.elems x.Comments).map CommentGroup) })

/-- Go: func Package(x *ast.Package) *ast.Package.  The new map gets every entry of x.Files,
the file pointer itself being stored (ranging over a nil map visits nothing). -/
def Package : Option ast.Package → Option ast.Package
  | none => none
  | some x => some {
      Name := x.Name
      Files := some ((ast.elems x.Files).foldl (fun m e => ast.mapSet m e.1 e.2) []) }

/-- Go: func copyNode(x ast.Node) ast.Node.  The type switch has no case for the nil
interface nor for *ast.Field: both reach the default branch. -/
def copyNode : ast.Node → Except String ast.Node
  | none => throw "unhandled node"
  | some (.Expr x) => do
    let c ← copyExpr (some x)
    pure (ast.Expr.toNode c)
  | some (.Stmt x) => do
    let c ← copyStmt (some x)
    pure (ast.Stmt.toNode c)
  | some (.Decl x) => do
    let c ← copyDecl (some x)
    pure (ast.Decl.toNode c)
  | some (.Spec x) => do
    let c ← Spec (some x)
    pure (ast.Spec.toNode c)
  | some (.FieldList x) => do
    let c ← FieldList.fresh x
    pure (some (.FieldList c))
  | some (.Comment x) => pure (some (.Comment (Comment.fresh x)))
  | some (.CommentGroup x) => pure (some (.CommentGroup (CommentGroup.fresh x)))
  | some (.File x) => do
    let c ← File (some x)
    pure (c.map ast.NodeVal.File)
  | some (.Package x) => pure ((Package (some x)).map ast.NodeVal.Package)
  | some (.Field _) => throw "unhandled node"
  | some (.other _) => throw "unhandled node"

/-- Go: func Node(x ast.Node) ast.Node -/
def Node (x : ast.Node) : Except String ast.Node := copyNode x

/-- The loop of NodeList: cp[i] = copyNode(xs[i]), for i = 0, 1, ... in order. -/
def NodeList.loop : List ast.Node → Except String (List ast.Node)
  | [] => pure []
  | x :: xs => do
    let c ← copyNode x
    let cs ← NodeList.loop xs
    pure (c :: cs)

/-- Go: func NodeList(xs []ast.Node) []ast.Node -/
def NodeList : Option (List ast.Node) → Except String (Option (List ast.Node))
  | none => pure none
  | some xs => do
    let cp ← NodeList.loop xs
    pure (some cp)

end astcopy
namespace ast

/-- Go: `v, ok := m[k]` on a map given by its entries: the value of the first entry with the
key k (the keys of a Go map are distinct), or none when no entry has the key. -/
def mapGet {V : Type} : List (String × V) → String → Option V
  | [], _ => none
  | (k1, v1) :: m, k => if k1 = k then some v1 else mapGet m k

end ast

/-! ## The position locator of mockgen/find.go -/

namespace token

/-- Go struct token.Position, the two fields that findAtPosition reads (line and column
numbers, Go ints). -/
structure Position where
  Line : Int
  Column : Int

/-- Lexicographic order of positions, by line and then by column: a is at or before b. -/
def Position.le (a b : Position) : Prop :=
  a.Line < b.Line ∨ (a.Line = b.Line ∧ a.Column ≤ b.Column)

instance (a b : Position) : Decidable (Position.le a b) :=
  inferInstanceAs (Decidable (a.Line < b.Line ∨ (a.Line = b.Line ∧ a.Column ≤ b.Column)))

end token

namespace ast

/-- A present ast.Node as ast.Inspect sees it: a value val that stands for the node (its
dynamic type and content), the results of its two methods Pos() and End(), and its non-nil
children, in the order in which ast.Walk visits them. -/
inductive Tree (α : Type) where
  | node (val : α) (Pos End : token.Pos) (children : List (Tree α))

/-- Go: n.Pos() -/
def Tree.Pos {α : Type} : Tree α → token.Pos
  | .node _ p _ _ => p

/-- Go: n.End() -/
def Tree.End {α : Type} : Tree α → token.Pos
  | .node _ _ e _ => e

/-- The value that stands for the node. -/
def Tree.val {α : Type} : Tree α → α
  | .node v _ _ _ => v

/-- The non-nil children of the node, in the order of ast.Walk. -/
def Tree.children {α : Type} : Tree α → List (Tree α)
  | .node _ _ _ cs => cs

mutual
/-- Go standard library, go/ast: func Inspect(node Node, f func(Node) bool), that is
Walk(inspector(f), node): "It starts by calling f(node); node must not be nil. If f returns
true, Inspect invokes f recursively for each of the non-nil children of node, followed by a
call of f(nil)."  The callback is a Go closure: the variables it captures are the state s,
which it reads and writes; the result of the call f(nil) is not looked at. -/
def Inspect {α σ : Type} (f : Option (Tree α) → σ → Bool × σ) : Tree α → σ → σ
  | .node v p e cs, s =>
    match f (some (.node v p e cs)) s with
    | (true, s1) => (f none (Inspect.children f cs s1)).2
    | (false, s1) => s1
/-- The loop of Walk over the children of a node. -/
def Inspect.children {α σ : Type} (f : Option (Tree α) → σ → Bool × σ) :
    List (Tree α) → σ → σ
  | [], s => s
  | c :: cs, s => Inspect.children f cs (Inspect f c s)
end

mutual
/-- The nodes of a tree in pre-order: the node, then the nodes of its children, child after
child. -/
def Tree.preorder {α : Type} : Tree α → List (Tree α)
  | .node v p e cs => .node v p e cs :: Tree.preorderList cs
/-- The nodes of a list of trees in pre-order. -/
def Tree.preorderList {α : Type} : List (Tree α) → List (Tree α)
  | [] => []
  | c :: cs => Tree.preorder c ++ Tree.preorderList cs
end

mutual
/-- The arguments of the calls that ast.Inspect makes on a tree when the callback always
returns true: the node, the calls for its children, then nil. -/
def Tree.events {α : Type} : Tree α → List (Option (Tree α))
  | .node v p e cs => some (.node v p e cs) :: (Tree.eventsList cs ++ [none])
/-- The calls for a list of trees. -/
def Tree.eventsList {α : Type} : List (Tree α) → List (Option (Tree α))
  | [] => []
  | c :: cs => Tree.events c ++ Tree.eventsList cs
end

/-- The subtree at a path: the path i :: p leads to the i-th child (from 0) and then along p;
the empty path leads to the tree itself. -/
def Tree.at? {α : Type} : Tree α → List Nat → Option (Tree α)
  | t, [] => some t
  | t, i :: p =>
    match t.children[i]? with
    | none => none
    | some c => Tree.at? c p

end ast

namespace mockgen

/-- Go: type file struct, the fields that findAtPosition reads: the root of the tree and the
file set, which is used only through fset.Position(p), the line and column of a token.Pos. -/
structure file (α : Type) where
  astFile : ast.Tree α
  fset : token.Pos → token.Position

/-- The closure that abortableInspect passes to ast.Inspect; it captures the variable
aborted, the first component of the state, and f, whose own captured variables are the second
component. -/
def abortableInspect.visit {α σ : Type} (f : Option (ast.Tree α) → σ → (Bool × Bool) × σ)
    (n : Option (ast.Tree α)) (st : Bool × σ) : Bool × (Bool × σ) :=
  if st.1 then (false, st)
  else
    match f n st.2 with
    | ((goDown, abort), s) => if abort then (false, (true, s)) else (goDown, (false, s))

/-- Go: func abortableInspect(n ast.Node, f func(ast.Node) (bool, bool)).  The function
returns nothing; its effect is the effect of the calls of f on the variables that f
captures, which are returned here. -/
def abortableInspect {α σ : Type} (n : ast.Tree α)
    (f : Option (ast.Tree α) → σ → (Bool × Bool) × σ) (s : σ) : σ :=
  (ast.Inspect (abortableInspect.visit f) n (false, s)).2

/-- The closure that findAtPosition passes to abortableInspect; it captures found, the first
component of the state.  The predicate findFunc is a Go func value: it returns a bool and may
have an effect on variables of its own, the second component of the state. -/
def findAtPosition.visit {α τ : Type} (f : file α) (findFunc : ast.Tree α → τ → Bool × τ)
    (line column : Int) (n : Option (ast.Tree α)) (st : Option (ast.Tree α) × τ) :
    (Bool × Bool) × (Option (ast.Tree α) × τ) :=
  match n with
  | none => ((true, false), st)
  | some n =>
    let pos := f.fset n.Pos
    let end_ := f.fset n.End
    if line < pos.Line || (line == pos.Line && column < pos.Column) then ((false, true), st)
    else if line < end_.Line || (line == end_.Line && column <= end_.Column) then
      match findFunc n st.2 with
      | (true, t) => ((false, true), (some n, t))
      | (false, t) => ((true, false), (st.1, t))
    else ((true, false), st)

/-- Go: func (f *file) findAtPosition(findFunc func(ast.Node) bool, line, column int)
ast.Node.  The result is the final value of found, given with the final state of the
variables of findFunc. -/
def findAtPosition {α τ : Type} (f : file α) (findFunc : ast.Tree α → τ → Bool × τ)
    (line column : Int) (t : τ) : Option (ast.Tree α) × τ :=
  abortableInspect f.astFile (findAtPosition.visit f findFunc line column) (none, t)

/-- A predicate without effect, as a Go func value. -/
def pureFunc {α : Type} (p : ast.Tree α → Bool) : ast.Tree α → Unit → Bool × Unit :=
  fun n u => (p n, u)

/-- The predicate p made to append each node it is evaluated on to a list. -/
def recordingFunc {α : Type} (p : ast.Tree α → Bool) :
    ast.Tree α → List (ast.Tree α) → Bool × List (ast.Tree α) :=
  fun n log => (p n, log ++ [n])

/-- The callback f made to append each of its calls to a list: the argument and the two
flags (goDown, abort) it returned. -/
def recording {α σ : Type} (f : Option (ast.Tree α) → σ → (Bool × Bool) × σ)
    (n : Option (ast.Tree α)) (st : σ × List (Option (ast.Tree α) × (Bool × Bool))) :
    (Bool × Bool) × (σ × List (Option (ast.Tree α) × (Bool × Bool))) :=
  match f n st.1 with
  | (r, s) => (r, (s, st.2 ++ [(n, r)]))

/-- The start of the range of a node: the line and column of n.Pos(). -/
def file.start {α : Type} (f : file α) (n : ast.Tree α) : token.Position := f.fset n.Pos

/-- The end of the range of a node: the line and column of n.End(). -/
def file.finish {α : Type} (f : file α) (n : ast.Tree α) : token.Position := f.fset n.End

/-- The range [start, end] of the node contains the coordinate c, both ends included. -/
def file.contains {α : Type} (f : file α) (c : token.Position) (n : ast.Tree α) : Prop :=
  (f.start n).le c ∧ c.le (f.finish n)

instance {α : Type} (f : file α) (c : token.Position) (n : ast.Tree α) :
    Decidable (f.contains c n) :=
  inferInstanceAs (Decidable ((f.start n).le c ∧ c.le (f.finish n)))

/-- The node starts strictly after the coordinate c. -/
def file.startsAfter {α : Type} (f : file α) (c : token.Position) (n : ast.Tree α) : Prop :=
  ¬ (f.start n).le c

instance {α : Type} (f : file α) (c : token.Position) (n : ast.Tree α) :
    Decidable (f.startsAfter c n) :=
  inferInstanceAs (Decidable (¬ (f.start n).le c))

/-- The node matches: its range contains the coordinate c and the predicate p holds of it. -/
def file.isMatch {α : Type} (f : file α) (c : token.Position) (p : ast.Tree α → Bool)
    (n : ast.Tree α) : Prop :=
  f.contains c n ∧ p n = true

instance {α : Type} (f : file α) (c : token.Position) (p : ast.Tree α → Bool)
    (n : ast.Tree α) : Decidable (f.isMatch c p n) :=
  inferInstanceAs (Decidable (f.contains c n ∧ p n = true))

/-- The prefix of a list up to and including its first element that satisfies stop; the
whole list when no element does. -/
def takeThrough {α : Type} (stop : α → Bool) : List α → List α
  | [] => []
  | a :: l => if stop a then [a] else a :: takeThrough stop l

/-- The callback f as ast.Inspect would be given it if abort were not looked at: only the
flag goDown is returned. -/
def ignoringAbort {α σ : Type} (f : Option (ast.Tree α) → σ → (Bool × Bool) × σ)
    (n : Option (ast.Tree α)) (s : σ) : Bool × σ :=
  ((f n s).1.1, (f n s).2)

end mockgen

/-! ## The field-list helper of mockgen/ast-helpers.go -/

namespace ast

/-- Field Doc of ast.Field. -/
def Field.Doc : Field → Option CommentGroup
  | .mk d _ _ _ _ => d

/-- Field Names of ast.Field. -/
def Field.Names : Field → Option (List (Option Ident))
  | .mk _ n _ _ _ => n

/-- Field Type of ast.Field. -/
def Field.Type_ : Field → Expr
  | .mk _ _ t _ _ => t

/-- Field Tag of ast.Field. -/
def Field.Tag : Field → Option BasicLit
  | .mk _ _ _ t _ => t

/-- Field Comment of ast.Field. -/
def Field.Comment : Field → Option CommentGroup
  | .mk _ _ _ _ c => c

end ast

namespace mockgen

/-- The message of the run-time panic of Go on the use of a field of a nil pointer. -/
def nilDereference : String :=
  "runtime error: invalid memory address or nil pointer dereference"

/-- The loop of copyFieldList over list.List, with the current value of the counter varI:
cpList[i] is set for i = 0, 1, ... in order.  The expression f.Names on a nil element f is a
nil pointer dereference; fmt.Sprintf("var%d", varI) is "var" followed by varI in decimal.
(varI is a Go int; it stays below the length of the list plus two, so it does not wrap.) -/
def copyFieldList.loop : List (Option ast.Field) → Nat → Except String (List (Option ast.Field))
  | [], _ => pure []
  | none :: _, _ => throw nilDereference
  | some f :: fs, varI =>
    if (ast.elems f.Names).length = 0 then do
      let names : Option (List (Option ast.Ident)) :=
        some [some { NamePos := token.NoPos, Name := "var" ++ toString varI }]
      let cType ← astcopy.Expr f.Type_
      let cs ← copyFieldList.loop fs (varI + 1)
      pure (some (.mk none names cType (astcopy.BasicLit f.Tag) none) :: cs)
    else do
      let names := astcopy.IdentList f.Names
      let cType ← astcopy.Expr f.Type_
      let cs ← copyFieldList.loop fs varI
      pure (some (.mk none names cType (astcopy.BasicLit f.Tag) none) :: cs)

/-- Go: func copyFieldList(list *ast.FieldList) *ast.FieldList.  cpList is made with the
length of list.List, so it is a present slice also when list.List is nil; list.List on a nil
list is a nil pointer dereference. -/
def copyFieldList : Option ast.FieldList → Except String (Option ast.FieldList)
  | none => throw nilDereference
  | some list => do
    let cpList ← copyFieldList.loop (ast.elems list.List_) 1
    pure (some (.mk token.NoPos (some cpList) token.NoPos))

/-- Whether len(f.Names) == 0 for the field f: Names is nil or empty. -/
def unnamed (f : Option ast.Field) : Bool :=
  match f with
  | none => false
  | some f => (ast.elems f.Names).length == 0

end mockgen

/-! ## The position fields of a tree, and the trees of the grammar -/

namespace ast

/-- The position fields of x and of every node below it (a value of a type outside the grammar lists none). -/
def Comment.positions (x : ast.Comment) : List token.Pos :=
  [x.Slash]
/-- positions of a pointer to ast.Comment. -/
def Comment.positionsPtr : Option Comment → List token.Pos
  | none => []
  | some x => Comment.positions x
/-- positions of the elements of a list. -/
def Comment.positionsList : List (Option Comment) → List token.Pos
  | [] => []
  | x :: xs => Comment.positionsPtr x ++ Comment.positionsList xs
/-- positions of a slice. -/
def Comment.positionsSlice : Option (List (Option Comment)) → List token.Pos
  | none => []
  | some xs => Comment.positionsList xs

/-- The position fields of x and of every node below it (a value of a type outside the grammar lists none). -/
def CommentGroup.positions (x : ast.CommentGroup) : List token.Pos :=
  Comment.positionsSlice x.List_
/-- positions of a pointer to ast.CommentGroup. -/
def CommentGroup.positionsPtr : Option CommentGroup → List token.Pos
  | none => []
  | some x => CommentGroup.positions x
/-- positions of the elements of a list. -/
def CommentGroup.positionsList : List (Option CommentGroup) → List token.Pos
  | [] => []
  | x :: xs => CommentGroup.positionsPtr x ++ CommentGroup.positionsList xs
/-- positions of a slice. -/
def CommentGroup.positionsSlice : Option (List (Option CommentGroup)) → List token.Pos
  | none => []
  | some xs => CommentGroup.positionsList xs

/-- The position fields of x and of every node below it (a value of a type outside the grammar lists none). -/
def Ident.positions (x : ast.Ident) : List token.Pos :=
  [x.NamePos]
/-- positions of a pointer to ast.Ident. -/
def Ident.positionsPtr : Option Ident → List token.Pos
  | none => []
  | some x => Ident.positions x
/-- positions of the elements of a list. -/
def Ident.positionsList : List (Option Ident) → List token.Pos
  | [] => []
  | x :: xs => Ident.positionsPtr x ++ Ident.positionsList xs
/-- positions of a slice. -/
def Ident.positionsSlice : Option (List (Option Ident)) → List token.Pos
  | none => []
  | some xs => Ident.positionsList xs

/-- The position fields of x and of every node below it (a value of a type outside the grammar lists none). -/
def BasicLit.positions (x : ast.BasicLit) : List token.Pos :=
  [x.ValuePos]
/-- positions of a pointer to ast.BasicLit. -/
def BasicLit.positionsPtr : Option BasicLit → List token.Pos
  | none => []
  | some x => BasicLit.positions x

/-- The position fields of x and of every node below it (a value of a type outside the grammar lists none). -/
def BadExpr.positions (x : ast.BadExpr) : List token.Pos :=
  [x.From] ++ [x.To]
/-- positions of a pointer to ast.BadExpr. -/
def BadExpr.positionsPtr : Option BadExpr → List token.Pos
  | none => []
  | some x => BadExpr.positions x

/-- The position fields of x and of every node below it (a value of a type outside the grammar lists none). -/
def BadStmt.positions (x : ast.BadStmt) : List token.Pos :=
  [x.From] ++ [x.To]
/-- positions of a pointer to ast.BadStmt. -/
def BadStmt.positionsPtr : Option BadStmt → List token.Pos
  | none => []
  | some x => BadStmt.positions x

/-- The position fields of x and of every node below it (a value of a type outside the grammar lists none). -/
def EmptyStmt.positions (x : ast.EmptyStmt) : List token.Pos :=
  [x.Semicolon]
/-- positions of a pointer to ast.EmptyStmt. -/
def EmptyStmt.positionsPtr : Option EmptyStmt → List token.Pos
  | none => []
  | some x => EmptyStmt.positions x

/-- The position fields of x and of every node below it (a value of a type outside the grammar lists none). -/
def BranchStmt.positions (x : ast.BranchStmt) : List token.Pos :=
  [x.TokPos] ++ Ident.positionsPtr x.Label
/-- positions of a pointer to ast.BranchStmt. -/
def BranchStmt.positionsPtr : Option BranchStmt → List token.Pos
  | none => []
  | some x => BranchStmt.positions x

/-- The position fields of x and of every node below it (a value of a type outside the grammar lists none). -/
def ImportSpec.positions (x : ast.ImportSpec) : List token.Pos :=
  CommentGroup.positionsPtr x.Doc ++ (Ident.positionsPtr x.Name ++ (BasicLit.positionsPtr x.Path ++ (CommentGroup.positionsPtr x.Comment ++ [x.EndPos])))
/-- positions of a pointer to ast.ImportSpec. -/
def ImportSpec.positionsPtr : Option ImportSpec → List token.Pos
  | none => []
  | some x => ImportSpec.positions x
/-- positions of the elements of a list. -/
def ImportSpec.positionsList : List (Option ImportSpec) → List token.Pos
  | [] => []
  | x :: xs => ImportSpec.positionsPtr x ++ ImportSpec.positionsList xs
/-- positions of a slice. -/
def ImportSpec.positionsSlice : Option (List (Option ImportSpec)) → List token.Pos
  | none => []
  | some xs => ImportSpec.positionsList xs

/-- The position fields of x and of every node below it (a value of a type outside the grammar lists none). -/
def BadDecl.positions (x : ast.BadDecl) : List token.Pos :=
  [x.From] ++ [x.To]
/-- positions of a pointer to ast.BadDecl. -/
def BadDecl.positionsPtr : Option BadDecl → List token.Pos
  | none => []
  | some x => BadDecl.positions x

set_option maxHeartbeats 4000000 in
mutual
/-- The position fields of x and of every node below it (a value of a type outside the grammar lists none). -/
def Field.positions : ast.Field → List token.Pos
  | .mk Doc Names Type_ Tag Comment => CommentGroup.positionsPtr Doc ++ (Ident.positionsSlice Names ++ (Expr.positions Type_ ++ (BasicLit.positionsPtr Tag ++ CommentGroup.positionsPtr Comment)))
/-- positions of a pointer to ast.Field. -/
def Field.positionsPtr : Option Field → List token.Pos
  | none => []
  | some x => Field.positions x
/-- positions of the elements of a list. -/
def Field.positionsList : List (Option Field) → List token.Pos
  | [] => []
  | x :: xs => Field.positionsPtr x ++ Field.positionsList xs
/-- positions of a slice. -/
def Field.positionsSlice : Option (List (Option Field)) → List token.Pos
  | none => []
  | some xs => Field.positionsList xs
/-- The position fields of x and of every node below it (a value of a type outside the grammar lists none). -/
def FieldList.positions : ast.FieldList → List token.Pos
  | .mk Opening List_ Closing => [Opening] ++ (Field.positionsSlice List_ ++ [Closing])
/-- positions of a pointer to ast.FieldList. -/
def FieldList.positionsPtr : Option FieldList → List token.Pos
  | none => []
  | some x => FieldList.positions x
/-- The position fields of x and of every node below it (a value of a type outside the grammar lists none). -/
def FuncType.positions : ast.FuncType → List token.Pos
  | .mk Func Params Results => [Func] ++ (FieldList.positionsPtr Params ++ FieldList.positionsPtr Results)
/-- positions of a pointer to ast.FuncType. -/
def FuncType.positionsPtr : Option FuncType → List token.Pos
  | none => []
  | some x => FuncType.positions x
/-- The position fields of x and of every node below it (a value of a type outside the grammar lists none). -/
def CallExpr.positions : ast.CallExpr → List token.Pos
  | .mk Fun Lparen Args Ellipsis Rparen => Expr.positions Fun ++ ([Lparen] ++ (Expr.positionsSlice Args ++ ([Ellipsis] ++ [Rparen])))
/-- positions of a pointer to ast.CallExpr. -/
def CallExpr.positionsPtr : Option CallExpr → List token.Pos
  | none => []
  | some x => CallExpr.positions x
/-- The position fields of x and of every node below it (a value of a type outside the grammar lists none). -/
def BlockStmt.positions : ast.BlockStmt → List token.Pos
  | .mk Lbrace List_ Rbrace => [Lbrace] ++ (Stmt.positionsSlice List_ ++ [Rbrace])
/-- positions of a pointer to ast.BlockStmt. -/
def BlockStmt.positionsPtr : Option BlockStmt → List token.Pos
  | none => []
  | some x => BlockStmt.positions x
/-- The position fields of x and of every node below it (a value of a type outside the grammar lists none). -/
def ExprNode.positions : ast.ExprNode → List token.Pos
  | .BadExpr x => BadExpr.positions x
  | .Ident x => Ident.positions x
  | .Ellipsis Ellipsis Elt => [Ellipsis] ++ Expr.positions Elt
  | .BasicLit x => BasicLit.positions x
  | .FuncLit Type_ Body => FuncType.positionsPtr Type_ ++ BlockStmt.positionsPtr Body
  | .CompositeLit Type_ Lbrace Elts Rbrace _ => Expr.positions Type_ ++ ([Lbrace] ++ (Expr.positionsSlice Elts ++ [Rbrace]))
  | .ParenExpr Lparen X Rparen => [Lparen] ++ (Expr.positions X ++ [Rparen])
  | .SelectorExpr X Sel => Expr.positions X ++ Ident.positionsPtr Sel
  | .IndexExpr X Lbrack Index Rbrack => Expr.positions X ++ ([Lbrack] ++ (Expr.positions Index ++ [Rbrack]))
  | .SliceExpr X Lbrack Low High Max _ Rbrack => Expr.positions X ++ ([Lbrack] ++ (Expr.positions Low ++ (Expr.positions High ++ (Expr.positions Max ++ [Rbrack]))))
  | .TypeAssertExpr X Lparen Type_ Rparen => Expr.positions X ++ ([Lparen] ++ (Expr.positions Type_ ++ [Rparen]))
  | .CallExpr x => CallExpr.positions x
  | .StarExpr Star X => [Star] ++ Expr.positions X
  | .UnaryExpr OpPos _ X => [OpPos] ++ Expr.positions X
  | .BinaryExpr X OpPos _ Y => Expr.positions X ++ ([OpPos] ++ Expr.positions Y)
  | .KeyValueExpr Key Colon Value => Expr.positions Key ++ ([Colon] ++ Expr.positions Value)
  | .ArrayType Lbrack Len Elt => [Lbrack] ++ (Expr.positions Len ++ Expr.positions Elt)
  | .StructType Struct Fields _ => [Struct] ++ FieldList.positionsPtr Fields
  | .FuncType x => FuncType.positions x
  | .InterfaceType Interface Methods _ => [Interface] ++ FieldList.positionsPtr Methods
  | .MapType Map Key Value => [Map] ++ (Expr.positions Key ++ Expr.positions Value)
  | .ChanType Begin Arrow _ Value => [Begin] ++ ([Arrow] ++ Expr.positions Value)
  | .other _ => []
/-- positions of an ast.Expr interface value. -/
def Expr.positions : Option ExprNode → List token.Pos
  | none => []
  | some x => ExprNode.positions x
/-- positions of the elements of a list. -/
def Expr.positionsList : List (Option ExprNode) → List token.Pos
  | [] => []
  | x :: xs => Expr.positions x ++ Expr.positionsList xs
/-- positions of a slice. -/
def Expr.positionsSlice : Option (List (Option ExprNode)) → List token.Pos
  | none => []
  | some xs => Expr.positionsList xs
/-- The position fields of x and of every node below it (a value of a type outside the grammar lists none). -/
def StmtNode.positions : ast.StmtNode → List token.Pos
  | .BadStmt x => BadStmt.positions x
  | .DeclStmt Decl => Decl.positions Decl
  | .EmptyStmt x => EmptyStmt.positions x
  | .LabeledStmt Label Colon Stmt => Ident.positionsPtr Label ++ ([Colon] ++ Stmt.positions Stmt)
  | .ExprStmt X => Expr.positions X
  | .SendStmt Chan Arrow Value => Expr.positions Chan ++ ([Arrow] ++ Expr.positions Value)
  | .IncDecStmt X TokPos _ => Expr.positions X ++ [TokPos]
  | .AssignStmt Lhs TokPos _ Rhs => Expr.positionsSlice Lhs ++ ([TokPos] ++ Expr.positionsSlice Rhs)
  | .GoStmt Go Call => [Go] ++ CallExpr.positionsPtr Call
  | .DeferStmt Defer Call => [Defer] ++ CallExpr.positionsPtr Call
  | .ReturnStmt Return Results => [Return] ++ Expr.positionsSlice Results
  | .BranchStmt x => BranchStmt.positions x
  | .BlockStmt x => BlockStmt.positions x
  | .IfStmt If Init Cond Body Else => [If] ++ (Stmt.positions Init ++ (Expr.positions Cond ++ (BlockStmt.positionsPtr Body ++ Stmt.positions Else)))
  | .CaseClause Case List_ Colon Body => [Case] ++ (Expr.positionsSlice List_ ++ ([Colon] ++ Stmt.positionsSlice Body))
  | .SwitchStmt Switch Init Tag Body => [Switch] ++ (Stmt.positions Init ++ (Expr.positions Tag ++ BlockStmt.positionsPtr Body))
  | .TypeSwitchStmt Switch Init Assign Body => [Switch] ++ (Stmt.positions Init ++ (Stmt.positions Assign ++ BlockStmt.positionsPtr Body))
  | .CommClause Case Comm Colon Body => [Case] ++ (Stmt.positions Comm ++ ([Colon] ++ Stmt.positionsSlice Body))
  | .SelectStmt Select Body => [Select] ++ BlockStmt.positionsPtr Body
  | .ForStmt For Init Cond Post Body => [For] ++ (Stmt.positions Init ++ (Expr.positions Cond ++ (Stmt.positions Post ++ BlockStmt.positionsPtr Body)))
  | .RangeStmt For Key Value TokPos _ X Body => [For] ++ (Expr.positions Key ++ (Expr.positions Value ++ ([TokPos] ++ (Expr.positions X ++ BlockStmt.positionsPtr Body))))
  | .other _ => []
/-- positions of an ast.Stmt interface value. -/
def Stmt.positions : Option StmtNode → List token.Pos
  | none => []
  | some x => StmtNode.positions x
/-- positions of the elements of a list. -/
def Stmt.positionsList : List (Option StmtNode) → List token.Pos
  | [] => []
  | x :: xs => Stmt.positions x ++ Stmt.positionsList xs
/-- positions of a slice. -/
def Stmt.positionsSlice : Option (List (Option StmtNode)) → List token.Pos
  | none => []
  | some xs => Stmt.positionsList xs
/-- The position fields of x and of every node below it (a value of a type outside the grammar lists none). -/
def SpecNode.positions : ast.SpecNode → List token.Pos
  | .ImportSpec x => ImportSpec.positions x
  | .ValueSpec Doc Names Type_ Values Comment => CommentGroup.positionsPtr Doc ++ (Ident.positionsSlice Names ++ (Expr.positions Type_ ++ (Expr.positionsSlice Values ++ CommentGroup.positionsPtr Comment)))
  | .TypeSpec Doc Name Assign Type_ Comment => CommentGroup.positionsPtr Doc ++ (Ident.positionsPtr Name ++ ([Assign] ++ (Expr.positions Type_ ++ CommentGroup.positionsPtr Comment)))
  | .other _ => []
/-- positions of an ast.Spec interface value. -/
def Spec.positions : Option SpecNode → List token.Pos
  | none => []
  | some x => SpecNode.positions x
/-- positions of the elements of a list. -/
def Spec.positionsList : List (Option SpecNode) → List token.Pos
  | [] => []
  | x :: xs => Spec.positions x ++ Spec.positionsList xs
/-- positions of a slice. -/
def Spec.positionsSlice : Option (List (Option SpecNode)) → List token.Pos
  | none => []
  | some xs => Spec.positionsList xs
/-- The position fields of x and of every node below it (a value of a type outside the grammar lists none). -/
def DeclNode.positions : ast.DeclNode → List token.Pos
  | .BadDecl x => BadDecl.positions x
  | .GenDecl Doc TokPos _ Lparen Specs Rparen => CommentGroup.positionsPtr Doc ++ ([TokPos] ++ ([Lparen] ++ (Spec.positionsSlice Specs ++ [Rparen])))
  | .FuncDecl Doc Recv Name Type_ Body => CommentGroup.positionsPtr Doc ++ (FieldList.positionsPtr Recv ++ (Ident.positionsPtr Name ++ (FuncType.positionsPtr Type_ ++ BlockStmt.positionsPtr Body)))
  | .other _ => []
/-- positions of an ast.Decl interface value. -/
def Decl.positions : Option DeclNode → List token.Pos
  | none => []
  | some x => DeclNode.positions x
end

/-- positions of the elements of a list. -/
def Decl.positionsList : List (Option DeclNode) → List token.Pos
  | [] => []
  | x :: xs => Decl.positions x ++ Decl.positionsList xs
/-- positions of a slice. -/
def Decl.positionsSlice : Option (List (Option DeclNode)) → List token.Pos
  | none => []
  | some xs => Decl.positionsList xs

/-- The position fields of x and of every node below it. -/
def File.positions (x : ast.File) : List token.Pos :=
  CommentGroup.positionsPtr x.Doc ++ ([x.Package] ++ (Ident.positionsPtr x.Name ++
    (Decl.positionsSlice x.Decls ++ (ImportSpec.positionsSlice x.Imports ++
      (Ident.positionsSlice x.Unresolved ++ CommentGroup.positionsSlice x.Comments)))))

/-- The position fields of a pointer to ast.File. -/
def File.positionsPtr : Option ast.File → List token.Pos
  | none => []
  | some x => File.positions x

set_option maxHeartbeats 4000000 in
mutual
/-- Whether every interface value in x holds one of the variants of the grammar. -/
def Field.inGrammar : ast.Field → Bool
  | .mk _ _ Type_ _ _ => Expr.inGrammar Type_
/-- inGrammar of a pointer to ast.Field. -/
def Field.inGrammarPtr : Option Field → Bool
  | none => true
  | some x => Field.inGrammar x
/-- inGrammar of the elements of a list. -/
def Field.inGrammarList : List (Option Field) → Bool
  | [] => true
  | x :: xs => Field.inGrammarPtr x && Field.inGrammarList xs
/-- inGrammar of a slice. -/
def Field.inGrammarSlice : Option (List (Option Field)) → Bool
  | none => true
  | some xs => Field.inGrammarList xs
/-- Whether every interface value in x holds one of the variants of the grammar. -/
def FieldList.inGrammar : ast.FieldList → Bool
  | .mk _ List_ _ => Field.inGrammarSlice List_
/-- inGrammar of a pointer to ast.FieldList. -/
def FieldList.inGrammarPtr : Option FieldList → Bool
  | none => true
  | some x => FieldList.inGrammar x
/-- Whether every interface value in x holds one of the variants of the grammar. -/
def FuncType.inGrammar : ast.FuncType → Bool
  | .mk _ Params Results => FieldList.inGrammarPtr Params && FieldList.inGrammarPtr Results
/-- inGrammar of a pointer to ast.FuncType. -/
def FuncType.inGrammarPtr : Option FuncType → Bool
  | none => true
  | some x => FuncType.inGrammar x
/-- Whether every interface value in x holds one of the variants of the grammar. -/
def CallExpr.inGrammar : ast.CallExpr → Bool
  | .mk Fun _ Args _ _ => Expr.inGrammar Fun && Expr.inGrammarSlice Args
/-- inGrammar of a pointer to ast.CallExpr. -/
def CallExpr.inGrammarPtr : Option CallExpr → Bool
  | none => true
  | some x => CallExpr.inGrammar x
/-- Whether every interface value in x holds one of the variants of the grammar. -/
def BlockStmt.inGrammar : ast.BlockStmt → Bool
  | .mk _ List_ _ => Stmt.inGrammarSlice List_
/-- inGrammar of a pointer to ast.BlockStmt. -/
def BlockStmt.inGrammarPtr : Option BlockStmt → Bool
  | none => true
  | some x => BlockStmt.inGrammar x
/-- Whether every interface value in x holds one of the variants of the grammar. -/
def ExprNode.inGrammar : ast.ExprNode → Bool
  | .BadExpr _ => true
  | .Ident _ => true
  | .Ellipsis _ Elt => Expr.inGrammar Elt
  | .BasicLit _ => true
  | .FuncLit Type_ Body => FuncType.inGrammarPtr Type_ && BlockStmt.inGrammarPtr Body
  | .CompositeLit Type_ _ Elts _ _ => Expr.inGrammar Type_ && Expr.inGrammarSlice Elts
  | .ParenExpr _ X _ => Expr.inGrammar X
  | .SelectorExpr X _ => Expr.inGrammar X
  | .IndexExpr X _ Index _ => Expr.inGrammar X && Expr.inGrammar Index
  | .SliceExpr X _ Low High Max _ _ => Expr.inGrammar X && (Expr.inGrammar Low && (Expr.inGrammar High && Expr.inGrammar Max))
  | .TypeAssertExpr X _ Type_ _ => Expr.inGrammar X && Expr.inGrammar Type_
  | .CallExpr x => CallExpr.inGrammar x
  | .StarExpr _ X => Expr.inGrammar X
  | .UnaryExpr _ _ X => Expr.inGrammar X
  | .BinaryExpr X _ _ Y => Expr.inGrammar X && Expr.inGrammar Y
  | .KeyValueExpr Key _ Value => Expr.inGrammar Key && Expr.inGrammar Value
  | .ArrayType _ Len Elt => Expr.inGrammar Len && Expr.inGrammar Elt
  | .StructType _ Fields _ => FieldList.inGrammarPtr Fields
  | .FuncType x => FuncType.inGrammar x
  | .InterfaceType _ Methods _ => FieldList.inGrammarPtr Methods
  | .MapType _ Key Value => Expr.inGrammar Key && Expr.inGrammar Value
  | .ChanType _ _ _ Value => Expr.inGrammar Value
  | .other _ => false
/-- inGrammar of an ast.Expr interface value. -/
def Expr.inGrammar : Option ExprNode → Bool
  | none => true
  | some x => ExprNode.inGrammar x
/-- inGrammar of the elements of a list. -/
def Expr.inGrammarList : List (Option ExprNode) → Bool
  | [] => true
  | x :: xs => Expr.inGrammar x && Expr.inGrammarList xs
/-- inGrammar of a slice. -/
def Expr.inGrammarSlice : Option (List (Option ExprNode)) → Bool
  | none => true
  | some xs => Expr.inGrammarList xs
/-- Whether every interface value in x holds one of the variants of the grammar. -/
def StmtNode.inGrammar : ast.StmtNode → Bool
  | .BadStmt _ => true
  | .DeclStmt Decl => Decl.inGrammar Decl
  | .EmptyStmt _ => true
  | .LabeledStmt _ _ Stmt => Stmt.inGrammar Stmt
  | .ExprStmt X => Expr.inGrammar X
  | .SendStmt Chan _ Value => Expr.inGrammar Chan && Expr.inGrammar Value
  | .IncDecStmt X _ _ => Expr.inGrammar X
  | .AssignStmt Lhs _ _ Rhs => Expr.inGrammarSlice Lhs && Expr.inGrammarSlice Rhs
  | .GoStmt _ Call => CallExpr.inGrammarPtr Call
  | .DeferStmt _ Call => CallExpr.inGrammarPtr Call
  | .ReturnStmt _ Results => Expr.inGrammarSlice Results
  | .BranchStmt _ => true
  | .BlockStmt x => BlockStmt.inGrammar x
  | .IfStmt _ Init Cond Body Else => Stmt.inGrammar Init && (Expr.inGrammar Cond && (BlockStmt.inGrammarPtr Body && Stmt.inGrammar Else))
  | .CaseClause _ List_ _ Body => Expr.inGrammarSlice List_ && Stmt.inGrammarSlice Body
  | .SwitchStmt _ Init Tag Body => Stmt.inGrammar Init && (Expr.inGrammar Tag && BlockStmt.inGrammarPtr Body)
  | .TypeSwitchStmt _ Init Assign Body => Stmt.inGrammar Init && (Stmt.inGrammar Assign && BlockStmt.inGrammarPtr Body)
  | .CommClause _ Comm _ Body => Stmt.inGrammar Comm && Stmt.inGrammarSlice Body
  | .SelectStmt _ Body => BlockStmt.inGrammarPtr Body
  | .ForStmt _ Init Cond Post Body => Stmt.inGrammar Init && (Expr.inGrammar Cond && (Stmt.inGrammar Post && BlockStmt.inGrammarPtr Body))
  | .RangeStmt _ Key Value _ _ X Body => Expr.inGrammar Key && (Expr.inGrammar Value && (Expr.inGrammar X && BlockStmt.inGrammarPtr Body))
  | .other _ => false
/-- inGrammar of an ast.Stmt interface value. -/
def Stmt.inGrammar : Option StmtNode → Bool
  | none => true
  | some x => StmtNode.inGrammar x
/-- inGrammar of the elements of a list. -/
def Stmt.inGrammarList : List (Option StmtNode) → Bool
  | [] => true
  | x :: xs => Stmt.inGrammar x && Stmt.inGrammarList xs
/-- inGrammar of a slice. -/
def Stmt.inGrammarSlice : Option (List (Option StmtNode)) → Bool
  | none => true
  | some xs => Stmt.inGrammarList xs
/-- Whether every interface value in x holds one of the variants of the grammar. -/
def SpecNode.inGrammar : ast.SpecNode → Bool
  | .ImportSpec _ => true
  | .ValueSpec _ _ Type_ Values _ => Expr.inGrammar Type_ && Expr.inGrammarSlice Values
  | .TypeSpec _ _ _ Type_ _ => Expr.inGrammar Type_
  | .other _ => false
/-- inGrammar of an ast.Spec interface value. -/
def Spec.inGrammar : Option SpecNode → Bool
  | none => true
  | some x => SpecNode.inGrammar x
/-- inGrammar of the elements of a list. -/
def Spec.inGrammarList : List (Option SpecNode) → Bool
  | [] => true
  | x :: xs => Spec.inGrammar x && Spec.inGrammarList xs
/-- inGrammar of a slice. -/
def Spec.inGrammarSlice : Option (List (Option SpecNode)) → Bool
  | none => true
  | some xs => Spec.inGrammarList xs
/-- Whether every interface value in x holds one of the variants of the grammar. -/
def DeclNode.inGrammar : ast.DeclNode → Bool
  | .BadDecl _ => true
  | .GenDecl _ _ _ _ Specs _ => Spec.inGrammarSlice Specs
  | .FuncDecl _ Recv _ Type_ Body => FieldList.inGrammarPtr Recv && (FuncType.inGrammarPtr Type_ && BlockStmt.inGrammarPtr Body)
  | .other _ => false
/-- inGrammar of an ast.Decl interface value. -/
def Decl.inGrammar : Option DeclNode → Bool
  | none => true
  | some x => DeclNode.inGrammar x
end

/-- inGrammar of the elements of a list. -/
def Decl.inGrammarList : List (Option DeclNode) → Bool
  | [] => true
  | x :: xs => Decl.inGrammar x && Decl.inGrammarList xs
/-- inGrammar of a slice. -/
def Decl.inGrammarSlice : Option (List (Option DeclNode)) → Bool
  | none => true
  | some xs => Decl.inGrammarList xs

/-- Whether every interface value in x holds one of the variants of the grammar. -/
def File.inGrammar (x : ast.File) : Bool :=
  Decl.inGrammarSlice x.Decls

end ast

/-- Every position of the list is the zero position token.NoPos. -/
def token.Zeros (l : List token.Pos) : Prop := ∀ p ∈ l, p = token.NoPos

/-! ## Erasing the positions of a tree -/

namespace ast

/-- The node x with every position field, in x and below it, set to token.NoPos. -/
def Comment.erasePos (x : ast.Comment) : ast.Comment :=
  { Slash := token.NoPos, Text := x.Text }
/-- Erasure of the positions behind a pointer to ast.Comment. -/
def Comment.erasePosPtr : Option Comment → Option Comment
  | none => none
  | some x => some (Comment.erasePos x)
/-- Erasure of the positions of the elements of a list. -/
def Comment.erasePosList : List (Option Comment) → List (Option Comment)
  | [] => []
  | x :: xs => Comment.erasePosPtr x :: Comment.erasePosList xs
/-- Erasure of the positions of the elements of a slice. -/
def Comment.erasePosSlice : Option (List (Option Comment)) → Option (List (Option Comment))
  | none => none
  | some xs => some (Comment.erasePosList xs)

/-- The node x with every position field, in x and below it, set to token.NoPos. -/
def CommentGroup.erasePos (x : ast.CommentGroup) : ast.CommentGroup :=
  { List_ := (Comment.erasePosSlice x.List_) }
/-- Erasure of the positions behind a pointer to ast.CommentGroup. -/
def CommentGroup.erasePosPtr : Option CommentGroup → Option CommentGroup
  | none => none
  | some x => some (CommentGroup.erasePos x)
/-- Erasure of the positions of the elements of a list. -/
def CommentGroup.erasePosList : List (Option CommentGroup) → List (Option CommentGroup)
  | [] => []
  | x :: xs => CommentGroup.erasePosPtr x :: CommentGroup.erasePosList xs
/-- Erasure of the positions of the elements of a slice. -/
def CommentGroup.erasePosSlice : Option (List (Option CommentGroup)) → Option (List (Option CommentGroup))
  | none => none
  | some xs => some (CommentGroup.erasePosList xs)

/-- The node x with every position field, in x and below it, set to token.NoPos. -/
def Ident.erasePos (x : ast.Ident) : ast.Ident :=
  { NamePos := token.NoPos, Name := x.Name }
/-- Erasure of the positions behind a pointer to ast.Ident. -/
def Ident.erasePosPtr : Option Ident → Option Ident
  | none => none
  | some x => some (Ident.erasePos x)
/-- Erasure of the positions of the elements of a list. -/
def Ident.erasePosList : List (Option Ident) → List (Option Ident)
  | [] => []
  | x :: xs => Ident.erasePosPtr x :: Ident.erasePosList xs
/-- Erasure of the positions of the elements of a slice. -/
def Ident.erasePosSlice : Option (List (Option Ident)) → Option (List (Option Ident))
  | none => none
  | some xs => some (Ident.erasePosList xs)

/-- The node x with every position field, in x and below it, set to token.NoPos. -/
def BasicLit.erasePos (x : ast.BasicLit) : ast.BasicLit :=
  { ValuePos := token.NoPos, Kind := x.Kind, Value := x.Value }
/-- Erasure of the positions behind a pointer to ast.BasicLit. -/
def BasicLit.erasePosPtr : Option BasicLit → Option BasicLit
  | none => none
  | some x => some (BasicLit.erasePos x)

/-- The node x with every position field, in x and below it, set to token.NoPos. -/
def BadExpr.erasePos (_ : ast.BadExpr) : ast.BadExpr :=
  { From := token.NoPos, To := token.NoPos }
/-- Erasure of the positions behind a pointer to ast.BadExpr. -/
def BadExpr.erasePosPtr : Option BadExpr → Option BadExpr
  | none => none
  | some x => some (BadExpr.erasePos x)

/-- The node x with every position field, in x and below it, set to token.NoPos. -/
def BadStmt.erasePos (_ : ast.BadStmt) : ast.BadStmt :=
  { From := token.NoPos, To := token.NoPos }
/-- Erasure of the positions behind a pointer to ast.BadStmt. -/
def BadStmt.erasePosPtr : Option BadStmt → Option BadStmt
  | none => none
  | some x => some (BadStmt.erasePos x)

/-- The node x with every position field, in x and below it, set to token.NoPos. -/
def EmptyStmt.erasePos (x : ast.EmptyStmt) : ast.EmptyStmt :=
  { Semicolon := token.NoPos, Implicit := x.Implicit }
/-- Erasure of the positions behind a pointer to ast.EmptyStmt. -/
def EmptyStmt.erasePosPtr : Option EmptyStmt → Option EmptyStmt
  | none => none
  | some x => some (EmptyStmt.erasePos x)

/-- The node x with every position field, in x and below it, set to token.NoPos. -/
def BranchStmt.erasePos (x : ast.BranchStmt) : ast.BranchStmt :=
  { TokPos := token.NoPos, Tok := x.Tok, Label := (Ident.erasePosPtr x.Label) }
/-- Erasure of the positions behind a pointer to ast.BranchStmt. -/
def BranchStmt.erasePosPtr : Option BranchStmt → Option BranchStmt
  | none => none
  | some x => some (BranchStmt.erasePos x)

/-- The node x with every position field, in x and below it, set to token.NoPos. -/
def ImportSpec.erasePos (x : ast.ImportSpec) : ast.ImportSpec :=
  { Doc := (CommentGroup.erasePosPtr x.Doc), Name := (Ident.erasePosPtr x.Name), Path := (BasicLit.erasePosPtr x.Path), Comment := (CommentGroup.erasePosPtr x.Comment), EndPos := token.NoPos }
/-- Erasure of the positions behind a pointer to ast.ImportSpec. -/
def ImportSpec.erasePosPtr : Option ImportSpec → Option ImportSpec
  | none => none
  | some x => some (ImportSpec.erasePos x)
/-- Erasure of the positions of the elements of a list. -/
def ImportSpec.erasePosList : List (Option ImportSpec) → List (Option ImportSpec)
  | [] => []
  | x :: xs => ImportSpec.erasePosPtr x :: ImportSpec.erasePosList xs
/-- Erasure of the positions of the elements of a slice. -/
def ImportSpec.erasePosSlice : Option (List (Option ImportSpec)) → Option (List (Option ImportSpec))
  | none => none
  | some xs => some (ImportSpec.erasePosList xs)

/-- The node x with every position field, in x and below it, set to token.NoPos. -/
def BadDecl.erasePos (_ : ast.BadDecl) : ast.BadDecl :=
  { From := token.NoPos, To := token.NoPos }
/-- Erasure of the positions behind a pointer to ast.BadDecl. -/
def BadDecl.erasePosPtr : Option BadDecl → Option BadDecl
  | none => none
  | some x => some (BadDecl.erasePos x)

set_option maxHeartbeats 4000000 in
mutual
/-- The node x with every position field, in x and below it, set to token.NoPos. -/
def Field.erasePos : ast.Field → ast.Field
  | .mk Doc Names Type_ Tag Comment => .mk (CommentGroup.erasePosPtr Doc) (Ident.erasePosSlice Names) (Expr.erasePos Type_) (BasicLit.erasePosPtr Tag) (CommentGroup.erasePosPtr Comment)
/-- Erasure of the positions behind a pointer to ast.Field. -/
def Field.erasePosPtr : Option Field → Option Field
  | none => none
  | some x => some (Field.erasePos x)
/-- Erasure of the positions of the elements of a list. -/
def Field.erasePosList : List (Option Field) → List (Option Field)
  | [] => []
  | x :: xs => Field.erasePosPtr x :: Field.erasePosList xs
/-- Erasure of the positions of the elements of a slice. -/
def Field.erasePosSlice : Option (List (Option Field)) → Option (List (Option Field))
  | none => none
  | some xs => some (Field.erasePosList xs)
/-- The node x with every position field, in x and below it, set to token.NoPos. -/
def FieldList.erasePos : ast.FieldList → ast.FieldList
  | .mk _ List_ _ => .mk token.NoPos (Field.erasePosSlice List_) token.NoPos
/-- Erasure of the positions behind a pointer to ast.FieldList. -/
def FieldList.erasePosPtr : Option FieldList → Option FieldList
  | none => none
  | some x => some (FieldList.erasePos x)
/-- The node x with every position field, in x and below it, set to token.NoPos. -/
def FuncType.erasePos : ast.FuncType → ast.FuncType
  | .mk _ Params Results => .mk token.NoPos (FieldList.erasePosPtr Params) (FieldList.erasePosPtr Results)
/-- Erasure of the positions behind a pointer to ast.FuncType. -/
def FuncType.erasePosPtr : Option FuncType → Option FuncType
  | none => none
  | some x => some (FuncType.erasePos x)
/-- The node x with every position field, in x and below it, set to token.NoPos. -/
def CallExpr.erasePos : ast.CallExpr → ast.CallExpr
  | .mk Fun _ Args _ _ => .mk (Expr.erasePos Fun) token.NoPos (Expr.erasePosSlice Args) token.NoPos token.NoPos
/-- Erasure of the positions behind a pointer to ast.CallExpr. -/
def CallExpr.erasePosPtr : Option CallExpr → Option CallExpr
  | none => none
  | some x => some (CallExpr.erasePos x)
/-- The node x with every position field, in x and below it, set to token.NoPos. -/
def BlockStmt.erasePos : ast.BlockStmt → ast.BlockStmt
  | .mk _ List_ _ => .mk token.NoPos (Stmt.erasePosSlice List_) token.NoPos
/-- Erasure of the positions behind a pointer to ast.BlockStmt. -/
def BlockStmt.erasePosPtr : Option BlockStmt → Option BlockStmt
  | none => none
  | some x => some (BlockStmt.erasePos x)
/-- The node x with every position field, in x and below it, set to token.NoPos. -/
def ExprNode.erasePos : ast.ExprNode → ast.ExprNode
  | .BadExpr x => .BadExpr (BadExpr.erasePos x)
  | .Ident x => .Ident (Ident.erasePos x)
  | .Ellipsis _ Elt => .Ellipsis token.NoPos (Expr.erasePos Elt)
  | .BasicLit x => .BasicLit (BasicLit.erasePos x)
  | .FuncLit Type_ Body => .FuncLit (FuncType.erasePosPtr Type_) (BlockStmt.erasePosPtr Body)
  | .CompositeLit Type_ _ Elts _ Incomplete => .CompositeLit (Expr.erasePos Type_) token.NoPos (Expr.erasePosSlice Elts) token.NoPos Incomplete
  | .ParenExpr _ X _ => .ParenExpr token.NoPos (Expr.erasePos X) token.NoPos
  | .SelectorExpr X Sel => .SelectorExpr (Expr.erasePos X) (Ident.erasePosPtr Sel)
  | .IndexExpr X _ Index _ => .IndexExpr (Expr.erasePos X) token.NoPos (Expr.erasePos Index) token.NoPos
  | .SliceExpr X _ Low High Max Slice3 _ => .SliceExpr (Expr.erasePos X) token.NoPos (Expr.erasePos Low) (Expr.erasePos High) (Expr.erasePos Max) Slice3 token.NoPos
  | .TypeAssertExpr X _ Type_ _ => .TypeAssertExpr (Expr.erasePos X) token.NoPos (Expr.erasePos Type_) token.NoPos
  | .CallExpr x => .CallExpr (CallExpr.erasePos x)
  | .StarExpr _ X => .StarExpr token.NoPos (Expr.erasePos X)
  | .UnaryExpr _ Op X => .UnaryExpr token.NoPos Op (Expr.erasePos X)
  | .BinaryExpr X _ Op Y => .BinaryExpr (Expr.erasePos X) token.NoPos Op (Expr.erasePos Y)
  | .KeyValueExpr Key _ Value => .KeyValueExpr (Expr.erasePos Key) token.NoPos (Expr.erasePos Value)
  | .ArrayType _ Len Elt => .ArrayType token.NoPos (Expr.erasePos Len) (Expr.erasePos Elt)
  | .StructType _ Fields Incomplete => .StructType token.NoPos (FieldList.erasePosPtr Fields) Incomplete
  | .FuncType x => .FuncType (FuncType.erasePos x)
  | .InterfaceType _ Methods Incomplete => .InterfaceType token.NoPos (FieldList.erasePosPtr Methods) Incomplete
  | .MapType _ Key Value => .MapType token.NoPos (Expr.erasePos Key) (Expr.erasePos Value)
  | .ChanType _ _ Dir Value => .ChanType token.NoPos token.NoPos Dir (Expr.erasePos Value)
  | .other typ => .other typ
/-- Erasure of the positions of an ast.Expr interface value. -/
def Expr.erasePos : Option ExprNode → Option ExprNode
  | none => none
  | some x => some (ExprNode.erasePos x)
/-- Erasure of the positions of the elements of a list. -/
def Expr.erasePosList : List (Option ExprNode) → List (Option ExprNode)
  | [] => []
  | x :: xs => Expr.erasePos x :: Expr.erasePosList xs
/-- Erasure of the positions of the elements of a slice. -/
def Expr.erasePosSlice : Option (List (Option ExprNode)) → Option (List (Option ExprNode))
  | none => none
  | some xs => some (Expr.erasePosList xs)
/-- The node x with every position field, in x and below it, set to token.NoPos. -/
def StmtNode.erasePos : ast.StmtNode → ast.StmtNode
  | .BadStmt x => .BadStmt (BadStmt.erasePos x)
  | .DeclStmt Decl => .DeclStmt (Decl.erasePos Decl)
  | .EmptyStmt x => .EmptyStmt (EmptyStmt.erasePos x)
  | .LabeledStmt Label _ Stmt => .LabeledStmt (Ident.erasePosPtr Label) token.NoPos (Stmt.erasePos Stmt)
  | .ExprStmt X => .ExprStmt (Expr.erasePos X)
  | .SendStmt Chan _ Value => .SendStmt (Expr.erasePos Chan) token.NoPos (Expr.erasePos Value)
  | .IncDecStmt X _ Tok => .IncDecStmt (Expr.erasePos X) token.NoPos Tok
  | .AssignStmt Lhs _ Tok Rhs => .AssignStmt (Expr.erasePosSlice Lhs) token.NoPos Tok (Expr.erasePosSlice Rhs)
  | .GoStmt _ Call => .GoStmt token.NoPos (CallExpr.erasePosPtr Call)
  | .DeferStmt _ Call => .DeferStmt token.NoPos (CallExpr.erasePosPtr Call)
  | .ReturnStmt _ Results => .ReturnStmt token.NoPos (Expr.erasePosSlice Results)
  | .BranchStmt x => .BranchStmt (BranchStmt.erasePos x)
  | .BlockStmt x => .BlockStmt (BlockStmt.erasePos x)
  | .IfStmt _ Init Cond Body Else => .IfStmt token.NoPos (Stmt.erasePos Init) (Expr.erasePos Cond) (BlockStmt.erasePosPtr Body) (Stmt.erasePos Else)
  | .CaseClause _ List_ _ Body => .CaseClause token.NoPos (Expr.erasePosSlice List_) token.NoPos (Stmt.erasePosSlice Body)
  | .SwitchStmt _ Init Tag Body => .SwitchStmt token.NoPos (Stmt.erasePos Init) (Expr.erasePos Tag) (BlockStmt.erasePosPtr Body)
  | .TypeSwitchStmt _ Init Assign Body => .TypeSwitchStmt token.NoPos (Stmt.erasePos Init) (Stmt.erasePos Assign) (BlockStmt.erasePosPtr Body)
  | .CommClause _ Comm _ Body => .CommClause token.NoPos (Stmt.erasePos Comm) token.NoPos (Stmt.erasePosSlice Body)
  | .SelectStmt _ Body => .SelectStmt token.NoPos (BlockStmt.erasePosPtr Body)
  | .ForStmt _ Init Cond Post Body => .ForStmt token.NoPos (Stmt.erasePos Init) (Expr.erasePos Cond) (Stmt.erasePos Post) (BlockStmt.erasePosPtr Body)
  | .RangeStmt _ Key Value _ Tok X Body => .RangeStmt token.NoPos (Expr.erasePos Key) (Expr.erasePos Value) token.NoPos Tok (Expr.erasePos X) (BlockStmt.erasePosPtr Body)
  | .other typ => .other typ
/-- Erasure of the positions of an ast.Stmt interface value. -/
def Stmt.erasePos : Option StmtNode → Option StmtNode
  | none => none
  | some x => some (StmtNode.erasePos x)
/-- Erasure of the positions of the elements of a list. -/
def Stmt.erasePosList : List (Option StmtNode) → List (Option StmtNode)
  | [] => []
  | x :: xs => Stmt.erasePos x :: Stmt.erasePosList xs
/-- Erasure of the positions of the elements of a slice. -/
def Stmt.erasePosSlice : Option (List (Option StmtNode)) → Option (List (Option StmtNode))
  | none => none
  | some xs => some (Stmt.erasePosList xs)
/-- The node x with every position field, in x and below it, set to token.NoPos. -/
def SpecNode.erasePos : ast.SpecNode → ast.SpecNode
  | .ImportSpec x => .ImportSpec (ImportSpec.erasePos x)
  | .ValueSpec Doc Names Type_ Values Comment => .ValueSpec (CommentGroup.erasePosPtr Doc) (Ident.erasePosSlice Names) (Expr.erasePos Type_) (Expr.erasePosSlice Values) (CommentGroup.erasePosPtr Comment)
  | .TypeSpec Doc Name _ Type_ Comment => .TypeSpec (CommentGroup.erasePosPtr Doc) (Ident.erasePosPtr Name) token.NoPos (Expr.erasePos Type_) (CommentGroup.erasePosPtr Comment)
  | .other typ => .other typ
/-- Erasure of the positions of an ast.Spec interface value. -/
def Spec.erasePos : Option SpecNode → Option SpecNode
  | none => none
  | some x => some (SpecNode.erasePos x)
/-- Erasure of the positions of the elements of a list. -/
def Spec.erasePosList : List (Option SpecNode) → List (Option SpecNode)
  | [] => []
  | x :: xs => Spec.erasePos x :: Spec.erasePosList xs
/-- Erasure of the positions of the elements of a slice. -/
def Spec.erasePosSlice : Option (List (Option SpecNode)) → Option (List (Option SpecNode))
  | none => none
  | some xs => some (Spec.erasePosList xs)
/-- The node x with every position field, in x and below it, set to token.NoPos. -/
def DeclNode.erasePos : ast.DeclNode → ast.DeclNode
  | .BadDecl x => .BadDecl (BadDecl.erasePos x)
  | .GenDecl Doc _ Tok _ Specs _ => .GenDecl (CommentGroup.erasePosPtr Doc) token.NoPos Tok token.NoPos (Spec.erasePosSlice Specs) token.NoPos
  | .FuncDecl Doc Recv Name Type_ Body => .FuncDecl (CommentGroup.erasePosPtr Doc) (FieldList.erasePosPtr Recv) (Ident.erasePosPtr Name) (FuncType.erasePosPtr Type_) (BlockStmt.erasePosPtr Body)
  | .other typ => .other typ
/-- Erasure of the positions of an ast.Decl interface value. -/
def Decl.erasePos : Option DeclNode → Option DeclNode
  | none => none
  | some x => some (DeclNode.erasePos x)
end

/-- Erasure of the positions of the elements of a list. -/
def Decl.erasePosList : List (Option DeclNode) → List (Option DeclNode)
  | [] => []
  | x :: xs => Decl.erasePos x :: Decl.erasePosList xs
/-- Erasure of the positions of the elements of a slice. -/
def Decl.erasePosSlice : Option (List (Option DeclNode)) → Option (List (Option DeclNode))
  | none => none
  | some xs => some (Decl.erasePosList xs)

end ast

/-! ## The shape of a tree -/

namespace ast

/-- The shape of a tree, without its scalar content: an absent node (a nil pointer or
interface), a present node with the name of its variant and the shapes of its child
fields in the order of the go/ast struct, a nil slice, or a present slice with the shapes
of its elements in order (so with its length). -/
inductive Shape where
  | absent
  | node (variant : String) (children : List Shape)
  | nilSlice
  | slice (elems : List Shape)

/-- The shape of x. -/
def Comment.shape (_ : ast.Comment) : Shape :=
  .node "Comment" []
/-- The shape of a pointer to ast.Comment. -/
def Comment.shapePtr : Option Comment → Shape
  | none => .absent
  | some x => Comment.shape x
/-- The shapes of the elements of a list, in order. -/
def Comment.shapeList : List (Option Comment) → List Shape
  | [] => []
  | x :: xs => Comment.shapePtr x :: Comment.shapeList xs
/-- The shape of a slice. -/
def Comment.shapeSlice : Option (List (Option Comment)) → Shape
  | none => .nilSlice
  | some xs => .slice (Comment.shapeList xs)

/-- The shape of x. -/
def CommentGroup.shape (x : ast.CommentGroup) : Shape :=
  .node "CommentGroup" [Comment.shapeSlice x.List_]
/-- The shape of a pointer to ast.CommentGroup. -/
def CommentGroup.shapePtr : Option CommentGroup → Shape
  | none => .absent
  | some x => CommentGroup.shape x

/-- The shape of x. -/
def Ident.shape (_ : ast.Ident) : Shape :=
  .node "Ident" []
/-- The shape of a pointer to ast.Ident. -/
def Ident.shapePtr : Option Ident → Shape
  | none => .absent
  | some x => Ident.shape x
/-- The shapes of the elements of a list, in order. -/
def Ident.shapeList : List (Option Ident) → List Shape
  | [] => []
  | x :: xs => Ident.shapePtr x :: Ident.shapeList xs
/-- The shape of a slice. -/
def Ident.shapeSlice : Option (List (Option Ident)) → Shape
  | none => .nilSlice
  | some xs => .slice (Ident.shapeList xs)

/-- The shape of x. -/
def BasicLit.shape (_ : ast.BasicLit) : Shape :=
  .node "BasicLit" []
/-- The shape of a pointer to ast.BasicLit. -/
def BasicLit.shapePtr : Option BasicLit → Shape
  | none => .absent
  | some x => BasicLit.shape x

/-- The shape of x. -/
def BadExpr.shape (_ : ast.BadExpr) : Shape :=
  .node "BadExpr" []
/-- The shape of a pointer to ast.BadExpr. -/
def BadExpr.shapePtr : Option BadExpr → Shape
  | none => .absent
  | some x => BadExpr.shape x

/-- The shape of x. -/
def BadStmt.shape (_ : ast.BadStmt) : Shape :=
  .node "BadStmt" []
/-- The shape of a pointer to ast.BadStmt. -/
def BadStmt.shapePtr : Option BadStmt → Shape
  | none => .absent
  | some x => BadStmt.shape x

/-- The shape of x. -/
def EmptyStmt.shape (_ : ast.EmptyStmt) : Shape :=
  .node "EmptyStmt" []
/-- The shape of a pointer to ast.EmptyStmt. -/
def EmptyStmt.shapePtr : Option EmptyStmt → Shape
  | none => .absent
  | some x => EmptyStmt.shape x

/-- The shape of x. -/
def BranchStmt.shape (x : ast.BranchStmt) : Shape :=
  .node "BranchStmt" [Ident.shapePtr x.Label]
/-- The shape of a pointer to ast.BranchStmt. -/
def BranchStmt.shapePtr : Option BranchStmt → Shape
  | none => .absent
  | some x => BranchStmt.shape x

/-- The shape of x. -/
def ImportSpec.shape (x : ast.ImportSpec) : Shape :=
  .node "ImportSpec" [CommentGroup.shapePtr x.Doc, Ident.shapePtr x.Name, BasicLit.shapePtr x.Path, CommentGroup.shapePtr x.Comment]
/-- The shape of a pointer to ast.ImportSpec. -/
def ImportSpec.shapePtr : Option ImportSpec → Shape
  | none => .absent
  | some x => ImportSpec.shape x

/-- The shape of x. -/
def BadDecl.shape (_ : ast.BadDecl) : Shape :=
  .node "BadDecl" []
/-- The shape of a pointer to ast.BadDecl. -/
def BadDecl.shapePtr : Option BadDecl → Shape
  | none => .absent
  | some x => BadDecl.shape x

set_option maxHeartbeats 4000000 in
mutual
/-- The shape of x. -/
def Field.shape : ast.Field → Shape
  | .mk Doc Names Type_ Tag Comment => .node "Field" [CommentGroup.shapePtr Doc, Ident.shapeSlice Names, Expr.shape Type_, BasicLit.shapePtr Tag, CommentGroup.shapePtr Comment]
/-- The shape of a pointer to ast.Field. -/
def Field.shapePtr : Option Field → Shape
  | none => .absent
  | some x => Field.shape x
/-- The shapes of the elements of a list, in order. -/
def Field.shapeList : List (Option Field) → List Shape
  | [] => []
  | x :: xs => Field.shapePtr x :: Field.shapeList xs
/-- The shape of a slice. -/
def Field.shapeSlice : Option (List (Option Field)) → Shape
  | none => .nilSlice
  | some xs => .slice (Field.shapeList xs)
/-- The shape of x. -/
def FieldList.shape : ast.FieldList → Shape
  | .mk _ List_ _ => .node "FieldList" [Field.shapeSlice List_]
/-- The shape of a pointer to ast.FieldList. -/
def FieldList.shapePtr : Option FieldList → Shape
  | none => .absent
  | some x => FieldList.shape x
/-- The shape of x. -/
def FuncType.shape : ast.FuncType → Shape
  | .mk _ Params Results => .node "FuncType" [FieldList.shapePtr Params, FieldList.shapePtr Results]
/-- The shape of a pointer to ast.FuncType. -/
def FuncType.shapePtr : Option FuncType → Shape
  | none => .absent
  | some x => FuncType.shape x
/-- The shape of x. -/
def CallExpr.shape : ast.CallExpr → Shape
  | .mk Fun _ Args _ _ => .node "CallExpr" [Expr.shape Fun, Expr.shapeSlice Args]
/-- The shape of a pointer to ast.CallExpr. -/
def CallExpr.shapePtr : Option CallExpr → Shape
  | none => .absent
  | some x => CallExpr.shape x
/-- The shape of x. -/
def BlockStmt.shape : ast.BlockStmt → Shape
  | .mk _ List_ _ => .node "BlockStmt" [Stmt.shapeSlice List_]
/-- The shape of a pointer to ast.BlockStmt. -/
def BlockStmt.shapePtr : Option BlockStmt → Shape
  | none => .absent
  | some x => BlockStmt.shape x
/-- The shape of x; a value of a type outside the grammar is a node without children,
named by its type. -/
def ExprNode.shape : ast.ExprNode → Shape
  | .BadExpr x => BadExpr.shape x
  | .Ident x => Ident.shape x
  | .Ellipsis _ Elt => .node "Ellipsis" [Expr.shape Elt]
  | .BasicLit x => BasicLit.shape x
  | .FuncLit Type_ Body => .node "FuncLit" [FuncType.shapePtr Type_, BlockStmt.shapePtr Body]
  | .CompositeLit Type_ _ Elts _ _ => .node "CompositeLit" [Expr.shape Type_, Expr.shapeSlice Elts]
  | .ParenExpr _ X _ => .node "ParenExpr" [Expr.shape X]
  | .SelectorExpr X Sel => .node "SelectorExpr" [Expr.shape X, Ident.shapePtr Sel]
  | .IndexExpr X _ Index _ => .node "IndexExpr" [Expr.shape X, Expr.shape Index]
  | .SliceExpr X _ Low High Max _ _ => .node "SliceExpr" [Expr.shape X, Expr.shape Low, Expr.shape High, Expr.shape Max]
  | .TypeAssertExpr X _ Type_ _ => .node "TypeAssertExpr" [Expr.shape X, Expr.shape Type_]
  | .CallExpr x => CallExpr.shape x
  | .StarExpr _ X => .node "StarExpr" [Expr.shape X]
  | .UnaryExpr _ _ X => .node "UnaryExpr" [Expr.shape X]
  | .BinaryExpr X _ _ Y => .node "BinaryExpr" [Expr.shape X, Expr.shape Y]
  | .KeyValueExpr Key _ Value => .node "KeyValueExpr" [Expr.shape Key, Expr.shape Value]
  | .ArrayType _ Len Elt => .node "ArrayType" [Expr.shape Len, Expr.shape Elt]
  | .StructType _ Fields _ => .node "StructType" [FieldList.shapePtr Fields]
  | .FuncType x => FuncType.shape x
  | .InterfaceType _ Methods _ => .node "InterfaceType" [FieldList.shapePtr Methods]
  | .MapType _ Key Value => .node "MapType" [Expr.shape Key, Expr.shape Value]
  | .ChanType _ _ _ Value => .node "ChanType" [Expr.shape Value]
  | .other typ => .node typ []
/-- The shape of an ast.Expr interface value. -/
def Expr.shape : Option ExprNode → Shape
  | none => .absent
  | some x => ExprNode.shape x
/-- The shapes of the elements of a list, in order. -/
def Expr.shapeList : List (Option ExprNode) → List Shape
  | [] => []
  | x :: xs => Expr.shape x :: Expr.shapeList xs
/-- The shape of a slice. -/
def Expr.shapeSlice : Option (List (Option ExprNode)) → Shape
  | none => .nilSlice
  | some xs => .slice (Expr.shapeList xs)
/-- The shape of x; a value of a type outside the grammar is a node without children,
named by its type. -/
def StmtNode.shape : ast.StmtNode → Shape
  | .BadStmt x => BadStmt.shape x
  | .DeclStmt Decl => .node "DeclStmt" [Decl.shape Decl]
  | .EmptyStmt x => EmptyStmt.shape x
  | .LabeledStmt Label _ Stmt => .node "LabeledStmt" [Ident.shapePtr Label, Stmt.shape Stmt]
  | .ExprStmt X => .node "ExprStmt" [Expr.shape X]
  | .SendStmt Chan _ Value => .node "SendStmt" [Expr.shape Chan, Expr.shape Value]
  | .IncDecStmt X _ _ => .node "IncDecStmt" [Expr.shape X]
  | .AssignStmt Lhs _ _ Rhs => .node "AssignStmt" [Expr.shapeSlice Lhs, Expr.shapeSlice Rhs]
  | .GoStmt _ Call => .node "GoStmt" [CallExpr.shapePtr Call]
  | .DeferStmt _ Call => .node "DeferStmt" [CallExpr.shapePtr Call]
  | .ReturnStmt _ Results => .node "ReturnStmt" [Expr.shapeSlice Results]
  | .BranchStmt x => BranchStmt.shape x
  | .BlockStmt x => BlockStmt.shape x
  | .IfStmt _ Init Cond Body Else => .node "IfStmt" [Stmt.shape Init, Expr.shape Cond, BlockStmt.shapePtr Body, Stmt.shape Else]
  | .CaseClause _ List_ _ Body => .node "CaseClause" [Expr.shapeSlice List_, Stmt.shapeSlice Body]
  | .SwitchStmt _ Init Tag Body => .node "SwitchStmt" [Stmt.shape Init, Expr.shape Tag, BlockStmt.shapePtr Body]
  | .TypeSwitchStmt _ Init Assign Body => .node "TypeSwitchStmt" [Stmt.shape Init, Stmt.shape Assign, BlockStmt.shapePtr Body]
  | .CommClause _ Comm _ Body => .node "CommClause" [Stmt.shape Comm, Stmt.shapeSlice Body]
  | .SelectStmt _ Body => .node "SelectStmt" [BlockStmt.shapePtr Body]
  | .ForStmt _ Init Cond Post Body => .node "ForStmt" [Stmt.shape Init, Expr.shape Cond, Stmt.shape Post, BlockStmt.shapePtr Body]
  | .RangeStmt _ Key Value _ _ X Body => .node "RangeStmt" [Expr.shape Key, Expr.shape Value, Expr.shape X, BlockStmt.shapePtr Body]
  | .other typ => .node typ []
/-- The shape of an ast.Stmt interface value. -/
def Stmt.shape : Option StmtNode → Shape
  | none => .absent
  | some x => StmtNode.shape x
/-- The shapes of the elements of a list, in order. -/
def Stmt.shapeList : List (Option StmtNode) → List Shape
  | [] => []
  | x :: xs => Stmt.shape x :: Stmt.shapeList xs
/-- The shape of a slice. -/
def Stmt.shapeSlice : Option (List (Option StmtNode)) → Shape
  | none => .nilSlice
  | some xs => .slice (Stmt.shapeList xs)
/-- The shape of x; a value of a type outside the grammar is a node without children,
named by its type. -/
def SpecNode.shape : ast.SpecNode → Shape
  | .ImportSpec x => ImportSpec.shape x
  | .ValueSpec Doc Names Type_ Values Comment => .node "ValueSpec" [CommentGroup.shapePtr Doc, Ident.shapeSlice Names, Expr.shape Type_, Expr.shapeSlice Values, CommentGroup.shapePtr Comment]
  | .TypeSpec Doc Name _ Type_ Comment => .node "TypeSpec" [CommentGroup.shapePtr Doc, Ident.shapePtr Name, Expr.shape Type_, CommentGroup.shapePtr Comment]
  | .other typ => .node typ []
/-- The shape of an ast.Spec interface value. -/
def Spec.shape : Option SpecNode → Shape
  | none => .absent
  | some x => SpecNode.shape x
/-- The shapes of the elements of a list, in order. -/
def Spec.shapeList : List (Option SpecNode) → List Shape
  | [] => []
  | x :: xs => Spec.shape x :: Spec.shapeList xs
/-- The shape of a slice. -/
def Spec.shapeSlice : Option (List (Option SpecNode)) → Shape
  | none => .nilSlice
  | some xs => .slice (Spec.shapeList xs)
/-- The shape of x; a value of a type outside the grammar is a node without children,
named by its type. -/
def DeclNode.shape : ast.DeclNode → Shape
  | .BadDecl x => BadDecl.shape x
  | .GenDecl Doc _ _ _ Specs _ => .node "GenDecl" [CommentGroup.shapePtr Doc, Spec.shapeSlice Specs]
  | .FuncDecl Doc Recv Name Type_ Body => .node "FuncDecl" [CommentGroup.shapePtr Doc, FieldList.shapePtr Recv, Ident.shapePtr Name, FuncType.shapePtr Type_, BlockStmt.shapePtr Body]
  | .other typ => .node typ []
/-- The shape of an ast.Decl interface value. -/
def Decl.shape : Option DeclNode → Shape
  | none => .absent
  | some x => DeclNode.shape x
end

end ast

/-! ## Concrete trees -/

namespace sample

/-- The identifier `name` at position 7, as an expression. -/
def ident (name : String) : ast.Expr := some (.Ident { NamePos := 7, Name := name })

/-- The statement `for k := range xs {}`. -/
def rangeStmt : ast.RangeStmt :=
  { For := 10
    Key := some (.Ident { NamePos := 14, Name := "k" })
    Value := none
    TokPos := 16
    Tok := token.DEFINE
    X := some (.Ident { NamePos := 25, Name := "xs" })
    Body := some (.mk 28 (some []) 29) }

/-- The expression `f(x)[i]`. -/
def indexed : ast.ExprNode :=
  .IndexExpr (some (.CallExpr (.mk (ident "f") 2 (some [ident "x"]) token.NoPos 4))) 5 (ident "i") 7

/-- The declaration `var v = f(x)[i]`. -/
def varDecl : ast.DeclNode :=
  .GenDecl none 1 token.VAR token.NoPos
    (some [some (.ValueSpec none (some [some { NamePos := 5, Name := "v" }]) none
      (some [some indexed]) none)]) token.NoPos

/-- The statement `var v = f(x)[i]` inside a block. -/
def block : ast.StmtNode :=
  .BlockStmt (.mk 1 (some [some (.DeclStmt (some varDecl)), none]) 30)

/-- The import specification `import "fmt"`. -/
def importFmt : ast.SpecNode :=
  .ImportSpec { Doc := none, Name := none, Path := some { ValuePos := 8, Kind := token.STRING, Value := "\"fmt\"" }, Comment := none, EndPos := 13 }

/-- The field list `(a int)`. -/
def params : ast.FieldList :=
  .mk 1 (some [some (.mk none (some [some { NamePos := 2, Name := "a" }]) (ident "int") none none)]) 7

/-- The comment group made of the one comment `// doc`. -/
def doc : ast.CommentGroup := { List_ := some [some { Slash := 1, Text := "// doc" }] }

/-- The zero value `ast.File{}`: every field nil. -/
def emptyFile : ast.File :=
  { Doc := none, Package := token.NoPos, Name := none, Decls := none, Imports := none,
    Unresolved := none, Comments := none }

/-- A file `package p` with the declaration varDecl, positions set. -/
def file : ast.File :=
  { Doc := some doc, Package := 9, Name := some { NamePos := 17, Name := "p" },
    Decls := some [some varDecl], Imports := some [], Unresolved := none, Comments := some [some doc] }

/-- A package with the two files `a.go` and `b.go`. -/
def pkg : ast.Package :=
  { Name := "p", Files := some [("a.go", some file), ("b.go", some emptyFile)] }

end sample

namespace sample

/-- The field `a int`, with positions set. -/
def field : ast.Field :=
  .mk none (some [some { NamePos := 2, Name := "a" }]) (ident "int") none none

/-- A file set in which the position 100 * l + c is on line l, column c. -/
def fset (p : token.Pos) : token.Position := { Line := p / 100, Column := p % 100 }

/-- The declaration D1, from line 1 to line 3, with an identifier inside. -/
def d1 : ast.Tree String := .node "FuncDecl" 101 302 [.node "Ident" 106 107 []]

/-- The declaration D2, from line 5 to line 7, with an identifier inside. -/
def d2 : ast.Tree String := .node "FuncDecl" 501 702 [.node "Ident" 506 507 []]

/-- A file with the two declarations D1 and D2, in source order. -/
def twoDecls : mockgen.file String :=
  { astFile := .node "File" 101 702 [d1, d2], fset := fset }

/-- The same two declarations with D2 listed before D1: the start positions in pre-order are
not non-decreasing. -/
def shuffled : mockgen.file String :=
  { astFile := .node "File" 101 702 [d2, d1], fset := fset }

/-- The predicate "is a declaration". -/
def isDecl (n : ast.Tree String) : Bool := n.val == "FuncDecl"

/-- A type specification from line 2 to line 4, with an interface type inside. -/
def innerSpec : ast.Tree String := .node "TypeSpec" 203 405 [.node "InterfaceType" 208 405 []]

/-- A type specification from line 1 to line 5 that encloses innerSpec. -/
def outerSpec : ast.Tree String :=
  .node "TypeSpec" 101 502 [.node "StructType" 108 502 [innerSpec]]

/-- A file whose one declaration holds outerSpec. -/
def nested : mockgen.file String :=
  { astFile := .node "File" 101 502 [.node "GenDecl" 101 502 [outerSpec]], fset := fset }

/-- The predicate "is a type specification". -/
def isTypeSpec (n : ast.Tree String) : Bool := n.val == "TypeSpec"

/-- The field list `(a int, string, b, c bool, error)`, with positions set and a comment on the
first field. -/
def mixedParams : ast.FieldList :=
  .mk 1 (some [
    some (.mk (some doc) (some [some { NamePos := 2, Name := "a" }]) (ident "int")
      (some { ValuePos := 9, Kind := token.STRING, Value := "\"t\"" }) (some doc)),
    some (.mk none none (ident "string") none none),
    some (.mk none (some [some { NamePos := 20, Name := "b" }, some { NamePos := 23, Name := "c" }])
      (ident "bool") none none),
    some (.mk none (some []) (ident "error") none none)]) 40

end sample

/-! ## The statements proved by induction over the trees -/

namespace astcopy

/-- Whenever F returns y on x, every position that pos lists for y is token.NoPos. -/
abbrev ZeroPos {α β : Type} (F : α → Except String β) (pos : β → List token.Pos) (x : α) : Prop :=
  ∀ y, F x = .ok y → token.Zeros (pos y)

/-- Whenever F returns y on x, it returns y on y. -/
abbrev Fixed {α : Type} (F : α → Except String α) (x : α) : Prop :=
  ∀ y, F x = .ok y → F y = .ok y

/-- F returns on x when x passes the test g. -/
abbrev Returns {α β : Type} (F : α → Except String β) (g : α → Bool) (x : α) : Prop :=
  g x = true → ∃ y, F x = .ok y

/-- The property P of the list of a slice, when the slice is not nil. -/
abbrev OnSlice {α : Type} (P : List α → Prop) (l : Option (List α)) : Prop :=
  ∀ xs, l = some xs → P xs

end astcopy

namespace astcopy

/-- Whenever F returns y on x, y has the shape of x. -/
abbrev SameShape {α β : Type} (F : α → Except String α) (shp : α → β) (x : α) : Prop :=
  ∀ y, F x = .ok y → shp y = shp x

end astcopy

namespace astcopy

/-! ## Results of the `Except` monad -/

theorem bind_eq_ok {ε α β : Type} {x : Except ε α} {f : α → Except ε β} {b : β} :
    (x >>= f) = Except.ok b ↔ ∃ a, x = Except.ok a ∧ f a = Except.ok b := by
  cases x with
  | error e => simp [bind, Except.bind]
  | ok a => simp [bind, Except.bind]

theorem pure_eq_ok {ε α : Type} {a b : α} : (pure a : Except ε α) = Except.ok b ↔ b = a := by
  simp only [pure, Except.pure, Except.ok.injEq]
  exact eq_comm

theorem ok_bind {ε α β : Type} (a : α) (f : α → Except ε β) : (Except.ok a >>= f) = f a := rfl

theorem throw_ne_ok {ε α : Type} {e : ε} {a : α} : (throw e : Except ε α) ≠ Except.ok a := by
  intro h
  cases h

/-! ## Lists of zero positions -/

theorem zeros_nil : token.Zeros [] := by
  intro p hp
  cases hp

theorem zeros_single : token.Zeros [token.NoPos] := by
  intro p hp
  simpa using hp

theorem zeros_append (a b : List token.Pos) :
    token.Zeros (a ++ b) ↔ token.Zeros a ∧ token.Zeros b := by
  unfold token.Zeros
  constructor
  · intro h
    exact ⟨fun p hp => h p (List.mem_append.mpr (Or.inl hp)),
      fun p hp => h p (List.mem_append.mpr (Or.inr hp))⟩
  · rintro ⟨ha, hb⟩ p hp
    rcases List.mem_append.mp hp with h | h
    · exact ha p h
    · exact hb p h

end astcopy
namespace astcopy

/-! ## The leaf copy functions -/

theorem zeros_Ident_fresh (x : ast.Ident) : token.Zeros (ast.Ident.positions (Ident.fresh x)) :=
  zeros_single

theorem zeros_Ident (x : Option ast.Ident) : token.Zeros (ast.Ident.positionsPtr (Ident x)) := by
  cases x with
  | none => exact zeros_nil
  | some x => exact zeros_single

theorem zeros_Ident_map (xs : List (Option ast.Ident)) :
    token.Zeros (ast.Ident.positionsList (xs.map Ident)) := by
  induction xs with
  | nil => exact zeros_nil
  | cons x xs ih =>
    simp only [List.map_cons, ast.Ident.positionsList, zeros_append]
    exact ⟨zeros_Ident x, ih⟩

theorem zeros_IdentList (xs : Option (List (Option ast.Ident))) :
    token.Zeros (ast.Ident.positionsSlice (IdentList xs)) := by
  cases xs with
  | none => exact zeros_nil
  | some xs => exact zeros_Ident_map xs

theorem zeros_BasicLit_fresh (x : ast.BasicLit) :
    token.Zeros (ast.BasicLit.positions (BasicLit.fresh x)) :=
  zeros_single

theorem zeros_BasicLit (x : Option ast.BasicLit) :
    token.Zeros (ast.BasicLit.positionsPtr (BasicLit x)) := by
  cases x with
  | none => exact zeros_nil
  | some x => exact zeros_single

theorem zeros_Comment (x : Option ast.Comment) :
    token.Zeros (ast.Comment.positionsPtr (Comment x)) := by
  cases x with
  | none => exact zeros_nil
  | some x => exact zeros_single

theorem zeros_Comment_map (xs : List (Option ast.Comment)) :
    token.Zeros (ast.Comment.positionsList (xs.map Comment)) := by
  induction xs with
  | nil => exact zeros_nil
  | cons x xs ih =>
    simp only [List.map_cons, ast.Comment.positionsList, zeros_append]
    exact ⟨zeros_Comment x, ih⟩

theorem zeros_CommentGroup_fresh (x : ast.CommentGroup) :
    token.Zeros (ast.CommentGroup.positions (CommentGroup.fresh x)) := by
  obtain ⟨l⟩ := x
  cases l with
  | none => exact zeros_nil
  | some xs => exact zeros_Comment_map xs

theorem zeros_CommentGroup (x : Option ast.CommentGroup) :
    token.Zeros (ast.CommentGroup.positionsPtr (CommentGroup x)) := by
  cases x with
  | none => exact zeros_nil
  | some x => exact zeros_CommentGroup_fresh x

theorem zeros_CommentGroup_map (xs : List (Option ast.CommentGroup)) :
    token.Zeros (ast.CommentGroup.positionsList (xs.map CommentGroup)) := by
  induction xs with
  | nil => exact zeros_nil
  | cons x xs ih =>
    simp only [List.map_cons, ast.CommentGroup.positionsList, zeros_append]
    exact ⟨zeros_CommentGroup x, ih⟩

theorem zeros_BadExpr_fresh (x : ast.BadExpr) :
    token.Zeros (ast.BadExpr.positions (BadExpr.fresh x)) := by
  simp only [ast.BadExpr.positions, BadExpr.fresh, zeros_append, zeros_single, and_self]

theorem zeros_BadStmt_fresh (x : ast.BadStmt) :
    token.Zeros (ast.BadStmt.positions (BadStmt.fresh x)) := by
  simp only [ast.BadStmt.positions, BadStmt.fresh, zeros_append, zeros_single, and_self]

theorem zeros_BadDecl_fresh (x : ast.BadDecl) :
    token.Zeros (ast.BadDecl.positions (BadDecl.fresh x)) := by
  simp only [ast.BadDecl.positions, BadDecl.fresh, zeros_append, zeros_single, and_self]

theorem zeros_EmptyStmt_fresh (x : ast.EmptyStmt) :
    token.Zeros (ast.EmptyStmt.positions (EmptyStmt.fresh x)) :=
  zeros_single

theorem zeros_BranchStmt_fresh (x : ast.BranchStmt) :
    token.Zeros (ast.BranchStmt.positions (BranchStmt.fresh x)) := by
  simp only [ast.BranchStmt.positions, BranchStmt.fresh, zeros_append, zeros_single,
    zeros_Ident, and_self]

theorem zeros_ImportSpec_fresh (x : ast.ImportSpec) :
    token.Zeros (ast.ImportSpec.positions (ImportSpec.fresh x)) := by
  simp only [ast.ImportSpec.positions, ImportSpec.fresh, zeros_append, zeros_single,
    zeros_Ident, zeros_BasicLit, zeros_CommentGroup, and_self]

theorem zeros_ImportSpec (x : Option ast.ImportSpec) :
    token.Zeros (ast.ImportSpec.positionsPtr (ImportSpec x)) := by
  cases x with
  | none => exact zeros_nil
  | some x => exact zeros_ImportSpec_fresh x

theorem zeros_ImportSpec_map (xs : List (Option ast.ImportSpec)) :
    token.Zeros (ast.ImportSpec.positionsList (xs.map ImportSpec)) := by
  induction xs with
  | nil => exact zeros_nil
  | cons x xs ih =>
    simp only [List.map_cons, ast.ImportSpec.positionsList, zeros_append]
    exact ⟨zeros_ImportSpec x, ih⟩

theorem Ident_fresh_idem (x : ast.Ident) : Ident.fresh (Ident.fresh x) = Ident.fresh x := rfl

theorem Ident_idem (x : Option ast.Ident) : Ident (Ident x) = Ident x := by
  cases x <;> rfl

theorem Ident_map_idem (xs : List (Option ast.Ident)) :
    (xs.map Ident).map Ident = xs.map Ident := by
  rw [List.map_map]
  exact List.map_congr_left (fun x _ => Ident_idem x)

theorem IdentList_idem (xs : Option (List (Option ast.Ident))) :
    IdentList (IdentList xs) = IdentList xs := by
  cases xs with
  | none => rfl
  | some xs => exact congrArg some (Ident_map_idem xs)

theorem BasicLit_fresh_idem (x : ast.BasicLit) :
    BasicLit.fresh (BasicLit.fresh x) = BasicLit.fresh x := rfl

theorem BasicLit_idem (x : Option ast.BasicLit) : BasicLit (BasicLit x) = BasicLit x := by
  cases x <;> rfl

theorem Comment_idem (x : Option ast.Comment) : Comment (Comment x) = Comment x := by
  cases x <;> rfl

theorem CommentGroup_fresh_idem (x : ast.CommentGroup) :
    CommentGroup.fresh (CommentGroup.fresh x) = CommentGroup.fresh x := by
  obtain ⟨l⟩ := x
  cases l with
  | none => rfl
  | some xs =>
    have h : (xs.map Comment).map Comment = xs.map Comment := by
      rw [List.map_map]
      exact List.map_congr_left (fun x _ => Comment_idem x)
    show ({ List_ := some ((xs.map Comment).map Comment) } : ast.CommentGroup) = _
    rw [h]
    rfl

theorem CommentGroup_idem (x : Option ast.CommentGroup) :
    CommentGroup (CommentGroup x) = CommentGroup x := by
  cases x with
  | none => rfl
  | some x => exact congrArg some (CommentGroup_fresh_idem x)

theorem BadExpr_fresh_idem (x : ast.BadExpr) :
    BadExpr.fresh (BadExpr.fresh x) = BadExpr.fresh x := rfl

theorem BadStmt_fresh_idem (x : ast.BadStmt) :
    BadStmt.fresh (BadStmt.fresh x) = BadStmt.fresh x := rfl

theorem BadDecl_fresh_idem (x : ast.BadDecl) :
    BadDecl.fresh (BadDecl.fresh x) = BadDecl.fresh x := rfl

theorem EmptyStmt_fresh_idem (x : ast.EmptyStmt) :
    EmptyStmt.fresh (EmptyStmt.fresh x) = EmptyStmt.fresh x := rfl

theorem BranchStmt_fresh_idem (x : ast.BranchStmt) :
    BranchStmt.fresh (BranchStmt.fresh x) = BranchStmt.fresh x := by
  simp only [BranchStmt.fresh, Ident_idem]

theorem ImportSpec_fresh_idem (x : ast.ImportSpec) :
    ImportSpec.fresh (ImportSpec.fresh x) = ImportSpec.fresh x := by
  simp only [ImportSpec.fresh, Ident_idem, BasicLit_idem, CommentGroup_idem]

theorem ImportSpec_idem (x : Option ast.ImportSpec) :
    ImportSpec (ImportSpec x) = ImportSpec x := by
  cases x with
  | none => rfl
  | some x => exact congrArg some (ImportSpec_fresh_idem x)

end astcopy
namespace astcopy

/-! ## The copy has zero positions: one lemma for each constructor, then the recursor -/

theorem pos_Field_mk (xDoc : Option ast.CommentGroup) (xNames : Option (List (Option ast.Ident))) (xType : Option ast.ExprNode) (xTag : Option ast.BasicLit) (xComment : Option ast.CommentGroup)
    (iType : ZeroPos copyExpr ast.Expr.positions xType)
    : ZeroPos Field.fresh ast.Field.positions (.mk xDoc xNames xType xTag xComment) := by
  intro y h
  rw [Field.fresh] at h
  simp only [bind_eq_ok, pure_eq_ok] at h
  obtain ⟨cType, hcType, rfl⟩ := h
  have icType := iType cType hcType
  simp only [ast.Field.positions, zeros_nil, zeros_append, zeros_single, and_self, and_true, true_and, zeros_Ident, zeros_IdentList, zeros_BasicLit, zeros_CommentGroup, zeros_BadExpr_fresh, zeros_Ident_fresh, zeros_BasicLit_fresh, zeros_BadStmt_fresh, zeros_EmptyStmt_fresh, zeros_BranchStmt_fresh, zeros_ImportSpec_fresh, zeros_BadDecl_fresh, icType]

theorem pos_FieldList_mk (xOpening : token.Pos) (xList : Option (List (Option ast.Field))) (xClosing : token.Pos)
    (iList : OnSlice (ZeroPos FieldList.loop ast.Field.positionsList) xList)
    : ZeroPos FieldList.fresh ast.FieldList.positions (.mk xOpening xList xClosing) := by
  cases xList with
  | none =>
    intro y h
    rw [FieldList.fresh] at h
    simp only [bind_eq_ok, pure_eq_ok] at h
    obtain rfl := h
    simp only [ast.FieldList.positions, ast.Field.positionsSlice, zeros_nil, zeros_append, zeros_single, and_self]
  | some xs =>
    have iList := iList xs rfl
    intro y h
    rw [FieldList.fresh] at h
    simp only [bind_eq_ok, pure_eq_ok] at h
    obtain ⟨cp, hcp, rfl⟩ := h
    have icp := iList cp hcp
    simp only [ast.FieldList.positions, ast.Field.positionsSlice, zeros_nil, zeros_append, zeros_single, and_self, and_true, true_and, icp]

theorem pos_FuncType_mk (xFunc : token.Pos) (xParams : Option ast.FieldList) (xResults : Option ast.FieldList)
    (iParams : ZeroPos FieldList ast.FieldList.positionsPtr xParams)
    (iResults : ZeroPos FieldList ast.FieldList.positionsPtr xResults)
    : ZeroPos FuncType.fresh ast.FuncType.positions (.mk xFunc xParams xResults) := by
  intro y h
  rw [FuncType.fresh] at h
  simp only [bind_eq_ok, pure_eq_ok] at h
  obtain ⟨cParams, hcParams, cResults, hcResults, rfl⟩ := h
  have icParams := iParams cParams hcParams
  have icResults := iResults cResults hcResults
  simp only [ast.FuncType.positions, zeros_nil, zeros_append, zeros_single, and_self, and_true, true_and, zeros_Ident, zeros_IdentList, zeros_BasicLit, zeros_CommentGroup, zeros_BadExpr_fresh, zeros_Ident_fresh, zeros_BasicLit_fresh, zeros_BadStmt_fresh, zeros_EmptyStmt_fresh, zeros_BranchStmt_fresh, zeros_ImportSpec_fresh, zeros_BadDecl_fresh, icParams, icResults]

theorem pos_CallExpr_mk (xFun : Option ast.ExprNode) (xLparen : token.Pos) (xArgs : Option (List (Option ast.ExprNode))) (xEllipsis : token.Pos) (xRparen : token.Pos)
    (iFun : ZeroPos copyExpr ast.Expr.positions xFun)
    (iArgs : ZeroPos ExprList ast.Expr.positionsSlice xArgs)
    : ZeroPos CallExpr.fresh ast.CallExpr.positions (.mk xFun xLparen xArgs xEllipsis xRparen) := by
  intro y h
  rw [CallExpr.fresh] at h
  simp only [bind_eq_ok, pure_eq_ok] at h
  obtain ⟨cFun, hcFun, cArgs, hcArgs, rfl⟩ := h
  have icFun := iFun cFun hcFun
  have icArgs := iArgs cArgs hcArgs
  simp only [ast.CallExpr.positions, zeros_nil, zeros_append, zeros_single, and_self, and_true, true_and, zeros_Ident, zeros_IdentList, zeros_BasicLit, zeros_CommentGroup, zeros_BadExpr_fresh, zeros_Ident_fresh, zeros_BasicLit_fresh, zeros_BadStmt_fresh, zeros_EmptyStmt_fresh, zeros_BranchStmt_fresh, zeros_ImportSpec_fresh, zeros_BadDecl_fresh, icFun, icArgs]

theorem pos_BlockStmt_mk (xLbrace : token.Pos) (xList : Option (List (Option ast.StmtNode))) (xRbrace : token.Pos)
    (iList : ZeroPos StmtList ast.Stmt.positionsSlice xList)
    : ZeroPos BlockStmt.fresh ast.BlockStmt.positions (.mk xLbrace xList xRbrace) := by
  intro y h
  rw [BlockStmt.fresh] at h
  simp only [bind_eq_ok, pure_eq_ok] at h
  obtain ⟨cList, hcList, rfl⟩ := h
  have icList := iList cList hcList
  simp only [ast.BlockStmt.positions, zeros_nil, zeros_append, zeros_single, and_self, and_true, true_and, zeros_Ident, zeros_IdentList, zeros_BasicLit, zeros_CommentGroup, zeros_BadExpr_fresh, zeros_Ident_fresh, zeros_BasicLit_fresh, zeros_BadStmt_fresh, zeros_EmptyStmt_fresh, zeros_BranchStmt_fresh, zeros_ImportSpec_fresh, zeros_BadDecl_fresh, icList]

theorem pos_ExprNode_BadExpr (x : ast.BadExpr) : ZeroPos copyExpr ast.Expr.positions (some (.BadExpr x)) := by
  intro y h
  rw [copyExpr] at h
  simp only [bind_eq_ok, pure_eq_ok] at h
  obtain rfl := h
  simp only [ast.Expr.positions, ast.ExprNode.positions, zeros_nil, zeros_append, zeros_single, and_self, and_true, true_and, zeros_Ident, zeros_IdentList, zeros_BasicLit, zeros_CommentGroup, zeros_BadExpr_fresh, zeros_Ident_fresh, zeros_BasicLit_fresh, zeros_BadStmt_fresh, zeros_EmptyStmt_fresh, zeros_BranchStmt_fresh, zeros_ImportSpec_fresh, zeros_BadDecl_fresh]

theorem pos_ExprNode_Ident (x : ast.Ident) : ZeroPos copyExpr ast.Expr.positions (some (.Ident x)) := by
  intro y h
  rw [copyExpr] at h
  simp only [bind_eq_ok, pure_eq_ok] at h
  obtain rfl := h
  simp only [ast.Expr.positions, ast.ExprNode.positions, zeros_nil, zeros_append, zeros_single, and_self, and_true, true_and, zeros_Ident, zeros_IdentList, zeros_BasicLit, zeros_CommentGroup, zeros_BadExpr_fresh, zeros_Ident_fresh, zeros_BasicLit_fresh, zeros_BadStmt_fresh, zeros_EmptyStmt_fresh, zeros_BranchStmt_fresh, zeros_ImportSpec_fresh, zeros_BadDecl_fresh]

theorem pos_ExprNode_Ellipsis (xEllipsis : token.Pos) (xElt : Option ast.ExprNode)
    (iElt : ZeroPos copyExpr ast.Expr.positions xElt)
    : ZeroPos copyExpr ast.Expr.positions (some (.Ellipsis xEllipsis xElt)) := by
  intro y h
  rw [copyExpr] at h
  simp only [bind_eq_ok, pure_eq_ok] at h
  obtain ⟨cElt, hcElt, rfl⟩ := h
  have icElt := iElt cElt hcElt
  simp only [ast.Expr.positions, ast.ExprNode.positions, zeros_nil, zeros_append, zeros_single, and_self, and_true, true_and, zeros_Ident, zeros_IdentList, zeros_BasicLit, zeros_CommentGroup, zeros_BadExpr_fresh, zeros_Ident_fresh, zeros_BasicLit_fresh, zeros_BadStmt_fresh, zeros_EmptyStmt_fresh, zeros_BranchStmt_fresh, zeros_ImportSpec_fresh, zeros_BadDecl_fresh, icElt]

theorem pos_ExprNode_BasicLit (x : ast.BasicLit) : ZeroPos copyExpr ast.Expr.positions (some (.BasicLit x)) := by
  intro y h
  rw [copyExpr] at h
  simp only [bind_eq_ok, pure_eq_ok] at h
  obtain rfl := h
  simp only [ast.Expr.positions, ast.ExprNode.positions, zeros_nil, zeros_append, zeros_single, and_self, and_true, true_and, zeros_Ident, zeros_IdentList, zeros_BasicLit, zeros_CommentGroup, zeros_BadExpr_fresh, zeros_Ident_fresh, zeros_BasicLit_fresh, zeros_BadStmt_fresh, zeros_EmptyStmt_fresh, zeros_BranchStmt_fresh, zeros_ImportSpec_fresh, zeros_BadDecl_fresh]

theorem pos_ExprNode_FuncLit (xType : Option ast.FuncType) (xBody : Option ast.BlockStmt)
    (iType : ZeroPos FuncType ast.FuncType.positionsPtr xType)
    (iBody : ZeroPos BlockStmt ast.BlockStmt.positionsPtr xBody)
    : ZeroPos copyExpr ast.Expr.positions (some (.FuncLit xType xBody)) := by
  intro y h
  rw [copyExpr] at h
  simp only [bind_eq_ok, pure_eq_ok] at h
  obtain ⟨cType, hcType, cBody, hcBody, rfl⟩ := h
  have icType := iType cType hcType
  have icBody := iBody cBody hcBody
  simp only [ast.Expr.positions, ast.ExprNode.positions, zeros_nil, zeros_append, zeros_single, and_self, and_true, true_and, zeros_Ident, zeros_IdentList, zeros_BasicLit, zeros_CommentGroup, zeros_BadExpr_fresh, zeros_Ident_fresh, zeros_BasicLit_fresh, zeros_BadStmt_fresh, zeros_EmptyStmt_fresh, zeros_BranchStmt_fresh, zeros_ImportSpec_fresh, zeros_BadDecl_fresh, icType, icBody]

theorem pos_ExprNode_CompositeLit (xType : Option ast.ExprNode) (xLbrace : token.Pos) (xElts : Option (List (Option ast.ExprNode))) (xRbrace : token.Pos) (xIncomplete : Bool)
    (iType : ZeroPos copyExpr ast.Expr.positions xType)
    (iElts : ZeroPos ExprList ast.Expr.positionsSlice xElts)
    : ZeroPos copyExpr ast.Expr.positions (some (.CompositeLit xType xLbrace xElts xRbrace xIncomplete)) := by
  intro y h
  rw [copyExpr] at h
  simp only [bind_eq_ok, pure_eq_ok] at h
  obtain ⟨cType, hcType, cElts, hcElts, rfl⟩ := h
  have icType := iType cType hcType
  have icElts := iElts cElts hcElts
  simp only [ast.Expr.positions, ast.ExprNode.positions, zeros_nil, zeros_append, zeros_single, and_self, and_true, true_and, zeros_Ident, zeros_IdentList, zeros_BasicLit, zeros_CommentGroup, zeros_BadExpr_fresh, zeros_Ident_fresh, zeros_BasicLit_fresh, zeros_BadStmt_fresh, zeros_EmptyStmt_fresh, zeros_BranchStmt_fresh, zeros_ImportSpec_fresh, zeros_BadDecl_fresh, icType, icElts]

theorem pos_ExprNode_ParenExpr (xLparen : token.Pos) (xX : Option ast.ExprNode) (xRparen : token.Pos)
    (iX : ZeroPos copyExpr ast.Expr.positions xX)
    : ZeroPos copyExpr ast.Expr.positions (some (.ParenExpr xLparen xX xRparen)) := by
  intro y h
  rw [copyExpr] at h
  simp only [bind_eq_ok, pure_eq_ok] at h
  obtain ⟨cX, hcX, rfl⟩ := h
  have icX := iX cX hcX
  simp only [ast.Expr.positions, ast.ExprNode.positions, zeros_nil, zeros_append, zeros_single, and_self, and_true, true_and, zeros_Ident, zeros_IdentList, zeros_BasicLit, zeros_CommentGroup, zeros_BadExpr_fresh, zeros_Ident_fresh, zeros_BasicLit_fresh, zeros_BadStmt_fresh, zeros_EmptyStmt_fresh, zeros_BranchStmt_fresh, zeros_ImportSpec_fresh, zeros_BadDecl_fresh, icX]

theorem pos_ExprNode_SelectorExpr (xX : Option ast.ExprNode) (xSel : Option ast.Ident)
    (iX : ZeroPos copyExpr ast.Expr.positions xX)
    : ZeroPos copyExpr ast.Expr.positions (some (.SelectorExpr xX xSel)) := by
  intro y h
  rw [copyExpr] at h
  simp only [bind_eq_ok, pure_eq_ok] at h
  obtain ⟨cX, hcX, rfl⟩ := h
  have icX := iX cX hcX
  simp only [ast.Expr.positions, ast.ExprNode.positions, zeros_nil, zeros_append, zeros_single, and_self, and_true, true_and, zeros_Ident, zeros_IdentList, zeros_BasicLit, zeros_CommentGroup, zeros_BadExpr_fresh, zeros_Ident_fresh, zeros_BasicLit_fresh, zeros_BadStmt_fresh, zeros_EmptyStmt_fresh, zeros_BranchStmt_fresh, zeros_ImportSpec_fresh, zeros_BadDecl_fresh, icX]

theorem pos_ExprNode_IndexExpr (xX : Option ast.ExprNode) (xLbrack : token.Pos) (xIndex : Option ast.ExprNode) (xRbrack : token.Pos)
    (iX : ZeroPos copyExpr ast.Expr.positions xX)
    (iIndex : ZeroPos copyExpr ast.Expr.positions xIndex)
    : ZeroPos copyExpr ast.Expr.positions (some (.IndexExpr xX xLbrack xIndex xRbrack)) := by
  intro y h
  rw [copyExpr] at h
  simp only [bind_eq_ok, pure_eq_ok] at h
  obtain ⟨cX, hcX, cIndex, hcIndex, rfl⟩ := h
  have icX := iX cX hcX
  have icIndex := iIndex cIndex hcIndex
  simp only [ast.Expr.positions, ast.ExprNode.positions, zeros_nil, zeros_append, zeros_single, and_self, and_true, true_and, zeros_Ident, zeros_IdentList, zeros_BasicLit, zeros_CommentGroup, zeros_BadExpr_fresh, zeros_Ident_fresh, zeros_BasicLit_fresh, zeros_BadStmt_fresh, zeros_EmptyStmt_fresh, zeros_BranchStmt_fresh, zeros_ImportSpec_fresh, zeros_BadDecl_fresh, icX, icIndex]

theorem pos_ExprNode_SliceExpr (xX : Option ast.ExprNode) (xLbrack : token.Pos) (xLow : Option ast.ExprNode) (xHigh : Option ast.ExprNode) (xMax : Option ast.ExprNode) (xSlice3 : Bool) (xRbrack : token.Pos)
    (iX : ZeroPos copyExpr ast.Expr.positions xX)
    (iLow : ZeroPos copyExpr ast.Expr.positions xLow)
    (iHigh : ZeroPos copyExpr ast.Expr.positions xHigh)
    (iMax : ZeroPos copyExpr ast.Expr.positions xMax)
    : ZeroPos copyExpr ast.Expr.positions (some (.SliceExpr xX xLbrack xLow xHigh xMax xSlice3 xRbrack)) := by
  intro y h
  rw [copyExpr] at h
  simp only [bind_eq_ok, pure_eq_ok] at h
  obtain ⟨cX, hcX, cLow, hcLow, cHigh, hcHigh, cMax, hcMax, rfl⟩ := h
  have icX := iX cX hcX
  have icLow := iLow cLow hcLow
  have icHigh := iHigh cHigh hcHigh
  have icMax := iMax cMax hcMax
  simp only [ast.Expr.positions, ast.ExprNode.positions, zeros_nil, zeros_append, zeros_single, and_self, and_true, true_and, zeros_Ident, zeros_IdentList, zeros_BasicLit, zeros_CommentGroup, zeros_BadExpr_fresh, zeros_Ident_fresh, zeros_BasicLit_fresh, zeros_BadStmt_fresh, zeros_EmptyStmt_fresh, zeros_BranchStmt_fresh, zeros_ImportSpec_fresh, zeros_BadDecl_fresh, icX, icLow, icHigh, icMax]

theorem pos_ExprNode_TypeAssertExpr (xX : Option ast.ExprNode) (xLparen : token.Pos) (xType : Option ast.ExprNode) (xRparen : token.Pos)
    (iX : ZeroPos copyExpr ast.Expr.positions xX)
    (iType : ZeroPos copyExpr ast.Expr.positions xType)
    : ZeroPos copyExpr ast.Expr.positions (some (.TypeAssertExpr xX xLparen xType xRparen)) := by
  intro y h
  rw [copyExpr] at h
  simp only [bind_eq_ok, pure_eq_ok] at h
  obtain ⟨cX, hcX, cType, hcType, rfl⟩ := h
  have icX := iX cX hcX
  have icType := iType cType hcType
  simp only [ast.Expr.positions, ast.ExprNode.positions, zeros_nil, zeros_append, zeros_single, and_self, and_true, true_and, zeros_Ident, zeros_IdentList, zeros_BasicLit, zeros_CommentGroup, zeros_BadExpr_fresh, zeros_Ident_fresh, zeros_BasicLit_fresh, zeros_BadStmt_fresh, zeros_EmptyStmt_fresh, zeros_BranchStmt_fresh, zeros_ImportSpec_fresh, zeros_BadDecl_fresh, icX, icType]

theorem pos_ExprNode_CallExpr (x : ast.CallExpr) (ix : ZeroPos CallExpr.fresh ast.CallExpr.positions x) :
    ZeroPos copyExpr ast.Expr.positions (some (.CallExpr x)) := by
  intro y h
  rw [copyExpr] at h
  simp only [bind_eq_ok, pure_eq_ok] at h
  obtain ⟨c, hc, rfl⟩ := h
  have ic := ix c hc
  simp only [ast.Expr.positions, ast.ExprNode.positions, zeros_nil, zeros_append, zeros_single, and_self, and_true, true_and, zeros_Ident, zeros_IdentList, zeros_BasicLit, zeros_CommentGroup, zeros_BadExpr_fresh, zeros_Ident_fresh, zeros_BasicLit_fresh, zeros_BadStmt_fresh, zeros_EmptyStmt_fresh, zeros_BranchStmt_fresh, zeros_ImportSpec_fresh, zeros_BadDecl_fresh, ic]

theorem pos_ExprNode_StarExpr (xStar : token.Pos) (xX : Option ast.ExprNode)
    (iX : ZeroPos copyExpr ast.Expr.positions xX)
    : ZeroPos copyExpr ast.Expr.positions (some (.StarExpr xStar xX)) := by
  intro y h
  rw [copyExpr] at h
  simp only [bind_eq_ok, pure_eq_ok] at h
  obtain ⟨cX, hcX, rfl⟩ := h
  have icX := iX cX hcX
  simp only [ast.Expr.positions, ast.ExprNode.positions, zeros_nil, zeros_append, zeros_single, and_self, and_true, true_and, zeros_Ident, zeros_IdentList, zeros_BasicLit, zeros_CommentGroup, zeros_BadExpr_fresh, zeros_Ident_fresh, zeros_BasicLit_fresh, zeros_BadStmt_fresh, zeros_EmptyStmt_fresh, zeros_BranchStmt_fresh, zeros_ImportSpec_fresh, zeros_BadDecl_fresh, icX]

theorem pos_ExprNode_UnaryExpr (xOpPos : token.Pos) (xOp : token.Token) (xX : Option ast.ExprNode)
    (iX : ZeroPos copyExpr ast.Expr.positions xX)
    : ZeroPos copyExpr ast.Expr.positions (some (.UnaryExpr xOpPos xOp xX)) := by
  intro y h
  rw [copyExpr] at h
  simp only [bind_eq_ok, pure_eq_ok] at h
  obtain ⟨cX, hcX, rfl⟩ := h
  have icX := iX cX hcX
  simp only [ast.Expr.positions, ast.ExprNode.positions, zeros_nil, zeros_append, zeros_single, and_self, and_true, true_and, zeros_Ident, zeros_IdentList, zeros_BasicLit, zeros_CommentGroup, zeros_BadExpr_fresh, zeros_Ident_fresh, zeros_BasicLit_fresh, zeros_BadStmt_fresh, zeros_EmptyStmt_fresh, zeros_BranchStmt_fresh, zeros_ImportSpec_fresh, zeros_BadDecl_fresh, icX]

theorem pos_ExprNode_BinaryExpr (xX : Option ast.ExprNode) (xOpPos : token.Pos) (xOp : token.Token) (xY : Option ast.ExprNode)
    (iX : ZeroPos copyExpr ast.Expr.positions xX)
    (iY : ZeroPos copyExpr ast.Expr.positions xY)
    : ZeroPos copyExpr ast.Expr.positions (some (.BinaryExpr xX xOpPos xOp xY)) := by
  intro y h
  rw [copyExpr] at h
  simp only [bind_eq_ok, pure_eq_ok] at h
  obtain ⟨cX, hcX, cY, hcY, rfl⟩ := h
  have icX := iX cX hcX
  have icY := iY cY hcY
  simp only [ast.Expr.positions, ast.ExprNode.positions, zeros_nil, zeros_append, zeros_single, and_self, and_true, true_and, zeros_Ident, zeros_IdentList, zeros_BasicLit, zeros_CommentGroup, zeros_BadExpr_fresh, zeros_Ident_fresh, zeros_BasicLit_fresh, zeros_BadStmt_fresh, zeros_EmptyStmt_fresh, zeros_BranchStmt_fresh, zeros_ImportSpec_fresh, zeros_BadDecl_fresh, icX, icY]

theorem pos_ExprNode_KeyValueExpr (xKey : Option ast.ExprNode) (xColon : token.Pos) (xValue : Option ast.ExprNode)
    (iKey : ZeroPos copyExpr ast.Expr.positions xKey)
    (iValue : ZeroPos copyExpr ast.Expr.positions xValue)
    : ZeroPos copyExpr ast.Expr.positions (some (.KeyValueExpr xKey xColon xValue)) := by
  intro y h
  rw [copyExpr] at h
  simp only [bind_eq_ok, pure_eq_ok] at h
  obtain ⟨cKey, hcKey, cValue, hcValue, rfl⟩ := h
  have icKey := iKey cKey hcKey
  have icValue := iValue cValue hcValue
  simp only [ast.Expr.positions, ast.ExprNode.positions, zeros_nil, zeros_append, zeros_single, and_self, and_true, true_and, zeros_Ident, zeros_IdentList, zeros_BasicLit, zeros_CommentGroup, zeros_BadExpr_fresh, zeros_Ident_fresh, zeros_BasicLit_fresh, zeros_BadStmt_fresh, zeros_EmptyStmt_fresh, zeros_BranchStmt_fresh, zeros_ImportSpec_fresh, zeros_BadDecl_fresh, icKey, icValue]

theorem pos_ExprNode_ArrayType (xLbrack : token.Pos) (xLen : Option ast.ExprNode) (xElt : Option ast.ExprNode)
    (iLen : ZeroPos copyExpr ast.Expr.positions xLen)
    (iElt : ZeroPos copyExpr ast.Expr.positions xElt)
    : ZeroPos copyExpr ast.Expr.positions (some (.ArrayType xLbrack xLen xElt)) := by
  intro y h
  rw [copyExpr] at h
  simp only [bind_eq_ok, pure_eq_ok] at h
  obtain ⟨cLen, hcLen, cElt, hcElt, rfl⟩ := h
  have icLen := iLen cLen hcLen
  have icElt := iElt cElt hcElt
  simp only [ast.Expr.positions, ast.ExprNode.positions, zeros_nil, zeros_append, zeros_single, and_self, and_true, true_and, zeros_Ident, zeros_IdentList, zeros_BasicLit, zeros_CommentGroup, zeros_BadExpr_fresh, zeros_Ident_fresh, zeros_BasicLit_fresh, zeros_BadStmt_fresh, zeros_EmptyStmt_fresh, zeros_BranchStmt_fresh, zeros_ImportSpec_fresh, zeros_BadDecl_fresh, icLen, icElt]

theorem pos_ExprNode_StructType (xStruct : token.Pos) (xFields : Option ast.FieldList) (xIncomplete : Bool)
    (iFields : ZeroPos FieldList ast.FieldList.positionsPtr xFields)
    : ZeroPos copyExpr ast.Expr.positions (some (.StructType xStruct xFields xIncomplete)) := by
  intro y h
  rw [copyExpr] at h
  simp only [bind_eq_ok, pure_eq_ok] at h
  obtain ⟨cFields, hcFields, rfl⟩ := h
  have icFields := iFields cFields hcFields
  simp only [ast.Expr.positions, ast.ExprNode.positions, zeros_nil, zeros_append, zeros_single, and_self, and_true, true_and, zeros_Ident, zeros_IdentList, zeros_BasicLit, zeros_CommentGroup, zeros_BadExpr_fresh, zeros_Ident_fresh, zeros_BasicLit_fresh, zeros_BadStmt_fresh, zeros_EmptyStmt_fresh, zeros_BranchStmt_fresh, zeros_ImportSpec_fresh, zeros_BadDecl_fresh, icFields]

theorem pos_ExprNode_FuncType (x : ast.FuncType) (ix : ZeroPos FuncType.fresh ast.FuncType.positions x) :
    ZeroPos copyExpr ast.Expr.positions (some (.FuncType x)) := by
  intro y h
  rw [copyExpr] at h
  simp only [bind_eq_ok, pure_eq_ok] at h
  obtain ⟨c, hc, rfl⟩ := h
  have ic := ix c hc
  simp only [ast.Expr.positions, ast.ExprNode.positions, zeros_nil, zeros_append, zeros_single, and_self, and_true, true_and, zeros_Ident, zeros_IdentList, zeros_BasicLit, zeros_CommentGroup, zeros_BadExpr_fresh, zeros_Ident_fresh, zeros_BasicLit_fresh, zeros_BadStmt_fresh, zeros_EmptyStmt_fresh, zeros_BranchStmt_fresh, zeros_ImportSpec_fresh, zeros_BadDecl_fresh, ic]

theorem pos_ExprNode_InterfaceType (xInterface : token.Pos) (xMethods : Option ast.FieldList) (xIncomplete : Bool)
    (iMethods : ZeroPos FieldList ast.FieldList.positionsPtr xMethods)
    : ZeroPos copyExpr ast.Expr.positions (some (.InterfaceType xInterface xMethods xIncomplete)) := by
  intro y h
  rw [copyExpr] at h
  simp only [bind_eq_ok, pure_eq_ok] at h
  obtain ⟨cMethods, hcMethods, rfl⟩ := h
  have icMethods := iMethods cMethods hcMethods
  simp only [ast.Expr.positions, ast.ExprNode.positions, zeros_nil, zeros_append, zeros_single, and_self, and_true, true_and, zeros_Ident, zeros_IdentList, zeros_BasicLit, zeros_CommentGroup, zeros_BadExpr_fresh, zeros_Ident_fresh, zeros_BasicLit_fresh, zeros_BadStmt_fresh, zeros_EmptyStmt_fresh, zeros_BranchStmt_fresh, zeros_ImportSpec_fresh, zeros_BadDecl_fresh, icMethods]

theorem pos_ExprNode_MapType (xMap : token.Pos) (xKey : Option ast.ExprNode) (xValue : Option ast.ExprNode)
    (iKey : ZeroPos copyExpr ast.Expr.positions xKey)
    (iValue : ZeroPos copyExpr ast.Expr.positions xValue)
    : ZeroPos copyExpr ast.Expr.positions (some (.MapType xMap xKey xValue)) := by
  intro y h
  rw [copyExpr] at h
  simp only [bind_eq_ok, pure_eq_ok] at h
  obtain ⟨cKey, hcKey, cValue, hcValue, rfl⟩ := h
  have icKey := iKey cKey hcKey
  have icValue := iValue cValue hcValue
  simp only [ast.Expr.positions, ast.ExprNode.positions, zeros_nil, zeros_append, zeros_single, and_self, and_true, true_and, zeros_Ident, zeros_IdentList, zeros_BasicLit, zeros_CommentGroup, zeros_BadExpr_fresh, zeros_Ident_fresh, zeros_BasicLit_fresh, zeros_BadStmt_fresh, zeros_EmptyStmt_fresh, zeros_BranchStmt_fresh, zeros_ImportSpec_fresh, zeros_BadDecl_fresh, icKey, icValue]

theorem pos_ExprNode_ChanType (xBegin : token.Pos) (xArrow : token.Pos) (xDir : ast.ChanDir) (xValue : Option ast.ExprNode)
    (iValue : ZeroPos copyExpr ast.Expr.positions xValue)
    : ZeroPos copyExpr ast.Expr.positions (some (.ChanType xBegin xArrow xDir xValue)) := by
  intro y h
  rw [copyExpr] at h
  simp only [bind_eq_ok, pure_eq_ok] at h
  obtain ⟨cValue, hcValue, rfl⟩ := h
  have icValue := iValue cValue hcValue
  simp only [ast.Expr.positions, ast.ExprNode.positions, zeros_nil, zeros_append, zeros_single, and_self, and_true, true_and, zeros_Ident, zeros_IdentList, zeros_BasicLit, zeros_CommentGroup, zeros_BadExpr_fresh, zeros_Ident_fresh, zeros_BasicLit_fresh, zeros_BadStmt_fresh, zeros_EmptyStmt_fresh, zeros_BranchStmt_fresh, zeros_ImportSpec_fresh, zeros_BadDecl_fresh, icValue]

theorem pos_ExprNode_other (typ : String) : ZeroPos copyExpr ast.Expr.positions (some (.other typ)) := by
  intro y h
  exact absurd h (by rw [copyExpr]; exact throw_ne_ok)

theorem pos_StmtNode_BadStmt (x : ast.BadStmt) : ZeroPos copyStmt ast.Stmt.positions (some (.BadStmt x)) := by
  intro y h
  rw [copyStmt] at h
  simp only [bind_eq_ok, pure_eq_ok] at h
  obtain rfl := h
  simp only [ast.Stmt.positions, ast.StmtNode.positions, zeros_nil, zeros_append, zeros_single, and_self, and_true, true_and, zeros_Ident, zeros_IdentList, zeros_BasicLit, zeros_CommentGroup, zeros_BadExpr_fresh, zeros_Ident_fresh, zeros_BasicLit_fresh, zeros_BadStmt_fresh, zeros_EmptyStmt_fresh, zeros_BranchStmt_fresh, zeros_ImportSpec_fresh, zeros_BadDecl_fresh]

theorem pos_StmtNode_DeclStmt (xDecl : Option ast.DeclNode)
    (iDecl : ZeroPos copyDecl ast.Decl.positions xDecl)
    : ZeroPos copyStmt ast.Stmt.positions (some (.DeclStmt xDecl)) := by
  intro y h
  rw [copyStmt] at h
  simp only [bind_eq_ok, pure_eq_ok] at h
  obtain ⟨cDecl, hcDecl, rfl⟩ := h
  have icDecl := iDecl cDecl hcDecl
  simp only [ast.Stmt.positions, ast.StmtNode.positions, zeros_nil, zeros_append, zeros_single, and_self, and_true, true_and, zeros_Ident, zeros_IdentList, zeros_BasicLit, zeros_CommentGroup, zeros_BadExpr_fresh, zeros_Ident_fresh, zeros_BasicLit_fresh, zeros_BadStmt_fresh, zeros_EmptyStmt_fresh, zeros_BranchStmt_fresh, zeros_ImportSpec_fresh, zeros_BadDecl_fresh, icDecl]

theorem pos_StmtNode_EmptyStmt (x : ast.EmptyStmt) : ZeroPos copyStmt ast.Stmt.positions (some (.EmptyStmt x)) := by
  intro y h
  rw [copyStmt] at h
  simp only [bind_eq_ok, pure_eq_ok] at h
  obtain rfl := h
  simp only [ast.Stmt.positions, ast.StmtNode.positions, zeros_nil, zeros_append, zeros_single, and_self, and_true, true_and, zeros_Ident, zeros_IdentList, zeros_BasicLit, zeros_CommentGroup, zeros_BadExpr_fresh, zeros_Ident_fresh, zeros_BasicLit_fresh, zeros_BadStmt_fresh, zeros_EmptyStmt_fresh, zeros_BranchStmt_fresh, zeros_ImportSpec_fresh, zeros_BadDecl_fresh]

theorem pos_StmtNode_LabeledStmt (xLabel : Option ast.Ident) (xColon : token.Pos) (xStmt : Option ast.StmtNode)
    (iStmt : ZeroPos copyStmt ast.Stmt.positions xStmt)
    : ZeroPos copyStmt ast.Stmt.positions (some (.LabeledStmt xLabel xColon xStmt)) := by
  intro y h
  rw [copyStmt] at h
  simp only [bind_eq_ok, pure_eq_ok] at h
  obtain ⟨cStmt, hcStmt, rfl⟩ := h
  have icStmt := iStmt cStmt hcStmt
  simp only [ast.Stmt.positions, ast.StmtNode.positions, zeros_nil, zeros_append, zeros_single, and_self, and_true, true_and, zeros_Ident, zeros_IdentList, zeros_BasicLit, zeros_CommentGroup, zeros_BadExpr_fresh, zeros_Ident_fresh, zeros_BasicLit_fresh, zeros_BadStmt_fresh, zeros_EmptyStmt_fresh, zeros_BranchStmt_fresh, zeros_ImportSpec_fresh, zeros_BadDecl_fresh, icStmt]

theorem pos_StmtNode_ExprStmt (xX : Option ast.ExprNode)
    (iX : ZeroPos copyExpr ast.Expr.positions xX)
    : ZeroPos copyStmt ast.Stmt.positions (some (.ExprStmt xX)) := by
  intro y h
  rw [copyStmt] at h
  simp only [bind_eq_ok, pure_eq_ok] at h
  obtain ⟨cX, hcX, rfl⟩ := h
  have icX := iX cX hcX
  simp only [ast.Stmt.positions, ast.StmtNode.positions, zeros_nil, zeros_append, zeros_single, and_self, and_true, true_and, zeros_Ident, zeros_IdentList, zeros_BasicLit, zeros_CommentGroup, zeros_BadExpr_fresh, zeros_Ident_fresh, zeros_BasicLit_fresh, zeros_BadStmt_fresh, zeros_EmptyStmt_fresh, zeros_BranchStmt_fresh, zeros_ImportSpec_fresh, zeros_BadDecl_fresh, icX]

theorem pos_StmtNode_SendStmt (xChan : Option ast.ExprNode) (xArrow : token.Pos) (xValue : Option ast.ExprNode)
    (iChan : ZeroPos copyExpr ast.Expr.positions xChan)
    (iValue : ZeroPos copyExpr ast.Expr.positions xValue)
    : ZeroPos copyStmt ast.Stmt.positions (some (.SendStmt xChan xArrow xValue)) := by
  intro y h
  rw [copyStmt] at h
  simp only [bind_eq_ok, pure_eq_ok] at h
  obtain ⟨cChan, hcChan, cValue, hcValue, rfl⟩ := h
  have icChan := iChan cChan hcChan
  have icValue := iValue cValue hcValue
  simp only [ast.Stmt.positions, ast.StmtNode.positions, zeros_nil, zeros_append, zeros_single, and_self, and_true, true_and, zeros_Ident, zeros_IdentList, zeros_BasicLit, zeros_CommentGroup, zeros_BadExpr_fresh, zeros_Ident_fresh, zeros_BasicLit_fresh, zeros_BadStmt_fresh, zeros_EmptyStmt_fresh, zeros_BranchStmt_fresh, zeros_ImportSpec_fresh, zeros_BadDecl_fresh, icChan, icValue]

theorem pos_StmtNode_IncDecStmt (xX : Option ast.ExprNode) (xTokPos : token.Pos) (xTok : token.Token)
    (iX : ZeroPos copyExpr ast.Expr.positions xX)
    : ZeroPos copyStmt ast.Stmt.positions (some (.IncDecStmt xX xTokPos xTok)) := by
  intro y h
  rw [copyStmt] at h
  simp only [bind_eq_ok, pure_eq_ok] at h
  obtain ⟨cX, hcX, rfl⟩ := h
  have icX := iX cX hcX
  simp only [ast.Stmt.positions, ast.StmtNode.positions, zeros_nil, zeros_append, zeros_single, and_self, and_true, true_and, zeros_Ident, zeros_IdentList, zeros_BasicLit, zeros_CommentGroup, zeros_BadExpr_fresh, zeros_Ident_fresh, zeros_BasicLit_fresh, zeros_BadStmt_fresh, zeros_EmptyStmt_fresh, zeros_BranchStmt_fresh, zeros_ImportSpec_fresh, zeros_BadDecl_fresh, icX]

theorem pos_StmtNode_AssignStmt (xLhs : Option (List (Option ast.ExprNode))) (xTokPos : token.Pos) (xTok : token.Token) (xRhs : Option (List (Option ast.ExprNode)))
    (iLhs : ZeroPos ExprList ast.Expr.positionsSlice xLhs)
    (iRhs : ZeroPos ExprList ast.Expr.positionsSlice xRhs)
    : ZeroPos copyStmt ast.Stmt.positions (some (.AssignStmt xLhs xTokPos xTok xRhs)) := by
  intro y h
  rw [copyStmt] at h
  simp only [bind_eq_ok, pure_eq_ok] at h
  obtain ⟨cLhs, hcLhs, cRhs, hcRhs, rfl⟩ := h
  have icLhs := iLhs cLhs hcLhs
  have icRhs := iRhs cRhs hcRhs
  simp only [ast.Stmt.positions, ast.StmtNode.positions, zeros_nil, zeros_append, zeros_single, and_self, and_true, true_and, zeros_Ident, zeros_IdentList, zeros_BasicLit, zeros_CommentGroup, zeros_BadExpr_fresh, zeros_Ident_fresh, zeros_BasicLit_fresh, zeros_BadStmt_fresh, zeros_EmptyStmt_fresh, zeros_BranchStmt_fresh, zeros_ImportSpec_fresh, zeros_BadDecl_fresh, icLhs, icRhs]

theorem pos_StmtNode_GoStmt (xGo : token.Pos) (xCall : Option ast.CallExpr)
    (iCall : ZeroPos CallExpr ast.CallExpr.positionsPtr xCall)
    : ZeroPos copyStmt ast.Stmt.positions (some (.GoStmt xGo xCall)) := by
  intro y h
  rw [copyStmt] at h
  simp only [bind_eq_ok, pure_eq_ok] at h
  obtain ⟨cCall, hcCall, rfl⟩ := h
  have icCall := iCall cCall hcCall
  simp only [ast.Stmt.positions, ast.StmtNode.positions, zeros_nil, zeros_append, zeros_single, and_self, and_true, true_and, zeros_Ident, zeros_IdentList, zeros_BasicLit, zeros_CommentGroup, zeros_BadExpr_fresh, zeros_Ident_fresh, zeros_BasicLit_fresh, zeros_BadStmt_fresh, zeros_EmptyStmt_fresh, zeros_BranchStmt_fresh, zeros_ImportSpec_fresh, zeros_BadDecl_fresh, icCall]

theorem pos_StmtNode_DeferStmt (xDefer : token.Pos) (xCall : Option ast.CallExpr)
    (iCall : ZeroPos CallExpr ast.CallExpr.positionsPtr xCall)
    : ZeroPos copyStmt ast.Stmt.positions (some (.DeferStmt xDefer xCall)) := by
  intro y h
  rw [copyStmt] at h
  simp only [bind_eq_ok, pure_eq_ok] at h
  obtain ⟨cCall, hcCall, rfl⟩ := h
  have icCall := iCall cCall hcCall
  simp only [ast.Stmt.positions, ast.StmtNode.positions, zeros_nil, zeros_append, zeros_single, and_self, and_true, true_and, zeros_Ident, zeros_IdentList, zeros_BasicLit, zeros_CommentGroup, zeros_BadExpr_fresh, zeros_Ident_fresh, zeros_BasicLit_fresh, zeros_BadStmt_fresh, zeros_EmptyStmt_fresh, zeros_BranchStmt_fresh, zeros_ImportSpec_fresh, zeros_BadDecl_fresh, icCall]

theorem pos_StmtNode_ReturnStmt (xReturn : token.Pos) (xResults : Option (List (Option ast.ExprNode)))
    (iResults : ZeroPos ExprList ast.Expr.positionsSlice xResults)
    : ZeroPos copyStmt ast.Stmt.positions (some (.ReturnStmt xReturn xResults)) := by
  intro y h
  rw [copyStmt] at h
  simp only [bind_eq_ok, pure_eq_ok] at h
  obtain ⟨cResults, hcResults, rfl⟩ := h
  have icResults := iResults cResults hcResults
  simp only [ast.Stmt.positions, ast.StmtNode.positions, zeros_nil, zeros_append, zeros_single, and_self, and_true, true_and, zeros_Ident, zeros_IdentList, zeros_BasicLit, zeros_CommentGroup, zeros_BadExpr_fresh, zeros_Ident_fresh, zeros_BasicLit_fresh, zeros_BadStmt_fresh, zeros_EmptyStmt_fresh, zeros_BranchStmt_fresh, zeros_ImportSpec_fresh, zeros_BadDecl_fresh, icResults]

theorem pos_StmtNode_BranchStmt (x : ast.BranchStmt) : ZeroPos copyStmt ast.Stmt.positions (some (.BranchStmt x)) := by
  intro y h
  rw [copyStmt] at h
  simp only [bind_eq_ok, pure_eq_ok] at h
  obtain rfl := h
  simp only [ast.Stmt.positions, ast.StmtNode.positions, zeros_nil, zeros_append, zeros_single, and_self, and_true, true_and, zeros_Ident, zeros_IdentList, zeros_BasicLit, zeros_CommentGroup, zeros_BadExpr_fresh, zeros_Ident_fresh, zeros_BasicLit_fresh, zeros_BadStmt_fresh, zeros_EmptyStmt_fresh, zeros_BranchStmt_fresh, zeros_ImportSpec_fresh, zeros_BadDecl_fresh]

theorem pos_StmtNode_BlockStmt (x : ast.BlockStmt) (ix : ZeroPos BlockStmt.fresh ast.BlockStmt.positions x) :
    ZeroPos copyStmt ast.Stmt.positions (some (.BlockStmt x)) := by
  intro y h
  rw [copyStmt] at h
  simp only [bind_eq_ok, pure_eq_ok] at h
  obtain ⟨c, hc, rfl⟩ := h
  have ic := ix c hc
  simp only [ast.Stmt.positions, ast.StmtNode.positions, zeros_nil, zeros_append, zeros_single, and_self, and_true, true_and, zeros_Ident, zeros_IdentList, zeros_BasicLit, zeros_CommentGroup, zeros_BadExpr_fresh, zeros_Ident_fresh, zeros_BasicLit_fresh, zeros_BadStmt_fresh, zeros_EmptyStmt_fresh, zeros_BranchStmt_fresh, zeros_ImportSpec_fresh, zeros_BadDecl_fresh, ic]

theorem pos_StmtNode_IfStmt (xIf : token.Pos) (xInit : Option ast.StmtNode) (xCond : Option ast.ExprNode) (xBody : Option ast.BlockStmt) (xElse : Option ast.StmtNode)
    (iInit : ZeroPos copyStmt ast.Stmt.positions xInit)
    (iCond : ZeroPos copyExpr ast.Expr.positions xCond)
    (iBody : ZeroPos BlockStmt ast.BlockStmt.positionsPtr xBody)
    (iElse : ZeroPos copyStmt ast.Stmt.positions xElse)
    : ZeroPos copyStmt ast.Stmt.positions (some (.IfStmt xIf xInit xCond xBody xElse)) := by
  intro y h
  rw [copyStmt] at h
  simp only [bind_eq_ok, pure_eq_ok] at h
  obtain ⟨cInit, hcInit, cCond, hcCond, cBody, hcBody, cElse, hcElse, rfl⟩ := h
  have icInit := iInit cInit hcInit
  have icCond := iCond cCond hcCond
  have icBody := iBody cBody hcBody
  have icElse := iElse cElse hcElse
  simp only [ast.Stmt.positions, ast.StmtNode.positions, zeros_nil, zeros_append, zeros_single, and_self, and_true, true_and, zeros_Ident, zeros_IdentList, zeros_BasicLit, zeros_CommentGroup, zeros_BadExpr_fresh, zeros_Ident_fresh, zeros_BasicLit_fresh, zeros_BadStmt_fresh, zeros_EmptyStmt_fresh, zeros_BranchStmt_fresh, zeros_ImportSpec_fresh, zeros_BadDecl_fresh, icInit, icCond, icBody, icElse]

theorem pos_StmtNode_CaseClause (xCase : token.Pos) (xList : Option (List (Option ast.ExprNode))) (xColon : token.Pos) (xBody : Option (List (Option ast.StmtNode)))
    (iList : ZeroPos ExprList ast.Expr.positionsSlice xList)
    (iBody : ZeroPos StmtList ast.Stmt.positionsSlice xBody)
    : ZeroPos copyStmt ast.Stmt.positions (some (.CaseClause xCase xList xColon xBody)) := by
  intro y h
  rw [copyStmt] at h
  simp only [bind_eq_ok, pure_eq_ok] at h
  obtain ⟨cList, hcList, cBody, hcBody, rfl⟩ := h
  have icList := iList cList hcList
  have icBody := iBody cBody hcBody
  simp only [ast.Stmt.positions, ast.StmtNode.positions, zeros_nil, zeros_append, zeros_single, and_self, and_true, true_and, zeros_Ident, zeros_IdentList, zeros_BasicLit, zeros_CommentGroup, zeros_BadExpr_fresh, zeros_Ident_fresh, zeros_BasicLit_fresh, zeros_BadStmt_fresh, zeros_EmptyStmt_fresh, zeros_BranchStmt_fresh, zeros_ImportSpec_fresh, zeros_BadDecl_fresh, icList, icBody]

theorem pos_StmtNode_SwitchStmt (xSwitch : token.Pos) (xInit : Option ast.StmtNode) (xTag : Option ast.ExprNode) (xBody : Option ast.BlockStmt)
    (iInit : ZeroPos copyStmt ast.Stmt.positions xInit)
    (iTag : ZeroPos copyExpr ast.Expr.positions xTag)
    (iBody : ZeroPos BlockStmt ast.BlockStmt.positionsPtr xBody)
    : ZeroPos copyStmt ast.Stmt.positions (some (.SwitchStmt xSwitch xInit xTag xBody)) := by
  intro y h
  rw [copyStmt] at h
  simp only [bind_eq_ok, pure_eq_ok] at h
  obtain ⟨cInit, hcInit, cTag, hcTag, cBody, hcBody, rfl⟩ := h
  have icInit := iInit cInit hcInit
  have icTag := iTag cTag hcTag
  have icBody := iBody cBody hcBody
  simp only [ast.Stmt.positions, ast.StmtNode.positions, zeros_nil, zeros_append, zeros_single, and_self, and_true, true_and, zeros_Ident, zeros_IdentList, zeros_BasicLit, zeros_CommentGroup, zeros_BadExpr_fresh, zeros_Ident_fresh, zeros_BasicLit_fresh, zeros_BadStmt_fresh, zeros_EmptyStmt_fresh, zeros_BranchStmt_fresh, zeros_ImportSpec_fresh, zeros_BadDecl_fresh, icInit, icTag, icBody]

theorem pos_StmtNode_TypeSwitchStmt (xSwitch : token.Pos) (xInit : Option ast.StmtNode) (xAssign : Option ast.StmtNode) (xBody : Option ast.BlockStmt)
    (iInit : ZeroPos copyStmt ast.Stmt.positions xInit)
    (iAssign : ZeroPos copyStmt ast.Stmt.positions xAssign)
    (iBody : ZeroPos BlockStmt ast.BlockStmt.positionsPtr xBody)
    : ZeroPos copyStmt ast.Stmt.positions (some (.TypeSwitchStmt xSwitch xInit xAssign xBody)) := by
  intro y h
  rw [copyStmt] at h
  simp only [bind_eq_ok, pure_eq_ok] at h
  obtain ⟨cInit, hcInit, cAssign, hcAssign, cBody, hcBody, rfl⟩ := h
  have icInit := iInit cInit hcInit
  have icAssign := iAssign cAssign hcAssign
  have icBody := iBody cBody hcBody
  simp only [ast.Stmt.positions, ast.StmtNode.positions, zeros_nil, zeros_append, zeros_single, and_self, and_true, true_and, zeros_Ident, zeros_IdentList, zeros_BasicLit, zeros_CommentGroup, zeros_BadExpr_fresh, zeros_Ident_fresh, zeros_BasicLit_fresh, zeros_BadStmt_fresh, zeros_EmptyStmt_fresh, zeros_BranchStmt_fresh, zeros_ImportSpec_fresh, zeros_BadDecl_fresh, icInit, icAssign, icBody]

theorem pos_StmtNode_CommClause (xCase : token.Pos) (xComm : Option ast.StmtNode) (xColon : token.Pos) (xBody : Option (List (Option ast.StmtNode)))
    (iComm : ZeroPos copyStmt ast.Stmt.positions xComm)
    (iBody : ZeroPos StmtList ast.Stmt.positionsSlice xBody)
    : ZeroPos copyStmt ast.Stmt.positions (some (.CommClause xCase xComm xColon xBody)) := by
  intro y h
  rw [copyStmt] at h
  simp only [bind_eq_ok, pure_eq_ok] at h
  obtain ⟨cComm, hcComm, cBody, hcBody, rfl⟩ := h
  have icComm := iComm cComm hcComm
  have icBody := iBody cBody hcBody
  simp only [ast.Stmt.positions, ast.StmtNode.positions, zeros_nil, zeros_append, zeros_single, and_self, and_true, true_and, zeros_Ident, zeros_IdentList, zeros_BasicLit, zeros_CommentGroup, zeros_BadExpr_fresh, zeros_Ident_fresh, zeros_BasicLit_fresh, zeros_BadStmt_fresh, zeros_EmptyStmt_fresh, zeros_BranchStmt_fresh, zeros_ImportSpec_fresh, zeros_BadDecl_fresh, icComm, icBody]

theorem pos_StmtNode_SelectStmt (xSelect : token.Pos) (xBody : Option ast.BlockStmt)
    (iBody : ZeroPos BlockStmt ast.BlockStmt.positionsPtr xBody)
    : ZeroPos copyStmt ast.Stmt.positions (some (.SelectStmt xSelect xBody)) := by
  intro y h
  rw [copyStmt] at h
  simp only [bind_eq_ok, pure_eq_ok] at h
  obtain ⟨cBody, hcBody, rfl⟩ := h
  have icBody := iBody cBody hcBody
  simp only [ast.Stmt.positions, ast.StmtNode.positions, zeros_nil, zeros_append, zeros_single, and_self, and_true, true_and, zeros_Ident, zeros_IdentList, zeros_BasicLit, zeros_CommentGroup, zeros_BadExpr_fresh, zeros_Ident_fresh, zeros_BasicLit_fresh, zeros_BadStmt_fresh, zeros_EmptyStmt_fresh, zeros_BranchStmt_fresh, zeros_ImportSpec_fresh, zeros_BadDecl_fresh, icBody]

theorem pos_StmtNode_ForStmt (xFor : token.Pos) (xInit : Option ast.StmtNode) (xCond : Option ast.ExprNode) (xPost : Option ast.StmtNode) (xBody : Option ast.BlockStmt)
    (iInit : ZeroPos copyStmt ast.Stmt.positions xInit)
    (iCond : ZeroPos copyExpr ast.Expr.positions xCond)
    (iPost : ZeroPos copyStmt ast.Stmt.positions xPost)
    (iBody : ZeroPos BlockStmt ast.BlockStmt.positionsPtr xBody)
    : ZeroPos copyStmt ast.Stmt.positions (some (.ForStmt xFor xInit xCond xPost xBody)) := by
  intro y h
  rw [copyStmt] at h
  simp only [bind_eq_ok, pure_eq_ok] at h
  obtain ⟨cInit, hcInit, cCond, hcCond, cPost, hcPost, cBody, hcBody, rfl⟩ := h
  have icInit := iInit cInit hcInit
  have icCond := iCond cCond hcCond
  have icPost := iPost cPost hcPost
  have icBody := iBody cBody hcBody
  simp only [ast.Stmt.positions, ast.StmtNode.positions, zeros_nil, zeros_append, zeros_single, and_self, and_true, true_and, zeros_Ident, zeros_IdentList, zeros_BasicLit, zeros_CommentGroup, zeros_BadExpr_fresh, zeros_Ident_fresh, zeros_BasicLit_fresh, zeros_BadStmt_fresh, zeros_EmptyStmt_fresh, zeros_BranchStmt_fresh, zeros_ImportSpec_fresh, zeros_BadDecl_fresh, icInit, icCond, icPost, icBody]

theorem pos_StmtNode_RangeStmt (xFor : token.Pos) (xKey : Option ast.ExprNode) (xValue : Option ast.ExprNode) (xTokPos : token.Pos) (xTok : token.Token) (xX : Option ast.ExprNode) (xBody : Option ast.BlockStmt)
    (iKey : ZeroPos copyExpr ast.Expr.positions xKey)
    (iValue : ZeroPos copyExpr ast.Expr.positions xValue)
    (iX : ZeroPos copyExpr ast.Expr.positions xX)
    (iBody : ZeroPos BlockStmt ast.BlockStmt.positionsPtr xBody)
    : ZeroPos copyStmt ast.Stmt.positions (some (.RangeStmt xFor xKey xValue xTokPos xTok xX xBody)) := by
  intro y h
  rw [copyStmt] at h
  simp only [bind_eq_ok, pure_eq_ok] at h
  obtain ⟨cKey, hcKey, cValue, hcValue, cX, hcX, cBody, hcBody, rfl⟩ := h
  have icKey := iKey cKey hcKey
  have icValue := iValue cValue hcValue
  have icX := iX cX hcX
  have icBody := iBody cBody hcBody
  simp only [ast.Stmt.positions, ast.StmtNode.positions, zeros_nil, zeros_append, zeros_single, and_self, and_true, true_and, zeros_Ident, zeros_IdentList, zeros_BasicLit, zeros_CommentGroup, zeros_BadExpr_fresh, zeros_Ident_fresh, zeros_BasicLit_fresh, zeros_BadStmt_fresh, zeros_EmptyStmt_fresh, zeros_BranchStmt_fresh, zeros_ImportSpec_fresh, zeros_BadDecl_fresh, icKey, icValue, icX, icBody]

theorem pos_StmtNode_other (typ : String) : ZeroPos copyStmt ast.Stmt.positions (some (.other typ)) := by
  intro y h
  exact absurd h (by rw [copyStmt]; exact throw_ne_ok)

theorem pos_SpecNode_ImportSpec (x : ast.ImportSpec) : ZeroPos Spec ast.Spec.positions (some (.ImportSpec x)) := by
  intro y h
  rw [Spec] at h
  simp only [bind_eq_ok, pure_eq_ok] at h
  obtain rfl := h
  simp only [ast.Spec.positions, ast.SpecNode.positions, zeros_nil, zeros_append, zeros_single, and_self, and_true, true_and, zeros_Ident, zeros_IdentList, zeros_BasicLit, zeros_CommentGroup, zeros_BadExpr_fresh, zeros_Ident_fresh, zeros_BasicLit_fresh, zeros_BadStmt_fresh, zeros_EmptyStmt_fresh, zeros_BranchStmt_fresh, zeros_ImportSpec_fresh, zeros_BadDecl_fresh]

theorem pos_SpecNode_ValueSpec (xDoc : Option ast.CommentGroup) (xNames : Option (List (Option ast.Ident))) (xType : Option ast.ExprNode) (xValues : Option (List (Option ast.ExprNode))) (xComment : Option ast.CommentGroup)
    (iType : ZeroPos copyExpr ast.Expr.positions xType)
    (iValues : ZeroPos ExprList ast.Expr.positionsSlice xValues)
    : ZeroPos Spec ast.Spec.positions (some (.ValueSpec xDoc xNames xType xValues xComment)) := by
  intro y h
  rw [Spec] at h
  simp only [bind_eq_ok, pure_eq_ok] at h
  obtain ⟨cValues, hcValues, cType, hcType, rfl⟩ := h
  have icValues := iValues cValues hcValues
  have icType := iType cType hcType
  simp only [ast.Spec.positions, ast.SpecNode.positions, zeros_nil, zeros_append, zeros_single, and_self, and_true, true_and, zeros_Ident, zeros_IdentList, zeros_BasicLit, zeros_CommentGroup, zeros_BadExpr_fresh, zeros_Ident_fresh, zeros_BasicLit_fresh, zeros_BadStmt_fresh, zeros_EmptyStmt_fresh, zeros_BranchStmt_fresh, zeros_ImportSpec_fresh, zeros_BadDecl_fresh, icValues, icType]

theorem pos_SpecNode_TypeSpec (xDoc : Option ast.CommentGroup) (xName : Option ast.Ident) (xAssign : token.Pos) (xType : Option ast.ExprNode) (xComment : Option ast.CommentGroup)
    (iType : ZeroPos copyExpr ast.Expr.positions xType)
    : ZeroPos Spec ast.Spec.positions (some (.TypeSpec xDoc xName xAssign xType xComment)) := by
  intro y h
  rw [Spec] at h
  simp only [bind_eq_ok, pure_eq_ok] at h
  obtain ⟨cType, hcType, rfl⟩ := h
  have icType := iType cType hcType
  simp only [ast.Spec.positions, ast.SpecNode.positions, zeros_nil, zeros_append, zeros_single, and_self, and_true, true_and, zeros_Ident, zeros_IdentList, zeros_BasicLit, zeros_CommentGroup, zeros_BadExpr_fresh, zeros_Ident_fresh, zeros_BasicLit_fresh, zeros_BadStmt_fresh, zeros_EmptyStmt_fresh, zeros_BranchStmt_fresh, zeros_ImportSpec_fresh, zeros_BadDecl_fresh, icType]

theorem pos_SpecNode_other (typ : String) : ZeroPos Spec ast.Spec.positions (some (.other typ)) := by
  intro y h
  exact absurd h (by rw [Spec]; exact throw_ne_ok)

theorem pos_DeclNode_BadDecl (x : ast.BadDecl) : ZeroPos copyDecl ast.Decl.positions (some (.BadDecl x)) := by
  intro y h
  rw [copyDecl] at h
  simp only [bind_eq_ok, pure_eq_ok] at h
  obtain rfl := h
  simp only [ast.Decl.positions, ast.DeclNode.positions, zeros_nil, zeros_append, zeros_single, and_self, and_true, true_and, zeros_Ident, zeros_IdentList, zeros_BasicLit, zeros_CommentGroup, zeros_BadExpr_fresh, zeros_Ident_fresh, zeros_BasicLit_fresh, zeros_BadStmt_fresh, zeros_EmptyStmt_fresh, zeros_BranchStmt_fresh, zeros_ImportSpec_fresh, zeros_BadDecl_fresh]

theorem pos_DeclNode_GenDecl (xDoc : Option ast.CommentGroup) (xTokPos : token.Pos) (xTok : token.Token) (xLparen : token.Pos) (xSpecs : Option (List (Option ast.SpecNode))) (xRparen : token.Pos)
    (iSpecs : ZeroPos SpecList ast.Spec.positionsSlice xSpecs)
    : ZeroPos copyDecl ast.Decl.positions (some (.GenDecl xDoc xTokPos xTok xLparen xSpecs xRparen)) := by
  intro y h
  rw [copyDecl] at h
  simp only [bind_eq_ok, pure_eq_ok] at h
  obtain ⟨cSpecs, hcSpecs, rfl⟩ := h
  have icSpecs := iSpecs cSpecs hcSpecs
  simp only [ast.Decl.positions, ast.DeclNode.positions, zeros_nil, zeros_append, zeros_single, and_self, and_true, true_and, zeros_Ident, zeros_IdentList, zeros_BasicLit, zeros_CommentGroup, zeros_BadExpr_fresh, zeros_Ident_fresh, zeros_BasicLit_fresh, zeros_BadStmt_fresh, zeros_EmptyStmt_fresh, zeros_BranchStmt_fresh, zeros_ImportSpec_fresh, zeros_BadDecl_fresh, icSpecs]

theorem pos_DeclNode_FuncDecl (xDoc : Option ast.CommentGroup) (xRecv : Option ast.FieldList) (xName : Option ast.Ident) (xType : Option ast.FuncType) (xBody : Option ast.BlockStmt)
    (iRecv : ZeroPos FieldList ast.FieldList.positionsPtr xRecv)
    (iType : ZeroPos FuncType ast.FuncType.positionsPtr xType)
    (iBody : ZeroPos BlockStmt ast.BlockStmt.positionsPtr xBody)
    : ZeroPos copyDecl ast.Decl.positions (some (.FuncDecl xDoc xRecv xName xType xBody)) := by
  intro y h
  rw [copyDecl] at h
  simp only [bind_eq_ok, pure_eq_ok] at h
  obtain ⟨cRecv, hcRecv, cType, hcType, cBody, hcBody, rfl⟩ := h
  have icRecv := iRecv cRecv hcRecv
  have icType := iType cType hcType
  have icBody := iBody cBody hcBody
  simp only [ast.Decl.positions, ast.DeclNode.positions, zeros_nil, zeros_append, zeros_single, and_self, and_true, true_and, zeros_Ident, zeros_IdentList, zeros_BasicLit, zeros_CommentGroup, zeros_BadExpr_fresh, zeros_Ident_fresh, zeros_BasicLit_fresh, zeros_BadStmt_fresh, zeros_EmptyStmt_fresh, zeros_BranchStmt_fresh, zeros_ImportSpec_fresh, zeros_BadDecl_fresh, icRecv, icType, icBody]

theorem pos_DeclNode_other (typ : String) : ZeroPos copyDecl ast.Decl.positions (some (.other typ)) := by
  intro y h
  exact absurd h (by rw [copyDecl]; exact throw_ne_ok)

theorem pos_Opt_ExprNode_none : ZeroPos copyExpr ast.Expr.positions none := by
  intro y h
  rw [copyExpr] at h
  simp only [bind_eq_ok, pure_eq_ok] at h
  obtain rfl := h
  simp only [ast.Expr.positions, zeros_nil, zeros_append, zeros_single, and_self, and_true, true_and, zeros_Ident, zeros_IdentList, zeros_BasicLit, zeros_CommentGroup, zeros_BadExpr_fresh, zeros_Ident_fresh, zeros_BasicLit_fresh, zeros_BadStmt_fresh, zeros_EmptyStmt_fresh, zeros_BranchStmt_fresh, zeros_ImportSpec_fresh, zeros_BadDecl_fresh]

theorem pos_Opt_ExprNode_some (val : ast.ExprNode) (ih : ZeroPos copyExpr ast.Expr.positions (some val)) : ZeroPos copyExpr ast.Expr.positions (some val) :=
  ih

theorem pos_Slice_Field_none : OnSlice (ZeroPos FieldList.loop ast.Field.positionsList) none := by
  intro xs h
  cases h

theorem pos_Slice_Field_some (val : List (Option ast.Field)) (ih : ZeroPos FieldList.loop ast.Field.positionsList val) : OnSlice (ZeroPos FieldList.loop ast.Field.positionsList) (some val) := by
  intro xs h
  cases h
  exact ih

theorem pos_Opt_FieldList_none : ZeroPos FieldList ast.FieldList.positionsPtr none := by
  intro y h
  rw [FieldList] at h
  simp only [bind_eq_ok, pure_eq_ok] at h
  obtain rfl := h
  simp only [ast.FieldList.positionsPtr, zeros_nil, zeros_append, zeros_single, and_self, and_true, true_and, zeros_Ident, zeros_IdentList, zeros_BasicLit, zeros_CommentGroup, zeros_BadExpr_fresh, zeros_Ident_fresh, zeros_BasicLit_fresh, zeros_BadStmt_fresh, zeros_EmptyStmt_fresh, zeros_BranchStmt_fresh, zeros_ImportSpec_fresh, zeros_BadDecl_fresh]

theorem pos_Opt_FieldList_some (val : ast.FieldList) (ih : ZeroPos FieldList.fresh ast.FieldList.positions val) : ZeroPos FieldList ast.FieldList.positionsPtr (some val) := by
  intro y h
  rw [FieldList] at h
  simp only [bind_eq_ok, pure_eq_ok] at h
  obtain ⟨c, hc, rfl⟩ := h
  have ic := ih c hc
  simp only [ast.FieldList.positionsPtr, zeros_nil, zeros_append, zeros_single, and_self, and_true, true_and, zeros_Ident, zeros_IdentList, zeros_BasicLit, zeros_CommentGroup, zeros_BadExpr_fresh, zeros_Ident_fresh, zeros_BasicLit_fresh, zeros_BadStmt_fresh, zeros_EmptyStmt_fresh, zeros_BranchStmt_fresh, zeros_ImportSpec_fresh, zeros_BadDecl_fresh, ic]

theorem pos_Slice_ExprNode_none : ZeroPos ExprList ast.Expr.positionsSlice none := by
  intro y h
  rw [ExprList] at h
  simp only [bind_eq_ok, pure_eq_ok] at h
  obtain rfl := h
  simp only [ast.Expr.positionsSlice, zeros_nil, zeros_append, zeros_single, and_self, and_true, true_and, zeros_Ident, zeros_IdentList, zeros_BasicLit, zeros_CommentGroup, zeros_BadExpr_fresh, zeros_Ident_fresh, zeros_BasicLit_fresh, zeros_BadStmt_fresh, zeros_EmptyStmt_fresh, zeros_BranchStmt_fresh, zeros_ImportSpec_fresh, zeros_BadDecl_fresh]

theorem pos_Slice_ExprNode_some (val : List (Option ast.ExprNode)) (ih : ZeroPos ExprList.loop ast.Expr.positionsList val) : ZeroPos ExprList ast.Expr.positionsSlice (some val) := by
  intro y h
  rw [ExprList] at h
  simp only [bind_eq_ok, pure_eq_ok] at h
  obtain ⟨c, hc, rfl⟩ := h
  have ic := ih c hc
  simp only [ast.Expr.positionsSlice, zeros_nil, zeros_append, zeros_single, and_self, and_true, true_and, zeros_Ident, zeros_IdentList, zeros_BasicLit, zeros_CommentGroup, zeros_BadExpr_fresh, zeros_Ident_fresh, zeros_BasicLit_fresh, zeros_BadStmt_fresh, zeros_EmptyStmt_fresh, zeros_BranchStmt_fresh, zeros_ImportSpec_fresh, zeros_BadDecl_fresh, ic]

theorem pos_Slice_StmtNode_none : ZeroPos StmtList ast.Stmt.positionsSlice none := by
  intro y h
  rw [StmtList] at h
  simp only [bind_eq_ok, pure_eq_ok] at h
  obtain rfl := h
  simp only [ast.Stmt.positionsSlice, zeros_nil, zeros_append, zeros_single, and_self, and_true, true_and, zeros_Ident, zeros_IdentList, zeros_BasicLit, zeros_CommentGroup, zeros_BadExpr_fresh, zeros_Ident_fresh, zeros_BasicLit_fresh, zeros_BadStmt_fresh, zeros_EmptyStmt_fresh, zeros_BranchStmt_fresh, zeros_ImportSpec_fresh, zeros_BadDecl_fresh]

theorem pos_Slice_StmtNode_some (val : List (Option ast.StmtNode)) (ih : ZeroPos StmtList.loop ast.Stmt.positionsList val) : ZeroPos StmtList ast.Stmt.positionsSlice (some val) := by
  intro y h
  rw [StmtList] at h
  simp only [bind_eq_ok, pure_eq_ok] at h
  obtain ⟨c, hc, rfl⟩ := h
  have ic := ih c hc
  simp only [ast.Stmt.positionsSlice, zeros_nil, zeros_append, zeros_single, and_self, and_true, true_and, zeros_Ident, zeros_IdentList, zeros_BasicLit, zeros_CommentGroup, zeros_BadExpr_fresh, zeros_Ident_fresh, zeros_BasicLit_fresh, zeros_BadStmt_fresh, zeros_EmptyStmt_fresh, zeros_BranchStmt_fresh, zeros_ImportSpec_fresh, zeros_BadDecl_fresh, ic]

theorem pos_Opt_FuncType_none : ZeroPos FuncType ast.FuncType.positionsPtr none := by
  intro y h
  rw [FuncType] at h
  simp only [bind_eq_ok, pure_eq_ok] at h
  obtain rfl := h
  simp only [ast.FuncType.positionsPtr, zeros_nil, zeros_append, zeros_single, and_self, and_true, true_and, zeros_Ident, zeros_IdentList, zeros_BasicLit, zeros_CommentGroup, zeros_BadExpr_fresh, zeros_Ident_fresh, zeros_BasicLit_fresh, zeros_BadStmt_fresh, zeros_EmptyStmt_fresh, zeros_BranchStmt_fresh, zeros_ImportSpec_fresh, zeros_BadDecl_fresh]

theorem pos_Opt_FuncType_some (val : ast.FuncType) (ih : ZeroPos FuncType.fresh ast.FuncType.positions val) : ZeroPos FuncType ast.FuncType.positionsPtr (some val) := by
  intro y h
  rw [FuncType] at h
  simp only [bind_eq_ok, pure_eq_ok] at h
  obtain ⟨c, hc, rfl⟩ := h
  have ic := ih c hc
  simp only [ast.FuncType.positionsPtr, zeros_nil, zeros_append, zeros_single, and_self, and_true, true_and, zeros_Ident, zeros_IdentList, zeros_BasicLit, zeros_CommentGroup, zeros_BadExpr_fresh, zeros_Ident_fresh, zeros_BasicLit_fresh, zeros_BadStmt_fresh, zeros_EmptyStmt_fresh, zeros_BranchStmt_fresh, zeros_ImportSpec_fresh, zeros_BadDecl_fresh, ic]

theorem pos_Opt_BlockStmt_none : ZeroPos BlockStmt ast.BlockStmt.positionsPtr none := by
  intro y h
  rw [BlockStmt] at h
  simp only [bind_eq_ok, pure_eq_ok] at h
  obtain rfl := h
  simp only [ast.BlockStmt.positionsPtr, zeros_nil, zeros_append, zeros_single, and_self, and_true, true_and, zeros_Ident, zeros_IdentList, zeros_BasicLit, zeros_CommentGroup, zeros_BadExpr_fresh, zeros_Ident_fresh, zeros_BasicLit_fresh, zeros_BadStmt_fresh, zeros_EmptyStmt_fresh, zeros_BranchStmt_fresh, zeros_ImportSpec_fresh, zeros_BadDecl_fresh]

theorem pos_Opt_BlockStmt_some (val : ast.BlockStmt) (ih : ZeroPos BlockStmt.fresh ast.BlockStmt.positions val) : ZeroPos BlockStmt ast.BlockStmt.positionsPtr (some val) := by
  intro y h
  rw [BlockStmt] at h
  simp only [bind_eq_ok, pure_eq_ok] at h
  obtain ⟨c, hc, rfl⟩ := h
  have ic := ih c hc
  simp only [ast.BlockStmt.positionsPtr, zeros_nil, zeros_append, zeros_single, and_self, and_true, true_and, zeros_Ident, zeros_IdentList, zeros_BasicLit, zeros_CommentGroup, zeros_BadExpr_fresh, zeros_Ident_fresh, zeros_BasicLit_fresh, zeros_BadStmt_fresh, zeros_EmptyStmt_fresh, zeros_BranchStmt_fresh, zeros_ImportSpec_fresh, zeros_BadDecl_fresh, ic]

theorem pos_Opt_DeclNode_none : ZeroPos copyDecl ast.Decl.positions none := by
  intro y h
  rw [copyDecl] at h
  simp only [bind_eq_ok, pure_eq_ok] at h
  obtain rfl := h
  simp only [ast.Decl.positions, zeros_nil, zeros_append, zeros_single, and_self, and_true, true_and, zeros_Ident, zeros_IdentList, zeros_BasicLit, zeros_CommentGroup, zeros_BadExpr_fresh, zeros_Ident_fresh, zeros_BasicLit_fresh, zeros_BadStmt_fresh, zeros_EmptyStmt_fresh, zeros_BranchStmt_fresh, zeros_ImportSpec_fresh, zeros_BadDecl_fresh]

theorem pos_Opt_DeclNode_some (val : ast.DeclNode) (ih : ZeroPos copyDecl ast.Decl.positions (some val)) : ZeroPos copyDecl ast.Decl.positions (some val) :=
  ih

theorem pos_Opt_StmtNode_none : ZeroPos copyStmt ast.Stmt.positions none := by
  intro y h
  rw [copyStmt] at h
  simp only [bind_eq_ok, pure_eq_ok] at h
  obtain rfl := h
  simp only [ast.Stmt.positions, zeros_nil, zeros_append, zeros_single, and_self, and_true, true_and, zeros_Ident, zeros_IdentList, zeros_BasicLit, zeros_CommentGroup, zeros_BadExpr_fresh, zeros_Ident_fresh, zeros_BasicLit_fresh, zeros_BadStmt_fresh, zeros_EmptyStmt_fresh, zeros_BranchStmt_fresh, zeros_ImportSpec_fresh, zeros_BadDecl_fresh]

theorem pos_Opt_StmtNode_some (val : ast.StmtNode) (ih : ZeroPos copyStmt ast.Stmt.positions (some val)) : ZeroPos copyStmt ast.Stmt.positions (some val) :=
  ih

theorem pos_Opt_CallExpr_none : ZeroPos CallExpr ast.CallExpr.positionsPtr none := by
  intro y h
  rw [CallExpr] at h
  simp only [bind_eq_ok, pure_eq_ok] at h
  obtain rfl := h
  simp only [ast.CallExpr.positionsPtr, zeros_nil, zeros_append, zeros_single, and_self, and_true, true_and, zeros_Ident, zeros_IdentList, zeros_BasicLit, zeros_CommentGroup, zeros_BadExpr_fresh, zeros_Ident_fresh, zeros_BasicLit_fresh, zeros_BadStmt_fresh, zeros_EmptyStmt_fresh, zeros_BranchStmt_fresh, zeros_ImportSpec_fresh, zeros_BadDecl_fresh]

theorem pos_Opt_CallExpr_some (val : ast.CallExpr) (ih : ZeroPos CallExpr.fresh ast.CallExpr.positions val) : ZeroPos CallExpr ast.CallExpr.positionsPtr (some val) := by
  intro y h
  rw [CallExpr] at h
  simp only [bind_eq_ok, pure_eq_ok] at h
  obtain ⟨c, hc, rfl⟩ := h
  have ic := ih c hc
  simp only [ast.CallExpr.positionsPtr, zeros_nil, zeros_append, zeros_single, and_self, and_true, true_and, zeros_Ident, zeros_IdentList, zeros_BasicLit, zeros_CommentGroup, zeros_BadExpr_fresh, zeros_Ident_fresh, zeros_BasicLit_fresh, zeros_BadStmt_fresh, zeros_EmptyStmt_fresh, zeros_BranchStmt_fresh, zeros_ImportSpec_fresh, zeros_BadDecl_fresh, ic]

theorem pos_Slice_SpecNode_none : ZeroPos SpecList ast.Spec.positionsSlice none := by
  intro y h
  rw [SpecList] at h
  simp only [bind_eq_ok, pure_eq_ok] at h
  obtain rfl := h
  simp only [ast.Spec.positionsSlice, zeros_nil, zeros_append, zeros_single, and_self, and_true, true_and, zeros_Ident, zeros_IdentList, zeros_BasicLit, zeros_CommentGroup, zeros_BadExpr_fresh, zeros_Ident_fresh, zeros_BasicLit_fresh, zeros_BadStmt_fresh, zeros_EmptyStmt_fresh, zeros_BranchStmt_fresh, zeros_ImportSpec_fresh, zeros_BadDecl_fresh]

theorem pos_Slice_SpecNode_some (val : List (Option ast.SpecNode)) (ih : ZeroPos SpecList.loop ast.Spec.positionsList val) : ZeroPos SpecList ast.Spec.positionsSlice (some val) := by
  intro y h
  rw [SpecList] at h
  simp only [bind_eq_ok, pure_eq_ok] at h
  obtain ⟨c, hc, rfl⟩ := h
  have ic := ih c hc
  simp only [ast.Spec.positionsSlice, zeros_nil, zeros_append, zeros_single, and_self, and_true, true_and, zeros_Ident, zeros_IdentList, zeros_BasicLit, zeros_CommentGroup, zeros_BadExpr_fresh, zeros_Ident_fresh, zeros_BasicLit_fresh, zeros_BadStmt_fresh, zeros_EmptyStmt_fresh, zeros_BranchStmt_fresh, zeros_ImportSpec_fresh, zeros_BadDecl_fresh, ic]

theorem pos_List_Field_nil : ZeroPos FieldList.loop ast.Field.positionsList [] := by
  intro y h
  rw [FieldList.loop] at h
  simp only [bind_eq_ok, pure_eq_ok] at h
  obtain rfl := h
  simp only [ast.Field.positionsList, zeros_nil, zeros_append, zeros_single, and_self, and_true, true_and, zeros_Ident, zeros_IdentList, zeros_BasicLit, zeros_CommentGroup, zeros_BadExpr_fresh, zeros_Ident_fresh, zeros_BasicLit_fresh, zeros_BadStmt_fresh, zeros_EmptyStmt_fresh, zeros_BranchStmt_fresh, zeros_ImportSpec_fresh, zeros_BadDecl_fresh]

theorem pos_List_Field_cons (x : Option ast.Field) (xs : List (Option ast.Field)) (ix : ZeroPos Field ast.Field.positionsPtr x)
    (ixs : ZeroPos FieldList.loop ast.Field.positionsList xs) : ZeroPos FieldList.loop ast.Field.positionsList (x :: xs) := by
  intro y h
  rw [FieldList.loop] at h
  simp only [bind_eq_ok, pure_eq_ok] at h
  obtain ⟨c, hc, cs, hcs, rfl⟩ := h
  have ic := ix c hc
  have ics := ixs cs hcs
  simp only [ast.Field.positionsList, zeros_nil, zeros_append, zeros_single, and_self, and_true, true_and, zeros_Ident, zeros_IdentList, zeros_BasicLit, zeros_CommentGroup, zeros_BadExpr_fresh, zeros_Ident_fresh, zeros_BasicLit_fresh, zeros_BadStmt_fresh, zeros_EmptyStmt_fresh, zeros_BranchStmt_fresh, zeros_ImportSpec_fresh, zeros_BadDecl_fresh, ic, ics]

theorem pos_List_ExprNode_nil : ZeroPos ExprList.loop ast.Expr.positionsList [] := by
  intro y h
  rw [ExprList.loop] at h
  simp only [bind_eq_ok, pure_eq_ok] at h
  obtain rfl := h
  simp only [ast.Expr.positionsList, zeros_nil, zeros_append, zeros_single, and_self, and_true, true_and, zeros_Ident, zeros_IdentList, zeros_BasicLit, zeros_CommentGroup, zeros_BadExpr_fresh, zeros_Ident_fresh, zeros_BasicLit_fresh, zeros_BadStmt_fresh, zeros_EmptyStmt_fresh, zeros_BranchStmt_fresh, zeros_ImportSpec_fresh, zeros_BadDecl_fresh]

theorem pos_List_ExprNode_cons (x : Option ast.ExprNode) (xs : List (Option ast.ExprNode)) (ix : ZeroPos copyExpr ast.Expr.positions x)
    (ixs : ZeroPos ExprList.loop ast.Expr.positionsList xs) : ZeroPos ExprList.loop ast.Expr.positionsList (x :: xs) := by
  intro y h
  rw [ExprList.loop] at h
  simp only [bind_eq_ok, pure_eq_ok] at h
  obtain ⟨c, hc, cs, hcs, rfl⟩ := h
  have ic := ix c hc
  have ics := ixs cs hcs
  simp only [ast.Expr.positionsList, zeros_nil, zeros_append, zeros_single, and_self, and_true, true_and, zeros_Ident, zeros_IdentList, zeros_BasicLit, zeros_CommentGroup, zeros_BadExpr_fresh, zeros_Ident_fresh, zeros_BasicLit_fresh, zeros_BadStmt_fresh, zeros_EmptyStmt_fresh, zeros_BranchStmt_fresh, zeros_ImportSpec_fresh, zeros_BadDecl_fresh, ic, ics]

theorem pos_List_StmtNode_nil : ZeroPos StmtList.loop ast.Stmt.positionsList [] := by
  intro y h
  rw [StmtList.loop] at h
  simp only [bind_eq_ok, pure_eq_ok] at h
  obtain rfl := h
  simp only [ast.Stmt.positionsList, zeros_nil, zeros_append, zeros_single, and_self, and_true, true_and, zeros_Ident, zeros_IdentList, zeros_BasicLit, zeros_CommentGroup, zeros_BadExpr_fresh, zeros_Ident_fresh, zeros_BasicLit_fresh, zeros_BadStmt_fresh, zeros_EmptyStmt_fresh, zeros_BranchStmt_fresh, zeros_ImportSpec_fresh, zeros_BadDecl_fresh]

theorem pos_List_StmtNode_cons (x : Option ast.StmtNode) (xs : List (Option ast.StmtNode)) (ix : ZeroPos copyStmt ast.Stmt.positions x)
    (ixs : ZeroPos StmtList.loop ast.Stmt.positionsList xs) : ZeroPos StmtList.loop ast.Stmt.positionsList (x :: xs) := by
  intro y h
  rw [StmtList.loop] at h
  simp only [bind_eq_ok, pure_eq_ok] at h
  obtain ⟨c, hc, cs, hcs, rfl⟩ := h
  have ic := ix c hc
  have ics := ixs cs hcs
  simp only [ast.Stmt.positionsList, zeros_nil, zeros_append, zeros_single, and_self, and_true, true_and, zeros_Ident, zeros_IdentList, zeros_BasicLit, zeros_CommentGroup, zeros_BadExpr_fresh, zeros_Ident_fresh, zeros_BasicLit_fresh, zeros_BadStmt_fresh, zeros_EmptyStmt_fresh, zeros_BranchStmt_fresh, zeros_ImportSpec_fresh, zeros_BadDecl_fresh, ic, ics]

theorem pos_List_SpecNode_nil : ZeroPos SpecList.loop ast.Spec.positionsList [] := by
  intro y h
  rw [SpecList.loop] at h
  simp only [bind_eq_ok, pure_eq_ok] at h
  obtain rfl := h
  simp only [ast.Spec.positionsList, zeros_nil, zeros_append, zeros_single, and_self, and_true, true_and, zeros_Ident, zeros_IdentList, zeros_BasicLit, zeros_CommentGroup, zeros_BadExpr_fresh, zeros_Ident_fresh, zeros_BasicLit_fresh, zeros_BadStmt_fresh, zeros_EmptyStmt_fresh, zeros_BranchStmt_fresh, zeros_ImportSpec_fresh, zeros_BadDecl_fresh]

theorem pos_List_SpecNode_cons (x : Option ast.SpecNode) (xs : List (Option ast.SpecNode)) (ix : ZeroPos Spec ast.Spec.positions x)
    (ixs : ZeroPos SpecList.loop ast.Spec.positionsList xs) : ZeroPos SpecList.loop ast.Spec.positionsList (x :: xs) := by
  intro y h
  rw [SpecList.loop] at h
  simp only [bind_eq_ok, pure_eq_ok] at h
  obtain ⟨c, hc, cs, hcs, rfl⟩ := h
  have ic := ix c hc
  have ics := ixs cs hcs
  simp only [ast.Spec.positionsList, zeros_nil, zeros_append, zeros_single, and_self, and_true, true_and, zeros_Ident, zeros_IdentList, zeros_BasicLit, zeros_CommentGroup, zeros_BadExpr_fresh, zeros_Ident_fresh, zeros_BasicLit_fresh, zeros_BadStmt_fresh, zeros_EmptyStmt_fresh, zeros_BranchStmt_fresh, zeros_ImportSpec_fresh, zeros_BadDecl_fresh, ic, ics]

theorem pos_Opt_Field_none : ZeroPos Field ast.Field.positionsPtr none := by
  intro y h
  rw [Field] at h
  simp only [bind_eq_ok, pure_eq_ok] at h
  obtain rfl := h
  simp only [ast.Field.positionsPtr, zeros_nil, zeros_append, zeros_single, and_self, and_true, true_and, zeros_Ident, zeros_IdentList, zeros_BasicLit, zeros_CommentGroup, zeros_BadExpr_fresh, zeros_Ident_fresh, zeros_BasicLit_fresh, zeros_BadStmt_fresh, zeros_EmptyStmt_fresh, zeros_BranchStmt_fresh, zeros_ImportSpec_fresh, zeros_BadDecl_fresh]

theorem pos_Opt_Field_some (val : ast.Field) (ih : ZeroPos Field.fresh ast.Field.positions val) : ZeroPos Field ast.Field.positionsPtr (some val) := by
  intro y h
  rw [Field] at h
  simp only [bind_eq_ok, pure_eq_ok] at h
  obtain ⟨c, hc, rfl⟩ := h
  have ic := ih c hc
  simp only [ast.Field.positionsPtr, zeros_nil, zeros_append, zeros_single, and_self, and_true, true_and, zeros_Ident, zeros_IdentList, zeros_BasicLit, zeros_CommentGroup, zeros_BadExpr_fresh, zeros_Ident_fresh, zeros_BasicLit_fresh, zeros_BadStmt_fresh, zeros_EmptyStmt_fresh, zeros_BranchStmt_fresh, zeros_ImportSpec_fresh, zeros_BadDecl_fresh, ic]

theorem pos_Opt_SpecNode_none : ZeroPos Spec ast.Spec.positions none := by
  intro y h
  rw [Spec] at h
  simp only [bind_eq_ok, pure_eq_ok] at h
  obtain rfl := h
  simp only [ast.Spec.positions, zeros_nil, zeros_append, zeros_single, and_self, and_true, true_and, zeros_Ident, zeros_IdentList, zeros_BasicLit, zeros_CommentGroup, zeros_BadExpr_fresh, zeros_Ident_fresh, zeros_BasicLit_fresh, zeros_BadStmt_fresh, zeros_EmptyStmt_fresh, zeros_BranchStmt_fresh, zeros_ImportSpec_fresh, zeros_BadDecl_fresh]

theorem pos_Opt_SpecNode_some (val : ast.SpecNode) (ih : ZeroPos Spec ast.Spec.positions (some val)) : ZeroPos Spec ast.Spec.positions (some val) :=
  ih

theorem pos_copyExpr_present (x : ast.ExprNode) : ZeroPos copyExpr ast.Expr.positions (some x) :=
  @ast.ExprNode.rec
    (ZeroPos Field.fresh ast.Field.positions)
    (ZeroPos FieldList.fresh ast.FieldList.positions)
    (ZeroPos FuncType.fresh ast.FuncType.positions)
    (ZeroPos CallExpr.fresh ast.CallExpr.positions)
    (ZeroPos BlockStmt.fresh ast.BlockStmt.positions)
    (fun x => ZeroPos copyExpr ast.Expr.positions (some x))
    (fun x => ZeroPos copyStmt ast.Stmt.positions (some x))
    (fun x => ZeroPos Spec ast.Spec.positions (some x))
    (fun x => ZeroPos copyDecl ast.Decl.positions (some x))
    (ZeroPos copyExpr ast.Expr.positions)
    (OnSlice (ZeroPos FieldList.loop ast.Field.positionsList))
    (ZeroPos FieldList ast.FieldList.positionsPtr)
    (ZeroPos ExprList ast.Expr.positionsSlice)
    (ZeroPos StmtList ast.Stmt.positionsSlice)
    (ZeroPos FuncType ast.FuncType.positionsPtr)
    (ZeroPos BlockStmt ast.BlockStmt.positionsPtr)
    (ZeroPos copyDecl ast.Decl.positions)
    (ZeroPos copyStmt ast.Stmt.positions)
    (ZeroPos CallExpr ast.CallExpr.positionsPtr)
    (ZeroPos SpecList ast.Spec.positionsSlice)
    (ZeroPos FieldList.loop ast.Field.positionsList)
    (ZeroPos ExprList.loop ast.Expr.positionsList)
    (ZeroPos StmtList.loop ast.Stmt.positionsList)
    (ZeroPos SpecList.loop ast.Spec.positionsList)
    (ZeroPos Field ast.Field.positionsPtr)
    (ZeroPos Spec ast.Spec.positions)
    pos_Field_mk pos_FieldList_mk pos_FuncType_mk pos_CallExpr_mk pos_BlockStmt_mk
    pos_ExprNode_BadExpr pos_ExprNode_Ident pos_ExprNode_Ellipsis pos_ExprNode_BasicLit
    pos_ExprNode_FuncLit pos_ExprNode_CompositeLit pos_ExprNode_ParenExpr
    pos_ExprNode_SelectorExpr pos_ExprNode_IndexExpr pos_ExprNode_SliceExpr
    pos_ExprNode_TypeAssertExpr pos_ExprNode_CallExpr pos_ExprNode_StarExpr pos_ExprNode_UnaryExpr
    pos_ExprNode_BinaryExpr pos_ExprNode_KeyValueExpr pos_ExprNode_ArrayType
    pos_ExprNode_StructType pos_ExprNode_FuncType pos_ExprNode_InterfaceType pos_ExprNode_MapType
    pos_ExprNode_ChanType pos_ExprNode_other pos_StmtNode_BadStmt pos_StmtNode_DeclStmt
    pos_StmtNode_EmptyStmt pos_StmtNode_LabeledStmt pos_StmtNode_ExprStmt pos_StmtNode_SendStmt
    pos_StmtNode_IncDecStmt pos_StmtNode_AssignStmt pos_StmtNode_GoStmt pos_StmtNode_DeferStmt
    pos_StmtNode_ReturnStmt pos_StmtNode_BranchStmt pos_StmtNode_BlockStmt pos_StmtNode_IfStmt
    pos_StmtNode_CaseClause pos_StmtNode_SwitchStmt pos_StmtNode_TypeSwitchStmt
    pos_StmtNode_CommClause pos_StmtNode_SelectStmt pos_StmtNode_ForStmt pos_StmtNode_RangeStmt
    pos_StmtNode_other pos_SpecNode_ImportSpec pos_SpecNode_ValueSpec pos_SpecNode_TypeSpec
    pos_SpecNode_other pos_DeclNode_BadDecl pos_DeclNode_GenDecl pos_DeclNode_FuncDecl
    pos_DeclNode_other pos_Opt_ExprNode_none pos_Opt_ExprNode_some pos_Slice_Field_none
    pos_Slice_Field_some pos_Opt_FieldList_none pos_Opt_FieldList_some pos_Slice_ExprNode_none
    pos_Slice_ExprNode_some pos_Slice_StmtNode_none pos_Slice_StmtNode_some pos_Opt_FuncType_none
    pos_Opt_FuncType_some pos_Opt_BlockStmt_none pos_Opt_BlockStmt_some pos_Opt_DeclNode_none
    pos_Opt_DeclNode_some pos_Opt_StmtNode_none pos_Opt_StmtNode_some pos_Opt_CallExpr_none
    pos_Opt_CallExpr_some pos_Slice_SpecNode_none pos_Slice_SpecNode_some pos_List_Field_nil
    pos_List_Field_cons pos_List_ExprNode_nil pos_List_ExprNode_cons pos_List_StmtNode_nil
    pos_List_StmtNode_cons pos_List_SpecNode_nil pos_List_SpecNode_cons pos_Opt_Field_none
    pos_Opt_Field_some pos_Opt_SpecNode_none pos_Opt_SpecNode_some x

theorem pos_copyExpr : ∀ (x y : ast.Expr), copyExpr x = .ok y → token.Zeros (ast.Expr.positions y)
  | none => pos_Opt_ExprNode_none
  | some x => pos_copyExpr_present x

theorem pos_copyStmt_present (x : ast.StmtNode) : ZeroPos copyStmt ast.Stmt.positions (some x) :=
  @ast.StmtNode.rec
    (ZeroPos Field.fresh ast.Field.positions)
    (ZeroPos FieldList.fresh ast.FieldList.positions)
    (ZeroPos FuncType.fresh ast.FuncType.positions)
    (ZeroPos CallExpr.fresh ast.CallExpr.positions)
    (ZeroPos BlockStmt.fresh ast.BlockStmt.positions)
    (fun x => ZeroPos copyExpr ast.Expr.positions (some x))
    (fun x => ZeroPos copyStmt ast.Stmt.positions (some x))
    (fun x => ZeroPos Spec ast.Spec.positions (some x))
    (fun x => ZeroPos copyDecl ast.Decl.positions (some x))
    (ZeroPos copyExpr ast.Expr.positions)
    (OnSlice (ZeroPos FieldList.loop ast.Field.positionsList))
    (ZeroPos FieldList ast.FieldList.positionsPtr)
    (ZeroPos ExprList ast.Expr.positionsSlice)
    (ZeroPos StmtList ast.Stmt.positionsSlice)
    (ZeroPos FuncType ast.FuncType.positionsPtr)
    (ZeroPos BlockStmt ast.BlockStmt.positionsPtr)
    (ZeroPos copyDecl ast.Decl.positions)
    (ZeroPos copyStmt ast.Stmt.positions)
    (ZeroPos CallExpr ast.CallExpr.positionsPtr)
    (ZeroPos SpecList ast.Spec.positionsSlice)
    (ZeroPos FieldList.loop ast.Field.positionsList)
    (ZeroPos ExprList.loop ast.Expr.positionsList)
    (ZeroPos StmtList.loop ast.Stmt.positionsList)
    (ZeroPos SpecList.loop ast.Spec.positionsList)
    (ZeroPos Field ast.Field.positionsPtr)
    (ZeroPos Spec ast.Spec.positions)
    pos_Field_mk pos_FieldList_mk pos_FuncType_mk pos_CallExpr_mk pos_BlockStmt_mk
    pos_ExprNode_BadExpr pos_ExprNode_Ident pos_ExprNode_Ellipsis pos_ExprNode_BasicLit
    pos_ExprNode_FuncLit pos_ExprNode_CompositeLit pos_ExprNode_ParenExpr
    pos_ExprNode_SelectorExpr pos_ExprNode_IndexExpr pos_ExprNode_SliceExpr
    pos_ExprNode_TypeAssertExpr pos_ExprNode_CallExpr pos_ExprNode_StarExpr pos_ExprNode_UnaryExpr
    pos_ExprNode_BinaryExpr pos_ExprNode_KeyValueExpr pos_ExprNode_ArrayType
    pos_ExprNode_StructType pos_ExprNode_FuncType pos_ExprNode_InterfaceType pos_ExprNode_MapType
    pos_ExprNode_ChanType pos_ExprNode_other pos_StmtNode_BadStmt pos_StmtNode_DeclStmt
    pos_StmtNode_EmptyStmt pos_StmtNode_LabeledStmt pos_StmtNode_ExprStmt pos_StmtNode_SendStmt
    pos_StmtNode_IncDecStmt pos_StmtNode_AssignStmt pos_StmtNode_GoStmt pos_StmtNode_DeferStmt
    pos_StmtNode_ReturnStmt pos_StmtNode_BranchStmt pos_StmtNode_BlockStmt pos_StmtNode_IfStmt
    pos_StmtNode_CaseClause pos_StmtNode_SwitchStmt pos_StmtNode_TypeSwitchStmt
    pos_StmtNode_CommClause pos_StmtNode_SelectStmt pos_StmtNode_ForStmt pos_StmtNode_RangeStmt
    pos_StmtNode_other pos_SpecNode_ImportSpec pos_SpecNode_ValueSpec pos_SpecNode_TypeSpec
    pos_SpecNode_other pos_DeclNode_BadDecl pos_DeclNode_GenDecl pos_DeclNode_FuncDecl
    pos_DeclNode_other pos_Opt_ExprNode_none pos_Opt_ExprNode_some pos_Slice_Field_none
    pos_Slice_Field_some pos_Opt_FieldList_none pos_Opt_FieldList_some pos_Slice_ExprNode_none
    pos_Slice_ExprNode_some pos_Slice_StmtNode_none pos_Slice_StmtNode_some pos_Opt_FuncType_none
    pos_Opt_FuncType_some pos_Opt_BlockStmt_none pos_Opt_BlockStmt_some pos_Opt_DeclNode_none
    pos_Opt_DeclNode_some pos_Opt_StmtNode_none pos_Opt_StmtNode_some pos_Opt_CallExpr_none
    pos_Opt_CallExpr_some pos_Slice_SpecNode_none pos_Slice_SpecNode_some pos_List_Field_nil
    pos_List_Field_cons pos_List_ExprNode_nil pos_List_ExprNode_cons pos_List_StmtNode_nil
    pos_List_StmtNode_cons pos_List_SpecNode_nil pos_List_SpecNode_cons pos_Opt_Field_none
    pos_Opt_Field_some pos_Opt_SpecNode_none pos_Opt_SpecNode_some x

theorem pos_copyStmt : ∀ (x y : ast.Stmt), copyStmt x = .ok y → token.Zeros (ast.Stmt.positions y)
  | none => pos_Opt_StmtNode_none
  | some x => pos_copyStmt_present x

theorem pos_Spec_present (x : ast.SpecNode) : ZeroPos Spec ast.Spec.positions (some x) :=
  @ast.SpecNode.rec
    (ZeroPos Field.fresh ast.Field.positions)
    (ZeroPos FieldList.fresh ast.FieldList.positions)
    (ZeroPos FuncType.fresh ast.FuncType.positions)
    (ZeroPos CallExpr.fresh ast.CallExpr.positions)
    (ZeroPos BlockStmt.fresh ast.BlockStmt.positions)
    (fun x => ZeroPos copyExpr ast.Expr.positions (some x))
    (fun x => ZeroPos copyStmt ast.Stmt.positions (some x))
    (fun x => ZeroPos Spec ast.Spec.positions (some x))
    (fun x => ZeroPos copyDecl ast.Decl.positions (some x))
    (ZeroPos copyExpr ast.Expr.positions)
    (OnSlice (ZeroPos FieldList.loop ast.Field.positionsList))
    (ZeroPos FieldList ast.FieldList.positionsPtr)
    (ZeroPos ExprList ast.Expr.positionsSlice)
    (ZeroPos StmtList ast.Stmt.positionsSlice)
    (ZeroPos FuncType ast.FuncType.positionsPtr)
    (ZeroPos BlockStmt ast.BlockStmt.positionsPtr)
    (ZeroPos copyDecl ast.Decl.positions)
    (ZeroPos copyStmt ast.Stmt.positions)
    (ZeroPos CallExpr ast.CallExpr.positionsPtr)
    (ZeroPos SpecList ast.Spec.positionsSlice)
    (ZeroPos FieldList.loop ast.Field.positionsList)
    (ZeroPos ExprList.loop ast.Expr.positionsList)
    (ZeroPos StmtList.loop ast.Stmt.positionsList)
    (ZeroPos SpecList.loop ast.Spec.positionsList)
    (ZeroPos Field ast.Field.positionsPtr)
    (ZeroPos Spec ast.Spec.positions)
    pos_Field_mk pos_FieldList_mk pos_FuncType_mk pos_CallExpr_mk pos_BlockStmt_mk
    pos_ExprNode_BadExpr pos_ExprNode_Ident pos_ExprNode_Ellipsis pos_ExprNode_BasicLit
    pos_ExprNode_FuncLit pos_ExprNode_CompositeLit pos_ExprNode_ParenExpr
    pos_ExprNode_SelectorExpr pos_ExprNode_IndexExpr pos_ExprNode_SliceExpr
    pos_ExprNode_TypeAssertExpr pos_ExprNode_CallExpr pos_ExprNode_StarExpr pos_ExprNode_UnaryExpr
    pos_ExprNode_BinaryExpr pos_ExprNode_KeyValueExpr pos_ExprNode_ArrayType
    pos_ExprNode_StructType pos_ExprNode_FuncType pos_ExprNode_InterfaceType pos_ExprNode_MapType
    pos_ExprNode_ChanType pos_ExprNode_other pos_StmtNode_BadStmt pos_StmtNode_DeclStmt
    pos_StmtNode_EmptyStmt pos_StmtNode_LabeledStmt pos_StmtNode_ExprStmt pos_StmtNode_SendStmt
    pos_StmtNode_IncDecStmt pos_StmtNode_AssignStmt pos_StmtNode_GoStmt pos_StmtNode_DeferStmt
    pos_StmtNode_ReturnStmt pos_StmtNode_BranchStmt pos_StmtNode_BlockStmt pos_StmtNode_IfStmt
    pos_StmtNode_CaseClause pos_StmtNode_SwitchStmt pos_StmtNode_TypeSwitchStmt
    pos_StmtNode_CommClause pos_StmtNode_SelectStmt pos_StmtNode_ForStmt pos_StmtNode_RangeStmt
    pos_StmtNode_other pos_SpecNode_ImportSpec pos_SpecNode_ValueSpec pos_SpecNode_TypeSpec
    pos_SpecNode_other pos_DeclNode_BadDecl pos_DeclNode_GenDecl pos_DeclNode_FuncDecl
    pos_DeclNode_other pos_Opt_ExprNode_none pos_Opt_ExprNode_some pos_Slice_Field_none
    pos_Slice_Field_some pos_Opt_FieldList_none pos_Opt_FieldList_some pos_Slice_ExprNode_none
    pos_Slice_ExprNode_some pos_Slice_StmtNode_none pos_Slice_StmtNode_some pos_Opt_FuncType_none
    pos_Opt_FuncType_some pos_Opt_BlockStmt_none pos_Opt_BlockStmt_some pos_Opt_DeclNode_none
    pos_Opt_DeclNode_some pos_Opt_StmtNode_none pos_Opt_StmtNode_some pos_Opt_CallExpr_none
    pos_Opt_CallExpr_some pos_Slice_SpecNode_none pos_Slice_SpecNode_some pos_List_Field_nil
    pos_List_Field_cons pos_List_ExprNode_nil pos_List_ExprNode_cons pos_List_StmtNode_nil
    pos_List_StmtNode_cons pos_List_SpecNode_nil pos_List_SpecNode_cons pos_Opt_Field_none
    pos_Opt_Field_some pos_Opt_SpecNode_none pos_Opt_SpecNode_some x

theorem pos_Spec : ∀ (x y : ast.Spec), Spec x = .ok y → token.Zeros (ast.Spec.positions y)
  | none => pos_Opt_SpecNode_none
  | some x => pos_Spec_present x

theorem pos_copyDecl_present (x : ast.DeclNode) : ZeroPos copyDecl ast.Decl.positions (some x) :=
  @ast.DeclNode.rec
    (ZeroPos Field.fresh ast.Field.positions)
    (ZeroPos FieldList.fresh ast.FieldList.positions)
    (ZeroPos FuncType.fresh ast.FuncType.positions)
    (ZeroPos CallExpr.fresh ast.CallExpr.positions)
    (ZeroPos BlockStmt.fresh ast.BlockStmt.positions)
    (fun x => ZeroPos copyExpr ast.Expr.positions (some x))
    (fun x => ZeroPos copyStmt ast.Stmt.positions (some x))
    (fun x => ZeroPos Spec ast.Spec.positions (some x))
    (fun x => ZeroPos copyDecl ast.Decl.positions (some x))
    (ZeroPos copyExpr ast.Expr.positions)
    (OnSlice (ZeroPos FieldList.loop ast.Field.positionsList))
    (ZeroPos FieldList ast.FieldList.positionsPtr)
    (ZeroPos ExprList ast.Expr.positionsSlice)
    (ZeroPos StmtList ast.Stmt.positionsSlice)
    (ZeroPos FuncType ast.FuncType.positionsPtr)
    (ZeroPos BlockStmt ast.BlockStmt.positionsPtr)
    (ZeroPos copyDecl ast.Decl.positions)
    (ZeroPos copyStmt ast.Stmt.positions)
    (ZeroPos CallExpr ast.CallExpr.positionsPtr)
    (ZeroPos SpecList ast.Spec.positionsSlice)
    (ZeroPos FieldList.loop ast.Field.positionsList)
    (ZeroPos ExprList.loop ast.Expr.positionsList)
    (ZeroPos StmtList.loop ast.Stmt.positionsList)
    (ZeroPos SpecList.loop ast.Spec.positionsList)
    (ZeroPos Field ast.Field.positionsPtr)
    (ZeroPos Spec ast.Spec.positions)
    pos_Field_mk pos_FieldList_mk pos_FuncType_mk pos_CallExpr_mk pos_BlockStmt_mk
    pos_ExprNode_BadExpr pos_ExprNode_Ident pos_ExprNode_Ellipsis pos_ExprNode_BasicLit
    pos_ExprNode_FuncLit pos_ExprNode_CompositeLit pos_ExprNode_ParenExpr
    pos_ExprNode_SelectorExpr pos_ExprNode_IndexExpr pos_ExprNode_SliceExpr
    pos_ExprNode_TypeAssertExpr pos_ExprNode_CallExpr pos_ExprNode_StarExpr pos_ExprNode_UnaryExpr
    pos_ExprNode_BinaryExpr pos_ExprNode_KeyValueExpr pos_ExprNode_ArrayType
    pos_ExprNode_StructType pos_ExprNode_FuncType pos_ExprNode_InterfaceType pos_ExprNode_MapType
    pos_ExprNode_ChanType pos_ExprNode_other pos_StmtNode_BadStmt pos_StmtNode_DeclStmt
    pos_StmtNode_EmptyStmt pos_StmtNode_LabeledStmt pos_StmtNode_ExprStmt pos_StmtNode_SendStmt
    pos_StmtNode_IncDecStmt pos_StmtNode_AssignStmt pos_StmtNode_GoStmt pos_StmtNode_DeferStmt
    pos_StmtNode_ReturnStmt pos_StmtNode_BranchStmt pos_StmtNode_BlockStmt pos_StmtNode_IfStmt
    pos_StmtNode_CaseClause pos_StmtNode_SwitchStmt pos_StmtNode_TypeSwitchStmt
    pos_StmtNode_CommClause pos_StmtNode_SelectStmt pos_StmtNode_ForStmt pos_StmtNode_RangeStmt
    pos_StmtNode_other pos_SpecNode_ImportSpec pos_SpecNode_ValueSpec pos_SpecNode_TypeSpec
    pos_SpecNode_other pos_DeclNode_BadDecl pos_DeclNode_GenDecl pos_DeclNode_FuncDecl
    pos_DeclNode_other pos_Opt_ExprNode_none pos_Opt_ExprNode_some pos_Slice_Field_none
    pos_Slice_Field_some pos_Opt_FieldList_none pos_Opt_FieldList_some pos_Slice_ExprNode_none
    pos_Slice_ExprNode_some pos_Slice_StmtNode_none pos_Slice_StmtNode_some pos_Opt_FuncType_none
    pos_Opt_FuncType_some pos_Opt_BlockStmt_none pos_Opt_BlockStmt_some pos_Opt_DeclNode_none
    pos_Opt_DeclNode_some pos_Opt_StmtNode_none pos_Opt_StmtNode_some pos_Opt_CallExpr_none
    pos_Opt_CallExpr_some pos_Slice_SpecNode_none pos_Slice_SpecNode_some pos_List_Field_nil
    pos_List_Field_cons pos_List_ExprNode_nil pos_List_ExprNode_cons pos_List_StmtNode_nil
    pos_List_StmtNode_cons pos_List_SpecNode_nil pos_List_SpecNode_cons pos_Opt_Field_none
    pos_Opt_Field_some pos_Opt_SpecNode_none pos_Opt_SpecNode_some x

theorem pos_copyDecl : ∀ (x y : ast.Decl), copyDecl x = .ok y → token.Zeros (ast.Decl.positions y)
  | none => pos_Opt_DeclNode_none
  | some x => pos_copyDecl_present x

theorem pos_FieldList_fresh (x : ast.FieldList) : ZeroPos FieldList.fresh ast.FieldList.positions x :=
  @ast.FieldList.rec
    (ZeroPos Field.fresh ast.Field.positions)
    (ZeroPos FieldList.fresh ast.FieldList.positions)
    (ZeroPos FuncType.fresh ast.FuncType.positions)
    (ZeroPos CallExpr.fresh ast.CallExpr.positions)
    (ZeroPos BlockStmt.fresh ast.BlockStmt.positions)
    (fun x => ZeroPos copyExpr ast.Expr.positions (some x))
    (fun x => ZeroPos copyStmt ast.Stmt.positions (some x))
    (fun x => ZeroPos Spec ast.Spec.positions (some x))
    (fun x => ZeroPos copyDecl ast.Decl.positions (some x))
    (ZeroPos copyExpr ast.Expr.positions)
    (OnSlice (ZeroPos FieldList.loop ast.Field.positionsList))
    (ZeroPos FieldList ast.FieldList.positionsPtr)
    (ZeroPos ExprList ast.Expr.positionsSlice)
    (ZeroPos StmtList ast.Stmt.positionsSlice)
    (ZeroPos FuncType ast.FuncType.positionsPtr)
    (ZeroPos BlockStmt ast.BlockStmt.positionsPtr)
    (ZeroPos copyDecl ast.Decl.positions)
    (ZeroPos copyStmt ast.Stmt.positions)
    (ZeroPos CallExpr ast.CallExpr.positionsPtr)
    (ZeroPos SpecList ast.Spec.positionsSlice)
    (ZeroPos FieldList.loop ast.Field.positionsList)
    (ZeroPos ExprList.loop ast.Expr.positionsList)
    (ZeroPos StmtList.loop ast.Stmt.positionsList)
    (ZeroPos SpecList.loop ast.Spec.positionsList)
    (ZeroPos Field ast.Field.positionsPtr)
    (ZeroPos Spec ast.Spec.positions)
    pos_Field_mk pos_FieldList_mk pos_FuncType_mk pos_CallExpr_mk pos_BlockStmt_mk
    pos_ExprNode_BadExpr pos_ExprNode_Ident pos_ExprNode_Ellipsis pos_ExprNode_BasicLit
    pos_ExprNode_FuncLit pos_ExprNode_CompositeLit pos_ExprNode_ParenExpr
    pos_ExprNode_SelectorExpr pos_ExprNode_IndexExpr pos_ExprNode_SliceExpr
    pos_ExprNode_TypeAssertExpr pos_ExprNode_CallExpr pos_ExprNode_StarExpr pos_ExprNode_UnaryExpr
    pos_ExprNode_BinaryExpr pos_ExprNode_KeyValueExpr pos_ExprNode_ArrayType
    pos_ExprNode_StructType pos_ExprNode_FuncType pos_ExprNode_InterfaceType pos_ExprNode_MapType
    pos_ExprNode_ChanType pos_ExprNode_other pos_StmtNode_BadStmt pos_StmtNode_DeclStmt
    pos_StmtNode_EmptyStmt pos_StmtNode_LabeledStmt pos_StmtNode_ExprStmt pos_StmtNode_SendStmt
    pos_StmtNode_IncDecStmt pos_StmtNode_AssignStmt pos_StmtNode_GoStmt pos_StmtNode_DeferStmt
    pos_StmtNode_ReturnStmt pos_StmtNode_BranchStmt pos_StmtNode_BlockStmt pos_StmtNode_IfStmt
    pos_StmtNode_CaseClause pos_StmtNode_SwitchStmt pos_StmtNode_TypeSwitchStmt
    pos_StmtNode_CommClause pos_StmtNode_SelectStmt pos_StmtNode_ForStmt pos_StmtNode_RangeStmt
    pos_StmtNode_other pos_SpecNode_ImportSpec pos_SpecNode_ValueSpec pos_SpecNode_TypeSpec
    pos_SpecNode_other pos_DeclNode_BadDecl pos_DeclNode_GenDecl pos_DeclNode_FuncDecl
    pos_DeclNode_other pos_Opt_ExprNode_none pos_Opt_ExprNode_some pos_Slice_Field_none
    pos_Slice_Field_some pos_Opt_FieldList_none pos_Opt_FieldList_some pos_Slice_ExprNode_none
    pos_Slice_ExprNode_some pos_Slice_StmtNode_none pos_Slice_StmtNode_some pos_Opt_FuncType_none
    pos_Opt_FuncType_some pos_Opt_BlockStmt_none pos_Opt_BlockStmt_some pos_Opt_DeclNode_none
    pos_Opt_DeclNode_some pos_Opt_StmtNode_none pos_Opt_StmtNode_some pos_Opt_CallExpr_none
    pos_Opt_CallExpr_some pos_Slice_SpecNode_none pos_Slice_SpecNode_some pos_List_Field_nil
    pos_List_Field_cons pos_List_ExprNode_nil pos_List_ExprNode_cons pos_List_StmtNode_nil
    pos_List_StmtNode_cons pos_List_SpecNode_nil pos_List_SpecNode_cons pos_Opt_Field_none
    pos_Opt_Field_some pos_Opt_SpecNode_none pos_Opt_SpecNode_some x

theorem pos_FieldList : ∀ (x : Option ast.FieldList), ZeroPos FieldList ast.FieldList.positionsPtr x
  | none => pos_Opt_FieldList_none
  | some x => pos_Opt_FieldList_some x (pos_FieldList_fresh x)

theorem pos_Field_fresh (x : ast.Field) : ZeroPos Field.fresh ast.Field.positions x :=
  @ast.Field.rec
    (ZeroPos Field.fresh ast.Field.positions)
    (ZeroPos FieldList.fresh ast.FieldList.positions)
    (ZeroPos FuncType.fresh ast.FuncType.positions)
    (ZeroPos CallExpr.fresh ast.CallExpr.positions)
    (ZeroPos BlockStmt.fresh ast.BlockStmt.positions)
    (fun x => ZeroPos copyExpr ast.Expr.positions (some x))
    (fun x => ZeroPos copyStmt ast.Stmt.positions (some x))
    (fun x => ZeroPos Spec ast.Spec.positions (some x))
    (fun x => ZeroPos copyDecl ast.Decl.positions (some x))
    (ZeroPos copyExpr ast.Expr.positions)
    (OnSlice (ZeroPos FieldList.loop ast.Field.positionsList))
    (ZeroPos FieldList ast.FieldList.positionsPtr)
    (ZeroPos ExprList ast.Expr.positionsSlice)
    (ZeroPos StmtList ast.Stmt.positionsSlice)
    (ZeroPos FuncType ast.FuncType.positionsPtr)
    (ZeroPos BlockStmt ast.BlockStmt.positionsPtr)
    (ZeroPos copyDecl ast.Decl.positions)
    (ZeroPos copyStmt ast.Stmt.positions)
    (ZeroPos CallExpr ast.CallExpr.positionsPtr)
    (ZeroPos SpecList ast.Spec.positionsSlice)
    (ZeroPos FieldList.loop ast.Field.positionsList)
    (ZeroPos ExprList.loop ast.Expr.positionsList)
    (ZeroPos StmtList.loop ast.Stmt.positionsList)
    (ZeroPos SpecList.loop ast.Spec.positionsList)
    (ZeroPos Field ast.Field.positionsPtr)
    (ZeroPos Spec ast.Spec.positions)
    pos_Field_mk pos_FieldList_mk pos_FuncType_mk pos_CallExpr_mk pos_BlockStmt_mk
    pos_ExprNode_BadExpr pos_ExprNode_Ident pos_ExprNode_Ellipsis pos_ExprNode_BasicLit
    pos_ExprNode_FuncLit pos_ExprNode_CompositeLit pos_ExprNode_ParenExpr
    pos_ExprNode_SelectorExpr pos_ExprNode_IndexExpr pos_ExprNode_SliceExpr
    pos_ExprNode_TypeAssertExpr pos_ExprNode_CallExpr pos_ExprNode_StarExpr pos_ExprNode_UnaryExpr
    pos_ExprNode_BinaryExpr pos_ExprNode_KeyValueExpr pos_ExprNode_ArrayType
    pos_ExprNode_StructType pos_ExprNode_FuncType pos_ExprNode_InterfaceType pos_ExprNode_MapType
    pos_ExprNode_ChanType pos_ExprNode_other pos_StmtNode_BadStmt pos_StmtNode_DeclStmt
    pos_StmtNode_EmptyStmt pos_StmtNode_LabeledStmt pos_StmtNode_ExprStmt pos_StmtNode_SendStmt
    pos_StmtNode_IncDecStmt pos_StmtNode_AssignStmt pos_StmtNode_GoStmt pos_StmtNode_DeferStmt
    pos_StmtNode_ReturnStmt pos_StmtNode_BranchStmt pos_StmtNode_BlockStmt pos_StmtNode_IfStmt
    pos_StmtNode_CaseClause pos_StmtNode_SwitchStmt pos_StmtNode_TypeSwitchStmt
    pos_StmtNode_CommClause pos_StmtNode_SelectStmt pos_StmtNode_ForStmt pos_StmtNode_RangeStmt
    pos_StmtNode_other pos_SpecNode_ImportSpec pos_SpecNode_ValueSpec pos_SpecNode_TypeSpec
    pos_SpecNode_other pos_DeclNode_BadDecl pos_DeclNode_GenDecl pos_DeclNode_FuncDecl
    pos_DeclNode_other pos_Opt_ExprNode_none pos_Opt_ExprNode_some pos_Slice_Field_none
    pos_Slice_Field_some pos_Opt_FieldList_none pos_Opt_FieldList_some pos_Slice_ExprNode_none
    pos_Slice_ExprNode_some pos_Slice_StmtNode_none pos_Slice_StmtNode_some pos_Opt_FuncType_none
    pos_Opt_FuncType_some pos_Opt_BlockStmt_none pos_Opt_BlockStmt_some pos_Opt_DeclNode_none
    pos_Opt_DeclNode_some pos_Opt_StmtNode_none pos_Opt_StmtNode_some pos_Opt_CallExpr_none
    pos_Opt_CallExpr_some pos_Slice_SpecNode_none pos_Slice_SpecNode_some pos_List_Field_nil
    pos_List_Field_cons pos_List_ExprNode_nil pos_List_ExprNode_cons pos_List_StmtNode_nil
    pos_List_StmtNode_cons pos_List_SpecNode_nil pos_List_SpecNode_cons pos_Opt_Field_none
    pos_Opt_Field_some pos_Opt_SpecNode_none pos_Opt_SpecNode_some x

theorem pos_Field : ∀ (x : Option ast.Field), ZeroPos Field ast.Field.positionsPtr x
  | none => pos_Opt_Field_none
  | some x => pos_Opt_Field_some x (pos_Field_fresh x)

theorem pos_FuncType_fresh (x : ast.FuncType) : ZeroPos FuncType.fresh ast.FuncType.positions x :=
  @ast.FuncType.rec
    (ZeroPos Field.fresh ast.Field.positions)
    (ZeroPos FieldList.fresh ast.FieldList.positions)
    (ZeroPos FuncType.fresh ast.FuncType.positions)
    (ZeroPos CallExpr.fresh ast.CallExpr.positions)
    (ZeroPos BlockStmt.fresh ast.BlockStmt.positions)
    (fun x => ZeroPos copyExpr ast.Expr.positions (some x))
    (fun x => ZeroPos copyStmt ast.Stmt.positions (some x))
    (fun x => ZeroPos Spec ast.Spec.positions (some x))
    (fun x => ZeroPos copyDecl ast.Decl.positions (some x))
    (ZeroPos copyExpr ast.Expr.positions)
    (OnSlice (ZeroPos FieldList.loop ast.Field.positionsList))
    (ZeroPos FieldList ast.FieldList.positionsPtr)
    (ZeroPos ExprList ast.Expr.positionsSlice)
    (ZeroPos StmtList ast.Stmt.positionsSlice)
    (ZeroPos FuncType ast.FuncType.positionsPtr)
    (ZeroPos BlockStmt ast.BlockStmt.positionsPtr)
    (ZeroPos copyDecl ast.Decl.positions)
    (ZeroPos copyStmt ast.Stmt.positions)
    (ZeroPos CallExpr ast.CallExpr.positionsPtr)
    (ZeroPos SpecList ast.Spec.positionsSlice)
    (ZeroPos FieldList.loop ast.Field.positionsList)
    (ZeroPos ExprList.loop ast.Expr.positionsList)
    (ZeroPos StmtList.loop ast.Stmt.positionsList)
    (ZeroPos SpecList.loop ast.Spec.positionsList)
    (ZeroPos Field ast.Field.positionsPtr)
    (ZeroPos Spec ast.Spec.positions)
    pos_Field_mk pos_FieldList_mk pos_FuncType_mk pos_CallExpr_mk pos_BlockStmt_mk
    pos_ExprNode_BadExpr pos_ExprNode_Ident pos_ExprNode_Ellipsis pos_ExprNode_BasicLit
    pos_ExprNode_FuncLit pos_ExprNode_CompositeLit pos_ExprNode_ParenExpr
    pos_ExprNode_SelectorExpr pos_ExprNode_IndexExpr pos_ExprNode_SliceExpr
    pos_ExprNode_TypeAssertExpr pos_ExprNode_CallExpr pos_ExprNode_StarExpr pos_ExprNode_UnaryExpr
    pos_ExprNode_BinaryExpr pos_ExprNode_KeyValueExpr pos_ExprNode_ArrayType
    pos_ExprNode_StructType pos_ExprNode_FuncType pos_ExprNode_InterfaceType pos_ExprNode_MapType
    pos_ExprNode_ChanType pos_ExprNode_other pos_StmtNode_BadStmt pos_StmtNode_DeclStmt
    pos_StmtNode_EmptyStmt pos_StmtNode_LabeledStmt pos_StmtNode_ExprStmt pos_StmtNode_SendStmt
    pos_StmtNode_IncDecStmt pos_StmtNode_AssignStmt pos_StmtNode_GoStmt pos_StmtNode_DeferStmt
    pos_StmtNode_ReturnStmt pos_StmtNode_BranchStmt pos_StmtNode_BlockStmt pos_StmtNode_IfStmt
    pos_StmtNode_CaseClause pos_StmtNode_SwitchStmt pos_StmtNode_TypeSwitchStmt
    pos_StmtNode_CommClause pos_StmtNode_SelectStmt pos_StmtNode_ForStmt pos_StmtNode_RangeStmt
    pos_StmtNode_other pos_SpecNode_ImportSpec pos_SpecNode_ValueSpec pos_SpecNode_TypeSpec
    pos_SpecNode_other pos_DeclNode_BadDecl pos_DeclNode_GenDecl pos_DeclNode_FuncDecl
    pos_DeclNode_other pos_Opt_ExprNode_none pos_Opt_ExprNode_some pos_Slice_Field_none
    pos_Slice_Field_some pos_Opt_FieldList_none pos_Opt_FieldList_some pos_Slice_ExprNode_none
    pos_Slice_ExprNode_some pos_Slice_StmtNode_none pos_Slice_StmtNode_some pos_Opt_FuncType_none
    pos_Opt_FuncType_some pos_Opt_BlockStmt_none pos_Opt_BlockStmt_some pos_Opt_DeclNode_none
    pos_Opt_DeclNode_some pos_Opt_StmtNode_none pos_Opt_StmtNode_some pos_Opt_CallExpr_none
    pos_Opt_CallExpr_some pos_Slice_SpecNode_none pos_Slice_SpecNode_some pos_List_Field_nil
    pos_List_Field_cons pos_List_ExprNode_nil pos_List_ExprNode_cons pos_List_StmtNode_nil
    pos_List_StmtNode_cons pos_List_SpecNode_nil pos_List_SpecNode_cons pos_Opt_Field_none
    pos_Opt_Field_some pos_Opt_SpecNode_none pos_Opt_SpecNode_some x

theorem pos_FuncType : ∀ (x : Option ast.FuncType), ZeroPos FuncType ast.FuncType.positionsPtr x
  | none => pos_Opt_FuncType_none
  | some x => pos_Opt_FuncType_some x (pos_FuncType_fresh x)

theorem pos_CallExpr_fresh (x : ast.CallExpr) : ZeroPos CallExpr.fresh ast.CallExpr.positions x :=
  @ast.CallExpr.rec
    (ZeroPos Field.fresh ast.Field.positions)
    (ZeroPos FieldList.fresh ast.FieldList.positions)
    (ZeroPos FuncType.fresh ast.FuncType.positions)
    (ZeroPos CallExpr.fresh ast.CallExpr.positions)
    (ZeroPos BlockStmt.fresh ast.BlockStmt.positions)
    (fun x => ZeroPos copyExpr ast.Expr.positions (some x))
    (fun x => ZeroPos copyStmt ast.Stmt.positions (some x))
    (fun x => ZeroPos Spec ast.Spec.positions (some x))
    (fun x => ZeroPos copyDecl ast.Decl.positions (some x))
    (ZeroPos copyExpr ast.Expr.positions)
    (OnSlice (ZeroPos FieldList.loop ast.Field.positionsList))
    (ZeroPos FieldList ast.FieldList.positionsPtr)
    (ZeroPos ExprList ast.Expr.positionsSlice)
    (ZeroPos StmtList ast.Stmt.positionsSlice)
    (ZeroPos FuncType ast.FuncType.positionsPtr)
    (ZeroPos BlockStmt ast.BlockStmt.positionsPtr)
    (ZeroPos copyDecl ast.Decl.positions)
    (ZeroPos copyStmt ast.Stmt.positions)
    (ZeroPos CallExpr ast.CallExpr.positionsPtr)
    (ZeroPos SpecList ast.Spec.positionsSlice)
    (ZeroPos FieldList.loop ast.Field.positionsList)
    (ZeroPos ExprList.loop ast.Expr.positionsList)
    (ZeroPos StmtList.loop ast.Stmt.positionsList)
    (ZeroPos SpecList.loop ast.Spec.positionsList)
    (ZeroPos Field ast.Field.positionsPtr)
    (ZeroPos Spec ast.Spec.positions)
    pos_Field_mk pos_FieldList_mk pos_FuncType_mk pos_CallExpr_mk pos_BlockStmt_mk
    pos_ExprNode_BadExpr pos_ExprNode_Ident pos_ExprNode_Ellipsis pos_ExprNode_BasicLit
    pos_ExprNode_FuncLit pos_ExprNode_CompositeLit pos_ExprNode_ParenExpr
    pos_ExprNode_SelectorExpr pos_ExprNode_IndexExpr pos_ExprNode_SliceExpr
    pos_ExprNode_TypeAssertExpr pos_ExprNode_CallExpr pos_ExprNode_StarExpr pos_ExprNode_UnaryExpr
    pos_ExprNode_BinaryExpr pos_ExprNode_KeyValueExpr pos_ExprNode_ArrayType
    pos_ExprNode_StructType pos_ExprNode_FuncType pos_ExprNode_InterfaceType pos_ExprNode_MapType
    pos_ExprNode_ChanType pos_ExprNode_other pos_StmtNode_BadStmt pos_StmtNode_DeclStmt
    pos_StmtNode_EmptyStmt pos_StmtNode_LabeledStmt pos_StmtNode_ExprStmt pos_StmtNode_SendStmt
    pos_StmtNode_IncDecStmt pos_StmtNode_AssignStmt pos_StmtNode_GoStmt pos_StmtNode_DeferStmt
    pos_StmtNode_ReturnStmt pos_StmtNode_BranchStmt pos_StmtNode_BlockStmt pos_StmtNode_IfStmt
    pos_StmtNode_CaseClause pos_StmtNode_SwitchStmt pos_StmtNode_TypeSwitchStmt
    pos_StmtNode_CommClause pos_StmtNode_SelectStmt pos_StmtNode_ForStmt pos_StmtNode_RangeStmt
    pos_StmtNode_other pos_SpecNode_ImportSpec pos_SpecNode_ValueSpec pos_SpecNode_TypeSpec
    pos_SpecNode_other pos_DeclNode_BadDecl pos_DeclNode_GenDecl pos_DeclNode_FuncDecl
    pos_DeclNode_other pos_Opt_ExprNode_none pos_Opt_ExprNode_some pos_Slice_Field_none
    pos_Slice_Field_some pos_Opt_FieldList_none pos_Opt_FieldList_some pos_Slice_ExprNode_none
    pos_Slice_ExprNode_some pos_Slice_StmtNode_none pos_Slice_StmtNode_some pos_Opt_FuncType_none
    pos_Opt_FuncType_some pos_Opt_BlockStmt_none pos_Opt_BlockStmt_some pos_Opt_DeclNode_none
    pos_Opt_DeclNode_some pos_Opt_StmtNode_none pos_Opt_StmtNode_some pos_Opt_CallExpr_none
    pos_Opt_CallExpr_some pos_Slice_SpecNode_none pos_Slice_SpecNode_some pos_List_Field_nil
    pos_List_Field_cons pos_List_ExprNode_nil pos_List_ExprNode_cons pos_List_StmtNode_nil
    pos_List_StmtNode_cons pos_List_SpecNode_nil pos_List_SpecNode_cons pos_Opt_Field_none
    pos_Opt_Field_some pos_Opt_SpecNode_none pos_Opt_SpecNode_some x

theorem pos_CallExpr : ∀ (x : Option ast.CallExpr), ZeroPos CallExpr ast.CallExpr.positionsPtr x
  | none => pos_Opt_CallExpr_none
  | some x => pos_Opt_CallExpr_some x (pos_CallExpr_fresh x)

theorem pos_BlockStmt_fresh (x : ast.BlockStmt) : ZeroPos BlockStmt.fresh ast.BlockStmt.positions x :=
  @ast.BlockStmt.rec
    (ZeroPos Field.fresh ast.Field.positions)
    (ZeroPos FieldList.fresh ast.FieldList.positions)
    (ZeroPos FuncType.fresh ast.FuncType.positions)
    (ZeroPos CallExpr.fresh ast.CallExpr.positions)
    (ZeroPos BlockStmt.fresh ast.BlockStmt.positions)
    (fun x => ZeroPos copyExpr ast.Expr.positions (some x))
    (fun x => ZeroPos copyStmt ast.Stmt.positions (some x))
    (fun x => ZeroPos Spec ast.Spec.positions (some x))
    (fun x => ZeroPos copyDecl ast.Decl.positions (some x))
    (ZeroPos copyExpr ast.Expr.positions)
    (OnSlice (ZeroPos FieldList.loop ast.Field.positionsList))
    (ZeroPos FieldList ast.FieldList.positionsPtr)
    (ZeroPos ExprList ast.Expr.positionsSlice)
    (ZeroPos StmtList ast.Stmt.positionsSlice)
    (ZeroPos FuncType ast.FuncType.positionsPtr)
    (ZeroPos BlockStmt ast.BlockStmt.positionsPtr)
    (ZeroPos copyDecl ast.Decl.positions)
    (ZeroPos copyStmt ast.Stmt.positions)
    (ZeroPos CallExpr ast.CallExpr.positionsPtr)
    (ZeroPos SpecList ast.Spec.positionsSlice)
    (ZeroPos FieldList.loop ast.Field.positionsList)
    (ZeroPos ExprList.loop ast.Expr.positionsList)
    (ZeroPos StmtList.loop ast.Stmt.positionsList)
    (ZeroPos SpecList.loop ast.Spec.positionsList)
    (ZeroPos Field ast.Field.positionsPtr)
    (ZeroPos Spec ast.Spec.positions)
    pos_Field_mk pos_FieldList_mk pos_FuncType_mk pos_CallExpr_mk pos_BlockStmt_mk
    pos_ExprNode_BadExpr pos_ExprNode_Ident pos_ExprNode_Ellipsis pos_ExprNode_BasicLit
    pos_ExprNode_FuncLit pos_ExprNode_CompositeLit pos_ExprNode_ParenExpr
    pos_ExprNode_SelectorExpr pos_ExprNode_IndexExpr pos_ExprNode_SliceExpr
    pos_ExprNode_TypeAssertExpr pos_ExprNode_CallExpr pos_ExprNode_StarExpr pos_ExprNode_UnaryExpr
    pos_ExprNode_BinaryExpr pos_ExprNode_KeyValueExpr pos_ExprNode_ArrayType
    pos_ExprNode_StructType pos_ExprNode_FuncType pos_ExprNode_InterfaceType pos_ExprNode_MapType
    pos_ExprNode_ChanType pos_ExprNode_other pos_StmtNode_BadStmt pos_StmtNode_DeclStmt
    pos_StmtNode_EmptyStmt pos_StmtNode_LabeledStmt pos_StmtNode_ExprStmt pos_StmtNode_SendStmt
    pos_StmtNode_IncDecStmt pos_StmtNode_AssignStmt pos_StmtNode_GoStmt pos_StmtNode_DeferStmt
    pos_StmtNode_ReturnStmt pos_StmtNode_BranchStmt pos_StmtNode_BlockStmt pos_StmtNode_IfStmt
    pos_StmtNode_CaseClause pos_StmtNode_SwitchStmt pos_StmtNode_TypeSwitchStmt
    pos_StmtNode_CommClause pos_StmtNode_SelectStmt pos_StmtNode_ForStmt pos_StmtNode_RangeStmt
    pos_StmtNode_other pos_SpecNode_ImportSpec pos_SpecNode_ValueSpec pos_SpecNode_TypeSpec
    pos_SpecNode_other pos_DeclNode_BadDecl pos_DeclNode_GenDecl pos_DeclNode_FuncDecl
    pos_DeclNode_other pos_Opt_ExprNode_none pos_Opt_ExprNode_some pos_Slice_Field_none
    pos_Slice_Field_some pos_Opt_FieldList_none pos_Opt_FieldList_some pos_Slice_ExprNode_none
    pos_Slice_ExprNode_some pos_Slice_StmtNode_none pos_Slice_StmtNode_some pos_Opt_FuncType_none
    pos_Opt_FuncType_some pos_Opt_BlockStmt_none pos_Opt_BlockStmt_some pos_Opt_DeclNode_none
    pos_Opt_DeclNode_some pos_Opt_StmtNode_none pos_Opt_StmtNode_some pos_Opt_CallExpr_none
    pos_Opt_CallExpr_some pos_Slice_SpecNode_none pos_Slice_SpecNode_some pos_List_Field_nil
    pos_List_Field_cons pos_List_ExprNode_nil pos_List_ExprNode_cons pos_List_StmtNode_nil
    pos_List_StmtNode_cons pos_List_SpecNode_nil pos_List_SpecNode_cons pos_Opt_Field_none
    pos_Opt_Field_some pos_Opt_SpecNode_none pos_Opt_SpecNode_some x

theorem pos_BlockStmt : ∀ (x : Option ast.BlockStmt), ZeroPos BlockStmt ast.BlockStmt.positionsPtr x
  | none => pos_Opt_BlockStmt_none
  | some x => pos_Opt_BlockStmt_some x (pos_BlockStmt_fresh x)

/-! ## Copying a copy: one lemma for each constructor, then the recursor -/

theorem idem_Field_mk (xDoc : Option ast.CommentGroup) (xNames : Option (List (Option ast.Ident))) (xType : Option ast.ExprNode) (xTag : Option ast.BasicLit) (xComment : Option ast.CommentGroup)
    (iType : Fixed copyExpr xType)
    : Fixed Field.fresh (.mk xDoc xNames xType xTag xComment) := by
  intro y h
  rw [Field.fresh] at h
  simp only [bind_eq_ok, pure_eq_ok] at h
  obtain ⟨cType, hcType, rfl⟩ := h
  have icType := iType cType hcType
  simp only [Field.fresh, ok_bind, pure_eq_ok, Ident_idem, IdentList_idem, BasicLit_idem, CommentGroup_idem, BadExpr_fresh_idem, Ident_fresh_idem, BasicLit_fresh_idem, BadStmt_fresh_idem, EmptyStmt_fresh_idem, BranchStmt_fresh_idem, ImportSpec_fresh_idem, BadDecl_fresh_idem, icType]

theorem idem_FieldList_mk (xOpening : token.Pos) (xList : Option (List (Option ast.Field))) (xClosing : token.Pos)
    (iList : OnSlice (Fixed FieldList.loop) xList)
    : Fixed FieldList.fresh (.mk xOpening xList xClosing) := by
  cases xList with
  | none =>
    intro y h
    rw [FieldList.fresh] at h
    simp only [bind_eq_ok, pure_eq_ok] at h
    obtain rfl := h
    rfl
  | some xs =>
    have iList := iList xs rfl
    intro y h
    rw [FieldList.fresh] at h
    simp only [bind_eq_ok, pure_eq_ok] at h
    obtain ⟨cp, hcp, rfl⟩ := h
    have icp := iList cp hcp
    simp only [FieldList.fresh, ok_bind, pure_eq_ok, icp]

theorem idem_FuncType_mk (xFunc : token.Pos) (xParams : Option ast.FieldList) (xResults : Option ast.FieldList)
    (iParams : Fixed FieldList xParams)
    (iResults : Fixed FieldList xResults)
    : Fixed FuncType.fresh (.mk xFunc xParams xResults) := by
  intro y h
  rw [FuncType.fresh] at h
  simp only [bind_eq_ok, pure_eq_ok] at h
  obtain ⟨cParams, hcParams, cResults, hcResults, rfl⟩ := h
  have icParams := iParams cParams hcParams
  have icResults := iResults cResults hcResults
  simp only [FuncType.fresh, ok_bind, pure_eq_ok, Ident_idem, IdentList_idem, BasicLit_idem, CommentGroup_idem, BadExpr_fresh_idem, Ident_fresh_idem, BasicLit_fresh_idem, BadStmt_fresh_idem, EmptyStmt_fresh_idem, BranchStmt_fresh_idem, ImportSpec_fresh_idem, BadDecl_fresh_idem, icParams, icResults]

theorem idem_CallExpr_mk (xFun : Option ast.ExprNode) (xLparen : token.Pos) (xArgs : Option (List (Option ast.ExprNode))) (xEllipsis : token.Pos) (xRparen : token.Pos)
    (iFun : Fixed copyExpr xFun)
    (iArgs : Fixed ExprList xArgs)
    : Fixed CallExpr.fresh (.mk xFun xLparen xArgs xEllipsis xRparen) := by
  intro y h
  rw [CallExpr.fresh] at h
  simp only [bind_eq_ok, pure_eq_ok] at h
  obtain ⟨cFun, hcFun, cArgs, hcArgs, rfl⟩ := h
  have icFun := iFun cFun hcFun
  have icArgs := iArgs cArgs hcArgs
  simp only [CallExpr.fresh, ok_bind, pure_eq_ok, Ident_idem, IdentList_idem, BasicLit_idem, CommentGroup_idem, BadExpr_fresh_idem, Ident_fresh_idem, BasicLit_fresh_idem, BadStmt_fresh_idem, EmptyStmt_fresh_idem, BranchStmt_fresh_idem, ImportSpec_fresh_idem, BadDecl_fresh_idem, icFun, icArgs]

theorem idem_BlockStmt_mk (xLbrace : token.Pos) (xList : Option (List (Option ast.StmtNode))) (xRbrace : token.Pos)
    (iList : Fixed StmtList xList)
    : Fixed BlockStmt.fresh (.mk xLbrace xList xRbrace) := by
  intro y h
  rw [BlockStmt.fresh] at h
  simp only [bind_eq_ok, pure_eq_ok] at h
  obtain ⟨cList, hcList, rfl⟩ := h
  have icList := iList cList hcList
  simp only [BlockStmt.fresh, ok_bind, pure_eq_ok, Ident_idem, IdentList_idem, BasicLit_idem, CommentGroup_idem, BadExpr_fresh_idem, Ident_fresh_idem, BasicLit_fresh_idem, BadStmt_fresh_idem, EmptyStmt_fresh_idem, BranchStmt_fresh_idem, ImportSpec_fresh_idem, BadDecl_fresh_idem, icList]

theorem idem_ExprNode_BadExpr (x : ast.BadExpr) : Fixed copyExpr (some (.BadExpr x)) := by
  intro y h
  rw [copyExpr] at h
  simp only [bind_eq_ok, pure_eq_ok] at h
  obtain rfl := h
  simp only [copyExpr, ok_bind, pure_eq_ok, Ident_idem, IdentList_idem, BasicLit_idem, CommentGroup_idem, BadExpr_fresh_idem, Ident_fresh_idem, BasicLit_fresh_idem, BadStmt_fresh_idem, EmptyStmt_fresh_idem, BranchStmt_fresh_idem, ImportSpec_fresh_idem, BadDecl_fresh_idem]

theorem idem_ExprNode_Ident (x : ast.Ident) : Fixed copyExpr (some (.Ident x)) := by
  intro y h
  rw [copyExpr] at h
  simp only [bind_eq_ok, pure_eq_ok] at h
  obtain rfl := h
  simp only [copyExpr, ok_bind, pure_eq_ok, Ident_idem, IdentList_idem, BasicLit_idem, CommentGroup_idem, BadExpr_fresh_idem, Ident_fresh_idem, BasicLit_fresh_idem, BadStmt_fresh_idem, EmptyStmt_fresh_idem, BranchStmt_fresh_idem, ImportSpec_fresh_idem, BadDecl_fresh_idem]

theorem idem_ExprNode_Ellipsis (xEllipsis : token.Pos) (xElt : Option ast.ExprNode)
    (iElt : Fixed copyExpr xElt)
    : Fixed copyExpr (some (.Ellipsis xEllipsis xElt)) := by
  intro y h
  rw [copyExpr] at h
  simp only [bind_eq_ok, pure_eq_ok] at h
  obtain ⟨cElt, hcElt, rfl⟩ := h
  have icElt := iElt cElt hcElt
  simp only [copyExpr, ok_bind, pure_eq_ok, Ident_idem, IdentList_idem, BasicLit_idem, CommentGroup_idem, BadExpr_fresh_idem, Ident_fresh_idem, BasicLit_fresh_idem, BadStmt_fresh_idem, EmptyStmt_fresh_idem, BranchStmt_fresh_idem, ImportSpec_fresh_idem, BadDecl_fresh_idem, icElt]

theorem idem_ExprNode_BasicLit (x : ast.BasicLit) : Fixed copyExpr (some (.BasicLit x)) := by
  intro y h
  rw [copyExpr] at h
  simp only [bind_eq_ok, pure_eq_ok] at h
  obtain rfl := h
  simp only [copyExpr, ok_bind, pure_eq_ok, Ident_idem, IdentList_idem, BasicLit_idem, CommentGroup_idem, BadExpr_fresh_idem, Ident_fresh_idem, BasicLit_fresh_idem, BadStmt_fresh_idem, EmptyStmt_fresh_idem, BranchStmt_fresh_idem, ImportSpec_fresh_idem, BadDecl_fresh_idem]

theorem idem_ExprNode_FuncLit (xType : Option ast.FuncType) (xBody : Option ast.BlockStmt)
    (iType : Fixed FuncType xType)
    (iBody : Fixed BlockStmt xBody)
    : Fixed copyExpr (some (.FuncLit xType xBody)) := by
  intro y h
  rw [copyExpr] at h
  simp only [bind_eq_ok, pure_eq_ok] at h
  obtain ⟨cType, hcType, cBody, hcBody, rfl⟩ := h
  have icType := iType cType hcType
  have icBody := iBody cBody hcBody
  simp only [copyExpr, ok_bind, pure_eq_ok, Ident_idem, IdentList_idem, BasicLit_idem, CommentGroup_idem, BadExpr_fresh_idem, Ident_fresh_idem, BasicLit_fresh_idem, BadStmt_fresh_idem, EmptyStmt_fresh_idem, BranchStmt_fresh_idem, ImportSpec_fresh_idem, BadDecl_fresh_idem, icType, icBody]

theorem idem_ExprNode_CompositeLit (xType : Option ast.ExprNode) (xLbrace : token.Pos) (xElts : Option (List (Option ast.ExprNode))) (xRbrace : token.Pos) (xIncomplete : Bool)
    (iType : Fixed copyExpr xType)
    (iElts : Fixed ExprList xElts)
    : Fixed copyExpr (some (.CompositeLit xType xLbrace xElts xRbrace xIncomplete)) := by
  intro y h
  rw [copyExpr] at h
  simp only [bind_eq_ok, pure_eq_ok] at h
  obtain ⟨cType, hcType, cElts, hcElts, rfl⟩ := h
  have icType := iType cType hcType
  have icElts := iElts cElts hcElts
  simp only [copyExpr, ok_bind, pure_eq_ok, Ident_idem, IdentList_idem, BasicLit_idem, CommentGroup_idem, BadExpr_fresh_idem, Ident_fresh_idem, BasicLit_fresh_idem, BadStmt_fresh_idem, EmptyStmt_fresh_idem, BranchStmt_fresh_idem, ImportSpec_fresh_idem, BadDecl_fresh_idem, icType, icElts]

theorem idem_ExprNode_ParenExpr (xLparen : token.Pos) (xX : Option ast.ExprNode) (xRparen : token.Pos)
    (iX : Fixed copyExpr xX)
    : Fixed copyExpr (some (.ParenExpr xLparen xX xRparen)) := by
  intro y h
  rw [copyExpr] at h
  simp only [bind_eq_ok, pure_eq_ok] at h
  obtain ⟨cX, hcX, rfl⟩ := h
  have icX := iX cX hcX
  simp only [copyExpr, ok_bind, pure_eq_ok, Ident_idem, IdentList_idem, BasicLit_idem, CommentGroup_idem, BadExpr_fresh_idem, Ident_fresh_idem, BasicLit_fresh_idem, BadStmt_fresh_idem, EmptyStmt_fresh_idem, BranchStmt_fresh_idem, ImportSpec_fresh_idem, BadDecl_fresh_idem, icX]

theorem idem_ExprNode_SelectorExpr (xX : Option ast.ExprNode) (xSel : Option ast.Ident)
    (iX : Fixed copyExpr xX)
    : Fixed copyExpr (some (.SelectorExpr xX xSel)) := by
  intro y h
  rw [copyExpr] at h
  simp only [bind_eq_ok, pure_eq_ok] at h
  obtain ⟨cX, hcX, rfl⟩ := h
  have icX := iX cX hcX
  simp only [copyExpr, ok_bind, pure_eq_ok, Ident_idem, IdentList_idem, BasicLit_idem, CommentGroup_idem, BadExpr_fresh_idem, Ident_fresh_idem, BasicLit_fresh_idem, BadStmt_fresh_idem, EmptyStmt_fresh_idem, BranchStmt_fresh_idem, ImportSpec_fresh_idem, BadDecl_fresh_idem, icX]

theorem idem_ExprNode_IndexExpr (xX : Option ast.ExprNode) (xLbrack : token.Pos) (xIndex : Option ast.ExprNode) (xRbrack : token.Pos)
    (iX : Fixed copyExpr xX)
    (iIndex : Fixed copyExpr xIndex)
    : Fixed copyExpr (some (.IndexExpr xX xLbrack xIndex xRbrack)) := by
  intro y h
  rw [copyExpr] at h
  simp only [bind_eq_ok, pure_eq_ok] at h
  obtain ⟨cX, hcX, cIndex, hcIndex, rfl⟩ := h
  have icX := iX cX hcX
  have icIndex := iIndex cIndex hcIndex
  simp only [copyExpr, ok_bind, pure_eq_ok, Ident_idem, IdentList_idem, BasicLit_idem, CommentGroup_idem, BadExpr_fresh_idem, Ident_fresh_idem, BasicLit_fresh_idem, BadStmt_fresh_idem, EmptyStmt_fresh_idem, BranchStmt_fresh_idem, ImportSpec_fresh_idem, BadDecl_fresh_idem, icX, icIndex]

theorem idem_ExprNode_SliceExpr (xX : Option ast.ExprNode) (xLbrack : token.Pos) (xLow : Option ast.ExprNode) (xHigh : Option ast.ExprNode) (xMax : Option ast.ExprNode) (xSlice3 : Bool) (xRbrack : token.Pos)
    (iX : Fixed copyExpr xX)
    (iLow : Fixed copyExpr xLow)
    (iHigh : Fixed copyExpr xHigh)
    (iMax : Fixed copyExpr xMax)
    : Fixed copyExpr (some (.SliceExpr xX xLbrack xLow xHigh xMax xSlice3 xRbrack)) := by
  intro y h
  rw [copyExpr] at h
  simp only [bind_eq_ok, pure_eq_ok] at h
  obtain ⟨cX, hcX, cLow, hcLow, cHigh, hcHigh, cMax, hcMax, rfl⟩ := h
  have icX := iX cX hcX
  have icLow := iLow cLow hcLow
  have icHigh := iHigh cHigh hcHigh
  have icMax := iMax cMax hcMax
  simp only [copyExpr, ok_bind, pure_eq_ok, Ident_idem, IdentList_idem, BasicLit_idem, CommentGroup_idem, BadExpr_fresh_idem, Ident_fresh_idem, BasicLit_fresh_idem, BadStmt_fresh_idem, EmptyStmt_fresh_idem, BranchStmt_fresh_idem, ImportSpec_fresh_idem, BadDecl_fresh_idem, icX, icLow, icHigh, icMax]

theorem idem_ExprNode_TypeAssertExpr (xX : Option ast.ExprNode) (xLparen : token.Pos) (xType : Option ast.ExprNode) (xRparen : token.Pos)
    (iX : Fixed copyExpr xX)
    (iType : Fixed copyExpr xType)
    : Fixed copyExpr (some (.TypeAssertExpr xX xLparen xType xRparen)) := by
  intro y h
  rw [copyExpr] at h
  simp only [bind_eq_ok, pure_eq_ok] at h
  obtain ⟨cX, hcX, cType, hcType, rfl⟩ := h
  have icX := iX cX hcX
  have icType := iType cType hcType
  simp only [copyExpr, ok_bind, pure_eq_ok, Ident_idem, IdentList_idem, BasicLit_idem, CommentGroup_idem, BadExpr_fresh_idem, Ident_fresh_idem, BasicLit_fresh_idem, BadStmt_fresh_idem, EmptyStmt_fresh_idem, BranchStmt_fresh_idem, ImportSpec_fresh_idem, BadDecl_fresh_idem, icX, icType]

theorem idem_ExprNode_CallExpr (x : ast.CallExpr) (ix : Fixed CallExpr.fresh x) :
    Fixed copyExpr (some (.CallExpr x)) := by
  intro y h
  rw [copyExpr] at h
  simp only [bind_eq_ok, pure_eq_ok] at h
  obtain ⟨c, hc, rfl⟩ := h
  have ic := ix c hc
  simp only [copyExpr, ok_bind, pure_eq_ok, Ident_idem, IdentList_idem, BasicLit_idem, CommentGroup_idem, BadExpr_fresh_idem, Ident_fresh_idem, BasicLit_fresh_idem, BadStmt_fresh_idem, EmptyStmt_fresh_idem, BranchStmt_fresh_idem, ImportSpec_fresh_idem, BadDecl_fresh_idem, ic]

theorem idem_ExprNode_StarExpr (xStar : token.Pos) (xX : Option ast.ExprNode)
    (iX : Fixed copyExpr xX)
    : Fixed copyExpr (some (.StarExpr xStar xX)) := by
  intro y h
  rw [copyExpr] at h
  simp only [bind_eq_ok, pure_eq_ok] at h
  obtain ⟨cX, hcX, rfl⟩ := h
  have icX := iX cX hcX
  simp only [copyExpr, ok_bind, pure_eq_ok, Ident_idem, IdentList_idem, BasicLit_idem, CommentGroup_idem, BadExpr_fresh_idem, Ident_fresh_idem, BasicLit_fresh_idem, BadStmt_fresh_idem, EmptyStmt_fresh_idem, BranchStmt_fresh_idem, ImportSpec_fresh_idem, BadDecl_fresh_idem, icX]

theorem idem_ExprNode_UnaryExpr (xOpPos : token.Pos) (xOp : token.Token) (xX : Option ast.ExprNode)
    (iX : Fixed copyExpr xX)
    : Fixed copyExpr (some (.UnaryExpr xOpPos xOp xX)) := by
  intro y h
  rw [copyExpr] at h
  simp only [bind_eq_ok, pure_eq_ok] at h
  obtain ⟨cX, hcX, rfl⟩ := h
  have icX := iX cX hcX
  simp only [copyExpr, ok_bind, pure_eq_ok, Ident_idem, IdentList_idem, BasicLit_idem, CommentGroup_idem, BadExpr_fresh_idem, Ident_fresh_idem, BasicLit_fresh_idem, BadStmt_fresh_idem, EmptyStmt_fresh_idem, BranchStmt_fresh_idem, ImportSpec_fresh_idem, BadDecl_fresh_idem, icX]

theorem idem_ExprNode_BinaryExpr (xX : Option ast.ExprNode) (xOpPos : token.Pos) (xOp : token.Token) (xY : Option ast.ExprNode)
    (iX : Fixed copyExpr xX)
    (iY : Fixed copyExpr xY)
    : Fixed copyExpr (some (.BinaryExpr xX xOpPos xOp xY)) := by
  intro y h
  rw [copyExpr] at h
  simp only [bind_eq_ok, pure_eq_ok] at h
  obtain ⟨cX, hcX, cY, hcY, rfl⟩ := h
  have icX := iX cX hcX
  have icY := iY cY hcY
  simp only [copyExpr, ok_bind, pure_eq_ok, Ident_idem, IdentList_idem, BasicLit_idem, CommentGroup_idem, BadExpr_fresh_idem, Ident_fresh_idem, BasicLit_fresh_idem, BadStmt_fresh_idem, EmptyStmt_fresh_idem, BranchStmt_fresh_idem, ImportSpec_fresh_idem, BadDecl_fresh_idem, icX, icY]

theorem idem_ExprNode_KeyValueExpr (xKey : Option ast.ExprNode) (xColon : token.Pos) (xValue : Option ast.ExprNode)
    (iKey : Fixed copyExpr xKey)
    (iValue : Fixed copyExpr xValue)
    : Fixed copyExpr (some (.KeyValueExpr xKey xColon xValue)) := by
  intro y h
  rw [copyExpr] at h
  simp only [bind_eq_ok, pure_eq_ok] at h
  obtain ⟨cKey, hcKey, cValue, hcValue, rfl⟩ := h
  have icKey := iKey cKey hcKey
  have icValue := iValue cValue hcValue
  simp only [copyExpr, ok_bind, pure_eq_ok, Ident_idem, IdentList_idem, BasicLit_idem, CommentGroup_idem, BadExpr_fresh_idem, Ident_fresh_idem, BasicLit_fresh_idem, BadStmt_fresh_idem, EmptyStmt_fresh_idem, BranchStmt_fresh_idem, ImportSpec_fresh_idem, BadDecl_fresh_idem, icKey, icValue]

theorem idem_ExprNode_ArrayType (xLbrack : token.Pos) (xLen : Option ast.ExprNode) (xElt : Option ast.ExprNode)
    (iLen : Fixed copyExpr xLen)
    (iElt : Fixed copyExpr xElt)
    : Fixed copyExpr (some (.ArrayType xLbrack xLen xElt)) := by
  intro y h
  rw [copyExpr] at h
  simp only [bind_eq_ok, pure_eq_ok] at h
  obtain ⟨cLen, hcLen, cElt, hcElt, rfl⟩ := h
  have icLen := iLen cLen hcLen
  have icElt := iElt cElt hcElt
  simp only [copyExpr, ok_bind, pure_eq_ok, Ident_idem, IdentList_idem, BasicLit_idem, CommentGroup_idem, BadExpr_fresh_idem, Ident_fresh_idem, BasicLit_fresh_idem, BadStmt_fresh_idem, EmptyStmt_fresh_idem, BranchStmt_fresh_idem, ImportSpec_fresh_idem, BadDecl_fresh_idem, icLen, icElt]

theorem idem_ExprNode_StructType (xStruct : token.Pos) (xFields : Option ast.FieldList) (xIncomplete : Bool)
    (iFields : Fixed FieldList xFields)
    : Fixed copyExpr (some (.StructType xStruct xFields xIncomplete)) := by
  intro y h
  rw [copyExpr] at h
  simp only [bind_eq_ok, pure_eq_ok] at h
  obtain ⟨cFields, hcFields, rfl⟩ := h
  have icFields := iFields cFields hcFields
  simp only [copyExpr, ok_bind, pure_eq_ok, Ident_idem, IdentList_idem, BasicLit_idem, CommentGroup_idem, BadExpr_fresh_idem, Ident_fresh_idem, BasicLit_fresh_idem, BadStmt_fresh_idem, EmptyStmt_fresh_idem, BranchStmt_fresh_idem, ImportSpec_fresh_idem, BadDecl_fresh_idem, icFields]

theorem idem_ExprNode_FuncType (x : ast.FuncType) (ix : Fixed FuncType.fresh x) :
    Fixed copyExpr (some (.FuncType x)) := by
  intro y h
  rw [copyExpr] at h
  simp only [bind_eq_ok, pure_eq_ok] at h
  obtain ⟨c, hc, rfl⟩ := h
  have ic := ix c hc
  simp only [copyExpr, ok_bind, pure_eq_ok, Ident_idem, IdentList_idem, BasicLit_idem, CommentGroup_idem, BadExpr_fresh_idem, Ident_fresh_idem, BasicLit_fresh_idem, BadStmt_fresh_idem, EmptyStmt_fresh_idem, BranchStmt_fresh_idem, ImportSpec_fresh_idem, BadDecl_fresh_idem, ic]

theorem idem_ExprNode_InterfaceType (xInterface : token.Pos) (xMethods : Option ast.FieldList) (xIncomplete : Bool)
    (iMethods : Fixed FieldList xMethods)
    : Fixed copyExpr (some (.InterfaceType xInterface xMethods xIncomplete)) := by
  intro y h
  rw [copyExpr] at h
  simp only [bind_eq_ok, pure_eq_ok] at h
  obtain ⟨cMethods, hcMethods, rfl⟩ := h
  have icMethods := iMethods cMethods hcMethods
  simp only [copyExpr, ok_bind, pure_eq_ok, Ident_idem, IdentList_idem, BasicLit_idem, CommentGroup_idem, BadExpr_fresh_idem, Ident_fresh_idem, BasicLit_fresh_idem, BadStmt_fresh_idem, EmptyStmt_fresh_idem, BranchStmt_fresh_idem, ImportSpec_fresh_idem, BadDecl_fresh_idem, icMethods]

theorem idem_ExprNode_MapType (xMap : token.Pos) (xKey : Option ast.ExprNode) (xValue : Option ast.ExprNode)
    (iKey : Fixed copyExpr xKey)
    (iValue : Fixed copyExpr xValue)
    : Fixed copyExpr (some (.MapType xMap xKey xValue)) := by
  intro y h
  rw [copyExpr] at h
  simp only [bind_eq_ok, pure_eq_ok] at h
  obtain ⟨cKey, hcKey, cValue, hcValue, rfl⟩ := h
  have icKey := iKey cKey hcKey
  have icValue := iValue cValue hcValue
  simp only [copyExpr, ok_bind, pure_eq_ok, Ident_idem, IdentList_idem, BasicLit_idem, CommentGroup_idem, BadExpr_fresh_idem, Ident_fresh_idem, BasicLit_fresh_idem, BadStmt_fresh_idem, EmptyStmt_fresh_idem, BranchStmt_fresh_idem, ImportSpec_fresh_idem, BadDecl_fresh_idem, icKey, icValue]

theorem idem_ExprNode_ChanType (xBegin : token.Pos) (xArrow : token.Pos) (xDir : ast.ChanDir) (xValue : Option ast.ExprNode)
    (iValue : Fixed copyExpr xValue)
    : Fixed copyExpr (some (.ChanType xBegin xArrow xDir xValue)) := by
  intro y h
  rw [copyExpr] at h
  simp only [bind_eq_ok, pure_eq_ok] at h
  obtain ⟨cValue, hcValue, rfl⟩ := h
  have icValue := iValue cValue hcValue
  simp only [copyExpr, ok_bind, pure_eq_ok, Ident_idem, IdentList_idem, BasicLit_idem, CommentGroup_idem, BadExpr_fresh_idem, Ident_fresh_idem, BasicLit_fresh_idem, BadStmt_fresh_idem, EmptyStmt_fresh_idem, BranchStmt_fresh_idem, ImportSpec_fresh_idem, BadDecl_fresh_idem, icValue]

theorem idem_ExprNode_other (typ : String) : Fixed copyExpr (some (.other typ)) := by
  intro y h
  exact absurd h (by rw [copyExpr]; exact throw_ne_ok)

theorem idem_StmtNode_BadStmt (x : ast.BadStmt) : Fixed copyStmt (some (.BadStmt x)) := by
  intro y h
  rw [copyStmt] at h
  simp only [bind_eq_ok, pure_eq_ok] at h
  obtain rfl := h
  simp only [copyStmt, ok_bind, pure_eq_ok, Ident_idem, IdentList_idem, BasicLit_idem, CommentGroup_idem, BadExpr_fresh_idem, Ident_fresh_idem, BasicLit_fresh_idem, BadStmt_fresh_idem, EmptyStmt_fresh_idem, BranchStmt_fresh_idem, ImportSpec_fresh_idem, BadDecl_fresh_idem]

theorem idem_StmtNode_DeclStmt (xDecl : Option ast.DeclNode)
    (iDecl : Fixed copyDecl xDecl)
    : Fixed copyStmt (some (.DeclStmt xDecl)) := by
  intro y h
  rw [copyStmt] at h
  simp only [bind_eq_ok, pure_eq_ok] at h
  obtain ⟨cDecl, hcDecl, rfl⟩ := h
  have icDecl := iDecl cDecl hcDecl
  simp only [copyStmt, ok_bind, pure_eq_ok, Ident_idem, IdentList_idem, BasicLit_idem, CommentGroup_idem, BadExpr_fresh_idem, Ident_fresh_idem, BasicLit_fresh_idem, BadStmt_fresh_idem, EmptyStmt_fresh_idem, BranchStmt_fresh_idem, ImportSpec_fresh_idem, BadDecl_fresh_idem, icDecl]

theorem idem_StmtNode_EmptyStmt (x : ast.EmptyStmt) : Fixed copyStmt (some (.EmptyStmt x)) := by
  intro y h
  rw [copyStmt] at h
  simp only [bind_eq_ok, pure_eq_ok] at h
  obtain rfl := h
  simp only [copyStmt, ok_bind, pure_eq_ok, Ident_idem, IdentList_idem, BasicLit_idem, CommentGroup_idem, BadExpr_fresh_idem, Ident_fresh_idem, BasicLit_fresh_idem, BadStmt_fresh_idem, EmptyStmt_fresh_idem, BranchStmt_fresh_idem, ImportSpec_fresh_idem, BadDecl_fresh_idem]

theorem idem_StmtNode_LabeledStmt (xLabel : Option ast.Ident) (xColon : token.Pos) (xStmt : Option ast.StmtNode)
    (iStmt : Fixed copyStmt xStmt)
    : Fixed copyStmt (some (.LabeledStmt xLabel xColon xStmt)) := by
  intro y h
  rw [copyStmt] at h
  simp only [bind_eq_ok, pure_eq_ok] at h
  obtain ⟨cStmt, hcStmt, rfl⟩ := h
  have icStmt := iStmt cStmt hcStmt
  simp only [copyStmt, ok_bind, pure_eq_ok, Ident_idem, IdentList_idem, BasicLit_idem, CommentGroup_idem, BadExpr_fresh_idem, Ident_fresh_idem, BasicLit_fresh_idem, BadStmt_fresh_idem, EmptyStmt_fresh_idem, BranchStmt_fresh_idem, ImportSpec_fresh_idem, BadDecl_fresh_idem, icStmt]

theorem idem_StmtNode_ExprStmt (xX : Option ast.ExprNode)
    (iX : Fixed copyExpr xX)
    : Fixed copyStmt (some (.ExprStmt xX)) := by
  intro y h
  rw [copyStmt] at h
  simp only [bind_eq_ok, pure_eq_ok] at h
  obtain ⟨cX, hcX, rfl⟩ := h
  have icX := iX cX hcX
  simp only [copyStmt, ok_bind, pure_eq_ok, Ident_idem, IdentList_idem, BasicLit_idem, CommentGroup_idem, BadExpr_fresh_idem, Ident_fresh_idem, BasicLit_fresh_idem, BadStmt_fresh_idem, EmptyStmt_fresh_idem, BranchStmt_fresh_idem, ImportSpec_fresh_idem, BadDecl_fresh_idem, icX]

theorem idem_StmtNode_SendStmt (xChan : Option ast.ExprNode) (xArrow : token.Pos) (xValue : Option ast.ExprNode)
    (iChan : Fixed copyExpr xChan)
    (iValue : Fixed copyExpr xValue)
    : Fixed copyStmt (some (.SendStmt xChan xArrow xValue)) := by
  intro y h
  rw [copyStmt] at h
  simp only [bind_eq_ok, pure_eq_ok] at h
  obtain ⟨cChan, hcChan, cValue, hcValue, rfl⟩ := h
  have icChan := iChan cChan hcChan
  have icValue := iValue cValue hcValue
  simp only [copyStmt, ok_bind, pure_eq_ok, Ident_idem, IdentList_idem, BasicLit_idem, CommentGroup_idem, BadExpr_fresh_idem, Ident_fresh_idem, BasicLit_fresh_idem, BadStmt_fresh_idem, EmptyStmt_fresh_idem, BranchStmt_fresh_idem, ImportSpec_fresh_idem, BadDecl_fresh_idem, icChan, icValue]

theorem idem_StmtNode_IncDecStmt (xX : Option ast.ExprNode) (xTokPos : token.Pos) (xTok : token.Token)
    (iX : Fixed copyExpr xX)
    : Fixed copyStmt (some (.IncDecStmt xX xTokPos xTok)) := by
  intro y h
  rw [copyStmt] at h
  simp only [bind_eq_ok, pure_eq_ok] at h
  obtain ⟨cX, hcX, rfl⟩ := h
  have icX := iX cX hcX
  simp only [copyStmt, ok_bind, pure_eq_ok, Ident_idem, IdentList_idem, BasicLit_idem, CommentGroup_idem, BadExpr_fresh_idem, Ident_fresh_idem, BasicLit_fresh_idem, BadStmt_fresh_idem, EmptyStmt_fresh_idem, BranchStmt_fresh_idem, ImportSpec_fresh_idem, BadDecl_fresh_idem, icX]

theorem idem_StmtNode_AssignStmt (xLhs : Option (List (Option ast.ExprNode))) (xTokPos : token.Pos) (xTok : token.Token) (xRhs : Option (List (Option ast.ExprNode)))
    (iLhs : Fixed ExprList xLhs)
    (iRhs : Fixed ExprList xRhs)
    : Fixed copyStmt (some (.AssignStmt xLhs xTokPos xTok xRhs)) := by
  intro y h
  rw [copyStmt] at h
  simp only [bind_eq_ok, pure_eq_ok] at h
  obtain ⟨cLhs, hcLhs, cRhs, hcRhs, rfl⟩ := h
  have icLhs := iLhs cLhs hcLhs
  have icRhs := iRhs cRhs hcRhs
  simp only [copyStmt, ok_bind, pure_eq_ok, Ident_idem, IdentList_idem, BasicLit_idem, CommentGroup_idem, BadExpr_fresh_idem, Ident_fresh_idem, BasicLit_fresh_idem, BadStmt_fresh_idem, EmptyStmt_fresh_idem, BranchStmt_fresh_idem, ImportSpec_fresh_idem, BadDecl_fresh_idem, icLhs, icRhs]

theorem idem_StmtNode_GoStmt (xGo : token.Pos) (xCall : Option ast.CallExpr)
    (iCall : Fixed CallExpr xCall)
    : Fixed copyStmt (some (.GoStmt xGo xCall)) := by
  intro y h
  rw [copyStmt] at h
  simp only [bind_eq_ok, pure_eq_ok] at h
  obtain ⟨cCall, hcCall, rfl⟩ := h
  have icCall := iCall cCall hcCall
  simp only [copyStmt, ok_bind, pure_eq_ok, Ident_idem, IdentList_idem, BasicLit_idem, CommentGroup_idem, BadExpr_fresh_idem, Ident_fresh_idem, BasicLit_fresh_idem, BadStmt_fresh_idem, EmptyStmt_fresh_idem, BranchStmt_fresh_idem, ImportSpec_fresh_idem, BadDecl_fresh_idem, icCall]

theorem idem_StmtNode_DeferStmt (xDefer : token.Pos) (xCall : Option ast.CallExpr)
    (iCall : Fixed CallExpr xCall)
    : Fixed copyStmt (some (.DeferStmt xDefer xCall)) := by
  intro y h
  rw [copyStmt] at h
  simp only [bind_eq_ok, pure_eq_ok] at h
  obtain ⟨cCall, hcCall, rfl⟩ := h
  have icCall := iCall cCall hcCall
  simp only [copyStmt, ok_bind, pure_eq_ok, Ident_idem, IdentList_idem, BasicLit_idem, CommentGroup_idem, BadExpr_fresh_idem, Ident_fresh_idem, BasicLit_fresh_idem, BadStmt_fresh_idem, EmptyStmt_fresh_idem, BranchStmt_fresh_idem, ImportSpec_fresh_idem, BadDecl_fresh_idem, icCall]

theorem idem_StmtNode_ReturnStmt (xReturn : token.Pos) (xResults : Option (List (Option ast.ExprNode)))
    (iResults : Fixed ExprList xResults)
    : Fixed copyStmt (some (.ReturnStmt xReturn xResults)) := by
  intro y h
  rw [copyStmt] at h
  simp only [bind_eq_ok, pure_eq_ok] at h
  obtain ⟨cResults, hcResults, rfl⟩ := h
  have icResults := iResults cResults hcResults
  simp only [copyStmt, ok_bind, pure_eq_ok, Ident_idem, IdentList_idem, BasicLit_idem, CommentGroup_idem, BadExpr_fresh_idem, Ident_fresh_idem, BasicLit_fresh_idem, BadStmt_fresh_idem, EmptyStmt_fresh_idem, BranchStmt_fresh_idem, ImportSpec_fresh_idem, BadDecl_fresh_idem, icResults]

theorem idem_StmtNode_BranchStmt (x : ast.BranchStmt) : Fixed copyStmt (some (.BranchStmt x)) := by
  intro y h
  rw [copyStmt] at h
  simp only [bind_eq_ok, pure_eq_ok] at h
  obtain rfl := h
  simp only [copyStmt, ok_bind, pure_eq_ok, Ident_idem, IdentList_idem, BasicLit_idem, CommentGroup_idem, BadExpr_fresh_idem, Ident_fresh_idem, BasicLit_fresh_idem, BadStmt_fresh_idem, EmptyStmt_fresh_idem, BranchStmt_fresh_idem, ImportSpec_fresh_idem, BadDecl_fresh_idem]

theorem idem_StmtNode_BlockStmt (x : ast.BlockStmt) (ix : Fixed BlockStmt.fresh x) :
    Fixed copyStmt (some (.BlockStmt x)) := by
  intro y h
  rw [copyStmt] at h
  simp only [bind_eq_ok, pure_eq_ok] at h
  obtain ⟨c, hc, rfl⟩ := h
  have ic := ix c hc
  simp only [copyStmt, ok_bind, pure_eq_ok, Ident_idem, IdentList_idem, BasicLit_idem, CommentGroup_idem, BadExpr_fresh_idem, Ident_fresh_idem, BasicLit_fresh_idem, BadStmt_fresh_idem, EmptyStmt_fresh_idem, BranchStmt_fresh_idem, ImportSpec_fresh_idem, BadDecl_fresh_idem, ic]

theorem idem_StmtNode_IfStmt (xIf : token.Pos) (xInit : Option ast.StmtNode) (xCond : Option ast.ExprNode) (xBody : Option ast.BlockStmt) (xElse : Option ast.StmtNode)
    (iInit : Fixed copyStmt xInit)
    (iCond : Fixed copyExpr xCond)
    (iBody : Fixed BlockStmt xBody)
    (iElse : Fixed copyStmt xElse)
    : Fixed copyStmt (some (.IfStmt xIf xInit xCond xBody xElse)) := by
  intro y h
  rw [copyStmt] at h
  simp only [bind_eq_ok, pure_eq_ok] at h
  obtain ⟨cInit, hcInit, cCond, hcCond, cBody, hcBody, cElse, hcElse, rfl⟩ := h
  have icInit := iInit cInit hcInit
  have icCond := iCond cCond hcCond
  have icBody := iBody cBody hcBody
  have icElse := iElse cElse hcElse
  simp only [copyStmt, ok_bind, pure_eq_ok, Ident_idem, IdentList_idem, BasicLit_idem, CommentGroup_idem, BadExpr_fresh_idem, Ident_fresh_idem, BasicLit_fresh_idem, BadStmt_fresh_idem, EmptyStmt_fresh_idem, BranchStmt_fresh_idem, ImportSpec_fresh_idem, BadDecl_fresh_idem, icInit, icCond, icBody, icElse]

theorem idem_StmtNode_CaseClause (xCase : token.Pos) (xList : Option (List (Option ast.ExprNode))) (xColon : token.Pos) (xBody : Option (List (Option ast.StmtNode)))
    (iList : Fixed ExprList xList)
    (iBody : Fixed StmtList xBody)
    : Fixed copyStmt (some (.CaseClause xCase xList xColon xBody)) := by
  intro y h
  rw [copyStmt] at h
  simp only [bind_eq_ok, pure_eq_ok] at h
  obtain ⟨cList, hcList, cBody, hcBody, rfl⟩ := h
  have icList := iList cList hcList
  have icBody := iBody cBody hcBody
  simp only [copyStmt, ok_bind, pure_eq_ok, Ident_idem, IdentList_idem, BasicLit_idem, CommentGroup_idem, BadExpr_fresh_idem, Ident_fresh_idem, BasicLit_fresh_idem, BadStmt_fresh_idem, EmptyStmt_fresh_idem, BranchStmt_fresh_idem, ImportSpec_fresh_idem, BadDecl_fresh_idem, icList, icBody]

theorem idem_StmtNode_SwitchStmt (xSwitch : token.Pos) (xInit : Option ast.StmtNode) (xTag : Option ast.ExprNode) (xBody : Option ast.BlockStmt)
    (iInit : Fixed copyStmt xInit)
    (iTag : Fixed copyExpr xTag)
    (iBody : Fixed BlockStmt xBody)
    : Fixed copyStmt (some (.SwitchStmt xSwitch xInit xTag xBody)) := by
  intro y h
  rw [copyStmt] at h
  simp only [bind_eq_ok, pure_eq_ok] at h
  obtain ⟨cInit, hcInit, cTag, hcTag, cBody, hcBody, rfl⟩ := h
  have icInit := iInit cInit hcInit
  have icTag := iTag cTag hcTag
  have icBody := iBody cBody hcBody
  simp only [copyStmt, ok_bind, pure_eq_ok, Ident_idem, IdentList_idem, BasicLit_idem, CommentGroup_idem, BadExpr_fresh_idem, Ident_fresh_idem, BasicLit_fresh_idem, BadStmt_fresh_idem, EmptyStmt_fresh_idem, BranchStmt_fresh_idem, ImportSpec_fresh_idem, BadDecl_fresh_idem, icInit, icTag, icBody]

theorem idem_StmtNode_TypeSwitchStmt (xSwitch : token.Pos) (xInit : Option ast.StmtNode) (xAssign : Option ast.StmtNode) (xBody : Option ast.BlockStmt)
    (iInit : Fixed copyStmt xInit)
    (iAssign : Fixed copyStmt xAssign)
    (iBody : Fixed BlockStmt xBody)
    : Fixed copyStmt (some (.TypeSwitchStmt xSwitch xInit xAssign xBody)) := by
  intro y h
  rw [copyStmt] at h
  simp only [bind_eq_ok, pure_eq_ok] at h
  obtain ⟨cInit, hcInit, cAssign, hcAssign, cBody, hcBody, rfl⟩ := h
  have icInit := iInit cInit hcInit
  have icAssign := iAssign cAssign hcAssign
  have icBody := iBody cBody hcBody
  simp only [copyStmt, ok_bind, pure_eq_ok, Ident_idem, IdentList_idem, BasicLit_idem, CommentGroup_idem, BadExpr_fresh_idem, Ident_fresh_idem, BasicLit_fresh_idem, BadStmt_fresh_idem, EmptyStmt_fresh_idem, BranchStmt_fresh_idem, ImportSpec_fresh_idem, BadDecl_fresh_idem, icInit, icAssign, icBody]

theorem idem_StmtNode_CommClause (xCase : token.Pos) (xComm : Option ast.StmtNode) (xColon : token.Pos) (xBody : Option (List (Option ast.StmtNode)))
    (iComm : Fixed copyStmt xComm)
    (iBody : Fixed StmtList xBody)
    : Fixed copyStmt (some (.CommClause xCase xComm xColon xBody)) := by
  intro y h
  rw [copyStmt] at h
  simp only [bind_eq_ok, pure_eq_ok] at h
  obtain ⟨cComm, hcComm, cBody, hcBody, rfl⟩ := h
  have icComm := iComm cComm hcComm
  have icBody := iBody cBody hcBody
  simp only [copyStmt, ok_bind, pure_eq_ok, Ident_idem, IdentList_idem, BasicLit_idem, CommentGroup_idem, BadExpr_fresh_idem, Ident_fresh_idem, BasicLit_fresh_idem, BadStmt_fresh_idem, EmptyStmt_fresh_idem, BranchStmt_fresh_idem, ImportSpec_fresh_idem, BadDecl_fresh_idem, icComm, icBody]

theorem idem_StmtNode_SelectStmt (xSelect : token.Pos) (xBody : Option ast.BlockStmt)
    (iBody : Fixed BlockStmt xBody)
    : Fixed copyStmt (some (.SelectStmt xSelect xBody)) := by
  intro y h
  rw [copyStmt] at h
  simp only [bind_eq_ok, pure_eq_ok] at h
  obtain ⟨cBody, hcBody, rfl⟩ := h
  have icBody := iBody cBody hcBody
  simp only [copyStmt, ok_bind, pure_eq_ok, Ident_idem, IdentList_idem, BasicLit_idem, CommentGroup_idem, BadExpr_fresh_idem, Ident_fresh_idem, BasicLit_fresh_idem, BadStmt_fresh_idem, EmptyStmt_fresh_idem, BranchStmt_fresh_idem, ImportSpec_fresh_idem, BadDecl_fresh_idem, icBody]

theorem idem_StmtNode_ForStmt (xFor : token.Pos) (xInit : Option ast.StmtNode) (xCond : Option ast.ExprNode) (xPost : Option ast.StmtNode) (xBody : Option ast.BlockStmt)
    (iInit : Fixed copyStmt xInit)
    (iCond : Fixed copyExpr xCond)
    (iPost : Fixed copyStmt xPost)
    (iBody : Fixed BlockStmt xBody)
    : Fixed copyStmt (some (.ForStmt xFor xInit xCond xPost xBody)) := by
  intro y h
  rw [copyStmt] at h
  simp only [bind_eq_ok, pure_eq_ok] at h
  obtain ⟨cInit, hcInit, cCond, hcCond, cPost, hcPost, cBody, hcBody, rfl⟩ := h
  have icInit := iInit cInit hcInit
  have icCond := iCond cCond hcCond
  have icPost := iPost cPost hcPost
  have icBody := iBody cBody hcBody
  simp only [copyStmt, ok_bind, pure_eq_ok, Ident_idem, IdentList_idem, BasicLit_idem, CommentGroup_idem, BadExpr_fresh_idem, Ident_fresh_idem, BasicLit_fresh_idem, BadStmt_fresh_idem, EmptyStmt_fresh_idem, BranchStmt_fresh_idem, ImportSpec_fresh_idem, BadDecl_fresh_idem, icInit, icCond, icPost, icBody]

theorem idem_StmtNode_RangeStmt (xFor : token.Pos) (xKey : Option ast.ExprNode) (xValue : Option ast.ExprNode) (xTokPos : token.Pos) (xTok : token.Token) (xX : Option ast.ExprNode) (xBody : Option ast.BlockStmt)
    (iKey : Fixed copyExpr xKey)
    (iValue : Fixed copyExpr xValue)
    (iX : Fixed copyExpr xX)
    (iBody : Fixed BlockStmt xBody)
    : Fixed copyStmt (some (.RangeStmt xFor xKey xValue xTokPos xTok xX xBody)) := by
  intro y h
  rw [copyStmt] at h
  simp only [bind_eq_ok, pure_eq_ok] at h
  obtain ⟨cKey, hcKey, cValue, hcValue, cX, hcX, cBody, hcBody, rfl⟩ := h
  have icKey := iKey cKey hcKey
  have icValue := iValue cValue hcValue
  have icX := iX cX hcX
  have icBody := iBody cBody hcBody
  simp only [copyStmt, ok_bind, pure_eq_ok, Ident_idem, IdentList_idem, BasicLit_idem, CommentGroup_idem, BadExpr_fresh_idem, Ident_fresh_idem, BasicLit_fresh_idem, BadStmt_fresh_idem, EmptyStmt_fresh_idem, BranchStmt_fresh_idem, ImportSpec_fresh_idem, BadDecl_fresh_idem, icKey, icValue, icX, icBody]

theorem idem_StmtNode_other (typ : String) : Fixed copyStmt (some (.other typ)) := by
  intro y h
  exact absurd h (by rw [copyStmt]; exact throw_ne_ok)

theorem idem_SpecNode_ImportSpec (x : ast.ImportSpec) : Fixed Spec (some (.ImportSpec x)) := by
  intro y h
  rw [Spec] at h
  simp only [bind_eq_ok, pure_eq_ok] at h
  obtain rfl := h
  simp only [Spec, ok_bind, pure_eq_ok, Ident_idem, IdentList_idem, BasicLit_idem, CommentGroup_idem, BadExpr_fresh_idem, Ident_fresh_idem, BasicLit_fresh_idem, BadStmt_fresh_idem, EmptyStmt_fresh_idem, BranchStmt_fresh_idem, ImportSpec_fresh_idem, BadDecl_fresh_idem]

theorem idem_SpecNode_ValueSpec (xDoc : Option ast.CommentGroup) (xNames : Option (List (Option ast.Ident))) (xType : Option ast.ExprNode) (xValues : Option (List (Option ast.ExprNode))) (xComment : Option ast.CommentGroup)
    (iType : Fixed copyExpr xType)
    (iValues : Fixed ExprList xValues)
    : Fixed Spec (some (.ValueSpec xDoc xNames xType xValues xComment)) := by
  intro y h
  rw [Spec] at h
  simp only [bind_eq_ok, pure_eq_ok] at h
  obtain ⟨cValues, hcValues, cType, hcType, rfl⟩ := h
  have icValues := iValues cValues hcValues
  have icType := iType cType hcType
  simp only [Spec, ok_bind, pure_eq_ok, Ident_idem, IdentList_idem, BasicLit_idem, CommentGroup_idem, BadExpr_fresh_idem, Ident_fresh_idem, BasicLit_fresh_idem, BadStmt_fresh_idem, EmptyStmt_fresh_idem, BranchStmt_fresh_idem, ImportSpec_fresh_idem, BadDecl_fresh_idem, icValues, icType]

theorem idem_SpecNode_TypeSpec (xDoc : Option ast.CommentGroup) (xName : Option ast.Ident) (xAssign : token.Pos) (xType : Option ast.ExprNode) (xComment : Option ast.CommentGroup)
    (iType : Fixed copyExpr xType)
    : Fixed Spec (some (.TypeSpec xDoc xName xAssign xType xComment)) := by
  intro y h
  rw [Spec] at h
  simp only [bind_eq_ok, pure_eq_ok] at h
  obtain ⟨cType, hcType, rfl⟩ := h
  have icType := iType cType hcType
  simp only [Spec, ok_bind, pure_eq_ok, Ident_idem, IdentList_idem, BasicLit_idem, CommentGroup_idem, BadExpr_fresh_idem, Ident_fresh_idem, BasicLit_fresh_idem, BadStmt_fresh_idem, EmptyStmt_fresh_idem, BranchStmt_fresh_idem, ImportSpec_fresh_idem, BadDecl_fresh_idem, icType]

theorem idem_SpecNode_other (typ : String) : Fixed Spec (some (.other typ)) := by
  intro y h
  exact absurd h (by rw [Spec]; exact throw_ne_ok)

theorem idem_DeclNode_BadDecl (x : ast.BadDecl) : Fixed copyDecl (some (.BadDecl x)) := by
  intro y h
  rw [copyDecl] at h
  simp only [bind_eq_ok, pure_eq_ok] at h
  obtain rfl := h
  simp only [copyDecl, ok_bind, pure_eq_ok, Ident_idem, IdentList_idem, BasicLit_idem, CommentGroup_idem, BadExpr_fresh_idem, Ident_fresh_idem, BasicLit_fresh_idem, BadStmt_fresh_idem, EmptyStmt_fresh_idem, BranchStmt_fresh_idem, ImportSpec_fresh_idem, BadDecl_fresh_idem]

theorem idem_DeclNode_GenDecl (xDoc : Option ast.CommentGroup) (xTokPos : token.Pos) (xTok : token.Token) (xLparen : token.Pos) (xSpecs : Option (List (Option ast.SpecNode))) (xRparen : token.Pos)
    (iSpecs : Fixed SpecList xSpecs)
    : Fixed copyDecl (some (.GenDecl xDoc xTokPos xTok xLparen xSpecs xRparen)) := by
  intro y h
  rw [copyDecl] at h
  simp only [bind_eq_ok, pure_eq_ok] at h
  obtain ⟨cSpecs, hcSpecs, rfl⟩ := h
  have icSpecs := iSpecs cSpecs hcSpecs
  simp only [copyDecl, ok_bind, pure_eq_ok, Ident_idem, IdentList_idem, BasicLit_idem, CommentGroup_idem, BadExpr_fresh_idem, Ident_fresh_idem, BasicLit_fresh_idem, BadStmt_fresh_idem, EmptyStmt_fresh_idem, BranchStmt_fresh_idem, ImportSpec_fresh_idem, BadDecl_fresh_idem, icSpecs]

theorem idem_DeclNode_FuncDecl (xDoc : Option ast.CommentGroup) (xRecv : Option ast.FieldList) (xName : Option ast.Ident) (xType : Option ast.FuncType) (xBody : Option ast.BlockStmt)
    (iRecv : Fixed FieldList xRecv)
    (iType : Fixed FuncType xType)
    (iBody : Fixed BlockStmt xBody)
    : Fixed copyDecl (some (.FuncDecl xDoc xRecv xName xType xBody)) := by
  intro y h
  rw [copyDecl] at h
  simp only [bind_eq_ok, pure_eq_ok] at h
  obtain ⟨cRecv, hcRecv, cType, hcType, cBody, hcBody, rfl⟩ := h
  have icRecv := iRecv cRecv hcRecv
  have icType := iType cType hcType
  have icBody := iBody cBody hcBody
  simp only [copyDecl, ok_bind, pure_eq_ok, Ident_idem, IdentList_idem, BasicLit_idem, CommentGroup_idem, BadExpr_fresh_idem, Ident_fresh_idem, BasicLit_fresh_idem, BadStmt_fresh_idem, EmptyStmt_fresh_idem, BranchStmt_fresh_idem, ImportSpec_fresh_idem, BadDecl_fresh_idem, icRecv, icType, icBody]

theorem idem_DeclNode_other (typ : String) : Fixed copyDecl (some (.other typ)) := by
  intro y h
  exact absurd h (by rw [copyDecl]; exact throw_ne_ok)

theorem idem_Opt_ExprNode_none : Fixed copyExpr none := by
  intro y h
  rw [copyExpr] at h
  simp only [bind_eq_ok, pure_eq_ok] at h
  obtain rfl := h
  simp only [copyExpr, ok_bind, pure_eq_ok, Ident_idem, IdentList_idem, BasicLit_idem, CommentGroup_idem, BadExpr_fresh_idem, Ident_fresh_idem, BasicLit_fresh_idem, BadStmt_fresh_idem, EmptyStmt_fresh_idem, BranchStmt_fresh_idem, ImportSpec_fresh_idem, BadDecl_fresh_idem]

theorem idem_Opt_ExprNode_some (val : ast.ExprNode) (ih : Fixed copyExpr (some val)) : Fixed copyExpr (some val) :=
  ih

theorem idem_Slice_Field_none : OnSlice (Fixed FieldList.loop) none := by
  intro xs h
  cases h

theorem idem_Slice_Field_some (val : List (Option ast.Field)) (ih : Fixed FieldList.loop val) : OnSlice (Fixed FieldList.loop) (some val) := by
  intro xs h
  cases h
  exact ih

theorem idem_Opt_FieldList_none : Fixed FieldList none := by
  intro y h
  rw [FieldList] at h
  simp only [bind_eq_ok, pure_eq_ok] at h
  obtain rfl := h
  simp only [FieldList, ok_bind, pure_eq_ok, Ident_idem, IdentList_idem, BasicLit_idem, CommentGroup_idem, BadExpr_fresh_idem, Ident_fresh_idem, BasicLit_fresh_idem, BadStmt_fresh_idem, EmptyStmt_fresh_idem, BranchStmt_fresh_idem, ImportSpec_fresh_idem, BadDecl_fresh_idem]

theorem idem_Opt_FieldList_some (val : ast.FieldList) (ih : Fixed FieldList.fresh val) : Fixed FieldList (some val) := by
  intro y h
  rw [FieldList] at h
  simp only [bind_eq_ok, pure_eq_ok] at h
  obtain ⟨c, hc, rfl⟩ := h
  have ic := ih c hc
  simp only [FieldList, ok_bind, pure_eq_ok, Ident_idem, IdentList_idem, BasicLit_idem, CommentGroup_idem, BadExpr_fresh_idem, Ident_fresh_idem, BasicLit_fresh_idem, BadStmt_fresh_idem, EmptyStmt_fresh_idem, BranchStmt_fresh_idem, ImportSpec_fresh_idem, BadDecl_fresh_idem, ic]

theorem idem_Slice_ExprNode_none : Fixed ExprList none := by
  intro y h
  rw [ExprList] at h
  simp only [bind_eq_ok, pure_eq_ok] at h
  obtain rfl := h
  simp only [ExprList, ok_bind, pure_eq_ok, Ident_idem, IdentList_idem, BasicLit_idem, CommentGroup_idem, BadExpr_fresh_idem, Ident_fresh_idem, BasicLit_fresh_idem, BadStmt_fresh_idem, EmptyStmt_fresh_idem, BranchStmt_fresh_idem, ImportSpec_fresh_idem, BadDecl_fresh_idem]

theorem idem_Slice_ExprNode_some (val : List (Option ast.ExprNode)) (ih : Fixed ExprList.loop val) : Fixed ExprList (some val) := by
  intro y h
  rw [ExprList] at h
  simp only [bind_eq_ok, pure_eq_ok] at h
  obtain ⟨c, hc, rfl⟩ := h
  have ic := ih c hc
  simp only [ExprList, ok_bind, pure_eq_ok, Ident_idem, IdentList_idem, BasicLit_idem, CommentGroup_idem, BadExpr_fresh_idem, Ident_fresh_idem, BasicLit_fresh_idem, BadStmt_fresh_idem, EmptyStmt_fresh_idem, BranchStmt_fresh_idem, ImportSpec_fresh_idem, BadDecl_fresh_idem, ic]

theorem idem_Slice_StmtNode_none : Fixed StmtList none := by
  intro y h
  rw [StmtList] at h
  simp only [bind_eq_ok, pure_eq_ok] at h
  obtain rfl := h
  simp only [StmtList, ok_bind, pure_eq_ok, Ident_idem, IdentList_idem, BasicLit_idem, CommentGroup_idem, BadExpr_fresh_idem, Ident_fresh_idem, BasicLit_fresh_idem, BadStmt_fresh_idem, EmptyStmt_fresh_idem, BranchStmt_fresh_idem, ImportSpec_fresh_idem, BadDecl_fresh_idem]

theorem idem_Slice_StmtNode_some (val : List (Option ast.StmtNode)) (ih : Fixed StmtList.loop val) : Fixed StmtList (some val) := by
  intro y h
  rw [StmtList] at h
  simp only [bind_eq_ok, pure_eq_ok] at h
  obtain ⟨c, hc, rfl⟩ := h
  have ic := ih c hc
  simp only [StmtList, ok_bind, pure_eq_ok, Ident_idem, IdentList_idem, BasicLit_idem, CommentGroup_idem, BadExpr_fresh_idem, Ident_fresh_idem, BasicLit_fresh_idem, BadStmt_fresh_idem, EmptyStmt_fresh_idem, BranchStmt_fresh_idem, ImportSpec_fresh_idem, BadDecl_fresh_idem, ic]

theorem idem_Opt_FuncType_none : Fixed FuncType none := by
  intro y h
  rw [FuncType] at h
  simp only [bind_eq_ok, pure_eq_ok] at h
  obtain rfl := h
  simp only [FuncType, ok_bind, pure_eq_ok, Ident_idem, IdentList_idem, BasicLit_idem, CommentGroup_idem, BadExpr_fresh_idem, Ident_fresh_idem, BasicLit_fresh_idem, BadStmt_fresh_idem, EmptyStmt_fresh_idem, BranchStmt_fresh_idem, ImportSpec_fresh_idem, BadDecl_fresh_idem]

theorem idem_Opt_FuncType_some (val : ast.FuncType) (ih : Fixed FuncType.fresh val) : Fixed FuncType (some val) := by
  intro y h
  rw [FuncType] at h
  simp only [bind_eq_ok, pure_eq_ok] at h
  obtain ⟨c, hc, rfl⟩ := h
  have ic := ih c hc
  simp only [FuncType, ok_bind, pure_eq_ok, Ident_idem, IdentList_idem, BasicLit_idem, CommentGroup_idem, BadExpr_fresh_idem, Ident_fresh_idem, BasicLit_fresh_idem, BadStmt_fresh_idem, EmptyStmt_fresh_idem, BranchStmt_fresh_idem, ImportSpec_fresh_idem, BadDecl_fresh_idem, ic]

theorem idem_Opt_BlockStmt_none : Fixed BlockStmt none := by
  intro y h
  rw [BlockStmt] at h
  simp only [bind_eq_ok, pure_eq_ok] at h
  obtain rfl := h
  simp only [BlockStmt, ok_bind, pure_eq_ok, Ident_idem, IdentList_idem, BasicLit_idem, CommentGroup_idem, BadExpr_fresh_idem, Ident_fresh_idem, BasicLit_fresh_idem, BadStmt_fresh_idem, EmptyStmt_fresh_idem, BranchStmt_fresh_idem, ImportSpec_fresh_idem, BadDecl_fresh_idem]

theorem idem_Opt_BlockStmt_some (val : ast.BlockStmt) (ih : Fixed BlockStmt.fresh val) : Fixed BlockStmt (some val) := by
  intro y h
  rw [BlockStmt] at h
  simp only [bind_eq_ok, pure_eq_ok] at h
  obtain ⟨c, hc, rfl⟩ := h
  have ic := ih c hc
  simp only [BlockStmt, ok_bind, pure_eq_ok, Ident_idem, IdentList_idem, BasicLit_idem, CommentGroup_idem, BadExpr_fresh_idem, Ident_fresh_idem, BasicLit_fresh_idem, BadStmt_fresh_idem, EmptyStmt_fresh_idem, BranchStmt_fresh_idem, ImportSpec_fresh_idem, BadDecl_fresh_idem, ic]

theorem idem_Opt_DeclNode_none : Fixed copyDecl none := by
  intro y h
  rw [copyDecl] at h
  simp only [bind_eq_ok, pure_eq_ok] at h
  obtain rfl := h
  simp only [copyDecl, ok_bind, pure_eq_ok, Ident_idem, IdentList_idem, BasicLit_idem, CommentGroup_idem, BadExpr_fresh_idem, Ident_fresh_idem, BasicLit_fresh_idem, BadStmt_fresh_idem, EmptyStmt_fresh_idem, BranchStmt_fresh_idem, ImportSpec_fresh_idem, BadDecl_fresh_idem]

theorem idem_Opt_DeclNode_some (val : ast.DeclNode) (ih : Fixed copyDecl (some val)) : Fixed copyDecl (some val) :=
  ih

theorem idem_Opt_StmtNode_none : Fixed copyStmt none := by
  intro y h
  rw [copyStmt] at h
  simp only [bind_eq_ok, pure_eq_ok] at h
  obtain rfl := h
  simp only [copyStmt, ok_bind, pure_eq_ok, Ident_idem, IdentList_idem, BasicLit_idem, CommentGroup_idem, BadExpr_fresh_idem, Ident_fresh_idem, BasicLit_fresh_idem, BadStmt_fresh_idem, EmptyStmt_fresh_idem, BranchStmt_fresh_idem, ImportSpec_fresh_idem, BadDecl_fresh_idem]

theorem idem_Opt_StmtNode_some (val : ast.StmtNode) (ih : Fixed copyStmt (some val)) : Fixed copyStmt (some val) :=
  ih

theorem idem_Opt_CallExpr_none : Fixed CallExpr none := by
  intro y h
  rw [CallExpr] at h
  simp only [bind_eq_ok, pure_eq_ok] at h
  obtain rfl := h
  simp only [CallExpr, ok_bind, pure_eq_ok, Ident_idem, IdentList_idem, BasicLit_idem, CommentGroup_idem, BadExpr_fresh_idem, Ident_fresh_idem, BasicLit_fresh_idem, BadStmt_fresh_idem, EmptyStmt_fresh_idem, BranchStmt_fresh_idem, ImportSpec_fresh_idem, BadDecl_fresh_idem]

theorem idem_Opt_CallExpr_some (val : ast.CallExpr) (ih : Fixed CallExpr.fresh val) : Fixed CallExpr (some val) := by
  intro y h
  rw [CallExpr] at h
  simp only [bind_eq_ok, pure_eq_ok] at h
  obtain ⟨c, hc, rfl⟩ := h
  have ic := ih c hc
  simp only [CallExpr, ok_bind, pure_eq_ok, Ident_idem, IdentList_idem, BasicLit_idem, CommentGroup_idem, BadExpr_fresh_idem, Ident_fresh_idem, BasicLit_fresh_idem, BadStmt_fresh_idem, EmptyStmt_fresh_idem, BranchStmt_fresh_idem, ImportSpec_fresh_idem, BadDecl_fresh_idem, ic]

theorem idem_Slice_SpecNode_none : Fixed SpecList none := by
  intro y h
  rw [SpecList] at h
  simp only [bind_eq_ok, pure_eq_ok] at h
  obtain rfl := h
  simp only [SpecList, ok_bind, pure_eq_ok, Ident_idem, IdentList_idem, BasicLit_idem, CommentGroup_idem, BadExpr_fresh_idem, Ident_fresh_idem, BasicLit_fresh_idem, BadStmt_fresh_idem, EmptyStmt_fresh_idem, BranchStmt_fresh_idem, ImportSpec_fresh_idem, BadDecl_fresh_idem]

theorem idem_Slice_SpecNode_some (val : List (Option ast.SpecNode)) (ih : Fixed SpecList.loop val) : Fixed SpecList (some val) := by
  intro y h
  rw [SpecList] at h
  simp only [bind_eq_ok, pure_eq_ok] at h
  obtain ⟨c, hc, rfl⟩ := h
  have ic := ih c hc
  simp only [SpecList, ok_bind, pure_eq_ok, Ident_idem, IdentList_idem, BasicLit_idem, CommentGroup_idem, BadExpr_fresh_idem, Ident_fresh_idem, BasicLit_fresh_idem, BadStmt_fresh_idem, EmptyStmt_fresh_idem, BranchStmt_fresh_idem, ImportSpec_fresh_idem, BadDecl_fresh_idem, ic]

theorem idem_List_Field_nil : Fixed FieldList.loop [] := by
  intro y h
  rw [FieldList.loop] at h
  simp only [bind_eq_ok, pure_eq_ok] at h
  obtain rfl := h
  simp only [FieldList.loop, ok_bind, pure_eq_ok, Ident_idem, IdentList_idem, BasicLit_idem, CommentGroup_idem, BadExpr_fresh_idem, Ident_fresh_idem, BasicLit_fresh_idem, BadStmt_fresh_idem, EmptyStmt_fresh_idem, BranchStmt_fresh_idem, ImportSpec_fresh_idem, BadDecl_fresh_idem]

theorem idem_List_Field_cons (x : Option ast.Field) (xs : List (Option ast.Field)) (ix : Fixed Field x)
    (ixs : Fixed FieldList.loop xs) : Fixed FieldList.loop (x :: xs) := by
  intro y h
  rw [FieldList.loop] at h
  simp only [bind_eq_ok, pure_eq_ok] at h
  obtain ⟨c, hc, cs, hcs, rfl⟩ := h
  have ic := ix c hc
  have ics := ixs cs hcs
  simp only [FieldList.loop, ok_bind, pure_eq_ok, Ident_idem, IdentList_idem, BasicLit_idem, CommentGroup_idem, BadExpr_fresh_idem, Ident_fresh_idem, BasicLit_fresh_idem, BadStmt_fresh_idem, EmptyStmt_fresh_idem, BranchStmt_fresh_idem, ImportSpec_fresh_idem, BadDecl_fresh_idem, ic, ics]

theorem idem_List_ExprNode_nil : Fixed ExprList.loop [] := by
  intro y h
  rw [ExprList.loop] at h
  simp only [bind_eq_ok, pure_eq_ok] at h
  obtain rfl := h
  simp only [ExprList.loop, ok_bind, pure_eq_ok, Ident_idem, IdentList_idem, BasicLit_idem, CommentGroup_idem, BadExpr_fresh_idem, Ident_fresh_idem, BasicLit_fresh_idem, BadStmt_fresh_idem, EmptyStmt_fresh_idem, BranchStmt_fresh_idem, ImportSpec_fresh_idem, BadDecl_fresh_idem]

theorem idem_List_ExprNode_cons (x : Option ast.ExprNode) (xs : List (Option ast.ExprNode)) (ix : Fixed copyExpr x)
    (ixs : Fixed ExprList.loop xs) : Fixed ExprList.loop (x :: xs) := by
  intro y h
  rw [ExprList.loop] at h
  simp only [bind_eq_ok, pure_eq_ok] at h
  obtain ⟨c, hc, cs, hcs, rfl⟩ := h
  have ic := ix c hc
  have ics := ixs cs hcs
  simp only [ExprList.loop, ok_bind, pure_eq_ok, Ident_idem, IdentList_idem, BasicLit_idem, CommentGroup_idem, BadExpr_fresh_idem, Ident_fresh_idem, BasicLit_fresh_idem, BadStmt_fresh_idem, EmptyStmt_fresh_idem, BranchStmt_fresh_idem, ImportSpec_fresh_idem, BadDecl_fresh_idem, ic, ics]

theorem idem_List_StmtNode_nil : Fixed StmtList.loop [] := by
  intro y h
  rw [StmtList.loop] at h
  simp only [bind_eq_ok, pure_eq_ok] at h
  obtain rfl := h
  simp only [StmtList.loop, ok_bind, pure_eq_ok, Ident_idem, IdentList_idem, BasicLit_idem, CommentGroup_idem, BadExpr_fresh_idem, Ident_fresh_idem, BasicLit_fresh_idem, BadStmt_fresh_idem, EmptyStmt_fresh_idem, BranchStmt_fresh_idem, ImportSpec_fresh_idem, BadDecl_fresh_idem]

theorem idem_List_StmtNode_cons (x : Option ast.StmtNode) (xs : List (Option ast.StmtNode)) (ix : Fixed copyStmt x)
    (ixs : Fixed StmtList.loop xs) : Fixed StmtList.loop (x :: xs) := by
  intro y h
  rw [StmtList.loop] at h
  simp only [bind_eq_ok, pure_eq_ok] at h
  obtain ⟨c, hc, cs, hcs, rfl⟩ := h
  have ic := ix c hc
  have ics := ixs cs hcs
  simp only [StmtList.loop, ok_bind, pure_eq_ok, Ident_idem, IdentList_idem, BasicLit_idem, CommentGroup_idem, BadExpr_fresh_idem, Ident_fresh_idem, BasicLit_fresh_idem, BadStmt_fresh_idem, EmptyStmt_fresh_idem, BranchStmt_fresh_idem, ImportSpec_fresh_idem, BadDecl_fresh_idem, ic, ics]

theorem idem_List_SpecNode_nil : Fixed SpecList.loop [] := by
  intro y h
  rw [SpecList.loop] at h
  simp only [bind_eq_ok, pure_eq_ok] at h
  obtain rfl := h
  simp only [SpecList.loop, ok_bind, pure_eq_ok, Ident_idem, IdentList_idem, BasicLit_idem, CommentGroup_idem, BadExpr_fresh_idem, Ident_fresh_idem, BasicLit_fresh_idem, BadStmt_fresh_idem, EmptyStmt_fresh_idem, BranchStmt_fresh_idem, ImportSpec_fresh_idem, BadDecl_fresh_idem]

theorem idem_List_SpecNode_cons (x : Option ast.SpecNode) (xs : List (Option ast.SpecNode)) (ix : Fixed Spec x)
    (ixs : Fixed SpecList.loop xs) : Fixed SpecList.loop (x :: xs) := by
  intro y h
  rw [SpecList.loop] at h
  simp only [bind_eq_ok, pure_eq_ok] at h
  obtain ⟨c, hc, cs, hcs, rfl⟩ := h
  have ic := ix c hc
  have ics := ixs cs hcs
  simp only [SpecList.loop, ok_bind, pure_eq_ok, Ident_idem, IdentList_idem, BasicLit_idem, CommentGroup_idem, BadExpr_fresh_idem, Ident_fresh_idem, BasicLit_fresh_idem, BadStmt_fresh_idem, EmptyStmt_fresh_idem, BranchStmt_fresh_idem, ImportSpec_fresh_idem, BadDecl_fresh_idem, ic, ics]

theorem idem_Opt_Field_none : Fixed Field none := by
  intro y h
  rw [Field] at h
  simp only [bind_eq_ok, pure_eq_ok] at h
  obtain rfl := h
  simp only [Field, ok_bind, pure_eq_ok, Ident_idem, IdentList_idem, BasicLit_idem, CommentGroup_idem, BadExpr_fresh_idem, Ident_fresh_idem, BasicLit_fresh_idem, BadStmt_fresh_idem, EmptyStmt_fresh_idem, BranchStmt_fresh_idem, ImportSpec_fresh_idem, BadDecl_fresh_idem]

theorem idem_Opt_Field_some (val : ast.Field) (ih : Fixed Field.fresh val) : Fixed Field (some val) := by
  intro y h
  rw [Field] at h
  simp only [bind_eq_ok, pure_eq_ok] at h
  obtain ⟨c, hc, rfl⟩ := h
  have ic := ih c hc
  simp only [Field, ok_bind, pure_eq_ok, Ident_idem, IdentList_idem, BasicLit_idem, CommentGroup_idem, BadExpr_fresh_idem, Ident_fresh_idem, BasicLit_fresh_idem, BadStmt_fresh_idem, EmptyStmt_fresh_idem, BranchStmt_fresh_idem, ImportSpec_fresh_idem, BadDecl_fresh_idem, ic]

theorem idem_Opt_SpecNode_none : Fixed Spec none := by
  intro y h
  rw [Spec] at h
  simp only [bind_eq_ok, pure_eq_ok] at h
  obtain rfl := h
  simp only [Spec, ok_bind, pure_eq_ok, Ident_idem, IdentList_idem, BasicLit_idem, CommentGroup_idem, BadExpr_fresh_idem, Ident_fresh_idem, BasicLit_fresh_idem, BadStmt_fresh_idem, EmptyStmt_fresh_idem, BranchStmt_fresh_idem, ImportSpec_fresh_idem, BadDecl_fresh_idem]

theorem idem_Opt_SpecNode_some (val : ast.SpecNode) (ih : Fixed Spec (some val)) : Fixed Spec (some val) :=
  ih

theorem idem_copyExpr_present (x : ast.ExprNode) : Fixed copyExpr (some x) :=
  @ast.ExprNode.rec
    (Fixed Field.fresh)
    (Fixed FieldList.fresh)
    (Fixed FuncType.fresh)
    (Fixed CallExpr.fresh)
    (Fixed BlockStmt.fresh)
    (fun x => Fixed copyExpr (some x))
    (fun x => Fixed copyStmt (some x))
    (fun x => Fixed Spec (some x))
    (fun x => Fixed copyDecl (some x))
    (Fixed copyExpr)
    (OnSlice (Fixed FieldList.loop))
    (Fixed FieldList)
    (Fixed ExprList)
    (Fixed StmtList)
    (Fixed FuncType)
    (Fixed BlockStmt)
    (Fixed copyDecl)
    (Fixed copyStmt)
    (Fixed CallExpr)
    (Fixed SpecList)
    (Fixed FieldList.loop)
    (Fixed ExprList.loop)
    (Fixed StmtList.loop)
    (Fixed SpecList.loop)
    (Fixed Field)
    (Fixed Spec)
    idem_Field_mk idem_FieldList_mk idem_FuncType_mk idem_CallExpr_mk idem_BlockStmt_mk
    idem_ExprNode_BadExpr idem_ExprNode_Ident idem_ExprNode_Ellipsis idem_ExprNode_BasicLit
    idem_ExprNode_FuncLit idem_ExprNode_CompositeLit idem_ExprNode_ParenExpr
    idem_ExprNode_SelectorExpr idem_ExprNode_IndexExpr idem_ExprNode_SliceExpr
    idem_ExprNode_TypeAssertExpr idem_ExprNode_CallExpr idem_ExprNode_StarExpr
    idem_ExprNode_UnaryExpr idem_ExprNode_BinaryExpr idem_ExprNode_KeyValueExpr
    idem_ExprNode_ArrayType idem_ExprNode_StructType idem_ExprNode_FuncType
    idem_ExprNode_InterfaceType idem_ExprNode_MapType idem_ExprNode_ChanType idem_ExprNode_other
    idem_StmtNode_BadStmt idem_StmtNode_DeclStmt idem_StmtNode_EmptyStmt idem_StmtNode_LabeledStmt
    idem_StmtNode_ExprStmt idem_StmtNode_SendStmt idem_StmtNode_IncDecStmt
    idem_StmtNode_AssignStmt idem_StmtNode_GoStmt idem_StmtNode_DeferStmt idem_StmtNode_ReturnStmt
    idem_StmtNode_BranchStmt idem_StmtNode_BlockStmt idem_StmtNode_IfStmt idem_StmtNode_CaseClause
    idem_StmtNode_SwitchStmt idem_StmtNode_TypeSwitchStmt idem_StmtNode_CommClause
    idem_StmtNode_SelectStmt idem_StmtNode_ForStmt idem_StmtNode_RangeStmt idem_StmtNode_other
    idem_SpecNode_ImportSpec idem_SpecNode_ValueSpec idem_SpecNode_TypeSpec idem_SpecNode_other
    idem_DeclNode_BadDecl idem_DeclNode_GenDecl idem_DeclNode_FuncDecl idem_DeclNode_other
    idem_Opt_ExprNode_none idem_Opt_ExprNode_some idem_Slice_Field_none idem_Slice_Field_some
    idem_Opt_FieldList_none idem_Opt_FieldList_some idem_Slice_ExprNode_none
    idem_Slice_ExprNode_some idem_Slice_StmtNode_none idem_Slice_StmtNode_some
    idem_Opt_FuncType_none idem_Opt_FuncType_some idem_Opt_BlockStmt_none idem_Opt_BlockStmt_some
    idem_Opt_DeclNode_none idem_Opt_DeclNode_some idem_Opt_StmtNode_none idem_Opt_StmtNode_some
    idem_Opt_CallExpr_none idem_Opt_CallExpr_some idem_Slice_SpecNode_none
    idem_Slice_SpecNode_some idem_List_Field_nil idem_List_Field_cons idem_List_ExprNode_nil
    idem_List_ExprNode_cons idem_List_StmtNode_nil idem_List_StmtNode_cons idem_List_SpecNode_nil
    idem_List_SpecNode_cons idem_Opt_Field_none idem_Opt_Field_some idem_Opt_SpecNode_none
    idem_Opt_SpecNode_some x

theorem idem_copyExpr : ∀ (x y : ast.Expr), copyExpr x = .ok y → copyExpr y = .ok y
  | none => idem_Opt_ExprNode_none
  | some x => idem_copyExpr_present x

theorem idem_copyStmt_present (x : ast.StmtNode) : Fixed copyStmt (some x) :=
  @ast.StmtNode.rec
    (Fixed Field.fresh)
    (Fixed FieldList.fresh)
    (Fixed FuncType.fresh)
    (Fixed CallExpr.fresh)
    (Fixed BlockStmt.fresh)
    (fun x => Fixed copyExpr (some x))
    (fun x => Fixed copyStmt (some x))
    (fun x => Fixed Spec (some x))
    (fun x => Fixed copyDecl (some x))
    (Fixed copyExpr)
    (OnSlice (Fixed FieldList.loop))
    (Fixed FieldList)
    (Fixed ExprList)
    (Fixed StmtList)
    (Fixed FuncType)
    (Fixed BlockStmt)
    (Fixed copyDecl)
    (Fixed copyStmt)
    (Fixed CallExpr)
    (Fixed SpecList)
    (Fixed FieldList.loop)
    (Fixed ExprList.loop)
    (Fixed StmtList.loop)
    (Fixed SpecList.loop)
    (Fixed Field)
    (Fixed Spec)
    idem_Field_mk idem_FieldList_mk idem_FuncType_mk idem_CallExpr_mk idem_BlockStmt_mk
    idem_ExprNode_BadExpr idem_ExprNode_Ident idem_ExprNode_Ellipsis idem_ExprNode_BasicLit
    idem_ExprNode_FuncLit idem_ExprNode_CompositeLit idem_ExprNode_ParenExpr
    idem_ExprNode_SelectorExpr idem_ExprNode_IndexExpr idem_ExprNode_SliceExpr
    idem_ExprNode_TypeAssertExpr idem_ExprNode_CallExpr idem_ExprNode_StarExpr
    idem_ExprNode_UnaryExpr idem_ExprNode_BinaryExpr idem_ExprNode_KeyValueExpr
    idem_ExprNode_ArrayType idem_ExprNode_StructType idem_ExprNode_FuncType
    idem_ExprNode_InterfaceType idem_ExprNode_MapType idem_ExprNode_ChanType idem_ExprNode_other
    idem_StmtNode_BadStmt idem_StmtNode_DeclStmt idem_StmtNode_EmptyStmt idem_StmtNode_LabeledStmt
    idem_StmtNode_ExprStmt idem_StmtNode_SendStmt idem_StmtNode_IncDecStmt
    idem_StmtNode_AssignStmt idem_StmtNode_GoStmt idem_StmtNode_DeferStmt idem_StmtNode_ReturnStmt
    idem_StmtNode_BranchStmt idem_StmtNode_BlockStmt idem_StmtNode_IfStmt idem_StmtNode_CaseClause
    idem_StmtNode_SwitchStmt idem_StmtNode_TypeSwitchStmt idem_StmtNode_CommClause
    idem_StmtNode_SelectStmt idem_StmtNode_ForStmt idem_StmtNode_RangeStmt idem_StmtNode_other
    idem_SpecNode_ImportSpec idem_SpecNode_ValueSpec idem_SpecNode_TypeSpec idem_SpecNode_other
    idem_DeclNode_BadDecl idem_DeclNode_GenDecl idem_DeclNode_FuncDecl idem_DeclNode_other
    idem_Opt_ExprNode_none idem_Opt_ExprNode_some idem_Slice_Field_none idem_Slice_Field_some
    idem_Opt_FieldList_none idem_Opt_FieldList_some idem_Slice_ExprNode_none
    idem_Slice_ExprNode_some idem_Slice_StmtNode_none idem_Slice_StmtNode_some
    idem_Opt_FuncType_none idem_Opt_FuncType_some idem_Opt_BlockStmt_none idem_Opt_BlockStmt_some
    idem_Opt_DeclNode_none idem_Opt_DeclNode_some idem_Opt_StmtNode_none idem_Opt_StmtNode_some
    idem_Opt_CallExpr_none idem_Opt_CallExpr_some idem_Slice_SpecNode_none
    idem_Slice_SpecNode_some idem_List_Field_nil idem_List_Field_cons idem_List_ExprNode_nil
    idem_List_ExprNode_cons idem_List_StmtNode_nil idem_List_StmtNode_cons idem_List_SpecNode_nil
    idem_List_SpecNode_cons idem_Opt_Field_none idem_Opt_Field_some idem_Opt_SpecNode_none
    idem_Opt_SpecNode_some x

theorem idem_copyStmt : ∀ (x y : ast.Stmt), copyStmt x = .ok y → copyStmt y = .ok y
  | none => idem_Opt_StmtNode_none
  | some x => idem_copyStmt_present x

theorem idem_Spec_present (x : ast.SpecNode) : Fixed Spec (some x) :=
  @ast.SpecNode.rec
    (Fixed Field.fresh)
    (Fixed FieldList.fresh)
    (Fixed FuncType.fresh)
    (Fixed CallExpr.fresh)
    (Fixed BlockStmt.fresh)
    (fun x => Fixed copyExpr (some x))
    (fun x => Fixed copyStmt (some x))
    (fun x => Fixed Spec (some x))
    (fun x => Fixed copyDecl (some x))
    (Fixed copyExpr)
    (OnSlice (Fixed FieldList.loop))
    (Fixed FieldList)
    (Fixed ExprList)
    (Fixed StmtList)
    (Fixed FuncType)
    (Fixed BlockStmt)
    (Fixed copyDecl)
    (Fixed copyStmt)
    (Fixed CallExpr)
    (Fixed SpecList)
    (Fixed FieldList.loop)
    (Fixed ExprList.loop)
    (Fixed StmtList.loop)
    (Fixed SpecList.loop)
    (Fixed Field)
    (Fixed Spec)
    idem_Field_mk idem_FieldList_mk idem_FuncType_mk idem_CallExpr_mk idem_BlockStmt_mk
    idem_ExprNode_BadExpr idem_ExprNode_Ident idem_ExprNode_Ellipsis idem_ExprNode_BasicLit
    idem_ExprNode_FuncLit idem_ExprNode_CompositeLit idem_ExprNode_ParenExpr
    idem_ExprNode_SelectorExpr idem_ExprNode_IndexExpr idem_ExprNode_SliceExpr
    idem_ExprNode_TypeAssertExpr idem_ExprNode_CallExpr idem_ExprNode_StarExpr
    idem_ExprNode_UnaryExpr idem_ExprNode_BinaryExpr idem_ExprNode_KeyValueExpr
    idem_ExprNode_ArrayType idem_ExprNode_StructType idem_ExprNode_FuncType
    idem_ExprNode_InterfaceType idem_ExprNode_MapType idem_ExprNode_ChanType idem_ExprNode_other
    idem_StmtNode_BadStmt idem_StmtNode_DeclStmt idem_StmtNode_EmptyStmt idem_StmtNode_LabeledStmt
    idem_StmtNode_ExprStmt idem_StmtNode_SendStmt idem_StmtNode_IncDecStmt
    idem_StmtNode_AssignStmt idem_StmtNode_GoStmt idem_StmtNode_DeferStmt idem_StmtNode_ReturnStmt
    idem_StmtNode_BranchStmt idem_StmtNode_BlockStmt idem_StmtNode_IfStmt idem_StmtNode_CaseClause
    idem_StmtNode_SwitchStmt idem_StmtNode_TypeSwitchStmt idem_StmtNode_CommClause
    idem_StmtNode_SelectStmt idem_StmtNode_ForStmt idem_StmtNode_RangeStmt idem_StmtNode_other
    idem_SpecNode_ImportSpec idem_SpecNode_ValueSpec idem_SpecNode_TypeSpec idem_SpecNode_other
    idem_DeclNode_BadDecl idem_DeclNode_GenDecl idem_DeclNode_FuncDecl idem_DeclNode_other
    idem_Opt_ExprNode_none idem_Opt_ExprNode_some idem_Slice_Field_none idem_Slice_Field_some
    idem_Opt_FieldList_none idem_Opt_FieldList_some idem_Slice_ExprNode_none
    idem_Slice_ExprNode_some idem_Slice_StmtNode_none idem_Slice_StmtNode_some
    idem_Opt_FuncType_none idem_Opt_FuncType_some idem_Opt_BlockStmt_none idem_Opt_BlockStmt_some
    idem_Opt_DeclNode_none idem_Opt_DeclNode_some idem_Opt_StmtNode_none idem_Opt_StmtNode_some
    idem_Opt_CallExpr_none idem_Opt_CallExpr_some idem_Slice_SpecNode_none
    idem_Slice_SpecNode_some idem_List_Field_nil idem_List_Field_cons idem_List_ExprNode_nil
    idem_List_ExprNode_cons idem_List_StmtNode_nil idem_List_StmtNode_cons idem_List_SpecNode_nil
    idem_List_SpecNode_cons idem_Opt_Field_none idem_Opt_Field_some idem_Opt_SpecNode_none
    idem_Opt_SpecNode_some x

theorem idem_Spec : ∀ (x y : ast.Spec), Spec x = .ok y → Spec y = .ok y
  | none => idem_Opt_SpecNode_none
  | some x => idem_Spec_present x

theorem idem_copyDecl_present (x : ast.DeclNode) : Fixed copyDecl (some x) :=
  @ast.DeclNode.rec
    (Fixed Field.fresh)
    (Fixed FieldList.fresh)
    (Fixed FuncType.fresh)
    (Fixed CallExpr.fresh)
    (Fixed BlockStmt.fresh)
    (fun x => Fixed copyExpr (some x))
    (fun x => Fixed copyStmt (some x))
    (fun x => Fixed Spec (some x))
    (fun x => Fixed copyDecl (some x))
    (Fixed copyExpr)
    (OnSlice (Fixed FieldList.loop))
    (Fixed FieldList)
    (Fixed ExprList)
    (Fixed StmtList)
    (Fixed FuncType)
    (Fixed BlockStmt)
    (Fixed copyDecl)
    (Fixed copyStmt)
    (Fixed CallExpr)
    (Fixed SpecList)
    (Fixed FieldList.loop)
    (Fixed ExprList.loop)
    (Fixed StmtList.loop)
    (Fixed SpecList.loop)
    (Fixed Field)
    (Fixed Spec)
    idem_Field_mk idem_FieldList_mk idem_FuncType_mk idem_CallExpr_mk idem_BlockStmt_mk
    idem_ExprNode_BadExpr idem_ExprNode_Ident idem_ExprNode_Ellipsis idem_ExprNode_BasicLit
    idem_ExprNode_FuncLit idem_ExprNode_CompositeLit idem_ExprNode_ParenExpr
    idem_ExprNode_SelectorExpr idem_ExprNode_IndexExpr idem_ExprNode_SliceExpr
    idem_ExprNode_TypeAssertExpr idem_ExprNode_CallExpr idem_ExprNode_StarExpr
    idem_ExprNode_UnaryExpr idem_ExprNode_BinaryExpr idem_ExprNode_KeyValueExpr
    idem_ExprNode_ArrayType idem_ExprNode_StructType idem_ExprNode_FuncType
    idem_ExprNode_InterfaceType idem_ExprNode_MapType idem_ExprNode_ChanType idem_ExprNode_other
    idem_StmtNode_BadStmt idem_StmtNode_DeclStmt idem_StmtNode_EmptyStmt idem_StmtNode_LabeledStmt
    idem_StmtNode_ExprStmt idem_StmtNode_SendStmt idem_StmtNode_IncDecStmt
    idem_StmtNode_AssignStmt idem_StmtNode_GoStmt idem_StmtNode_DeferStmt idem_StmtNode_ReturnStmt
    idem_StmtNode_BranchStmt idem_StmtNode_BlockStmt idem_StmtNode_IfStmt idem_StmtNode_CaseClause
    idem_StmtNode_SwitchStmt idem_StmtNode_TypeSwitchStmt idem_StmtNode_CommClause
    idem_StmtNode_SelectStmt idem_StmtNode_ForStmt idem_StmtNode_RangeStmt idem_StmtNode_other
    idem_SpecNode_ImportSpec idem_SpecNode_ValueSpec idem_SpecNode_TypeSpec idem_SpecNode_other
    idem_DeclNode_BadDecl idem_DeclNode_GenDecl idem_DeclNode_FuncDecl idem_DeclNode_other
    idem_Opt_ExprNode_none idem_Opt_ExprNode_some idem_Slice_Field_none idem_Slice_Field_some
    idem_Opt_FieldList_none idem_Opt_FieldList_some idem_Slice_ExprNode_none
    idem_Slice_ExprNode_some idem_Slice_StmtNode_none idem_Slice_StmtNode_some
    idem_Opt_FuncType_none idem_Opt_FuncType_some idem_Opt_BlockStmt_none idem_Opt_BlockStmt_some
    idem_Opt_DeclNode_none idem_Opt_DeclNode_some idem_Opt_StmtNode_none idem_Opt_StmtNode_some
    idem_Opt_CallExpr_none idem_Opt_CallExpr_some idem_Slice_SpecNode_none
    idem_Slice_SpecNode_some idem_List_Field_nil idem_List_Field_cons idem_List_ExprNode_nil
    idem_List_ExprNode_cons idem_List_StmtNode_nil idem_List_StmtNode_cons idem_List_SpecNode_nil
    idem_List_SpecNode_cons idem_Opt_Field_none idem_Opt_Field_some idem_Opt_SpecNode_none
    idem_Opt_SpecNode_some x

theorem idem_copyDecl : ∀ (x y : ast.Decl), copyDecl x = .ok y → copyDecl y = .ok y
  | none => idem_Opt_DeclNode_none
  | some x => idem_copyDecl_present x

theorem idem_FieldList_fresh (x : ast.FieldList) : Fixed FieldList.fresh x :=
  @ast.FieldList.rec
    (Fixed Field.fresh)
    (Fixed FieldList.fresh)
    (Fixed FuncType.fresh)
    (Fixed CallExpr.fresh)
    (Fixed BlockStmt.fresh)
    (fun x => Fixed copyExpr (some x))
    (fun x => Fixed copyStmt (some x))
    (fun x => Fixed Spec (some x))
    (fun x => Fixed copyDecl (some x))
    (Fixed copyExpr)
    (OnSlice (Fixed FieldList.loop))
    (Fixed FieldList)
    (Fixed ExprList)
    (Fixed StmtList)
    (Fixed FuncType)
    (Fixed BlockStmt)
    (Fixed copyDecl)
    (Fixed copyStmt)
    (Fixed CallExpr)
    (Fixed SpecList)
    (Fixed FieldList.loop)
    (Fixed ExprList.loop)
    (Fixed StmtList.loop)
    (Fixed SpecList.loop)
    (Fixed Field)
    (Fixed Spec)
    idem_Field_mk idem_FieldList_mk idem_FuncType_mk idem_CallExpr_mk idem_BlockStmt_mk
    idem_ExprNode_BadExpr idem_ExprNode_Ident idem_ExprNode_Ellipsis idem_ExprNode_BasicLit
    idem_ExprNode_FuncLit idem_ExprNode_CompositeLit idem_ExprNode_ParenExpr
    idem_ExprNode_SelectorExpr idem_ExprNode_IndexExpr idem_ExprNode_SliceExpr
    idem_ExprNode_TypeAssertExpr idem_ExprNode_CallExpr idem_ExprNode_StarExpr
    idem_ExprNode_UnaryExpr idem_ExprNode_BinaryExpr idem_ExprNode_KeyValueExpr
    idem_ExprNode_ArrayType idem_ExprNode_StructType idem_ExprNode_FuncType
    idem_ExprNode_InterfaceType idem_ExprNode_MapType idem_ExprNode_ChanType idem_ExprNode_other
    idem_StmtNode_BadStmt idem_StmtNode_DeclStmt idem_StmtNode_EmptyStmt idem_StmtNode_LabeledStmt
    idem_StmtNode_ExprStmt idem_StmtNode_SendStmt idem_StmtNode_IncDecStmt
    idem_StmtNode_AssignStmt idem_StmtNode_GoStmt idem_StmtNode_DeferStmt idem_StmtNode_ReturnStmt
    idem_StmtNode_BranchStmt idem_StmtNode_BlockStmt idem_StmtNode_IfStmt idem_StmtNode_CaseClause
    idem_StmtNode_SwitchStmt idem_StmtNode_TypeSwitchStmt idem_StmtNode_CommClause
    idem_StmtNode_SelectStmt idem_StmtNode_ForStmt idem_StmtNode_RangeStmt idem_StmtNode_other
    idem_SpecNode_ImportSpec idem_SpecNode_ValueSpec idem_SpecNode_TypeSpec idem_SpecNode_other
    idem_DeclNode_BadDecl idem_DeclNode_GenDecl idem_DeclNode_FuncDecl idem_DeclNode_other
    idem_Opt_ExprNode_none idem_Opt_ExprNode_some idem_Slice_Field_none idem_Slice_Field_some
    idem_Opt_FieldList_none idem_Opt_FieldList_some idem_Slice_ExprNode_none
    idem_Slice_ExprNode_some idem_Slice_StmtNode_none idem_Slice_StmtNode_some
    idem_Opt_FuncType_none idem_Opt_FuncType_some idem_Opt_BlockStmt_none idem_Opt_BlockStmt_some
    idem_Opt_DeclNode_none idem_Opt_DeclNode_some idem_Opt_StmtNode_none idem_Opt_StmtNode_some
    idem_Opt_CallExpr_none idem_Opt_CallExpr_some idem_Slice_SpecNode_none
    idem_Slice_SpecNode_some idem_List_Field_nil idem_List_Field_cons idem_List_ExprNode_nil
    idem_List_ExprNode_cons idem_List_StmtNode_nil idem_List_StmtNode_cons idem_List_SpecNode_nil
    idem_List_SpecNode_cons idem_Opt_Field_none idem_Opt_Field_some idem_Opt_SpecNode_none
    idem_Opt_SpecNode_some x

theorem idem_FieldList : ∀ (x : Option ast.FieldList), Fixed FieldList x
  | none => idem_Opt_FieldList_none
  | some x => idem_Opt_FieldList_some x (idem_FieldList_fresh x)

theorem idem_Field_fresh (x : ast.Field) : Fixed Field.fresh x :=
  @ast.Field.rec
    (Fixed Field.fresh)
    (Fixed FieldList.fresh)
    (Fixed FuncType.fresh)
    (Fixed CallExpr.fresh)
    (Fixed BlockStmt.fresh)
    (fun x => Fixed copyExpr (some x))
    (fun x => Fixed copyStmt (some x))
    (fun x => Fixed Spec (some x))
    (fun x => Fixed copyDecl (some x))
    (Fixed copyExpr)
    (OnSlice (Fixed FieldList.loop))
    (Fixed FieldList)
    (Fixed ExprList)
    (Fixed StmtList)
    (Fixed FuncType)
    (Fixed BlockStmt)
    (Fixed copyDecl)
    (Fixed copyStmt)
    (Fixed CallExpr)
    (Fixed SpecList)
    (Fixed FieldList.loop)
    (Fixed ExprList.loop)
    (Fixed StmtList.loop)
    (Fixed SpecList.loop)
    (Fixed Field)
    (Fixed Spec)
    idem_Field_mk idem_FieldList_mk idem_FuncType_mk idem_CallExpr_mk idem_BlockStmt_mk
    idem_ExprNode_BadExpr idem_ExprNode_Ident idem_ExprNode_Ellipsis idem_ExprNode_BasicLit
    idem_ExprNode_FuncLit idem_ExprNode_CompositeLit idem_ExprNode_ParenExpr
    idem_ExprNode_SelectorExpr idem_ExprNode_IndexExpr idem_ExprNode_SliceExpr
    idem_ExprNode_TypeAssertExpr idem_ExprNode_CallExpr idem_ExprNode_StarExpr
    idem_ExprNode_UnaryExpr idem_ExprNode_BinaryExpr idem_ExprNode_KeyValueExpr
    idem_ExprNode_ArrayType idem_ExprNode_StructType idem_ExprNode_FuncType
    idem_ExprNode_InterfaceType idem_ExprNode_MapType idem_ExprNode_ChanType idem_ExprNode_other
    idem_StmtNode_BadStmt idem_StmtNode_DeclStmt idem_StmtNode_EmptyStmt idem_StmtNode_LabeledStmt
    idem_StmtNode_ExprStmt idem_StmtNode_SendStmt idem_StmtNode_IncDecStmt
    idem_StmtNode_AssignStmt idem_StmtNode_GoStmt idem_StmtNode_DeferStmt idem_StmtNode_ReturnStmt
    idem_StmtNode_BranchStmt idem_StmtNode_BlockStmt idem_StmtNode_IfStmt idem_StmtNode_CaseClause
    idem_StmtNode_SwitchStmt idem_StmtNode_TypeSwitchStmt idem_StmtNode_CommClause
    idem_StmtNode_SelectStmt idem_StmtNode_ForStmt idem_StmtNode_RangeStmt idem_StmtNode_other
    idem_SpecNode_ImportSpec idem_SpecNode_ValueSpec idem_SpecNode_TypeSpec idem_SpecNode_other
    idem_DeclNode_BadDecl idem_DeclNode_GenDecl idem_DeclNode_FuncDecl idem_DeclNode_other
    idem_Opt_ExprNode_none idem_Opt_ExprNode_some idem_Slice_Field_none idem_Slice_Field_some
    idem_Opt_FieldList_none idem_Opt_FieldList_some idem_Slice_ExprNode_none
    idem_Slice_ExprNode_some idem_Slice_StmtNode_none idem_Slice_StmtNode_some
    idem_Opt_FuncType_none idem_Opt_FuncType_some idem_Opt_BlockStmt_none idem_Opt_BlockStmt_some
    idem_Opt_DeclNode_none idem_Opt_DeclNode_some idem_Opt_StmtNode_none idem_Opt_StmtNode_some
    idem_Opt_CallExpr_none idem_Opt_CallExpr_some idem_Slice_SpecNode_none
    idem_Slice_SpecNode_some idem_List_Field_nil idem_List_Field_cons idem_List_ExprNode_nil
    idem_List_ExprNode_cons idem_List_StmtNode_nil idem_List_StmtNode_cons idem_List_SpecNode_nil
    idem_List_SpecNode_cons idem_Opt_Field_none idem_Opt_Field_some idem_Opt_SpecNode_none
    idem_Opt_SpecNode_some x

theorem idem_Field : ∀ (x : Option ast.Field), Fixed Field x
  | none => idem_Opt_Field_none
  | some x => idem_Opt_Field_some x (idem_Field_fresh x)

theorem idem_FuncType_fresh (x : ast.FuncType) : Fixed FuncType.fresh x :=
  @ast.FuncType.rec
    (Fixed Field.fresh)
    (Fixed FieldList.fresh)
    (Fixed FuncType.fresh)
    (Fixed CallExpr.fresh)
    (Fixed BlockStmt.fresh)
    (fun x => Fixed copyExpr (some x))
    (fun x => Fixed copyStmt (some x))
    (fun x => Fixed Spec (some x))
    (fun x => Fixed copyDecl (some x))
    (Fixed copyExpr)
    (OnSlice (Fixed FieldList.loop))
    (Fixed FieldList)
    (Fixed ExprList)
    (Fixed StmtList)
    (Fixed FuncType)
    (Fixed BlockStmt)
    (Fixed copyDecl)
    (Fixed copyStmt)
    (Fixed CallExpr)
    (Fixed SpecList)
    (Fixed FieldList.loop)
    (Fixed ExprList.loop)
    (Fixed StmtList.loop)
    (Fixed SpecList.loop)
    (Fixed Field)
    (Fixed Spec)
    idem_Field_mk idem_FieldList_mk idem_FuncType_mk idem_CallExpr_mk idem_BlockStmt_mk
    idem_ExprNode_BadExpr idem_ExprNode_Ident idem_ExprNode_Ellipsis idem_ExprNode_BasicLit
    idem_ExprNode_FuncLit idem_ExprNode_CompositeLit idem_ExprNode_ParenExpr
    idem_ExprNode_SelectorExpr idem_ExprNode_IndexExpr idem_ExprNode_SliceExpr
    idem_ExprNode_TypeAssertExpr idem_ExprNode_CallExpr idem_ExprNode_StarExpr
    idem_ExprNode_UnaryExpr idem_ExprNode_BinaryExpr idem_ExprNode_KeyValueExpr
    idem_ExprNode_ArrayType idem_ExprNode_StructType idem_ExprNode_FuncType
    idem_ExprNode_InterfaceType idem_ExprNode_MapType idem_ExprNode_ChanType idem_ExprNode_other
    idem_StmtNode_BadStmt idem_StmtNode_DeclStmt idem_StmtNode_EmptyStmt idem_StmtNode_LabeledStmt
    idem_StmtNode_ExprStmt idem_StmtNode_SendStmt idem_StmtNode_IncDecStmt
    idem_StmtNode_AssignStmt idem_StmtNode_GoStmt idem_StmtNode_DeferStmt idem_StmtNode_ReturnStmt
    idem_StmtNode_BranchStmt idem_StmtNode_BlockStmt idem_StmtNode_IfStmt idem_StmtNode_CaseClause
    idem_StmtNode_SwitchStmt idem_StmtNode_TypeSwitchStmt idem_StmtNode_CommClause
    idem_StmtNode_SelectStmt idem_StmtNode_ForStmt idem_StmtNode_RangeStmt idem_StmtNode_other
    idem_SpecNode_ImportSpec idem_SpecNode_ValueSpec idem_SpecNode_TypeSpec idem_SpecNode_other
    idem_DeclNode_BadDecl idem_DeclNode_GenDecl idem_DeclNode_FuncDecl idem_DeclNode_other
    idem_Opt_ExprNode_none idem_Opt_ExprNode_some idem_Slice_Field_none idem_Slice_Field_some
    idem_Opt_FieldList_none idem_Opt_FieldList_some idem_Slice_ExprNode_none
    idem_Slice_ExprNode_some idem_Slice_StmtNode_none idem_Slice_StmtNode_some
    idem_Opt_FuncType_none idem_Opt_FuncType_some idem_Opt_BlockStmt_none idem_Opt_BlockStmt_some
    idem_Opt_DeclNode_none idem_Opt_DeclNode_some idem_Opt_StmtNode_none idem_Opt_StmtNode_some
    idem_Opt_CallExpr_none idem_Opt_CallExpr_some idem_Slice_SpecNode_none
    idem_Slice_SpecNode_some idem_List_Field_nil idem_List_Field_cons idem_List_ExprNode_nil
    idem_List_ExprNode_cons idem_List_StmtNode_nil idem_List_StmtNode_cons idem_List_SpecNode_nil
    idem_List_SpecNode_cons idem_Opt_Field_none idem_Opt_Field_some idem_Opt_SpecNode_none
    idem_Opt_SpecNode_some x

theorem idem_FuncType : ∀ (x : Option ast.FuncType), Fixed FuncType x
  | none => idem_Opt_FuncType_none
  | some x => idem_Opt_FuncType_some x (idem_FuncType_fresh x)

theorem idem_CallExpr_fresh (x : ast.CallExpr) : Fixed CallExpr.fresh x :=
  @ast.CallExpr.rec
    (Fixed Field.fresh)
    (Fixed FieldList.fresh)
    (Fixed FuncType.fresh)
    (Fixed CallExpr.fresh)
    (Fixed BlockStmt.fresh)
    (fun x => Fixed copyExpr (some x))
    (fun x => Fixed copyStmt (some x))
    (fun x => Fixed Spec (some x))
    (fun x => Fixed copyDecl (some x))
    (Fixed copyExpr)
    (OnSlice (Fixed FieldList.loop))
    (Fixed FieldList)
    (Fixed ExprList)
    (Fixed StmtList)
    (Fixed FuncType)
    (Fixed BlockStmt)
    (Fixed copyDecl)
    (Fixed copyStmt)
    (Fixed CallExpr)
    (Fixed SpecList)
    (Fixed FieldList.loop)
    (Fixed ExprList.loop)
    (Fixed StmtList.loop)
    (Fixed SpecList.loop)
    (Fixed Field)
    (Fixed Spec)
    idem_Field_mk idem_FieldList_mk idem_FuncType_mk idem_CallExpr_mk idem_BlockStmt_mk
    idem_ExprNode_BadExpr idem_ExprNode_Ident idem_ExprNode_Ellipsis idem_ExprNode_BasicLit
    idem_ExprNode_FuncLit idem_ExprNode_CompositeLit idem_ExprNode_ParenExpr
    idem_ExprNode_SelectorExpr idem_ExprNode_IndexExpr idem_ExprNode_SliceExpr
    idem_ExprNode_TypeAssertExpr idem_ExprNode_CallExpr idem_ExprNode_StarExpr
    idem_ExprNode_UnaryExpr idem_ExprNode_BinaryExpr idem_ExprNode_KeyValueExpr
    idem_ExprNode_ArrayType idem_ExprNode_StructType idem_ExprNode_FuncType
    idem_ExprNode_InterfaceType idem_ExprNode_MapType idem_ExprNode_ChanType idem_ExprNode_other
    idem_StmtNode_BadStmt idem_StmtNode_DeclStmt idem_StmtNode_EmptyStmt idem_StmtNode_LabeledStmt
    idem_StmtNode_ExprStmt idem_StmtNode_SendStmt idem_StmtNode_IncDecStmt
    idem_StmtNode_AssignStmt idem_StmtNode_GoStmt idem_StmtNode_DeferStmt idem_StmtNode_ReturnStmt
    idem_StmtNode_BranchStmt idem_StmtNode_BlockStmt idem_StmtNode_IfStmt idem_StmtNode_CaseClause
    idem_StmtNode_SwitchStmt idem_StmtNode_TypeSwitchStmt idem_StmtNode_CommClause
    idem_StmtNode_SelectStmt idem_StmtNode_ForStmt idem_StmtNode_RangeStmt idem_StmtNode_other
    idem_SpecNode_ImportSpec idem_SpecNode_ValueSpec idem_SpecNode_TypeSpec idem_SpecNode_other
    idem_DeclNode_BadDecl idem_DeclNode_GenDecl idem_DeclNode_FuncDecl idem_DeclNode_other
    idem_Opt_ExprNode_none idem_Opt_ExprNode_some idem_Slice_Field_none idem_Slice_Field_some
    idem_Opt_FieldList_none idem_Opt_FieldList_some idem_Slice_ExprNode_none
    idem_Slice_ExprNode_some idem_Slice_StmtNode_none idem_Slice_StmtNode_some
    idem_Opt_FuncType_none idem_Opt_FuncType_some idem_Opt_BlockStmt_none idem_Opt_BlockStmt_some
    idem_Opt_DeclNode_none idem_Opt_DeclNode_some idem_Opt_StmtNode_none idem_Opt_StmtNode_some
    idem_Opt_CallExpr_none idem_Opt_CallExpr_some idem_Slice_SpecNode_none
    idem_Slice_SpecNode_some idem_List_Field_nil idem_List_Field_cons idem_List_ExprNode_nil
    idem_List_ExprNode_cons idem_List_StmtNode_nil idem_List_StmtNode_cons idem_List_SpecNode_nil
    idem_List_SpecNode_cons idem_Opt_Field_none idem_Opt_Field_some idem_Opt_SpecNode_none
    idem_Opt_SpecNode_some x

theorem idem_CallExpr : ∀ (x : Option ast.CallExpr), Fixed CallExpr x
  | none => idem_Opt_CallExpr_none
  | some x => idem_Opt_CallExpr_some x (idem_CallExpr_fresh x)

theorem idem_BlockStmt_fresh (x : ast.BlockStmt) : Fixed BlockStmt.fresh x :=
  @ast.BlockStmt.rec
    (Fixed Field.fresh)
    (Fixed FieldList.fresh)
    (Fixed FuncType.fresh)
    (Fixed CallExpr.fresh)
    (Fixed BlockStmt.fresh)
    (fun x => Fixed copyExpr (some x))
    (fun x => Fixed copyStmt (some x))
    (fun x => Fixed Spec (some x))
    (fun x => Fixed copyDecl (some x))
    (Fixed copyExpr)
    (OnSlice (Fixed FieldList.loop))
    (Fixed FieldList)
    (Fixed ExprList)
    (Fixed StmtList)
    (Fixed FuncType)
    (Fixed BlockStmt)
    (Fixed copyDecl)
    (Fixed copyStmt)
    (Fixed CallExpr)
    (Fixed SpecList)
    (Fixed FieldList.loop)
    (Fixed ExprList.loop)
    (Fixed StmtList.loop)
    (Fixed SpecList.loop)
    (Fixed Field)
    (Fixed Spec)
    idem_Field_mk idem_FieldList_mk idem_FuncType_mk idem_CallExpr_mk idem_BlockStmt_mk
    idem_ExprNode_BadExpr idem_ExprNode_Ident idem_ExprNode_Ellipsis idem_ExprNode_BasicLit
    idem_ExprNode_FuncLit idem_ExprNode_CompositeLit idem_ExprNode_ParenExpr
    idem_ExprNode_SelectorExpr idem_ExprNode_IndexExpr idem_ExprNode_SliceExpr
    idem_ExprNode_TypeAssertExpr idem_ExprNode_CallExpr idem_ExprNode_StarExpr
    idem_ExprNode_UnaryExpr idem_ExprNode_BinaryExpr idem_ExprNode_KeyValueExpr
    idem_ExprNode_ArrayType idem_ExprNode_StructType idem_ExprNode_FuncType
    idem_ExprNode_InterfaceType idem_ExprNode_MapType idem_ExprNode_ChanType idem_ExprNode_other
    idem_StmtNode_BadStmt idem_StmtNode_DeclStmt idem_StmtNode_EmptyStmt idem_StmtNode_LabeledStmt
    idem_StmtNode_ExprStmt idem_StmtNode_SendStmt idem_StmtNode_IncDecStmt
    idem_StmtNode_AssignStmt idem_StmtNode_GoStmt idem_StmtNode_DeferStmt idem_StmtNode_ReturnStmt
    idem_StmtNode_BranchStmt idem_StmtNode_BlockStmt idem_StmtNode_IfStmt idem_StmtNode_CaseClause
    idem_StmtNode_SwitchStmt idem_StmtNode_TypeSwitchStmt idem_StmtNode_CommClause
    idem_StmtNode_SelectStmt idem_StmtNode_ForStmt idem_StmtNode_RangeStmt idem_StmtNode_other
    idem_SpecNode_ImportSpec idem_SpecNode_ValueSpec idem_SpecNode_TypeSpec idem_SpecNode_other
    idem_DeclNode_BadDecl idem_DeclNode_GenDecl idem_DeclNode_FuncDecl idem_DeclNode_other
    idem_Opt_ExprNode_none idem_Opt_ExprNode_some idem_Slice_Field_none idem_Slice_Field_some
    idem_Opt_FieldList_none idem_Opt_FieldList_some idem_Slice_ExprNode_none
    idem_Slice_ExprNode_some idem_Slice_StmtNode_none idem_Slice_StmtNode_some
    idem_Opt_FuncType_none idem_Opt_FuncType_some idem_Opt_BlockStmt_none idem_Opt_BlockStmt_some
    idem_Opt_DeclNode_none idem_Opt_DeclNode_some idem_Opt_StmtNode_none idem_Opt_StmtNode_some
    idem_Opt_CallExpr_none idem_Opt_CallExpr_some idem_Slice_SpecNode_none
    idem_Slice_SpecNode_some idem_List_Field_nil idem_List_Field_cons idem_List_ExprNode_nil
    idem_List_ExprNode_cons idem_List_StmtNode_nil idem_List_StmtNode_cons idem_List_SpecNode_nil
    idem_List_SpecNode_cons idem_Opt_Field_none idem_Opt_Field_some idem_Opt_SpecNode_none
    idem_Opt_SpecNode_some x

theorem idem_BlockStmt : ∀ (x : Option ast.BlockStmt), Fixed BlockStmt x
  | none => idem_Opt_BlockStmt_none
  | some x => idem_Opt_BlockStmt_some x (idem_BlockStmt_fresh x)

/-! ## The copy functions return on the grammar -/

theorem total_Field_mk (xDoc : Option ast.CommentGroup) (xNames : Option (List (Option ast.Ident))) (xType : Option ast.ExprNode) (xTag : Option ast.BasicLit) (xComment : Option ast.CommentGroup)
    (iType : Returns copyExpr ast.Expr.inGrammar xType)
    : Returns Field.fresh ast.Field.inGrammar (.mk xDoc xNames xType xTag xComment) := by
  intro h
  simp only [ast.Field.inGrammar, Bool.and_eq_true] at h
  obtain ⟨cType, hcType⟩ := iType h
  exact ⟨_, by rw [Field.fresh]; simp only [hcType, ok_bind]; rfl⟩

theorem total_FieldList_mk (xOpening : token.Pos) (xList : Option (List (Option ast.Field))) (xClosing : token.Pos)
    (iList : OnSlice (Returns FieldList.loop ast.Field.inGrammarList) xList)
    : Returns FieldList.fresh ast.FieldList.inGrammar (.mk xOpening xList xClosing) := by
  cases xList with
  | none =>
    intro _
    exact ⟨_, rfl⟩
  | some xs =>
    have iList := iList xs rfl
    intro h
    obtain ⟨cp, hcp⟩ := iList h
    exact ⟨_, by rw [FieldList.fresh, hcp]; rfl⟩

theorem total_FuncType_mk (xFunc : token.Pos) (xParams : Option ast.FieldList) (xResults : Option ast.FieldList)
    (iParams : Returns FieldList ast.FieldList.inGrammarPtr xParams)
    (iResults : Returns FieldList ast.FieldList.inGrammarPtr xResults)
    : Returns FuncType.fresh ast.FuncType.inGrammar (.mk xFunc xParams xResults) := by
  intro h
  simp only [ast.FuncType.inGrammar, Bool.and_eq_true] at h
  obtain ⟨gcParams, gcResults⟩ := h
  obtain ⟨cParams, hcParams⟩ := iParams gcParams
  obtain ⟨cResults, hcResults⟩ := iResults gcResults
  exact ⟨_, by rw [FuncType.fresh]; simp only [hcParams, hcResults, ok_bind]; rfl⟩

theorem total_CallExpr_mk (xFun : Option ast.ExprNode) (xLparen : token.Pos) (xArgs : Option (List (Option ast.ExprNode))) (xEllipsis : token.Pos) (xRparen : token.Pos)
    (iFun : Returns copyExpr ast.Expr.inGrammar xFun)
    (iArgs : Returns ExprList ast.Expr.inGrammarSlice xArgs)
    : Returns CallExpr.fresh ast.CallExpr.inGrammar (.mk xFun xLparen xArgs xEllipsis xRparen) := by
  intro h
  simp only [ast.CallExpr.inGrammar, Bool.and_eq_true] at h
  obtain ⟨gcFun, gcArgs⟩ := h
  obtain ⟨cFun, hcFun⟩ := iFun gcFun
  obtain ⟨cArgs, hcArgs⟩ := iArgs gcArgs
  exact ⟨_, by rw [CallExpr.fresh]; simp only [hcFun, hcArgs, ok_bind]; rfl⟩

theorem total_BlockStmt_mk (xLbrace : token.Pos) (xList : Option (List (Option ast.StmtNode))) (xRbrace : token.Pos)
    (iList : Returns StmtList ast.Stmt.inGrammarSlice xList)
    : Returns BlockStmt.fresh ast.BlockStmt.inGrammar (.mk xLbrace xList xRbrace) := by
  intro h
  simp only [ast.BlockStmt.inGrammar, Bool.and_eq_true] at h
  obtain ⟨cList, hcList⟩ := iList h
  exact ⟨_, by rw [BlockStmt.fresh]; simp only [hcList, ok_bind]; rfl⟩

theorem total_ExprNode_BadExpr (x : ast.BadExpr) : Returns copyExpr ast.Expr.inGrammar (some (.BadExpr x)) := by
  intro _
  exact ⟨_, rfl⟩

theorem total_ExprNode_Ident (x : ast.Ident) : Returns copyExpr ast.Expr.inGrammar (some (.Ident x)) := by
  intro _
  exact ⟨_, rfl⟩

theorem total_ExprNode_Ellipsis (xEllipsis : token.Pos) (xElt : Option ast.ExprNode)
    (iElt : Returns copyExpr ast.Expr.inGrammar xElt)
    : Returns copyExpr ast.Expr.inGrammar (some (.Ellipsis xEllipsis xElt)) := by
  intro h
  simp only [ast.Expr.inGrammar, ast.ExprNode.inGrammar, Bool.and_eq_true] at h
  obtain ⟨cElt, hcElt⟩ := iElt h
  exact ⟨_, by rw [copyExpr]; simp only [hcElt, ok_bind]; rfl⟩

theorem total_ExprNode_BasicLit (x : ast.BasicLit) : Returns copyExpr ast.Expr.inGrammar (some (.BasicLit x)) := by
  intro _
  exact ⟨_, rfl⟩

theorem total_ExprNode_FuncLit (xType : Option ast.FuncType) (xBody : Option ast.BlockStmt)
    (iType : Returns FuncType ast.FuncType.inGrammarPtr xType)
    (iBody : Returns BlockStmt ast.BlockStmt.inGrammarPtr xBody)
    : Returns copyExpr ast.Expr.inGrammar (some (.FuncLit xType xBody)) := by
  intro h
  simp only [ast.Expr.inGrammar, ast.ExprNode.inGrammar, Bool.and_eq_true] at h
  obtain ⟨gcType, gcBody⟩ := h
  obtain ⟨cType, hcType⟩ := iType gcType
  obtain ⟨cBody, hcBody⟩ := iBody gcBody
  exact ⟨_, by rw [copyExpr]; simp only [hcType, hcBody, ok_bind]; rfl⟩

theorem total_ExprNode_CompositeLit (xType : Option ast.ExprNode) (xLbrace : token.Pos) (xElts : Option (List (Option ast.ExprNode))) (xRbrace : token.Pos) (xIncomplete : Bool)
    (iType : Returns copyExpr ast.Expr.inGrammar xType)
    (iElts : Returns ExprList ast.Expr.inGrammarSlice xElts)
    : Returns copyExpr ast.Expr.inGrammar (some (.CompositeLit xType xLbrace xElts xRbrace xIncomplete)) := by
  intro h
  simp only [ast.Expr.inGrammar, ast.ExprNode.inGrammar, Bool.and_eq_true] at h
  obtain ⟨gcType, gcElts⟩ := h
  obtain ⟨cType, hcType⟩ := iType gcType
  obtain ⟨cElts, hcElts⟩ := iElts gcElts
  exact ⟨_, by rw [copyExpr]; simp only [hcType, hcElts, ok_bind]; rfl⟩

theorem total_ExprNode_ParenExpr (xLparen : token.Pos) (xX : Option ast.ExprNode) (xRparen : token.Pos)
    (iX : Returns copyExpr ast.Expr.inGrammar xX)
    : Returns copyExpr ast.Expr.inGrammar (some (.ParenExpr xLparen xX xRparen)) := by
  intro h
  simp only [ast.Expr.inGrammar, ast.ExprNode.inGrammar, Bool.and_eq_true] at h
  obtain ⟨cX, hcX⟩ := iX h
  exact ⟨_, by rw [copyExpr]; simp only [hcX, ok_bind]; rfl⟩

theorem total_ExprNode_SelectorExpr (xX : Option ast.ExprNode) (xSel : Option ast.Ident)
    (iX : Returns copyExpr ast.Expr.inGrammar xX)
    : Returns copyExpr ast.Expr.inGrammar (some (.SelectorExpr xX xSel)) := by
  intro h
  simp only [ast.Expr.inGrammar, ast.ExprNode.inGrammar, Bool.and_eq_true] at h
  obtain ⟨cX, hcX⟩ := iX h
  exact ⟨_, by rw [copyExpr]; simp only [hcX, ok_bind]; rfl⟩

theorem total_ExprNode_IndexExpr (xX : Option ast.ExprNode) (xLbrack : token.Pos) (xIndex : Option ast.ExprNode) (xRbrack : token.Pos)
    (iX : Returns copyExpr ast.Expr.inGrammar xX)
    (iIndex : Returns copyExpr ast.Expr.inGrammar xIndex)
    : Returns copyExpr ast.Expr.inGrammar (some (.IndexExpr xX xLbrack xIndex xRbrack)) := by
  intro h
  simp only [ast.Expr.inGrammar, ast.ExprNode.inGrammar, Bool.and_eq_true] at h
  obtain ⟨gcX, gcIndex⟩ := h
  obtain ⟨cX, hcX⟩ := iX gcX
  obtain ⟨cIndex, hcIndex⟩ := iIndex gcIndex
  exact ⟨_, by rw [copyExpr]; simp only [hcX, hcIndex, ok_bind]; rfl⟩

theorem total_ExprNode_SliceExpr (xX : Option ast.ExprNode) (xLbrack : token.Pos) (xLow : Option ast.ExprNode) (xHigh : Option ast.ExprNode) (xMax : Option ast.ExprNode) (xSlice3 : Bool) (xRbrack : token.Pos)
    (iX : Returns copyExpr ast.Expr.inGrammar xX)
    (iLow : Returns copyExpr ast.Expr.inGrammar xLow)
    (iHigh : Returns copyExpr ast.Expr.inGrammar xHigh)
    (iMax : Returns copyExpr ast.Expr.inGrammar xMax)
    : Returns copyExpr ast.Expr.inGrammar (some (.SliceExpr xX xLbrack xLow xHigh xMax xSlice3 xRbrack)) := by
  intro h
  simp only [ast.Expr.inGrammar, ast.ExprNode.inGrammar, Bool.and_eq_true] at h
  obtain ⟨gcX, gcLow, gcHigh, gcMax⟩ := h
  obtain ⟨cX, hcX⟩ := iX gcX
  obtain ⟨cLow, hcLow⟩ := iLow gcLow
  obtain ⟨cHigh, hcHigh⟩ := iHigh gcHigh
  obtain ⟨cMax, hcMax⟩ := iMax gcMax
  exact ⟨_, by rw [copyExpr]; simp only [hcX, hcLow, hcHigh, hcMax, ok_bind]; rfl⟩

theorem total_ExprNode_TypeAssertExpr (xX : Option ast.ExprNode) (xLparen : token.Pos) (xType : Option ast.ExprNode) (xRparen : token.Pos)
    (iX : Returns copyExpr ast.Expr.inGrammar xX)
    (iType : Returns copyExpr ast.Expr.inGrammar xType)
    : Returns copyExpr ast.Expr.inGrammar (some (.TypeAssertExpr xX xLparen xType xRparen)) := by
  intro h
  simp only [ast.Expr.inGrammar, ast.ExprNode.inGrammar, Bool.and_eq_true] at h
  obtain ⟨gcX, gcType⟩ := h
  obtain ⟨cX, hcX⟩ := iX gcX
  obtain ⟨cType, hcType⟩ := iType gcType
  exact ⟨_, by rw [copyExpr]; simp only [hcX, hcType, ok_bind]; rfl⟩

theorem total_ExprNode_CallExpr (x : ast.CallExpr) (ix : Returns CallExpr.fresh ast.CallExpr.inGrammar x) :
    Returns copyExpr ast.Expr.inGrammar (some (.CallExpr x)) := by
  intro h
  simp only [ast.Expr.inGrammar, ast.ExprNode.inGrammar, Bool.and_eq_true] at h
  obtain ⟨c, hc⟩ := ix h
  exact ⟨_, by rw [copyExpr]; simp only [hc, ok_bind]; rfl⟩

theorem total_ExprNode_StarExpr (xStar : token.Pos) (xX : Option ast.ExprNode)
    (iX : Returns copyExpr ast.Expr.inGrammar xX)
    : Returns copyExpr ast.Expr.inGrammar (some (.StarExpr xStar xX)) := by
  intro h
  simp only [ast.Expr.inGrammar, ast.ExprNode.inGrammar, Bool.and_eq_true] at h
  obtain ⟨cX, hcX⟩ := iX h
  exact ⟨_, by rw [copyExpr]; simp only [hcX, ok_bind]; rfl⟩

theorem total_ExprNode_UnaryExpr (xOpPos : token.Pos) (xOp : token.Token) (xX : Option ast.ExprNode)
    (iX : Returns copyExpr ast.Expr.inGrammar xX)
    : Returns copyExpr ast.Expr.inGrammar (some (.UnaryExpr xOpPos xOp xX)) := by
  intro h
  simp only [ast.Expr.inGrammar, ast.ExprNode.inGrammar, Bool.and_eq_true] at h
  obtain ⟨cX, hcX⟩ := iX h
  exact ⟨_, by rw [copyExpr]; simp only [hcX, ok_bind]; rfl⟩

theorem total_ExprNode_BinaryExpr (xX : Option ast.ExprNode) (xOpPos : token.Pos) (xOp : token.Token) (xY : Option ast.ExprNode)
    (iX : Returns copyExpr ast.Expr.inGrammar xX)
    (iY : Returns copyExpr ast.Expr.inGrammar xY)
    : Returns copyExpr ast.Expr.inGrammar (some (.BinaryExpr xX xOpPos xOp xY)) := by
  intro h
  simp only [ast.Expr.inGrammar, ast.ExprNode.inGrammar, Bool.and_eq_true] at h
  obtain ⟨gcX, gcY⟩ := h
  obtain ⟨cX, hcX⟩ := iX gcX
  obtain ⟨cY, hcY⟩ := iY gcY
  exact ⟨_, by rw [copyExpr]; simp only [hcX, hcY, ok_bind]; rfl⟩

theorem total_ExprNode_KeyValueExpr (xKey : Option ast.ExprNode) (xColon : token.Pos) (xValue : Option ast.ExprNode)
    (iKey : Returns copyExpr ast.Expr.inGrammar xKey)
    (iValue : Returns copyExpr ast.Expr.inGrammar xValue)
    : Returns copyExpr ast.Expr.inGrammar (some (.KeyValueExpr xKey xColon xValue)) := by
  intro h
  simp only [ast.Expr.inGrammar, ast.ExprNode.inGrammar, Bool.and_eq_true] at h
  obtain ⟨gcKey, gcValue⟩ := h
  obtain ⟨cKey, hcKey⟩ := iKey gcKey
  obtain ⟨cValue, hcValue⟩ := iValue gcValue
  exact ⟨_, by rw [copyExpr]; simp only [hcKey, hcValue, ok_bind]; rfl⟩

theorem total_ExprNode_ArrayType (xLbrack : token.Pos) (xLen : Option ast.ExprNode) (xElt : Option ast.ExprNode)
    (iLen : Returns copyExpr ast.Expr.inGrammar xLen)
    (iElt : Returns copyExpr ast.Expr.inGrammar xElt)
    : Returns copyExpr ast.Expr.inGrammar (some (.ArrayType xLbrack xLen xElt)) := by
  intro h
  simp only [ast.Expr.inGrammar, ast.ExprNode.inGrammar, Bool.and_eq_true] at h
  obtain ⟨gcLen, gcElt⟩ := h
  obtain ⟨cLen, hcLen⟩ := iLen gcLen
  obtain ⟨cElt, hcElt⟩ := iElt gcElt
  exact ⟨_, by rw [copyExpr]; simp only [hcLen, hcElt, ok_bind]; rfl⟩

theorem total_ExprNode_StructType (xStruct : token.Pos) (xFields : Option ast.FieldList) (xIncomplete : Bool)
    (iFields : Returns FieldList ast.FieldList.inGrammarPtr xFields)
    : Returns copyExpr ast.Expr.inGrammar (some (.StructType xStruct xFields xIncomplete)) := by
  intro h
  simp only [ast.Expr.inGrammar, ast.ExprNode.inGrammar, Bool.and_eq_true] at h
  obtain ⟨cFields, hcFields⟩ := iFields h
  exact ⟨_, by rw [copyExpr]; simp only [hcFields, ok_bind]; rfl⟩

theorem total_ExprNode_FuncType (x : ast.FuncType) (ix : Returns FuncType.fresh ast.FuncType.inGrammar x) :
    Returns copyExpr ast.Expr.inGrammar (some (.FuncType x)) := by
  intro h
  simp only [ast.Expr.inGrammar, ast.ExprNode.inGrammar, Bool.and_eq_true] at h
  obtain ⟨c, hc⟩ := ix h
  exact ⟨_, by rw [copyExpr]; simp only [hc, ok_bind]; rfl⟩

theorem total_ExprNode_InterfaceType (xInterface : token.Pos) (xMethods : Option ast.FieldList) (xIncomplete : Bool)
    (iMethods : Returns FieldList ast.FieldList.inGrammarPtr xMethods)
    : Returns copyExpr ast.Expr.inGrammar (some (.InterfaceType xInterface xMethods xIncomplete)) := by
  intro h
  simp only [ast.Expr.inGrammar, ast.ExprNode.inGrammar, Bool.and_eq_true] at h
  obtain ⟨cMethods, hcMethods⟩ := iMethods h
  exact ⟨_, by rw [copyExpr]; simp only [hcMethods, ok_bind]; rfl⟩

theorem total_ExprNode_MapType (xMap : token.Pos) (xKey : Option ast.ExprNode) (xValue : Option ast.ExprNode)
    (iKey : Returns copyExpr ast.Expr.inGrammar xKey)
    (iValue : Returns copyExpr ast.Expr.inGrammar xValue)
    : Returns copyExpr ast.Expr.inGrammar (some (.MapType xMap xKey xValue)) := by
  intro h
  simp only [ast.Expr.inGrammar, ast.ExprNode.inGrammar, Bool.and_eq_true] at h
  obtain ⟨gcKey, gcValue⟩ := h
  obtain ⟨cKey, hcKey⟩ := iKey gcKey
  obtain ⟨cValue, hcValue⟩ := iValue gcValue
  exact ⟨_, by rw [copyExpr]; simp only [hcKey, hcValue, ok_bind]; rfl⟩

theorem total_ExprNode_ChanType (xBegin : token.Pos) (xArrow : token.Pos) (xDir : ast.ChanDir) (xValue : Option ast.ExprNode)
    (iValue : Returns copyExpr ast.Expr.inGrammar xValue)
    : Returns copyExpr ast.Expr.inGrammar (some (.ChanType xBegin xArrow xDir xValue)) := by
  intro h
  simp only [ast.Expr.inGrammar, ast.ExprNode.inGrammar, Bool.and_eq_true] at h
  obtain ⟨cValue, hcValue⟩ := iValue h
  exact ⟨_, by rw [copyExpr]; simp only [hcValue, ok_bind]; rfl⟩

theorem total_ExprNode_other (typ : String) : Returns copyExpr ast.Expr.inGrammar (some (.other typ)) := by
  intro h
  simp only [ast.Expr.inGrammar, ast.ExprNode.inGrammar, Bool.false_eq_true] at h

theorem total_StmtNode_BadStmt (x : ast.BadStmt) : Returns copyStmt ast.Stmt.inGrammar (some (.BadStmt x)) := by
  intro _
  exact ⟨_, rfl⟩

theorem total_StmtNode_DeclStmt (xDecl : Option ast.DeclNode)
    (iDecl : Returns copyDecl ast.Decl.inGrammar xDecl)
    : Returns copyStmt ast.Stmt.inGrammar (some (.DeclStmt xDecl)) := by
  intro h
  simp only [ast.Stmt.inGrammar, ast.StmtNode.inGrammar, Bool.and_eq_true] at h
  obtain ⟨cDecl, hcDecl⟩ := iDecl h
  exact ⟨_, by rw [copyStmt]; simp only [hcDecl, ok_bind]; rfl⟩

theorem total_StmtNode_EmptyStmt (x : ast.EmptyStmt) : Returns copyStmt ast.Stmt.inGrammar (some (.EmptyStmt x)) := by
  intro _
  exact ⟨_, rfl⟩

theorem total_StmtNode_LabeledStmt (xLabel : Option ast.Ident) (xColon : token.Pos) (xStmt : Option ast.StmtNode)
    (iStmt : Returns copyStmt ast.Stmt.inGrammar xStmt)
    : Returns copyStmt ast.Stmt.inGrammar (some (.LabeledStmt xLabel xColon xStmt)) := by
  intro h
  simp only [ast.Stmt.inGrammar, ast.StmtNode.inGrammar, Bool.and_eq_true] at h
  obtain ⟨cStmt, hcStmt⟩ := iStmt h
  exact ⟨_, by rw [copyStmt]; simp only [hcStmt, ok_bind]; rfl⟩

theorem total_StmtNode_ExprStmt (xX : Option ast.ExprNode)
    (iX : Returns copyExpr ast.Expr.inGrammar xX)
    : Returns copyStmt ast.Stmt.inGrammar (some (.ExprStmt xX)) := by
  intro h
  simp only [ast.Stmt.inGrammar, ast.StmtNode.inGrammar, Bool.and_eq_true] at h
  obtain ⟨cX, hcX⟩ := iX h
  exact ⟨_, by rw [copyStmt]; simp only [hcX, ok_bind]; rfl⟩

theorem total_StmtNode_SendStmt (xChan : Option ast.ExprNode) (xArrow : token.Pos) (xValue : Option ast.ExprNode)
    (iChan : Returns copyExpr ast.Expr.inGrammar xChan)
    (iValue : Returns copyExpr ast.Expr.inGrammar xValue)
    : Returns copyStmt ast.Stmt.inGrammar (some (.SendStmt xChan xArrow xValue)) := by
  intro h
  simp only [ast.Stmt.inGrammar, ast.StmtNode.inGrammar, Bool.and_eq_true] at h
  obtain ⟨gcChan, gcValue⟩ := h
  obtain ⟨cChan, hcChan⟩ := iChan gcChan
  obtain ⟨cValue, hcValue⟩ := iValue gcValue
  exact ⟨_, by rw [copyStmt]; simp only [hcChan, hcValue, ok_bind]; rfl⟩

theorem total_StmtNode_IncDecStmt (xX : Option ast.ExprNode) (xTokPos : token.Pos) (xTok : token.Token)
    (iX : Returns copyExpr ast.Expr.inGrammar xX)
    : Returns copyStmt ast.Stmt.inGrammar (some (.IncDecStmt xX xTokPos xTok)) := by
  intro h
  simp only [ast.Stmt.inGrammar, ast.StmtNode.inGrammar, Bool.and_eq_true] at h
  obtain ⟨cX, hcX⟩ := iX h
  exact ⟨_, by rw [copyStmt]; simp only [hcX, ok_bind]; rfl⟩

theorem total_StmtNode_AssignStmt (xLhs : Option (List (Option ast.ExprNode))) (xTokPos : token.Pos) (xTok : token.Token) (xRhs : Option (List (Option ast.ExprNode)))
    (iLhs : Returns ExprList ast.Expr.inGrammarSlice xLhs)
    (iRhs : Returns ExprList ast.Expr.inGrammarSlice xRhs)
    : Returns copyStmt ast.Stmt.inGrammar (some (.AssignStmt xLhs xTokPos xTok xRhs)) := by
  intro h
  simp only [ast.Stmt.inGrammar, ast.StmtNode.inGrammar, Bool.and_eq_true] at h
  obtain ⟨gcLhs, gcRhs⟩ := h
  obtain ⟨cLhs, hcLhs⟩ := iLhs gcLhs
  obtain ⟨cRhs, hcRhs⟩ := iRhs gcRhs
  exact ⟨_, by rw [copyStmt]; simp only [hcLhs, hcRhs, ok_bind]; rfl⟩

theorem total_StmtNode_GoStmt (xGo : token.Pos) (xCall : Option ast.CallExpr)
    (iCall : Returns CallExpr ast.CallExpr.inGrammarPtr xCall)
    : Returns copyStmt ast.Stmt.inGrammar (some (.GoStmt xGo xCall)) := by
  intro h
  simp only [ast.Stmt.inGrammar, ast.StmtNode.inGrammar, Bool.and_eq_true] at h
  obtain ⟨cCall, hcCall⟩ := iCall h
  exact ⟨_, by rw [copyStmt]; simp only [hcCall, ok_bind]; rfl⟩

theorem total_StmtNode_DeferStmt (xDefer : token.Pos) (xCall : Option ast.CallExpr)
    (iCall : Returns CallExpr ast.CallExpr.inGrammarPtr xCall)
    : Returns copyStmt ast.Stmt.inGrammar (some (.DeferStmt xDefer xCall)) := by
  intro h
  simp only [ast.Stmt.inGrammar, ast.StmtNode.inGrammar, Bool.and_eq_true] at h
  obtain ⟨cCall, hcCall⟩ := iCall h
  exact ⟨_, by rw [copyStmt]; simp only [hcCall, ok_bind]; rfl⟩

theorem total_StmtNode_ReturnStmt (xReturn : token.Pos) (xResults : Option (List (Option ast.ExprNode)))
    (iResults : Returns ExprList ast.Expr.inGrammarSlice xResults)
    : Returns copyStmt ast.Stmt.inGrammar (some (.ReturnStmt xReturn xResults)) := by
  intro h
  simp only [ast.Stmt.inGrammar, ast.StmtNode.inGrammar, Bool.and_eq_true] at h
  obtain ⟨cResults, hcResults⟩ := iResults h
  exact ⟨_, by rw [copyStmt]; simp only [hcResults, ok_bind]; rfl⟩

theorem total_StmtNode_BranchStmt (x : ast.BranchStmt) : Returns copyStmt ast.Stmt.inGrammar (some (.BranchStmt x)) := by
  intro _
  exact ⟨_, rfl⟩

theorem total_StmtNode_BlockStmt (x : ast.BlockStmt) (ix : Returns BlockStmt.fresh ast.BlockStmt.inGrammar x) :
    Returns copyStmt ast.Stmt.inGrammar (some (.BlockStmt x)) := by
  intro h
  simp only [ast.Stmt.inGrammar, ast.StmtNode.inGrammar, Bool.and_eq_true] at h
  obtain ⟨c, hc⟩ := ix h
  exact ⟨_, by rw [copyStmt]; simp only [hc, ok_bind]; rfl⟩

theorem total_StmtNode_IfStmt (xIf : token.Pos) (xInit : Option ast.StmtNode) (xCond : Option ast.ExprNode) (xBody : Option ast.BlockStmt) (xElse : Option ast.StmtNode)
    (iInit : Returns copyStmt ast.Stmt.inGrammar xInit)
    (iCond : Returns copyExpr ast.Expr.inGrammar xCond)
    (iBody : Returns BlockStmt ast.BlockStmt.inGrammarPtr xBody)
    (iElse : Returns copyStmt ast.Stmt.inGrammar xElse)
    : Returns copyStmt ast.Stmt.inGrammar (some (.IfStmt xIf xInit xCond xBody xElse)) := by
  intro h
  simp only [ast.Stmt.inGrammar, ast.StmtNode.inGrammar, Bool.and_eq_true] at h
  obtain ⟨gcInit, gcCond, gcBody, gcElse⟩ := h
  obtain ⟨cInit, hcInit⟩ := iInit gcInit
  obtain ⟨cCond, hcCond⟩ := iCond gcCond
  obtain ⟨cBody, hcBody⟩ := iBody gcBody
  obtain ⟨cElse, hcElse⟩ := iElse gcElse
  exact ⟨_, by rw [copyStmt]; simp only [hcInit, hcCond, hcBody, hcElse, ok_bind]; rfl⟩

theorem total_StmtNode_CaseClause (xCase : token.Pos) (xList : Option (List (Option ast.ExprNode))) (xColon : token.Pos) (xBody : Option (List (Option ast.StmtNode)))
    (iList : Returns ExprList ast.Expr.inGrammarSlice xList)
    (iBody : Returns StmtList ast.Stmt.inGrammarSlice xBody)
    : Returns copyStmt ast.Stmt.inGrammar (some (.CaseClause xCase xList xColon xBody)) := by
  intro h
  simp only [ast.Stmt.inGrammar, ast.StmtNode.inGrammar, Bool.and_eq_true] at h
  obtain ⟨gcList, gcBody⟩ := h
  obtain ⟨cList, hcList⟩ := iList gcList
  obtain ⟨cBody, hcBody⟩ := iBody gcBody
  exact ⟨_, by rw [copyStmt]; simp only [hcList, hcBody, ok_bind]; rfl⟩

theorem total_StmtNode_SwitchStmt (xSwitch : token.Pos) (xInit : Option ast.StmtNode) (xTag : Option ast.ExprNode) (xBody : Option ast.BlockStmt)
    (iInit : Returns copyStmt ast.Stmt.inGrammar xInit)
    (iTag : Returns copyExpr ast.Expr.inGrammar xTag)
    (iBody : Returns BlockStmt ast.BlockStmt.inGrammarPtr xBody)
    : Returns copyStmt ast.Stmt.inGrammar (some (.SwitchStmt xSwitch xInit xTag xBody)) := by
  intro h
  simp only [ast.Stmt.inGrammar, ast.StmtNode.inGrammar, Bool.and_eq_true] at h
  obtain ⟨gcInit, gcTag, gcBody⟩ := h
  obtain ⟨cInit, hcInit⟩ := iInit gcInit
  obtain ⟨cTag, hcTag⟩ := iTag gcTag
  obtain ⟨cBody, hcBody⟩ := iBody gcBody
  exact ⟨_, by rw [copyStmt]; simp only [hcInit, hcTag, hcBody, ok_bind]; rfl⟩

theorem total_StmtNode_TypeSwitchStmt (xSwitch : token.Pos) (xInit : Option ast.StmtNode) (xAssign : Option ast.StmtNode) (xBody : Option ast.BlockStmt)
    (iInit : Returns copyStmt ast.Stmt.inGrammar xInit)
    (iAssign : Returns copyStmt ast.Stmt.inGrammar xAssign)
    (iBody : Returns BlockStmt ast.BlockStmt.inGrammarPtr xBody)
    : Returns copyStmt ast.Stmt.inGrammar (some (.TypeSwitchStmt xSwitch xInit xAssign xBody)) := by
  intro h
  simp only [ast.Stmt.inGrammar, ast.StmtNode.inGrammar, Bool.and_eq_true] at h
  obtain ⟨gcInit, gcAssign, gcBody⟩ := h
  obtain ⟨cInit, hcInit⟩ := iInit gcInit
  obtain ⟨cAssign, hcAssign⟩ := iAssign gcAssign
  obtain ⟨cBody, hcBody⟩ := iBody gcBody
  exact ⟨_, by rw [copyStmt]; simp only [hcInit, hcAssign, hcBody, ok_bind]; rfl⟩

theorem total_StmtNode_CommClause (xCase : token.Pos) (xComm : Option ast.StmtNode) (xColon : token.Pos) (xBody : Option (List (Option ast.StmtNode)))
    (iComm : Returns copyStmt ast.Stmt.inGrammar xComm)
    (iBody : Returns StmtList ast.Stmt.inGrammarSlice xBody)
    : Returns copyStmt ast.Stmt.inGrammar (some (.CommClause xCase xComm xColon xBody)) := by
  intro h
  simp only [ast.Stmt.inGrammar, ast.StmtNode.inGrammar, Bool.and_eq_true] at h
  obtain ⟨gcComm, gcBody⟩ := h
  obtain ⟨cComm, hcComm⟩ := iComm gcComm
  obtain ⟨cBody, hcBody⟩ := iBody gcBody
  exact ⟨_, by rw [copyStmt]; simp only [hcComm, hcBody, ok_bind]; rfl⟩

theorem total_StmtNode_SelectStmt (xSelect : token.Pos) (xBody : Option ast.BlockStmt)
    (iBody : Returns BlockStmt ast.BlockStmt.inGrammarPtr xBody)
    : Returns copyStmt ast.Stmt.inGrammar (some (.SelectStmt xSelect xBody)) := by
  intro h
  simp only [ast.Stmt.inGrammar, ast.StmtNode.inGrammar, Bool.and_eq_true] at h
  obtain ⟨cBody, hcBody⟩ := iBody h
  exact ⟨_, by rw [copyStmt]; simp only [hcBody, ok_bind]; rfl⟩

theorem total_StmtNode_ForStmt (xFor : token.Pos) (xInit : Option ast.StmtNode) (xCond : Option ast.ExprNode) (xPost : Option ast.StmtNode) (xBody : Option ast.BlockStmt)
    (iInit : Returns copyStmt ast.Stmt.inGrammar xInit)
    (iCond : Returns copyExpr ast.Expr.inGrammar xCond)
    (iPost : Returns copyStmt ast.Stmt.inGrammar xPost)
    (iBody : Returns BlockStmt ast.BlockStmt.inGrammarPtr xBody)
    : Returns copyStmt ast.Stmt.inGrammar (some (.ForStmt xFor xInit xCond xPost xBody)) := by
  intro h
  simp only [ast.Stmt.inGrammar, ast.StmtNode.inGrammar, Bool.and_eq_true] at h
  obtain ⟨gcInit, gcCond, gcPost, gcBody⟩ := h
  obtain ⟨cInit, hcInit⟩ := iInit gcInit
  obtain ⟨cCond, hcCond⟩ := iCond gcCond
  obtain ⟨cPost, hcPost⟩ := iPost gcPost
  obtain ⟨cBody, hcBody⟩ := iBody gcBody
  exact ⟨_, by rw [copyStmt]; simp only [hcInit, hcCond, hcPost, hcBody, ok_bind]; rfl⟩

theorem total_StmtNode_RangeStmt (xFor : token.Pos) (xKey : Option ast.ExprNode) (xValue : Option ast.ExprNode) (xTokPos : token.Pos) (xTok : token.Token) (xX : Option ast.ExprNode) (xBody : Option ast.BlockStmt)
    (iKey : Returns copyExpr ast.Expr.inGrammar xKey)
    (iValue : Returns copyExpr ast.Expr.inGrammar xValue)
    (iX : Returns copyExpr ast.Expr.inGrammar xX)
    (iBody : Returns BlockStmt ast.BlockStmt.inGrammarPtr xBody)
    : Returns copyStmt ast.Stmt.inGrammar (some (.RangeStmt xFor xKey xValue xTokPos xTok xX xBody)) := by
  intro h
  simp only [ast.Stmt.inGrammar, ast.StmtNode.inGrammar, Bool.and_eq_true] at h
  obtain ⟨gcKey, gcValue, gcX, gcBody⟩ := h
  obtain ⟨cKey, hcKey⟩ := iKey gcKey
  obtain ⟨cValue, hcValue⟩ := iValue gcValue
  obtain ⟨cX, hcX⟩ := iX gcX
  obtain ⟨cBody, hcBody⟩ := iBody gcBody
  exact ⟨_, by rw [copyStmt]; simp only [hcKey, hcValue, hcX, hcBody, ok_bind]; rfl⟩

theorem total_StmtNode_other (typ : String) : Returns copyStmt ast.Stmt.inGrammar (some (.other typ)) := by
  intro h
  simp only [ast.Stmt.inGrammar, ast.StmtNode.inGrammar, Bool.false_eq_true] at h

theorem total_SpecNode_ImportSpec (x : ast.ImportSpec) : Returns Spec ast.Spec.inGrammar (some (.ImportSpec x)) := by
  intro _
  exact ⟨_, rfl⟩

theorem total_SpecNode_ValueSpec (xDoc : Option ast.CommentGroup) (xNames : Option (List (Option ast.Ident))) (xType : Option ast.ExprNode) (xValues : Option (List (Option ast.ExprNode))) (xComment : Option ast.CommentGroup)
    (iType : Returns copyExpr ast.Expr.inGrammar xType)
    (iValues : Returns ExprList ast.Expr.inGrammarSlice xValues)
    : Returns Spec ast.Spec.inGrammar (some (.ValueSpec xDoc xNames xType xValues xComment)) := by
  intro h
  simp only [ast.Spec.inGrammar, ast.SpecNode.inGrammar, Bool.and_eq_true] at h
  obtain ⟨gcType, gcValues⟩ := h
  obtain ⟨cValues, hcValues⟩ := iValues gcValues
  obtain ⟨cType, hcType⟩ := iType gcType
  exact ⟨_, by rw [Spec]; simp only [hcValues, hcType, ok_bind]; rfl⟩

theorem total_SpecNode_TypeSpec (xDoc : Option ast.CommentGroup) (xName : Option ast.Ident) (xAssign : token.Pos) (xType : Option ast.ExprNode) (xComment : Option ast.CommentGroup)
    (iType : Returns copyExpr ast.Expr.inGrammar xType)
    : Returns Spec ast.Spec.inGrammar (some (.TypeSpec xDoc xName xAssign xType xComment)) := by
  intro h
  simp only [ast.Spec.inGrammar, ast.SpecNode.inGrammar, Bool.and_eq_true] at h
  obtain ⟨cType, hcType⟩ := iType h
  exact ⟨_, by rw [Spec]; simp only [hcType, ok_bind]; rfl⟩

theorem total_SpecNode_other (typ : String) : Returns Spec ast.Spec.inGrammar (some (.other typ)) := by
  intro h
  simp only [ast.Spec.inGrammar, ast.SpecNode.inGrammar, Bool.false_eq_true] at h

theorem total_DeclNode_BadDecl (x : ast.BadDecl) : Returns copyDecl ast.Decl.inGrammar (some (.BadDecl x)) := by
  intro _
  exact ⟨_, rfl⟩

theorem total_DeclNode_GenDecl (xDoc : Option ast.CommentGroup) (xTokPos : token.Pos) (xTok : token.Token) (xLparen : token.Pos) (xSpecs : Option (List (Option ast.SpecNode))) (xRparen : token.Pos)
    (iSpecs : Returns SpecList ast.Spec.inGrammarSlice xSpecs)
    : Returns copyDecl ast.Decl.inGrammar (some (.GenDecl xDoc xTokPos xTok xLparen xSpecs xRparen)) := by
  intro h
  simp only [ast.Decl.inGrammar, ast.DeclNode.inGrammar, Bool.and_eq_true] at h
  obtain ⟨cSpecs, hcSpecs⟩ := iSpecs h
  exact ⟨_, by rw [copyDecl]; simp only [hcSpecs, ok_bind]; rfl⟩

theorem total_DeclNode_FuncDecl (xDoc : Option ast.CommentGroup) (xRecv : Option ast.FieldList) (xName : Option ast.Ident) (xType : Option ast.FuncType) (xBody : Option ast.BlockStmt)
    (iRecv : Returns FieldList ast.FieldList.inGrammarPtr xRecv)
    (iType : Returns FuncType ast.FuncType.inGrammarPtr xType)
    (iBody : Returns BlockStmt ast.BlockStmt.inGrammarPtr xBody)
    : Returns copyDecl ast.Decl.inGrammar (some (.FuncDecl xDoc xRecv xName xType xBody)) := by
  intro h
  simp only [ast.Decl.inGrammar, ast.DeclNode.inGrammar, Bool.and_eq_true] at h
  obtain ⟨gcRecv, gcType, gcBody⟩ := h
  obtain ⟨cRecv, hcRecv⟩ := iRecv gcRecv
  obtain ⟨cType, hcType⟩ := iType gcType
  obtain ⟨cBody, hcBody⟩ := iBody gcBody
  exact ⟨_, by rw [copyDecl]; simp only [hcRecv, hcType, hcBody, ok_bind]; rfl⟩

theorem total_DeclNode_other (typ : String) : Returns copyDecl ast.Decl.inGrammar (some (.other typ)) := by
  intro h
  simp only [ast.Decl.inGrammar, ast.DeclNode.inGrammar, Bool.false_eq_true] at h

theorem total_Opt_ExprNode_none : Returns copyExpr ast.Expr.inGrammar none := by
  intro _
  exact ⟨_, rfl⟩

theorem total_Opt_ExprNode_some (val : ast.ExprNode) (ih : Returns copyExpr ast.Expr.inGrammar (some val)) : Returns copyExpr ast.Expr.inGrammar (some val) :=
  ih

theorem total_Slice_Field_none : OnSlice (Returns FieldList.loop ast.Field.inGrammarList) none := by
  intro xs h
  cases h

theorem total_Slice_Field_some (val : List (Option ast.Field)) (ih : Returns FieldList.loop ast.Field.inGrammarList val) : OnSlice (Returns FieldList.loop ast.Field.inGrammarList) (some val) := by
  intro xs h
  cases h
  exact ih

theorem total_Opt_FieldList_none : Returns FieldList ast.FieldList.inGrammarPtr none := by
  intro _
  exact ⟨_, rfl⟩

theorem total_Opt_FieldList_some (val : ast.FieldList) (ih : Returns FieldList.fresh ast.FieldList.inGrammar val) : Returns FieldList ast.FieldList.inGrammarPtr (some val) := by
  intro h
  simp only [ast.FieldList.inGrammarPtr, Bool.and_eq_true] at h
  obtain ⟨c, hc⟩ := ih h
  exact ⟨_, by rw [FieldList]; simp only [hc, ok_bind]; rfl⟩

theorem total_Slice_ExprNode_none : Returns ExprList ast.Expr.inGrammarSlice none := by
  intro _
  exact ⟨_, rfl⟩

theorem total_Slice_ExprNode_some (val : List (Option ast.ExprNode)) (ih : Returns ExprList.loop ast.Expr.inGrammarList val) : Returns ExprList ast.Expr.inGrammarSlice (some val) := by
  intro h
  simp only [ast.Expr.inGrammarSlice, Bool.and_eq_true] at h
  obtain ⟨c, hc⟩ := ih h
  exact ⟨_, by rw [ExprList]; simp only [hc, ok_bind]; rfl⟩

theorem total_Slice_StmtNode_none : Returns StmtList ast.Stmt.inGrammarSlice none := by
  intro _
  exact ⟨_, rfl⟩

theorem total_Slice_StmtNode_some (val : List (Option ast.StmtNode)) (ih : Returns StmtList.loop ast.Stmt.inGrammarList val) : Returns StmtList ast.Stmt.inGrammarSlice (some val) := by
  intro h
  simp only [ast.Stmt.inGrammarSlice, Bool.and_eq_true] at h
  obtain ⟨c, hc⟩ := ih h
  exact ⟨_, by rw [StmtList]; simp only [hc, ok_bind]; rfl⟩

theorem total_Opt_FuncType_none : Returns FuncType ast.FuncType.inGrammarPtr none := by
  intro _
  exact ⟨_, rfl⟩

theorem total_Opt_FuncType_some (val : ast.FuncType) (ih : Returns FuncType.fresh ast.FuncType.inGrammar val) : Returns FuncType ast.FuncType.inGrammarPtr (some val) := by
  intro h
  simp only [ast.FuncType.inGrammarPtr, Bool.and_eq_true] at h
  obtain ⟨c, hc⟩ := ih h
  exact ⟨_, by rw [FuncType]; simp only [hc, ok_bind]; rfl⟩

theorem total_Opt_BlockStmt_none : Returns BlockStmt ast.BlockStmt.inGrammarPtr none := by
  intro _
  exact ⟨_, rfl⟩

theorem total_Opt_BlockStmt_some (val : ast.BlockStmt) (ih : Returns BlockStmt.fresh ast.BlockStmt.inGrammar val) : Returns BlockStmt ast.BlockStmt.inGrammarPtr (some val) := by
  intro h
  simp only [ast.BlockStmt.inGrammarPtr, Bool.and_eq_true] at h
  obtain ⟨c, hc⟩ := ih h
  exact ⟨_, by rw [BlockStmt]; simp only [hc, ok_bind]; rfl⟩

theorem total_Opt_DeclNode_none : Returns copyDecl ast.Decl.inGrammar none := by
  intro _
  exact ⟨_, rfl⟩

theorem total_Opt_DeclNode_some (val : ast.DeclNode) (ih : Returns copyDecl ast.Decl.inGrammar (some val)) : Returns copyDecl ast.Decl.inGrammar (some val) :=
  ih

theorem total_Opt_StmtNode_none : Returns copyStmt ast.Stmt.inGrammar none := by
  intro _
  exact ⟨_, rfl⟩

theorem total_Opt_StmtNode_some (val : ast.StmtNode) (ih : Returns copyStmt ast.Stmt.inGrammar (some val)) : Returns copyStmt ast.Stmt.inGrammar (some val) :=
  ih

theorem total_Opt_CallExpr_none : Returns CallExpr ast.CallExpr.inGrammarPtr none := by
  intro _
  exact ⟨_, rfl⟩

theorem total_Opt_CallExpr_some (val : ast.CallExpr) (ih : Returns CallExpr.fresh ast.CallExpr.inGrammar val) : Returns CallExpr ast.CallExpr.inGrammarPtr (some val) := by
  intro h
  simp only [ast.CallExpr.inGrammarPtr, Bool.and_eq_true] at h
  obtain ⟨c, hc⟩ := ih h
  exact ⟨_, by rw [CallExpr]; simp only [hc, ok_bind]; rfl⟩

theorem total_Slice_SpecNode_none : Returns SpecList ast.Spec.inGrammarSlice none := by
  intro _
  exact ⟨_, rfl⟩

theorem total_Slice_SpecNode_some (val : List (Option ast.SpecNode)) (ih : Returns SpecList.loop ast.Spec.inGrammarList val) : Returns SpecList ast.Spec.inGrammarSlice (some val) := by
  intro h
  simp only [ast.Spec.inGrammarSlice, Bool.and_eq_true] at h
  obtain ⟨c, hc⟩ := ih h
  exact ⟨_, by rw [SpecList]; simp only [hc, ok_bind]; rfl⟩

theorem total_List_Field_nil : Returns FieldList.loop ast.Field.inGrammarList [] := by
  intro _
  exact ⟨_, rfl⟩

theorem total_List_Field_cons (x : Option ast.Field) (xs : List (Option ast.Field)) (ix : Returns Field ast.Field.inGrammarPtr x)
    (ixs : Returns FieldList.loop ast.Field.inGrammarList xs) : Returns FieldList.loop ast.Field.inGrammarList (x :: xs) := by
  intro h
  simp only [ast.Field.inGrammarList, Bool.and_eq_true] at h
  obtain ⟨gc, gcs⟩ := h
  obtain ⟨c, hc⟩ := ix gc
  obtain ⟨cs, hcs⟩ := ixs gcs
  exact ⟨_, by rw [FieldList.loop]; simp only [hc, hcs, ok_bind]; rfl⟩

theorem total_List_ExprNode_nil : Returns ExprList.loop ast.Expr.inGrammarList [] := by
  intro _
  exact ⟨_, rfl⟩

theorem total_List_ExprNode_cons (x : Option ast.ExprNode) (xs : List (Option ast.ExprNode)) (ix : Returns copyExpr ast.Expr.inGrammar x)
    (ixs : Returns ExprList.loop ast.Expr.inGrammarList xs) : Returns ExprList.loop ast.Expr.inGrammarList (x :: xs) := by
  intro h
  simp only [ast.Expr.inGrammarList, Bool.and_eq_true] at h
  obtain ⟨gc, gcs⟩ := h
  obtain ⟨c, hc⟩ := ix gc
  obtain ⟨cs, hcs⟩ := ixs gcs
  exact ⟨_, by rw [ExprList.loop]; simp only [hc, hcs, ok_bind]; rfl⟩

theorem total_List_StmtNode_nil : Returns StmtList.loop ast.Stmt.inGrammarList [] := by
  intro _
  exact ⟨_, rfl⟩

theorem total_List_StmtNode_cons (x : Option ast.StmtNode) (xs : List (Option ast.StmtNode)) (ix : Returns copyStmt ast.Stmt.inGrammar x)
    (ixs : Returns StmtList.loop ast.Stmt.inGrammarList xs) : Returns StmtList.loop ast.Stmt.inGrammarList (x :: xs) := by
  intro h
  simp only [ast.Stmt.inGrammarList, Bool.and_eq_true] at h
  obtain ⟨gc, gcs⟩ := h
  obtain ⟨c, hc⟩ := ix gc
  obtain ⟨cs, hcs⟩ := ixs gcs
  exact ⟨_, by rw [StmtList.loop]; simp only [hc, hcs, ok_bind]; rfl⟩

theorem total_List_SpecNode_nil : Returns SpecList.loop ast.Spec.inGrammarList [] := by
  intro _
  exact ⟨_, rfl⟩

theorem total_List_SpecNode_cons (x : Option ast.SpecNode) (xs : List (Option ast.SpecNode)) (ix : Returns Spec ast.Spec.inGrammar x)
    (ixs : Returns SpecList.loop ast.Spec.inGrammarList xs) : Returns SpecList.loop ast.Spec.inGrammarList (x :: xs) := by
  intro h
  simp only [ast.Spec.inGrammarList, Bool.and_eq_true] at h
  obtain ⟨gc, gcs⟩ := h
  obtain ⟨c, hc⟩ := ix gc
  obtain ⟨cs, hcs⟩ := ixs gcs
  exact ⟨_, by rw [SpecList.loop]; simp only [hc, hcs, ok_bind]; rfl⟩

theorem total_Opt_Field_none : Returns Field ast.Field.inGrammarPtr none := by
  intro _
  exact ⟨_, rfl⟩

theorem total_Opt_Field_some (val : ast.Field) (ih : Returns Field.fresh ast.Field.inGrammar val) : Returns Field ast.Field.inGrammarPtr (some val) := by
  intro h
  simp only [ast.Field.inGrammarPtr, Bool.and_eq_true] at h
  obtain ⟨c, hc⟩ := ih h
  exact ⟨_, by rw [Field]; simp only [hc, ok_bind]; rfl⟩

theorem total_Opt_SpecNode_none : Returns Spec ast.Spec.inGrammar none := by
  intro _
  exact ⟨_, rfl⟩

theorem total_Opt_SpecNode_some (val : ast.SpecNode) (ih : Returns Spec ast.Spec.inGrammar (some val)) : Returns Spec ast.Spec.inGrammar (some val) :=
  ih

theorem total_copyExpr_present (x : ast.ExprNode) : Returns copyExpr ast.Expr.inGrammar (some x) :=
  @ast.ExprNode.rec
    (Returns Field.fresh ast.Field.inGrammar)
    (Returns FieldList.fresh ast.FieldList.inGrammar)
    (Returns FuncType.fresh ast.FuncType.inGrammar)
    (Returns CallExpr.fresh ast.CallExpr.inGrammar)
    (Returns BlockStmt.fresh ast.BlockStmt.inGrammar)
    (fun x => Returns copyExpr ast.Expr.inGrammar (some x))
    (fun x => Returns copyStmt ast.Stmt.inGrammar (some x))
    (fun x => Returns Spec ast.Spec.inGrammar (some x))
    (fun x => Returns copyDecl ast.Decl.inGrammar (some x))
    (Returns copyExpr ast.Expr.inGrammar)
    (OnSlice (Returns FieldList.loop ast.Field.inGrammarList))
    (Returns FieldList ast.FieldList.inGrammarPtr)
    (Returns ExprList ast.Expr.inGrammarSlice)
    (Returns StmtList ast.Stmt.inGrammarSlice)
    (Returns FuncType ast.FuncType.inGrammarPtr)
    (Returns BlockStmt ast.BlockStmt.inGrammarPtr)
    (Returns copyDecl ast.Decl.inGrammar)
    (Returns copyStmt ast.Stmt.inGrammar)
    (Returns CallExpr ast.CallExpr.inGrammarPtr)
    (Returns SpecList ast.Spec.inGrammarSlice)
    (Returns FieldList.loop ast.Field.inGrammarList)
    (Returns ExprList.loop ast.Expr.inGrammarList)
    (Returns StmtList.loop ast.Stmt.inGrammarList)
    (Returns SpecList.loop ast.Spec.inGrammarList)
    (Returns Field ast.Field.inGrammarPtr)
    (Returns Spec ast.Spec.inGrammar)
    total_Field_mk total_FieldList_mk total_FuncType_mk total_CallExpr_mk total_BlockStmt_mk
    total_ExprNode_BadExpr total_ExprNode_Ident total_ExprNode_Ellipsis total_ExprNode_BasicLit
    total_ExprNode_FuncLit total_ExprNode_CompositeLit total_ExprNode_ParenExpr
    total_ExprNode_SelectorExpr total_ExprNode_IndexExpr total_ExprNode_SliceExpr
    total_ExprNode_TypeAssertExpr total_ExprNode_CallExpr total_ExprNode_StarExpr
    total_ExprNode_UnaryExpr total_ExprNode_BinaryExpr total_ExprNode_KeyValueExpr
    total_ExprNode_ArrayType total_ExprNode_StructType total_ExprNode_FuncType
    total_ExprNode_InterfaceType total_ExprNode_MapType total_ExprNode_ChanType
    total_ExprNode_other total_StmtNode_BadStmt total_StmtNode_DeclStmt total_StmtNode_EmptyStmt
    total_StmtNode_LabeledStmt total_StmtNode_ExprStmt total_StmtNode_SendStmt
    total_StmtNode_IncDecStmt total_StmtNode_AssignStmt total_StmtNode_GoStmt
    total_StmtNode_DeferStmt total_StmtNode_ReturnStmt total_StmtNode_BranchStmt
    total_StmtNode_BlockStmt total_StmtNode_IfStmt total_StmtNode_CaseClause
    total_StmtNode_SwitchStmt total_StmtNode_TypeSwitchStmt total_StmtNode_CommClause
    total_StmtNode_SelectStmt total_StmtNode_ForStmt total_StmtNode_RangeStmt total_StmtNode_other
    total_SpecNode_ImportSpec total_SpecNode_ValueSpec total_SpecNode_TypeSpec
    total_SpecNode_other total_DeclNode_BadDecl total_DeclNode_GenDecl total_DeclNode_FuncDecl
    total_DeclNode_other total_Opt_ExprNode_none total_Opt_ExprNode_some total_Slice_Field_none
    total_Slice_Field_some total_Opt_FieldList_none total_Opt_FieldList_some
    total_Slice_ExprNode_none total_Slice_ExprNode_some total_Slice_StmtNode_none
    total_Slice_StmtNode_some total_Opt_FuncType_none total_Opt_FuncType_some
    total_Opt_BlockStmt_none total_Opt_BlockStmt_some total_Opt_DeclNode_none
    total_Opt_DeclNode_some total_Opt_StmtNode_none total_Opt_StmtNode_some
    total_Opt_CallExpr_none total_Opt_CallExpr_some total_Slice_SpecNode_none
    total_Slice_SpecNode_some total_List_Field_nil total_List_Field_cons total_List_ExprNode_nil
    total_List_ExprNode_cons total_List_StmtNode_nil total_List_StmtNode_cons
    total_List_SpecNode_nil total_List_SpecNode_cons total_Opt_Field_none total_Opt_Field_some
    total_Opt_SpecNode_none total_Opt_SpecNode_some x

theorem total_copyExpr : ∀ (x : ast.Expr), ast.Expr.inGrammar x = true → ∃ y, copyExpr x = .ok y
  | none => total_Opt_ExprNode_none
  | some x => total_copyExpr_present x

theorem total_copyStmt_present (x : ast.StmtNode) : Returns copyStmt ast.Stmt.inGrammar (some x) :=
  @ast.StmtNode.rec
    (Returns Field.fresh ast.Field.inGrammar)
    (Returns FieldList.fresh ast.FieldList.inGrammar)
    (Returns FuncType.fresh ast.FuncType.inGrammar)
    (Returns CallExpr.fresh ast.CallExpr.inGrammar)
    (Returns BlockStmt.fresh ast.BlockStmt.inGrammar)
    (fun x => Returns copyExpr ast.Expr.inGrammar (some x))
    (fun x => Returns copyStmt ast.Stmt.inGrammar (some x))
    (fun x => Returns Spec ast.Spec.inGrammar (some x))
    (fun x => Returns copyDecl ast.Decl.inGrammar (some x))
    (Returns copyExpr ast.Expr.inGrammar)
    (OnSlice (Returns FieldList.loop ast.Field.inGrammarList))
    (Returns FieldList ast.FieldList.inGrammarPtr)
    (Returns ExprList ast.Expr.inGrammarSlice)
    (Returns StmtList ast.Stmt.inGrammarSlice)
    (Returns FuncType ast.FuncType.inGrammarPtr)
    (Returns BlockStmt ast.BlockStmt.inGrammarPtr)
    (Returns copyDecl ast.Decl.inGrammar)
    (Returns copyStmt ast.Stmt.inGrammar)
    (Returns CallExpr ast.CallExpr.inGrammarPtr)
    (Returns SpecList ast.Spec.inGrammarSlice)
    (Returns FieldList.loop ast.Field.inGrammarList)
    (Returns ExprList.loop ast.Expr.inGrammarList)
    (Returns StmtList.loop ast.Stmt.inGrammarList)
    (Returns SpecList.loop ast.Spec.inGrammarList)
    (Returns Field ast.Field.inGrammarPtr)
    (Returns Spec ast.Spec.inGrammar)
    total_Field_mk total_FieldList_mk total_FuncType_mk total_CallExpr_mk total_BlockStmt_mk
    total_ExprNode_BadExpr total_ExprNode_Ident total_ExprNode_Ellipsis total_ExprNode_BasicLit
    total_ExprNode_FuncLit total_ExprNode_CompositeLit total_ExprNode_ParenExpr
    total_ExprNode_SelectorExpr total_ExprNode_IndexExpr total_ExprNode_SliceExpr
    total_ExprNode_TypeAssertExpr total_ExprNode_CallExpr total_ExprNode_StarExpr
    total_ExprNode_UnaryExpr total_ExprNode_BinaryExpr total_ExprNode_KeyValueExpr
    total_ExprNode_ArrayType total_ExprNode_StructType total_ExprNode_FuncType
    total_ExprNode_InterfaceType total_ExprNode_MapType total_ExprNode_ChanType
    total_ExprNode_other total_StmtNode_BadStmt total_StmtNode_DeclStmt total_StmtNode_EmptyStmt
    total_StmtNode_LabeledStmt total_StmtNode_ExprStmt total_StmtNode_SendStmt
    total_StmtNode_IncDecStmt total_StmtNode_AssignStmt total_StmtNode_GoStmt
    total_StmtNode_DeferStmt total_StmtNode_ReturnStmt total_StmtNode_BranchStmt
    total_StmtNode_BlockStmt total_StmtNode_IfStmt total_StmtNode_CaseClause
    total_StmtNode_SwitchStmt total_StmtNode_TypeSwitchStmt total_StmtNode_CommClause
    total_StmtNode_SelectStmt total_StmtNode_ForStmt total_StmtNode_RangeStmt total_StmtNode_other
    total_SpecNode_ImportSpec total_SpecNode_ValueSpec total_SpecNode_TypeSpec
    total_SpecNode_other total_DeclNode_BadDecl total_DeclNode_GenDecl total_DeclNode_FuncDecl
    total_DeclNode_other total_Opt_ExprNode_none total_Opt_ExprNode_some total_Slice_Field_none
    total_Slice_Field_some total_Opt_FieldList_none total_Opt_FieldList_some
    total_Slice_ExprNode_none total_Slice_ExprNode_some total_Slice_StmtNode_none
    total_Slice_StmtNode_some total_Opt_FuncType_none total_Opt_FuncType_some
    total_Opt_BlockStmt_none total_Opt_BlockStmt_some total_Opt_DeclNode_none
    total_Opt_DeclNode_some total_Opt_StmtNode_none total_Opt_StmtNode_some
    total_Opt_CallExpr_none total_Opt_CallExpr_some total_Slice_SpecNode_none
    total_Slice_SpecNode_some total_List_Field_nil total_List_Field_cons total_List_ExprNode_nil
    total_List_ExprNode_cons total_List_StmtNode_nil total_List_StmtNode_cons
    total_List_SpecNode_nil total_List_SpecNode_cons total_Opt_Field_none total_Opt_Field_some
    total_Opt_SpecNode_none total_Opt_SpecNode_some x

theorem total_copyStmt : ∀ (x : ast.Stmt), ast.Stmt.inGrammar x = true → ∃ y, copyStmt x = .ok y
  | none => total_Opt_StmtNode_none
  | some x => total_copyStmt_present x

theorem total_Spec_present (x : ast.SpecNode) : Returns Spec ast.Spec.inGrammar (some x) :=
  @ast.SpecNode.rec
    (Returns Field.fresh ast.Field.inGrammar)
    (Returns FieldList.fresh ast.FieldList.inGrammar)
    (Returns FuncType.fresh ast.FuncType.inGrammar)
    (Returns CallExpr.fresh ast.CallExpr.inGrammar)
    (Returns BlockStmt.fresh ast.BlockStmt.inGrammar)
    (fun x => Returns copyExpr ast.Expr.inGrammar (some x))
    (fun x => Returns copyStmt ast.Stmt.inGrammar (some x))
    (fun x => Returns Spec ast.Spec.inGrammar (some x))
    (fun x => Returns copyDecl ast.Decl.inGrammar (some x))
    (Returns copyExpr ast.Expr.inGrammar)
    (OnSlice (Returns FieldList.loop ast.Field.inGrammarList))
    (Returns FieldList ast.FieldList.inGrammarPtr)
    (Returns ExprList ast.Expr.inGrammarSlice)
    (Returns StmtList ast.Stmt.inGrammarSlice)
    (Returns FuncType ast.FuncType.inGrammarPtr)
    (Returns BlockStmt ast.BlockStmt.inGrammarPtr)
    (Returns copyDecl ast.Decl.inGrammar)
    (Returns copyStmt ast.Stmt.inGrammar)
    (Returns CallExpr ast.CallExpr.inGrammarPtr)
    (Returns SpecList ast.Spec.inGrammarSlice)
    (Returns FieldList.loop ast.Field.inGrammarList)
    (Returns ExprList.loop ast.Expr.inGrammarList)
    (Returns StmtList.loop ast.Stmt.inGrammarList)
    (Returns SpecList.loop ast.Spec.inGrammarList)
    (Returns Field ast.Field.inGrammarPtr)
    (Returns Spec ast.Spec.inGrammar)
    total_Field_mk total_FieldList_mk total_FuncType_mk total_CallExpr_mk total_BlockStmt_mk
    total_ExprNode_BadExpr total_ExprNode_Ident total_ExprNode_Ellipsis total_ExprNode_BasicLit
    total_ExprNode_FuncLit total_ExprNode_CompositeLit total_ExprNode_ParenExpr
    total_ExprNode_SelectorExpr total_ExprNode_IndexExpr total_ExprNode_SliceExpr
    total_ExprNode_TypeAssertExpr total_ExprNode_CallExpr total_ExprNode_StarExpr
    total_ExprNode_UnaryExpr total_ExprNode_BinaryExpr total_ExprNode_KeyValueExpr
    total_ExprNode_ArrayType total_ExprNode_StructType total_ExprNode_FuncType
    total_ExprNode_InterfaceType total_ExprNode_MapType total_ExprNode_ChanType
    total_ExprNode_other total_StmtNode_BadStmt total_StmtNode_DeclStmt total_StmtNode_EmptyStmt
    total_StmtNode_LabeledStmt total_StmtNode_ExprStmt total_StmtNode_SendStmt
    total_StmtNode_IncDecStmt total_StmtNode_AssignStmt total_StmtNode_GoStmt
    total_StmtNode_DeferStmt total_StmtNode_ReturnStmt total_StmtNode_BranchStmt
    total_StmtNode_BlockStmt total_StmtNode_IfStmt total_StmtNode_CaseClause
    total_StmtNode_SwitchStmt total_StmtNode_TypeSwitchStmt total_StmtNode_CommClause
    total_StmtNode_SelectStmt total_StmtNode_ForStmt total_StmtNode_RangeStmt total_StmtNode_other
    total_SpecNode_ImportSpec total_SpecNode_ValueSpec total_SpecNode_TypeSpec
    total_SpecNode_other total_DeclNode_BadDecl total_DeclNode_GenDecl total_DeclNode_FuncDecl
    total_DeclNode_other total_Opt_ExprNode_none total_Opt_ExprNode_some total_Slice_Field_none
    total_Slice_Field_some total_Opt_FieldList_none total_Opt_FieldList_some
    total_Slice_ExprNode_none total_Slice_ExprNode_some total_Slice_StmtNode_none
    total_Slice_StmtNode_some total_Opt_FuncType_none total_Opt_FuncType_some
    total_Opt_BlockStmt_none total_Opt_BlockStmt_some total_Opt_DeclNode_none
    total_Opt_DeclNode_some total_Opt_StmtNode_none total_Opt_StmtNode_some
    total_Opt_CallExpr_none total_Opt_CallExpr_some total_Slice_SpecNode_none
    total_Slice_SpecNode_some total_List_Field_nil total_List_Field_cons total_List_ExprNode_nil
    total_List_ExprNode_cons total_List_StmtNode_nil total_List_StmtNode_cons
    total_List_SpecNode_nil total_List_SpecNode_cons total_Opt_Field_none total_Opt_Field_some
    total_Opt_SpecNode_none total_Opt_SpecNode_some x

theorem total_Spec : ∀ (x : ast.Spec), ast.Spec.inGrammar x = true → ∃ y, Spec x = .ok y
  | none => total_Opt_SpecNode_none
  | some x => total_Spec_present x

theorem total_copyDecl_present (x : ast.DeclNode) : Returns copyDecl ast.Decl.inGrammar (some x) :=
  @ast.DeclNode.rec
    (Returns Field.fresh ast.Field.inGrammar)
    (Returns FieldList.fresh ast.FieldList.inGrammar)
    (Returns FuncType.fresh ast.FuncType.inGrammar)
    (Returns CallExpr.fresh ast.CallExpr.inGrammar)
    (Returns BlockStmt.fresh ast.BlockStmt.inGrammar)
    (fun x => Returns copyExpr ast.Expr.inGrammar (some x))
    (fun x => Returns copyStmt ast.Stmt.inGrammar (some x))
    (fun x => Returns Spec ast.Spec.inGrammar (some x))
    (fun x => Returns copyDecl ast.Decl.inGrammar (some x))
    (Returns copyExpr ast.Expr.inGrammar)
    (OnSlice (Returns FieldList.loop ast.Field.inGrammarList))
    (Returns FieldList ast.FieldList.inGrammarPtr)
    (Returns ExprList ast.Expr.inGrammarSlice)
    (Returns StmtList ast.Stmt.inGrammarSlice)
    (Returns FuncType ast.FuncType.inGrammarPtr)
    (Returns BlockStmt ast.BlockStmt.inGrammarPtr)
    (Returns copyDecl ast.Decl.inGrammar)
    (Returns copyStmt ast.Stmt.inGrammar)
    (Returns CallExpr ast.CallExpr.inGrammarPtr)
    (Returns SpecList ast.Spec.inGrammarSlice)
    (Returns FieldList.loop ast.Field.inGrammarList)
    (Returns ExprList.loop ast.Expr.inGrammarList)
    (Returns StmtList.loop ast.Stmt.inGrammarList)
    (Returns SpecList.loop ast.Spec.inGrammarList)
    (Returns Field ast.Field.inGrammarPtr)
    (Returns Spec ast.Spec.inGrammar)
    total_Field_mk total_FieldList_mk total_FuncType_mk total_CallExpr_mk total_BlockStmt_mk
    total_ExprNode_BadExpr total_ExprNode_Ident total_ExprNode_Ellipsis total_ExprNode_BasicLit
    total_ExprNode_FuncLit total_ExprNode_CompositeLit total_ExprNode_ParenExpr
    total_ExprNode_SelectorExpr total_ExprNode_IndexExpr total_ExprNode_SliceExpr
    total_ExprNode_TypeAssertExpr total_ExprNode_CallExpr total_ExprNode_StarExpr
    total_ExprNode_UnaryExpr total_ExprNode_BinaryExpr total_ExprNode_KeyValueExpr
    total_ExprNode_ArrayType total_ExprNode_StructType total_ExprNode_FuncType
    total_ExprNode_InterfaceType total_ExprNode_MapType total_ExprNode_ChanType
    total_ExprNode_other total_StmtNode_BadStmt total_StmtNode_DeclStmt total_StmtNode_EmptyStmt
    total_StmtNode_LabeledStmt total_StmtNode_ExprStmt total_StmtNode_SendStmt
    total_StmtNode_IncDecStmt total_StmtNode_AssignStmt total_StmtNode_GoStmt
    total_StmtNode_DeferStmt total_StmtNode_ReturnStmt total_StmtNode_BranchStmt
    total_StmtNode_BlockStmt total_StmtNode_IfStmt total_StmtNode_CaseClause
    total_StmtNode_SwitchStmt total_StmtNode_TypeSwitchStmt total_StmtNode_CommClause
    total_StmtNode_SelectStmt total_StmtNode_ForStmt total_StmtNode_RangeStmt total_StmtNode_other
    total_SpecNode_ImportSpec total_SpecNode_ValueSpec total_SpecNode_TypeSpec
    total_SpecNode_other total_DeclNode_BadDecl total_DeclNode_GenDecl total_DeclNode_FuncDecl
    total_DeclNode_other total_Opt_ExprNode_none total_Opt_ExprNode_some total_Slice_Field_none
    total_Slice_Field_some total_Opt_FieldList_none total_Opt_FieldList_some
    total_Slice_ExprNode_none total_Slice_ExprNode_some total_Slice_StmtNode_none
    total_Slice_StmtNode_some total_Opt_FuncType_none total_Opt_FuncType_some
    total_Opt_BlockStmt_none total_Opt_BlockStmt_some total_Opt_DeclNode_none
    total_Opt_DeclNode_some total_Opt_StmtNode_none total_Opt_StmtNode_some
    total_Opt_CallExpr_none total_Opt_CallExpr_some total_Slice_SpecNode_none
    total_Slice_SpecNode_some total_List_Field_nil total_List_Field_cons total_List_ExprNode_nil
    total_List_ExprNode_cons total_List_StmtNode_nil total_List_StmtNode_cons
    total_List_SpecNode_nil total_List_SpecNode_cons total_Opt_Field_none total_Opt_Field_some
    total_Opt_SpecNode_none total_Opt_SpecNode_some x

theorem total_copyDecl : ∀ (x : ast.Decl), ast.Decl.inGrammar x = true → ∃ y, copyDecl x = .ok y
  | none => total_Opt_DeclNode_none
  | some x => total_copyDecl_present x

theorem total_FieldList_fresh (x : ast.FieldList) : Returns FieldList.fresh ast.FieldList.inGrammar x :=
  @ast.FieldList.rec
    (Returns Field.fresh ast.Field.inGrammar)
    (Returns FieldList.fresh ast.FieldList.inGrammar)
    (Returns FuncType.fresh ast.FuncType.inGrammar)
    (Returns CallExpr.fresh ast.CallExpr.inGrammar)
    (Returns BlockStmt.fresh ast.BlockStmt.inGrammar)
    (fun x => Returns copyExpr ast.Expr.inGrammar (some x))
    (fun x => Returns copyStmt ast.Stmt.inGrammar (some x))
    (fun x => Returns Spec ast.Spec.inGrammar (some x))
    (fun x => Returns copyDecl ast.Decl.inGrammar (some x))
    (Returns copyExpr ast.Expr.inGrammar)
    (OnSlice (Returns FieldList.loop ast.Field.inGrammarList))
    (Returns FieldList ast.FieldList.inGrammarPtr)
    (Returns ExprList ast.Expr.inGrammarSlice)
    (Returns StmtList ast.Stmt.inGrammarSlice)
    (Returns FuncType ast.FuncType.inGrammarPtr)
    (Returns BlockStmt ast.BlockStmt.inGrammarPtr)
    (Returns copyDecl ast.Decl.inGrammar)
    (Returns copyStmt ast.Stmt.inGrammar)
    (Returns CallExpr ast.CallExpr.inGrammarPtr)
    (Returns SpecList ast.Spec.inGrammarSlice)
    (Returns FieldList.loop ast.Field.inGrammarList)
    (Returns ExprList.loop ast.Expr.inGrammarList)
    (Returns StmtList.loop ast.Stmt.inGrammarList)
    (Returns SpecList.loop ast.Spec.inGrammarList)
    (Returns Field ast.Field.inGrammarPtr)
    (Returns Spec ast.Spec.inGrammar)
    total_Field_mk total_FieldList_mk total_FuncType_mk total_CallExpr_mk total_BlockStmt_mk
    total_ExprNode_BadExpr total_ExprNode_Ident total_ExprNode_Ellipsis total_ExprNode_BasicLit
    total_ExprNode_FuncLit total_ExprNode_CompositeLit total_ExprNode_ParenExpr
    total_ExprNode_SelectorExpr total_ExprNode_IndexExpr total_ExprNode_SliceExpr
    total_ExprNode_TypeAssertExpr total_ExprNode_CallExpr total_ExprNode_StarExpr
    total_ExprNode_UnaryExpr total_ExprNode_BinaryExpr total_ExprNode_KeyValueExpr
    total_ExprNode_ArrayType total_ExprNode_StructType total_ExprNode_FuncType
    total_ExprNode_InterfaceType total_ExprNode_MapType total_ExprNode_ChanType
    total_ExprNode_other total_StmtNode_BadStmt total_StmtNode_DeclStmt total_StmtNode_EmptyStmt
    total_StmtNode_LabeledStmt total_StmtNode_ExprStmt total_StmtNode_SendStmt
    total_StmtNode_IncDecStmt total_StmtNode_AssignStmt total_StmtNode_GoStmt
    total_StmtNode_DeferStmt total_StmtNode_ReturnStmt total_StmtNode_BranchStmt
    total_StmtNode_BlockStmt total_StmtNode_IfStmt total_StmtNode_CaseClause
    total_StmtNode_SwitchStmt total_StmtNode_TypeSwitchStmt total_StmtNode_CommClause
    total_StmtNode_SelectStmt total_StmtNode_ForStmt total_StmtNode_RangeStmt total_StmtNode_other
    total_SpecNode_ImportSpec total_SpecNode_ValueSpec total_SpecNode_TypeSpec
    total_SpecNode_other total_DeclNode_BadDecl total_DeclNode_GenDecl total_DeclNode_FuncDecl
    total_DeclNode_other total_Opt_ExprNode_none total_Opt_ExprNode_some total_Slice_Field_none
    total_Slice_Field_some total_Opt_FieldList_none total_Opt_FieldList_some
    total_Slice_ExprNode_none total_Slice_ExprNode_some total_Slice_StmtNode_none
    total_Slice_StmtNode_some total_Opt_FuncType_none total_Opt_FuncType_some
    total_Opt_BlockStmt_none total_Opt_BlockStmt_some total_Opt_DeclNode_none
    total_Opt_DeclNode_some total_Opt_StmtNode_none total_Opt_StmtNode_some
    total_Opt_CallExpr_none total_Opt_CallExpr_some total_Slice_SpecNode_none
    total_Slice_SpecNode_some total_List_Field_nil total_List_Field_cons total_List_ExprNode_nil
    total_List_ExprNode_cons total_List_StmtNode_nil total_List_StmtNode_cons
    total_List_SpecNode_nil total_List_SpecNode_cons total_Opt_Field_none total_Opt_Field_some
    total_Opt_SpecNode_none total_Opt_SpecNode_some x

theorem total_FieldList : ∀ (x : Option ast.FieldList), Returns FieldList ast.FieldList.inGrammarPtr x
  | none => total_Opt_FieldList_none
  | some x => total_Opt_FieldList_some x (total_FieldList_fresh x)

theorem total_Field_fresh (x : ast.Field) : Returns Field.fresh ast.Field.inGrammar x :=
  @ast.Field.rec
    (Returns Field.fresh ast.Field.inGrammar)
    (Returns FieldList.fresh ast.FieldList.inGrammar)
    (Returns FuncType.fresh ast.FuncType.inGrammar)
    (Returns CallExpr.fresh ast.CallExpr.inGrammar)
    (Returns BlockStmt.fresh ast.BlockStmt.inGrammar)
    (fun x => Returns copyExpr ast.Expr.inGrammar (some x))
    (fun x => Returns copyStmt ast.Stmt.inGrammar (some x))
    (fun x => Returns Spec ast.Spec.inGrammar (some x))
    (fun x => Returns copyDecl ast.Decl.inGrammar (some x))
    (Returns copyExpr ast.Expr.inGrammar)
    (OnSlice (Returns FieldList.loop ast.Field.inGrammarList))
    (Returns FieldList ast.FieldList.inGrammarPtr)
    (Returns ExprList ast.Expr.inGrammarSlice)
    (Returns StmtList ast.Stmt.inGrammarSlice)
    (Returns FuncType ast.FuncType.inGrammarPtr)
    (Returns BlockStmt ast.BlockStmt.inGrammarPtr)
    (Returns copyDecl ast.Decl.inGrammar)
    (Returns copyStmt ast.Stmt.inGrammar)
    (Returns CallExpr ast.CallExpr.inGrammarPtr)
    (Returns SpecList ast.Spec.inGrammarSlice)
    (Returns FieldList.loop ast.Field.inGrammarList)
    (Returns ExprList.loop ast.Expr.inGrammarList)
    (Returns StmtList.loop ast.Stmt.inGrammarList)
    (Returns SpecList.loop ast.Spec.inGrammarList)
    (Returns Field ast.Field.inGrammarPtr)
    (Returns Spec ast.Spec.inGrammar)
    total_Field_mk total_FieldList_mk total_FuncType_mk total_CallExpr_mk total_BlockStmt_mk
    total_ExprNode_BadExpr total_ExprNode_Ident total_ExprNode_Ellipsis total_ExprNode_BasicLit
    total_ExprNode_FuncLit total_ExprNode_CompositeLit total_ExprNode_ParenExpr
    total_ExprNode_SelectorExpr total_ExprNode_IndexExpr total_ExprNode_SliceExpr
    total_ExprNode_TypeAssertExpr total_ExprNode_CallExpr total_ExprNode_StarExpr
    total_ExprNode_UnaryExpr total_ExprNode_BinaryExpr total_ExprNode_KeyValueExpr
    total_ExprNode_ArrayType total_ExprNode_StructType total_ExprNode_FuncType
    total_ExprNode_InterfaceType total_ExprNode_MapType total_ExprNode_ChanType
    total_ExprNode_other total_StmtNode_BadStmt total_StmtNode_DeclStmt total_StmtNode_EmptyStmt
    total_StmtNode_LabeledStmt total_StmtNode_ExprStmt total_StmtNode_SendStmt
    total_StmtNode_IncDecStmt total_StmtNode_AssignStmt total_StmtNode_GoStmt
    total_StmtNode_DeferStmt total_StmtNode_ReturnStmt total_StmtNode_BranchStmt
    total_StmtNode_BlockStmt total_StmtNode_IfStmt total_StmtNode_CaseClause
    total_StmtNode_SwitchStmt total_StmtNode_TypeSwitchStmt total_StmtNode_CommClause
    total_StmtNode_SelectStmt total_StmtNode_ForStmt total_StmtNode_RangeStmt total_StmtNode_other
    total_SpecNode_ImportSpec total_SpecNode_ValueSpec total_SpecNode_TypeSpec
    total_SpecNode_other total_DeclNode_BadDecl total_DeclNode_GenDecl total_DeclNode_FuncDecl
    total_DeclNode_other total_Opt_ExprNode_none total_Opt_ExprNode_some total_Slice_Field_none
    total_Slice_Field_some total_Opt_FieldList_none total_Opt_FieldList_some
    total_Slice_ExprNode_none total_Slice_ExprNode_some total_Slice_StmtNode_none
    total_Slice_StmtNode_some total_Opt_FuncType_none total_Opt_FuncType_some
    total_Opt_BlockStmt_none total_Opt_BlockStmt_some total_Opt_DeclNode_none
    total_Opt_DeclNode_some total_Opt_StmtNode_none total_Opt_StmtNode_some
    total_Opt_CallExpr_none total_Opt_CallExpr_some total_Slice_SpecNode_none
    total_Slice_SpecNode_some total_List_Field_nil total_List_Field_cons total_List_ExprNode_nil
    total_List_ExprNode_cons total_List_StmtNode_nil total_List_StmtNode_cons
    total_List_SpecNode_nil total_List_SpecNode_cons total_Opt_Field_none total_Opt_Field_some
    total_Opt_SpecNode_none total_Opt_SpecNode_some x

theorem total_Field : ∀ (x : Option ast.Field), Returns Field ast.Field.inGrammarPtr x
  | none => total_Opt_Field_none
  | some x => total_Opt_Field_some x (total_Field_fresh x)

theorem total_FuncType_fresh (x : ast.FuncType) : Returns FuncType.fresh ast.FuncType.inGrammar x :=
  @ast.FuncType.rec
    (Returns Field.fresh ast.Field.inGrammar)
    (Returns FieldList.fresh ast.FieldList.inGrammar)
    (Returns FuncType.fresh ast.FuncType.inGrammar)
    (Returns CallExpr.fresh ast.CallExpr.inGrammar)
    (Returns BlockStmt.fresh ast.BlockStmt.inGrammar)
    (fun x => Returns copyExpr ast.Expr.inGrammar (some x))
    (fun x => Returns copyStmt ast.Stmt.inGrammar (some x))
    (fun x => Returns Spec ast.Spec.inGrammar (some x))
    (fun x => Returns copyDecl ast.Decl.inGrammar (some x))
    (Returns copyExpr ast.Expr.inGrammar)
    (OnSlice (Returns FieldList.loop ast.Field.inGrammarList))
    (Returns FieldList ast.FieldList.inGrammarPtr)
    (Returns ExprList ast.Expr.inGrammarSlice)
    (Returns StmtList ast.Stmt.inGrammarSlice)
    (Returns FuncType ast.FuncType.inGrammarPtr)
    (Returns BlockStmt ast.BlockStmt.inGrammarPtr)
    (Returns copyDecl ast.Decl.inGrammar)
    (Returns copyStmt ast.Stmt.inGrammar)
    (Returns CallExpr ast.CallExpr.inGrammarPtr)
    (Returns SpecList ast.Spec.inGrammarSlice)
    (Returns FieldList.loop ast.Field.inGrammarList)
    (Returns ExprList.loop ast.Expr.inGrammarList)
    (Returns StmtList.loop ast.Stmt.inGrammarList)
    (Returns SpecList.loop ast.Spec.inGrammarList)
    (Returns Field ast.Field.inGrammarPtr)
    (Returns Spec ast.Spec.inGrammar)
    total_Field_mk total_FieldList_mk total_FuncType_mk total_CallExpr_mk total_BlockStmt_mk
    total_ExprNode_BadExpr total_ExprNode_Ident total_ExprNode_Ellipsis total_ExprNode_BasicLit
    total_ExprNode_FuncLit total_ExprNode_CompositeLit total_ExprNode_ParenExpr
    total_ExprNode_SelectorExpr total_ExprNode_IndexExpr total_ExprNode_SliceExpr
    total_ExprNode_TypeAssertExpr total_ExprNode_CallExpr total_ExprNode_StarExpr
    total_ExprNode_UnaryExpr total_ExprNode_BinaryExpr total_ExprNode_KeyValueExpr
    total_ExprNode_ArrayType total_ExprNode_StructType total_ExprNode_FuncType
    total_ExprNode_InterfaceType total_ExprNode_MapType total_ExprNode_ChanType
    total_ExprNode_other total_StmtNode_BadStmt total_StmtNode_DeclStmt total_StmtNode_EmptyStmt
    total_StmtNode_LabeledStmt total_StmtNode_ExprStmt total_StmtNode_SendStmt
    total_StmtNode_IncDecStmt total_StmtNode_AssignStmt total_StmtNode_GoStmt
    total_StmtNode_DeferStmt total_StmtNode_ReturnStmt total_StmtNode_BranchStmt
    total_StmtNode_BlockStmt total_StmtNode_IfStmt total_StmtNode_CaseClause
    total_StmtNode_SwitchStmt total_StmtNode_TypeSwitchStmt total_StmtNode_CommClause
    total_StmtNode_SelectStmt total_StmtNode_ForStmt total_StmtNode_RangeStmt total_StmtNode_other
    total_SpecNode_ImportSpec total_SpecNode_ValueSpec total_SpecNode_TypeSpec
    total_SpecNode_other total_DeclNode_BadDecl total_DeclNode_GenDecl total_DeclNode_FuncDecl
    total_DeclNode_other total_Opt_ExprNode_none total_Opt_ExprNode_some total_Slice_Field_none
    total_Slice_Field_some total_Opt_FieldList_none total_Opt_FieldList_some
    total_Slice_ExprNode_none total_Slice_ExprNode_some total_Slice_StmtNode_none
    total_Slice_StmtNode_some total_Opt_FuncType_none total_Opt_FuncType_some
    total_Opt_BlockStmt_none total_Opt_BlockStmt_some total_Opt_DeclNode_none
    total_Opt_DeclNode_some total_Opt_StmtNode_none total_Opt_StmtNode_some
    total_Opt_CallExpr_none total_Opt_CallExpr_some total_Slice_SpecNode_none
    total_Slice_SpecNode_some total_List_Field_nil total_List_Field_cons total_List_ExprNode_nil
    total_List_ExprNode_cons total_List_StmtNode_nil total_List_StmtNode_cons
    total_List_SpecNode_nil total_List_SpecNode_cons total_Opt_Field_none total_Opt_Field_some
    total_Opt_SpecNode_none total_Opt_SpecNode_some x

theorem total_FuncType : ∀ (x : Option ast.FuncType), Returns FuncType ast.FuncType.inGrammarPtr x
  | none => total_Opt_FuncType_none
  | some x => total_Opt_FuncType_some x (total_FuncType_fresh x)

theorem total_CallExpr_fresh (x : ast.CallExpr) : Returns CallExpr.fresh ast.CallExpr.inGrammar x :=
  @ast.CallExpr.rec
    (Returns Field.fresh ast.Field.inGrammar)
    (Returns FieldList.fresh ast.FieldList.inGrammar)
    (Returns FuncType.fresh ast.FuncType.inGrammar)
    (Returns CallExpr.fresh ast.CallExpr.inGrammar)
    (Returns BlockStmt.fresh ast.BlockStmt.inGrammar)
    (fun x => Returns copyExpr ast.Expr.inGrammar (some x))
    (fun x => Returns copyStmt ast.Stmt.inGrammar (some x))
    (fun x => Returns Spec ast.Spec.inGrammar (some x))
    (fun x => Returns copyDecl ast.Decl.inGrammar (some x))
    (Returns copyExpr ast.Expr.inGrammar)
    (OnSlice (Returns FieldList.loop ast.Field.inGrammarList))
    (Returns FieldList ast.FieldList.inGrammarPtr)
    (Returns ExprList ast.Expr.inGrammarSlice)
    (Returns StmtList ast.Stmt.inGrammarSlice)
    (Returns FuncType ast.FuncType.inGrammarPtr)
    (Returns BlockStmt ast.BlockStmt.inGrammarPtr)
    (Returns copyDecl ast.Decl.inGrammar)
    (Returns copyStmt ast.Stmt.inGrammar)
    (Returns CallExpr ast.CallExpr.inGrammarPtr)
    (Returns SpecList ast.Spec.inGrammarSlice)
    (Returns FieldList.loop ast.Field.inGrammarList)
    (Returns ExprList.loop ast.Expr.inGrammarList)
    (Returns StmtList.loop ast.Stmt.inGrammarList)
    (Returns SpecList.loop ast.Spec.inGrammarList)
    (Returns Field ast.Field.inGrammarPtr)
    (Returns Spec ast.Spec.inGrammar)
    total_Field_mk total_FieldList_mk total_FuncType_mk total_CallExpr_mk total_BlockStmt_mk
    total_ExprNode_BadExpr total_ExprNode_Ident total_ExprNode_Ellipsis total_ExprNode_BasicLit
    total_ExprNode_FuncLit total_ExprNode_CompositeLit total_ExprNode_ParenExpr
    total_ExprNode_SelectorExpr total_ExprNode_IndexExpr total_ExprNode_SliceExpr
    total_ExprNode_TypeAssertExpr total_ExprNode_CallExpr total_ExprNode_StarExpr
    total_ExprNode_UnaryExpr total_ExprNode_BinaryExpr total_ExprNode_KeyValueExpr
    total_ExprNode_ArrayType total_ExprNode_StructType total_ExprNode_FuncType
    total_ExprNode_InterfaceType total_ExprNode_MapType total_ExprNode_ChanType
    total_ExprNode_other total_StmtNode_BadStmt total_StmtNode_DeclStmt total_StmtNode_EmptyStmt
    total_StmtNode_LabeledStmt total_StmtNode_ExprStmt total_StmtNode_SendStmt
    total_StmtNode_IncDecStmt total_StmtNode_AssignStmt total_StmtNode_GoStmt
    total_StmtNode_DeferStmt total_StmtNode_ReturnStmt total_StmtNode_BranchStmt
    total_StmtNode_BlockStmt total_StmtNode_IfStmt total_StmtNode_CaseClause
    total_StmtNode_SwitchStmt total_StmtNode_TypeSwitchStmt total_StmtNode_CommClause
    total_StmtNode_SelectStmt total_StmtNode_ForStmt total_StmtNode_RangeStmt total_StmtNode_other
    total_SpecNode_ImportSpec total_SpecNode_ValueSpec total_SpecNode_TypeSpec
    total_SpecNode_other total_DeclNode_BadDecl total_DeclNode_GenDecl total_DeclNode_FuncDecl
    total_DeclNode_other total_Opt_ExprNode_none total_Opt_ExprNode_some total_Slice_Field_none
    total_Slice_Field_some total_Opt_FieldList_none total_Opt_FieldList_some
    total_Slice_ExprNode_none total_Slice_ExprNode_some total_Slice_StmtNode_none
    total_Slice_StmtNode_some total_Opt_FuncType_none total_Opt_FuncType_some
    total_Opt_BlockStmt_none total_Opt_BlockStmt_some total_Opt_DeclNode_none
    total_Opt_DeclNode_some total_Opt_StmtNode_none total_Opt_StmtNode_some
    total_Opt_CallExpr_none total_Opt_CallExpr_some total_Slice_SpecNode_none
    total_Slice_SpecNode_some total_List_Field_nil total_List_Field_cons total_List_ExprNode_nil
    total_List_ExprNode_cons total_List_StmtNode_nil total_List_StmtNode_cons
    total_List_SpecNode_nil total_List_SpecNode_cons total_Opt_Field_none total_Opt_Field_some
    total_Opt_SpecNode_none total_Opt_SpecNode_some x

theorem total_CallExpr : ∀ (x : Option ast.CallExpr), Returns CallExpr ast.CallExpr.inGrammarPtr x
  | none => total_Opt_CallExpr_none
  | some x => total_Opt_CallExpr_some x (total_CallExpr_fresh x)

theorem total_BlockStmt_fresh (x : ast.BlockStmt) : Returns BlockStmt.fresh ast.BlockStmt.inGrammar x :=
  @ast.BlockStmt.rec
    (Returns Field.fresh ast.Field.inGrammar)
    (Returns FieldList.fresh ast.FieldList.inGrammar)
    (Returns FuncType.fresh ast.FuncType.inGrammar)
    (Returns CallExpr.fresh ast.CallExpr.inGrammar)
    (Returns BlockStmt.fresh ast.BlockStmt.inGrammar)
    (fun x => Returns copyExpr ast.Expr.inGrammar (some x))
    (fun x => Returns copyStmt ast.Stmt.inGrammar (some x))
    (fun x => Returns Spec ast.Spec.inGrammar (some x))
    (fun x => Returns copyDecl ast.Decl.inGrammar (some x))
    (Returns copyExpr ast.Expr.inGrammar)
    (OnSlice (Returns FieldList.loop ast.Field.inGrammarList))
    (Returns FieldList ast.FieldList.inGrammarPtr)
    (Returns ExprList ast.Expr.inGrammarSlice)
    (Returns StmtList ast.Stmt.inGrammarSlice)
    (Returns FuncType ast.FuncType.inGrammarPtr)
    (Returns BlockStmt ast.BlockStmt.inGrammarPtr)
    (Returns copyDecl ast.Decl.inGrammar)
    (Returns copyStmt ast.Stmt.inGrammar)
    (Returns CallExpr ast.CallExpr.inGrammarPtr)
    (Returns SpecList ast.Spec.inGrammarSlice)
    (Returns FieldList.loop ast.Field.inGrammarList)
    (Returns ExprList.loop ast.Expr.inGrammarList)
    (Returns StmtList.loop ast.Stmt.inGrammarList)
    (Returns SpecList.loop ast.Spec.inGrammarList)
    (Returns Field ast.Field.inGrammarPtr)
    (Returns Spec ast.Spec.inGrammar)
    total_Field_mk total_FieldList_mk total_FuncType_mk total_CallExpr_mk total_BlockStmt_mk
    total_ExprNode_BadExpr total_ExprNode_Ident total_ExprNode_Ellipsis total_ExprNode_BasicLit
    total_ExprNode_FuncLit total_ExprNode_CompositeLit total_ExprNode_ParenExpr
    total_ExprNode_SelectorExpr total_ExprNode_IndexExpr total_ExprNode_SliceExpr
    total_ExprNode_TypeAssertExpr total_ExprNode_CallExpr total_ExprNode_StarExpr
    total_ExprNode_UnaryExpr total_ExprNode_BinaryExpr total_ExprNode_KeyValueExpr
    total_ExprNode_ArrayType total_ExprNode_StructType total_ExprNode_FuncType
    total_ExprNode_InterfaceType total_ExprNode_MapType total_ExprNode_ChanType
    total_ExprNode_other total_StmtNode_BadStmt total_StmtNode_DeclStmt total_StmtNode_EmptyStmt
    total_StmtNode_LabeledStmt total_StmtNode_ExprStmt total_StmtNode_SendStmt
    total_StmtNode_IncDecStmt total_StmtNode_AssignStmt total_StmtNode_GoStmt
    total_StmtNode_DeferStmt total_StmtNode_ReturnStmt total_StmtNode_BranchStmt
    total_StmtNode_BlockStmt total_StmtNode_IfStmt total_StmtNode_CaseClause
    total_StmtNode_SwitchStmt total_StmtNode_TypeSwitchStmt total_StmtNode_CommClause
    total_StmtNode_SelectStmt total_StmtNode_ForStmt total_StmtNode_RangeStmt total_StmtNode_other
    total_SpecNode_ImportSpec total_SpecNode_ValueSpec total_SpecNode_TypeSpec
    total_SpecNode_other total_DeclNode_BadDecl total_DeclNode_GenDecl total_DeclNode_FuncDecl
    total_DeclNode_other total_Opt_ExprNode_none total_Opt_ExprNode_some total_Slice_Field_none
    total_Slice_Field_some total_Opt_FieldList_none total_Opt_FieldList_some
    total_Slice_ExprNode_none total_Slice_ExprNode_some total_Slice_StmtNode_none
    total_Slice_StmtNode_some total_Opt_FuncType_none total_Opt_FuncType_some
    total_Opt_BlockStmt_none total_Opt_BlockStmt_some total_Opt_DeclNode_none
    total_Opt_DeclNode_some total_Opt_StmtNode_none total_Opt_StmtNode_some
    total_Opt_CallExpr_none total_Opt_CallExpr_some total_Slice_SpecNode_none
    total_Slice_SpecNode_some total_List_Field_nil total_List_Field_cons total_List_ExprNode_nil
    total_List_ExprNode_cons total_List_StmtNode_nil total_List_StmtNode_cons
    total_List_SpecNode_nil total_List_SpecNode_cons total_Opt_Field_none total_Opt_Field_some
    total_Opt_SpecNode_none total_Opt_SpecNode_some x

theorem total_BlockStmt : ∀ (x : Option ast.BlockStmt), Returns BlockStmt ast.BlockStmt.inGrammarPtr x
  | none => total_Opt_BlockStmt_none
  | some x => total_Opt_BlockStmt_some x (total_BlockStmt_fresh x)

end astcopy

namespace astcopy

/-! ## The shape of the copy of a leaf -/

theorem shape_Ident_fresh (x : ast.Ident) : ast.Ident.shape (Ident.fresh x) = ast.Ident.shape x :=
  rfl

theorem shape_Ident (x : Option ast.Ident) : ast.Ident.shapePtr (Ident x) = ast.Ident.shapePtr x := by
  cases x <;> rfl

theorem shape_Ident_map (xs : List (Option ast.Ident)) :
    ast.Ident.shapeList (xs.map Ident) = ast.Ident.shapeList xs := by
  induction xs with
  | nil => rfl
  | cons x xs ih => simp only [List.map_cons, ast.Ident.shapeList, shape_Ident, ih]

theorem shape_IdentList (xs : Option (List (Option ast.Ident))) :
    ast.Ident.shapeSlice (IdentList xs) = ast.Ident.shapeSlice xs := by
  cases xs with
  | none => rfl
  | some xs => simp only [IdentList, ast.Ident.shapeSlice, shape_Ident_map]

theorem shape_BasicLit_fresh (x : ast.BasicLit) :
    ast.BasicLit.shape (BasicLit.fresh x) = ast.BasicLit.shape x := rfl

theorem shape_BasicLit (x : Option ast.BasicLit) :
    ast.BasicLit.shapePtr (BasicLit x) = ast.BasicLit.shapePtr x := by
  cases x <;> rfl

theorem shape_Comment (x : Option ast.Comment) :
    ast.Comment.shapePtr (Comment x) = ast.Comment.shapePtr x := by
  cases x <;> rfl

theorem shape_Comment_map (xs : List (Option ast.Comment)) :
    ast.Comment.shapeList (xs.map Comment) = ast.Comment.shapeList xs := by
  induction xs with
  | nil => rfl
  | cons x xs ih => simp only [List.map_cons, ast.Comment.shapeList, shape_Comment, ih]

theorem shape_CommentGroup_fresh (x : ast.CommentGroup) :
    ast.CommentGroup.shape (CommentGroup.fresh x) = ast.CommentGroup.shape x := by
  obtain ⟨l⟩ := x
  cases l with
  | none => rfl
  | some xs =>
    simp only [CommentGroup.fresh, ast.CommentGroup.shape, ast.Comment.shapeSlice,
      shape_Comment_map]

theorem shape_CommentGroup (x : Option ast.CommentGroup) :
    ast.CommentGroup.shapePtr (CommentGroup x) = ast.CommentGroup.shapePtr x := by
  cases x with
  | none => rfl
  | some x => exact shape_CommentGroup_fresh x

theorem shape_BadExpr_fresh (x : ast.BadExpr) :
    ast.BadExpr.shape (BadExpr.fresh x) = ast.BadExpr.shape x := rfl

theorem shape_BadStmt_fresh (x : ast.BadStmt) :
    ast.BadStmt.shape (BadStmt.fresh x) = ast.BadStmt.shape x := rfl

theorem shape_BadDecl_fresh (x : ast.BadDecl) :
    ast.BadDecl.shape (BadDecl.fresh x) = ast.BadDecl.shape x := rfl

theorem shape_EmptyStmt_fresh (x : ast.EmptyStmt) :
    ast.EmptyStmt.shape (EmptyStmt.fresh x) = ast.EmptyStmt.shape x := rfl

theorem shape_BranchStmt_fresh (x : ast.BranchStmt) :
    ast.BranchStmt.shape (BranchStmt.fresh x) = ast.BranchStmt.shape x := by
  simp only [BranchStmt.fresh, ast.BranchStmt.shape, shape_Ident]

theorem shape_ImportSpec_fresh (x : ast.ImportSpec) :
    ast.ImportSpec.shape (ImportSpec.fresh x) = ast.ImportSpec.shape x := by
  simp only [ImportSpec.fresh, ast.ImportSpec.shape, shape_Ident, shape_BasicLit,
    shape_CommentGroup]

end astcopy

namespace astcopy

/-! ## The copy has the shape of its source: one lemma for each constructor, then the recursor -/

theorem shape_Field_mk (xDoc : Option ast.CommentGroup) (xNames : Option (List (Option ast.Ident))) (xType : Option ast.ExprNode) (xTag : Option ast.BasicLit) (xComment : Option ast.CommentGroup)
    (iType : SameShape copyExpr ast.Expr.shape xType)
    : SameShape Field.fresh ast.Field.shape (.mk xDoc xNames xType xTag xComment) := by
  intro y h
  rw [Field.fresh] at h
  simp only [bind_eq_ok, pure_eq_ok] at h
  obtain ⟨cType, hcType, rfl⟩ := h
  have icType := iType cType hcType
  simp only [ast.Field.shape, shape_Ident, shape_IdentList, shape_BasicLit, shape_CommentGroup, shape_BadExpr_fresh, shape_Ident_fresh, shape_BasicLit_fresh, shape_BadStmt_fresh, shape_EmptyStmt_fresh, shape_BranchStmt_fresh, shape_ImportSpec_fresh, shape_BadDecl_fresh, icType]

theorem shape_FieldList_mk (xOpening : token.Pos) (xList : Option (List (Option ast.Field))) (xClosing : token.Pos)
    (iList : OnSlice (SameShape FieldList.loop ast.Field.shapeList) xList)
    : SameShape FieldList.fresh ast.FieldList.shape (.mk xOpening xList xClosing) := by
  cases xList with
  | none =>
    intro y h
    rw [FieldList.fresh] at h
    simp only [bind_eq_ok, pure_eq_ok] at h
    obtain rfl := h
    simp only [ast.FieldList.shape]
  | some xs =>
    have iList := iList xs rfl
    intro y h
    rw [FieldList.fresh] at h
    simp only [bind_eq_ok, pure_eq_ok] at h
    obtain ⟨cp, hcp, rfl⟩ := h
    have icp := iList cp hcp
    simp only [ast.FieldList.shape, ast.Field.shapeSlice, icp]

theorem shape_FuncType_mk (xFunc : token.Pos) (xParams : Option ast.FieldList) (xResults : Option ast.FieldList)
    (iParams : SameShape FieldList ast.FieldList.shapePtr xParams)
    (iResults : SameShape FieldList ast.FieldList.shapePtr xResults)
    : SameShape FuncType.fresh ast.FuncType.shape (.mk xFunc xParams xResults) := by
  intro y h
  rw [FuncType.fresh] at h
  simp only [bind_eq_ok, pure_eq_ok] at h
  obtain ⟨cParams, hcParams, cResults, hcResults, rfl⟩ := h
  have icParams := iParams cParams hcParams
  have icResults := iResults cResults hcResults
  simp only [ast.FuncType.shape, shape_Ident, shape_IdentList, shape_BasicLit, shape_CommentGroup, shape_BadExpr_fresh, shape_Ident_fresh, shape_BasicLit_fresh, shape_BadStmt_fresh, shape_EmptyStmt_fresh, shape_BranchStmt_fresh, shape_ImportSpec_fresh, shape_BadDecl_fresh, icParams, icResults]

theorem shape_CallExpr_mk (xFun : Option ast.ExprNode) (xLparen : token.Pos) (xArgs : Option (List (Option ast.ExprNode))) (xEllipsis : token.Pos) (xRparen : token.Pos)
    (iFun : SameShape copyExpr ast.Expr.shape xFun)
    (iArgs : SameShape ExprList ast.Expr.shapeSlice xArgs)
    : SameShape CallExpr.fresh ast.CallExpr.shape (.mk xFun xLparen xArgs xEllipsis xRparen) := by
  intro y h
  rw [CallExpr.fresh] at h
  simp only [bind_eq_ok, pure_eq_ok] at h
  obtain ⟨cFun, hcFun, cArgs, hcArgs, rfl⟩ := h
  have icFun := iFun cFun hcFun
  have icArgs := iArgs cArgs hcArgs
  simp only [ast.CallExpr.shape, shape_Ident, shape_IdentList, shape_BasicLit, shape_CommentGroup, shape_BadExpr_fresh, shape_Ident_fresh, shape_BasicLit_fresh, shape_BadStmt_fresh, shape_EmptyStmt_fresh, shape_BranchStmt_fresh, shape_ImportSpec_fresh, shape_BadDecl_fresh, icFun, icArgs]

theorem shape_BlockStmt_mk (xLbrace : token.Pos) (xList : Option (List (Option ast.StmtNode))) (xRbrace : token.Pos)
    (iList : SameShape StmtList ast.Stmt.shapeSlice xList)
    : SameShape BlockStmt.fresh ast.BlockStmt.shape (.mk xLbrace xList xRbrace) := by
  intro y h
  rw [BlockStmt.fresh] at h
  simp only [bind_eq_ok, pure_eq_ok] at h
  obtain ⟨cList, hcList, rfl⟩ := h
  have icList := iList cList hcList
  simp only [ast.BlockStmt.shape, shape_Ident, shape_IdentList, shape_BasicLit, shape_CommentGroup, shape_BadExpr_fresh, shape_Ident_fresh, shape_BasicLit_fresh, shape_BadStmt_fresh, shape_EmptyStmt_fresh, shape_BranchStmt_fresh, shape_ImportSpec_fresh, shape_BadDecl_fresh, icList]

theorem shape_ExprNode_BadExpr (x : ast.BadExpr) : SameShape copyExpr ast.Expr.shape (some (.BadExpr x)) := by
  intro y h
  rw [copyExpr] at h
  simp only [bind_eq_ok, pure_eq_ok] at h
  obtain rfl := h
  simp only [ast.Expr.shape, ast.ExprNode.shape, shape_Ident, shape_IdentList, shape_BasicLit, shape_CommentGroup, shape_BadExpr_fresh, shape_Ident_fresh, shape_BasicLit_fresh, shape_BadStmt_fresh, shape_EmptyStmt_fresh, shape_BranchStmt_fresh, shape_ImportSpec_fresh, shape_BadDecl_fresh]

theorem shape_ExprNode_Ident (x : ast.Ident) : SameShape copyExpr ast.Expr.shape (some (.Ident x)) := by
  intro y h
  rw [copyExpr] at h
  simp only [bind_eq_ok, pure_eq_ok] at h
  obtain rfl := h
  simp only [ast.Expr.shape, ast.ExprNode.shape, shape_Ident, shape_IdentList, shape_BasicLit, shape_CommentGroup, shape_BadExpr_fresh, shape_Ident_fresh, shape_BasicLit_fresh, shape_BadStmt_fresh, shape_EmptyStmt_fresh, shape_BranchStmt_fresh, shape_ImportSpec_fresh, shape_BadDecl_fresh]

theorem shape_ExprNode_Ellipsis (xEllipsis : token.Pos) (xElt : Option ast.ExprNode)
    (iElt : SameShape copyExpr ast.Expr.shape xElt)
    : SameShape copyExpr ast.Expr.shape (some (.Ellipsis xEllipsis xElt)) := by
  intro y h
  rw [copyExpr] at h
  simp only [bind_eq_ok, pure_eq_ok] at h
  obtain ⟨cElt, hcElt, rfl⟩ := h
  have icElt := iElt cElt hcElt
  simp only [ast.Expr.shape, ast.ExprNode.shape, shape_Ident, shape_IdentList, shape_BasicLit, shape_CommentGroup, shape_BadExpr_fresh, shape_Ident_fresh, shape_BasicLit_fresh, shape_BadStmt_fresh, shape_EmptyStmt_fresh, shape_BranchStmt_fresh, shape_ImportSpec_fresh, shape_BadDecl_fresh, icElt]

theorem shape_ExprNode_BasicLit (x : ast.BasicLit) : SameShape copyExpr ast.Expr.shape (some (.BasicLit x)) := by
  intro y h
  rw [copyExpr] at h
  simp only [bind_eq_ok, pure_eq_ok] at h
  obtain rfl := h
  simp only [ast.Expr.shape, ast.ExprNode.shape, shape_Ident, shape_IdentList, shape_BasicLit, shape_CommentGroup, shape_BadExpr_fresh, shape_Ident_fresh, shape_BasicLit_fresh, shape_BadStmt_fresh, shape_EmptyStmt_fresh, shape_BranchStmt_fresh, shape_ImportSpec_fresh, shape_BadDecl_fresh]

theorem shape_ExprNode_FuncLit (xType : Option ast.FuncType) (xBody : Option ast.BlockStmt)
    (iType : SameShape FuncType ast.FuncType.shapePtr xType)
    (iBody : SameShape BlockStmt ast.BlockStmt.shapePtr xBody)
    : SameShape copyExpr ast.Expr.shape (some (.FuncLit xType xBody)) := by
  intro y h
  rw [copyExpr] at h
  simp only [bind_eq_ok, pure_eq_ok] at h
  obtain ⟨cType, hcType, cBody, hcBody, rfl⟩ := h
  have icType := iType cType hcType
  have icBody := iBody cBody hcBody
  simp only [ast.Expr.shape, ast.ExprNode.shape, shape_Ident, shape_IdentList, shape_BasicLit, shape_CommentGroup, shape_BadExpr_fresh, shape_Ident_fresh, shape_BasicLit_fresh, shape_BadStmt_fresh, shape_EmptyStmt_fresh, shape_BranchStmt_fresh, shape_ImportSpec_fresh, shape_BadDecl_fresh, icType, icBody]

theorem shape_ExprNode_CompositeLit (xType : Option ast.ExprNode) (xLbrace : token.Pos) (xElts : Option (List (Option ast.ExprNode))) (xRbrace : token.Pos) (xIncomplete : Bool)
    (iType : SameShape copyExpr ast.Expr.shape xType)
    (iElts : SameShape ExprList ast.Expr.shapeSlice xElts)
    : SameShape copyExpr ast.Expr.shape (some (.CompositeLit xType xLbrace xElts xRbrace xIncomplete)) := by
  intro y h
  rw [copyExpr] at h
  simp only [bind_eq_ok, pure_eq_ok] at h
  obtain ⟨cType, hcType, cElts, hcElts, rfl⟩ := h
  have icType := iType cType hcType
  have icElts := iElts cElts hcElts
  simp only [ast.Expr.shape, ast.ExprNode.shape, shape_Ident, shape_IdentList, shape_BasicLit, shape_CommentGroup, shape_BadExpr_fresh, shape_Ident_fresh, shape_BasicLit_fresh, shape_BadStmt_fresh, shape_EmptyStmt_fresh, shape_BranchStmt_fresh, shape_ImportSpec_fresh, shape_BadDecl_fresh, icType, icElts]

theorem shape_ExprNode_ParenExpr (xLparen : token.Pos) (xX : Option ast.ExprNode) (xRparen : token.Pos)
    (iX : SameShape copyExpr ast.Expr.shape xX)
    : SameShape copyExpr ast.Expr.shape (some (.ParenExpr xLparen xX xRparen)) := by
  intro y h
  rw [copyExpr] at h
  simp only [bind_eq_ok, pure_eq_ok] at h
  obtain ⟨cX, hcX, rfl⟩ := h
  have icX := iX cX hcX
  simp only [ast.Expr.shape, ast.ExprNode.shape, shape_Ident, shape_IdentList, shape_BasicLit, shape_CommentGroup, shape_BadExpr_fresh, shape_Ident_fresh, shape_BasicLit_fresh, shape_BadStmt_fresh, shape_EmptyStmt_fresh, shape_BranchStmt_fresh, shape_ImportSpec_fresh, shape_BadDecl_fresh, icX]

theorem shape_ExprNode_SelectorExpr (xX : Option ast.ExprNode) (xSel : Option ast.Ident)
    (iX : SameShape copyExpr ast.Expr.shape xX)
    : SameShape copyExpr ast.Expr.shape (some (.SelectorExpr xX xSel)) := by
  intro y h
  rw [copyExpr] at h
  simp only [bind_eq_ok, pure_eq_ok] at h
  obtain ⟨cX, hcX, rfl⟩ := h
  have icX := iX cX hcX
  simp only [ast.Expr.shape, ast.ExprNode.shape, shape_Ident, shape_IdentList, shape_BasicLit, shape_CommentGroup, shape_BadExpr_fresh, shape_Ident_fresh, shape_BasicLit_fresh, shape_BadStmt_fresh, shape_EmptyStmt_fresh, shape_BranchStmt_fresh, shape_ImportSpec_fresh, shape_BadDecl_fresh, icX]

theorem shape_ExprNode_IndexExpr (xX : Option ast.ExprNode) (xLbrack : token.Pos) (xIndex : Option ast.ExprNode) (xRbrack : token.Pos)
    (iX : SameShape copyExpr ast.Expr.shape xX)
    (iIndex : SameShape copyExpr ast.Expr.shape xIndex)
    : SameShape copyExpr ast.Expr.shape (some (.IndexExpr xX xLbrack xIndex xRbrack)) := by
  intro y h
  rw [copyExpr] at h
  simp only [bind_eq_ok, pure_eq_ok] at h
  obtain ⟨cX, hcX, cIndex, hcIndex, rfl⟩ := h
  have icX := iX cX hcX
  have icIndex := iIndex cIndex hcIndex
  simp only [ast.Expr.shape, ast.ExprNode.shape, shape_Ident, shape_IdentList, shape_BasicLit, shape_CommentGroup, shape_BadExpr_fresh, shape_Ident_fresh, shape_BasicLit_fresh, shape_BadStmt_fresh, shape_EmptyStmt_fresh, shape_BranchStmt_fresh, shape_ImportSpec_fresh, shape_BadDecl_fresh, icX, icIndex]

theorem shape_ExprNode_SliceExpr (xX : Option ast.ExprNode) (xLbrack : token.Pos) (xLow : Option ast.ExprNode) (xHigh : Option ast.ExprNode) (xMax : Option ast.ExprNode) (xSlice3 : Bool) (xRbrack : token.Pos)
    (iX : SameShape copyExpr ast.Expr.shape xX)
    (iLow : SameShape copyExpr ast.Expr.shape xLow)
    (iHigh : SameShape copyExpr ast.Expr.shape xHigh)
    (iMax : SameShape copyExpr ast.Expr.shape xMax)
    : SameShape copyExpr ast.Expr.shape (some (.SliceExpr xX xLbrack xLow xHigh xMax xSlice3 xRbrack)) := by
  intro y h
  rw [copyExpr] at h
  simp only [bind_eq_ok, pure_eq_ok] at h
  obtain ⟨cX, hcX, cLow, hcLow, cHigh, hcHigh, cMax, hcMax, rfl⟩ := h
  have icX := iX cX hcX
  have icLow := iLow cLow hcLow
  have icHigh := iHigh cHigh hcHigh
  have icMax := iMax cMax hcMax
  simp only [ast.Expr.shape, ast.ExprNode.shape, shape_Ident, shape_IdentList, shape_BasicLit, shape_CommentGroup, shape_BadExpr_fresh, shape_Ident_fresh, shape_BasicLit_fresh, shape_BadStmt_fresh, shape_EmptyStmt_fresh, shape_BranchStmt_fresh, shape_ImportSpec_fresh, shape_BadDecl_fresh, icX, icLow, icHigh, icMax]

theorem shape_ExprNode_TypeAssertExpr (xX : Option ast.ExprNode) (xLparen : token.Pos) (xType : Option ast.ExprNode) (xRparen : token.Pos)
    (iX : SameShape copyExpr ast.Expr.shape xX)
    (iType : SameShape copyExpr ast.Expr.shape xType)
    : SameShape copyExpr ast.Expr.shape (some (.TypeAssertExpr xX xLparen xType xRparen)) := by
  intro y h
  rw [copyExpr] at h
  simp only [bind_eq_ok, pure_eq_ok] at h
  obtain ⟨cX, hcX, cType, hcType, rfl⟩ := h
  have icX := iX cX hcX
  have icType := iType cType hcType
  simp only [ast.Expr.shape, ast.ExprNode.shape, shape_Ident, shape_IdentList, shape_BasicLit, shape_CommentGroup, shape_BadExpr_fresh, shape_Ident_fresh, shape_BasicLit_fresh, shape_BadStmt_fresh, shape_EmptyStmt_fresh, shape_BranchStmt_fresh, shape_ImportSpec_fresh, shape_BadDecl_fresh, icX, icType]

theorem shape_ExprNode_CallExpr (x : ast.CallExpr) (ix : SameShape CallExpr.fresh ast.CallExpr.shape x) :
    SameShape copyExpr ast.Expr.shape (some (.CallExpr x)) := by
  intro y h
  rw [copyExpr] at h
  simp only [bind_eq_ok, pure_eq_ok] at h
  obtain ⟨c, hc, rfl⟩ := h
  have ic := ix c hc
  simp only [ast.Expr.shape, ast.ExprNode.shape, shape_Ident, shape_IdentList, shape_BasicLit, shape_CommentGroup, shape_BadExpr_fresh, shape_Ident_fresh, shape_BasicLit_fresh, shape_BadStmt_fresh, shape_EmptyStmt_fresh, shape_BranchStmt_fresh, shape_ImportSpec_fresh, shape_BadDecl_fresh, ic]

theorem shape_ExprNode_StarExpr (xStar : token.Pos) (xX : Option ast.ExprNode)
    (iX : SameShape copyExpr ast.Expr.shape xX)
    : SameShape copyExpr ast.Expr.shape (some (.StarExpr xStar xX)) := by
  intro y h
  rw [copyExpr] at h
  simp only [bind_eq_ok, pure_eq_ok] at h
  obtain ⟨cX, hcX, rfl⟩ := h
  have icX := iX cX hcX
  simp only [ast.Expr.shape, ast.ExprNode.shape, shape_Ident, shape_IdentList, shape_BasicLit, shape_CommentGroup, shape_BadExpr_fresh, shape_Ident_fresh, shape_BasicLit_fresh, shape_BadStmt_fresh, shape_EmptyStmt_fresh, shape_BranchStmt_fresh, shape_ImportSpec_fresh, shape_BadDecl_fresh, icX]

theorem shape_ExprNode_UnaryExpr (xOpPos : token.Pos) (xOp : token.Token) (xX : Option ast.ExprNode)
    (iX : SameShape copyExpr ast.Expr.shape xX)
    : SameShape copyExpr ast.Expr.shape (some (.UnaryExpr xOpPos xOp xX)) := by
  intro y h
  rw [copyExpr] at h
  simp only [bind_eq_ok, pure_eq_ok] at h
  obtain ⟨cX, hcX, rfl⟩ := h
  have icX := iX cX hcX
  simp only [ast.Expr.shape, ast.ExprNode.shape, shape_Ident, shape_IdentList, shape_BasicLit, shape_CommentGroup, shape_BadExpr_fresh, shape_Ident_fresh, shape_BasicLit_fresh, shape_BadStmt_fresh, shape_EmptyStmt_fresh, shape_BranchStmt_fresh, shape_ImportSpec_fresh, shape_BadDecl_fresh, icX]

theorem shape_ExprNode_BinaryExpr (xX : Option ast.ExprNode) (xOpPos : token.Pos) (xOp : token.Token) (xY : Option ast.ExprNode)
    (iX : SameShape copyExpr ast.Expr.shape xX)
    (iY : SameShape copyExpr ast.Expr.shape xY)
    : SameShape copyExpr ast.Expr.shape (some (.BinaryExpr xX xOpPos xOp xY)) := by
  intro y h
  rw [copyExpr] at h
  simp only [bind_eq_ok, pure_eq_ok] at h
  obtain ⟨cX, hcX, cY, hcY, rfl⟩ := h
  have icX := iX cX hcX
  have icY := iY cY hcY
  simp only [ast.Expr.shape, ast.ExprNode.shape, shape_Ident, shape_IdentList, shape_BasicLit, shape_CommentGroup, shape_BadExpr_fresh, shape_Ident_fresh, shape_BasicLit_fresh, shape_BadStmt_fresh, shape_EmptyStmt_fresh, shape_BranchStmt_fresh, shape_ImportSpec_fresh, shape_BadDecl_fresh, icX, icY]

theorem shape_ExprNode_KeyValueExpr (xKey : Option ast.ExprNode) (xColon : token.Pos) (xValue : Option ast.ExprNode)
    (iKey : SameShape copyExpr ast.Expr.shape xKey)
    (iValue : SameShape copyExpr ast.Expr.shape xValue)
    : SameShape copyExpr ast.Expr.shape (some (.KeyValueExpr xKey xColon xValue)) := by
  intro y h
  rw [copyExpr] at h
  simp only [bind_eq_ok, pure_eq_ok] at h
  obtain ⟨cKey, hcKey, cValue, hcValue, rfl⟩ := h
  have icKey := iKey cKey hcKey
  have icValue := iValue cValue hcValue
  simp only [ast.Expr.shape, ast.ExprNode.shape, shape_Ident, shape_IdentList, shape_BasicLit, shape_CommentGroup, shape_BadExpr_fresh, shape_Ident_fresh, shape_BasicLit_fresh, shape_BadStmt_fresh, shape_EmptyStmt_fresh, shape_BranchStmt_fresh, shape_ImportSpec_fresh, shape_BadDecl_fresh, icKey, icValue]

theorem shape_ExprNode_ArrayType (xLbrack : token.Pos) (xLen : Option ast.ExprNode) (xElt : Option ast.ExprNode)
    (iLen : SameShape copyExpr ast.Expr.shape xLen)
    (iElt : SameShape copyExpr ast.Expr.shape xElt)
    : SameShape copyExpr ast.Expr.shape (some (.ArrayType xLbrack xLen xElt)) := by
  intro y h
  rw [copyExpr] at h
  simp only [bind_eq_ok, pure_eq_ok] at h
  obtain ⟨cLen, hcLen, cElt, hcElt, rfl⟩ := h
  have icLen := iLen cLen hcLen
  have icElt := iElt cElt hcElt
  simp only [ast.Expr.shape, ast.ExprNode.shape, shape_Ident, shape_IdentList, shape_BasicLit, shape_CommentGroup, shape_BadExpr_fresh, shape_Ident_fresh, shape_BasicLit_fresh, shape_BadStmt_fresh, shape_EmptyStmt_fresh, shape_BranchStmt_fresh, shape_ImportSpec_fresh, shape_BadDecl_fresh, icLen, icElt]

theorem shape_ExprNode_StructType (xStruct : token.Pos) (xFields : Option ast.FieldList) (xIncomplete : Bool)
    (iFields : SameShape FieldList ast.FieldList.shapePtr xFields)
    : SameShape copyExpr ast.Expr.shape (some (.StructType xStruct xFields xIncomplete)) := by
  intro y h
  rw [copyExpr] at h
  simp only [bind_eq_ok, pure_eq_ok] at h
  obtain ⟨cFields, hcFields, rfl⟩ := h
  have icFields := iFields cFields hcFields
  simp only [ast.Expr.shape, ast.ExprNode.shape, shape_Ident, shape_IdentList, shape_BasicLit, shape_CommentGroup, shape_BadExpr_fresh, shape_Ident_fresh, shape_BasicLit_fresh, shape_BadStmt_fresh, shape_EmptyStmt_fresh, shape_BranchStmt_fresh, shape_ImportSpec_fresh, shape_BadDecl_fresh, icFields]

theorem shape_ExprNode_FuncType (x : ast.FuncType) (ix : SameShape FuncType.fresh ast.FuncType.shape x) :
    SameShape copyExpr ast.Expr.shape (some (.FuncType x)) := by
  intro y h
  rw [copyExpr] at h
  simp only [bind_eq_ok, pure_eq_ok] at h
  obtain ⟨c, hc, rfl⟩ := h
  have ic := ix c hc
  simp only [ast.Expr.shape, ast.ExprNode.shape, shape_Ident, shape_IdentList, shape_BasicLit, shape_CommentGroup, shape_BadExpr_fresh, shape_Ident_fresh, shape_BasicLit_fresh, shape_BadStmt_fresh, shape_EmptyStmt_fresh, shape_BranchStmt_fresh, shape_ImportSpec_fresh, shape_BadDecl_fresh, ic]

theorem shape_ExprNode_InterfaceType (xInterface : token.Pos) (xMethods : Option ast.FieldList) (xIncomplete : Bool)
    (iMethods : SameShape FieldList ast.FieldList.shapePtr xMethods)
    : SameShape copyExpr ast.Expr.shape (some (.InterfaceType xInterface xMethods xIncomplete)) := by
  intro y h
  rw [copyExpr] at h
  simp only [bind_eq_ok, pure_eq_ok] at h
  obtain ⟨cMethods, hcMethods, rfl⟩ := h
  have icMethods := iMethods cMethods hcMethods
  simp only [ast.Expr.shape, ast.ExprNode.shape, shape_Ident, shape_IdentList, shape_BasicLit, shape_CommentGroup, shape_BadExpr_fresh, shape_Ident_fresh, shape_BasicLit_fresh, shape_BadStmt_fresh, shape_EmptyStmt_fresh, shape_BranchStmt_fresh, shape_ImportSpec_fresh, shape_BadDecl_fresh, icMethods]

theorem shape_ExprNode_MapType (xMap : token.Pos) (xKey : Option ast.ExprNode) (xValue : Option ast.ExprNode)
    (iKey : SameShape copyExpr ast.Expr.shape xKey)
    (iValue : SameShape copyExpr ast.Expr.shape xValue)
    : SameShape copyExpr ast.Expr.shape (some (.MapType xMap xKey xValue)) := by
  intro y h
  rw [copyExpr] at h
  simp only [bind_eq_ok, pure_eq_ok] at h
  obtain ⟨cKey, hcKey, cValue, hcValue, rfl⟩ := h
  have icKey := iKey cKey hcKey
  have icValue := iValue cValue hcValue
  simp only [ast.Expr.shape, ast.ExprNode.shape, shape_Ident, shape_IdentList, shape_BasicLit, shape_CommentGroup, shape_BadExpr_fresh, shape_Ident_fresh, shape_BasicLit_fresh, shape_BadStmt_fresh, shape_EmptyStmt_fresh, shape_BranchStmt_fresh, shape_ImportSpec_fresh, shape_BadDecl_fresh, icKey, icValue]

theorem shape_ExprNode_ChanType (xBegin : token.Pos) (xArrow : token.Pos) (xDir : ast.ChanDir) (xValue : Option ast.ExprNode)
    (iValue : SameShape copyExpr ast.Expr.shape xValue)
    : SameShape copyExpr ast.Expr.shape (some (.ChanType xBegin xArrow xDir xValue)) := by
  intro y h
  rw [copyExpr] at h
  simp only [bind_eq_ok, pure_eq_ok] at h
  obtain ⟨cValue, hcValue, rfl⟩ := h
  have icValue := iValue cValue hcValue
  simp only [ast.Expr.shape, ast.ExprNode.shape, shape_Ident, shape_IdentList, shape_BasicLit, shape_CommentGroup, shape_BadExpr_fresh, shape_Ident_fresh, shape_BasicLit_fresh, shape_BadStmt_fresh, shape_EmptyStmt_fresh, shape_BranchStmt_fresh, shape_ImportSpec_fresh, shape_BadDecl_fresh, icValue]

theorem shape_ExprNode_other (typ : String) : SameShape copyExpr ast.Expr.shape (some (.other typ)) := by
  intro y h
  exact absurd h (by rw [copyExpr]; exact throw_ne_ok)

theorem shape_StmtNode_BadStmt (x : ast.BadStmt) : SameShape copyStmt ast.Stmt.shape (some (.BadStmt x)) := by
  intro y h
  rw [copyStmt] at h
  simp only [bind_eq_ok, pure_eq_ok] at h
  obtain rfl := h
  simp only [ast.Stmt.shape, ast.StmtNode.shape, shape_Ident, shape_IdentList, shape_BasicLit, shape_CommentGroup, shape_BadExpr_fresh, shape_Ident_fresh, shape_BasicLit_fresh, shape_BadStmt_fresh, shape_EmptyStmt_fresh, shape_BranchStmt_fresh, shape_ImportSpec_fresh, shape_BadDecl_fresh]

theorem shape_StmtNode_DeclStmt (xDecl : Option ast.DeclNode)
    (iDecl : SameShape copyDecl ast.Decl.shape xDecl)
    : SameShape copyStmt ast.Stmt.shape (some (.DeclStmt xDecl)) := by
  intro y h
  rw [copyStmt] at h
  simp only [bind_eq_ok, pure_eq_ok] at h
  obtain ⟨cDecl, hcDecl, rfl⟩ := h
  have icDecl := iDecl cDecl hcDecl
  simp only [ast.Stmt.shape, ast.StmtNode.shape, shape_Ident, shape_IdentList, shape_BasicLit, shape_CommentGroup, shape_BadExpr_fresh, shape_Ident_fresh, shape_BasicLit_fresh, shape_BadStmt_fresh, shape_EmptyStmt_fresh, shape_BranchStmt_fresh, shape_ImportSpec_fresh, shape_BadDecl_fresh, icDecl]

theorem shape_StmtNode_EmptyStmt (x : ast.EmptyStmt) : SameShape copyStmt ast.Stmt.shape (some (.EmptyStmt x)) := by
  intro y h
  rw [copyStmt] at h
  simp only [bind_eq_ok, pure_eq_ok] at h
  obtain rfl := h
  simp only [ast.Stmt.shape, ast.StmtNode.shape, shape_Ident, shape_IdentList, shape_BasicLit, shape_CommentGroup, shape_BadExpr_fresh, shape_Ident_fresh, shape_BasicLit_fresh, shape_BadStmt_fresh, shape_EmptyStmt_fresh, shape_BranchStmt_fresh, shape_ImportSpec_fresh, shape_BadDecl_fresh]

theorem shape_StmtNode_LabeledStmt (xLabel : Option ast.Ident) (xColon : token.Pos) (xStmt : Option ast.StmtNode)
    (iStmt : SameShape copyStmt ast.Stmt.shape xStmt)
    : SameShape copyStmt ast.Stmt.shape (some (.LabeledStmt xLabel xColon xStmt)) := by
  intro y h
  rw [copyStmt] at h
  simp only [bind_eq_ok, pure_eq_ok] at h
  obtain ⟨cStmt, hcStmt, rfl⟩ := h
  have icStmt := iStmt cStmt hcStmt
  simp only [ast.Stmt.shape, ast.StmtNode.shape, shape_Ident, shape_IdentList, shape_BasicLit, shape_CommentGroup, shape_BadExpr_fresh, shape_Ident_fresh, shape_BasicLit_fresh, shape_BadStmt_fresh, shape_EmptyStmt_fresh, shape_BranchStmt_fresh, shape_ImportSpec_fresh, shape_BadDecl_fresh, icStmt]

theorem shape_StmtNode_ExprStmt (xX : Option ast.ExprNode)
    (iX : SameShape copyExpr ast.Expr.shape xX)
    : SameShape copyStmt ast.Stmt.shape (some (.ExprStmt xX)) := by
  intro y h
  rw [copyStmt] at h
  simp only [bind_eq_ok, pure_eq_ok] at h
  obtain ⟨cX, hcX, rfl⟩ := h
  have icX := iX cX hcX
  simp only [ast.Stmt.shape, ast.StmtNode.shape, shape_Ident, shape_IdentList, shape_BasicLit, shape_CommentGroup, shape_BadExpr_fresh, shape_Ident_fresh, shape_BasicLit_fresh, shape_BadStmt_fresh, shape_EmptyStmt_fresh, shape_BranchStmt_fresh, shape_ImportSpec_fresh, shape_BadDecl_fresh, icX]

theorem shape_StmtNode_SendStmt (xChan : Option ast.ExprNode) (xArrow : token.Pos) (xValue : Option ast.ExprNode)
    (iChan : SameShape copyExpr ast.Expr.shape xChan)
    (iValue : SameShape copyExpr ast.Expr.shape xValue)
    : SameShape copyStmt ast.Stmt.shape (some (.SendStmt xChan xArrow xValue)) := by
  intro y h
  rw [copyStmt] at h
  simp only [bind_eq_ok, pure_eq_ok] at h
  obtain ⟨cChan, hcChan, cValue, hcValue, rfl⟩ := h
  have icChan := iChan cChan hcChan
  have icValue := iValue cValue hcValue
  simp only [ast.Stmt.shape, ast.StmtNode.shape, shape_Ident, shape_IdentList, shape_BasicLit, shape_CommentGroup, shape_BadExpr_fresh, shape_Ident_fresh, shape_BasicLit_fresh, shape_BadStmt_fresh, shape_EmptyStmt_fresh, shape_BranchStmt_fresh, shape_ImportSpec_fresh, shape_BadDecl_fresh, icChan, icValue]

theorem shape_StmtNode_IncDecStmt (xX : Option ast.ExprNode) (xTokPos : token.Pos) (xTok : token.Token)
    (iX : SameShape copyExpr ast.Expr.shape xX)
    : SameShape copyStmt ast.Stmt.shape (some (.IncDecStmt xX xTokPos xTok)) := by
  intro y h
  rw [copyStmt] at h
  simp only [bind_eq_ok, pure_eq_ok] at h
  obtain ⟨cX, hcX, rfl⟩ := h
  have icX := iX cX hcX
  simp only [ast.Stmt.shape, ast.StmtNode.shape, shape_Ident, shape_IdentList, shape_BasicLit, shape_CommentGroup, shape_BadExpr_fresh, shape_Ident_fresh, shape_BasicLit_fresh, shape_BadStmt_fresh, shape_EmptyStmt_fresh, shape_BranchStmt_fresh, shape_ImportSpec_fresh, shape_BadDecl_fresh, icX]

theorem shape_StmtNode_AssignStmt (xLhs : Option (List (Option ast.ExprNode))) (xTokPos : token.Pos) (xTok : token.Token) (xRhs : Option (List (Option ast.ExprNode)))
    (iLhs : SameShape ExprList ast.Expr.shapeSlice xLhs)
    (iRhs : SameShape ExprList ast.Expr.shapeSlice xRhs)
    : SameShape copyStmt ast.Stmt.shape (some (.AssignStmt xLhs xTokPos xTok xRhs)) := by
  intro y h
  rw [copyStmt] at h
  simp only [bind_eq_ok, pure_eq_ok] at h
  obtain ⟨cLhs, hcLhs, cRhs, hcRhs, rfl⟩ := h
  have icLhs := iLhs cLhs hcLhs
  have icRhs := iRhs cRhs hcRhs
  simp only [ast.Stmt.shape, ast.StmtNode.shape, shape_Ident, shape_IdentList, shape_BasicLit, shape_CommentGroup, shape_BadExpr_fresh, shape_Ident_fresh, shape_BasicLit_fresh, shape_BadStmt_fresh, shape_EmptyStmt_fresh, shape_BranchStmt_fresh, shape_ImportSpec_fresh, shape_BadDecl_fresh, icLhs, icRhs]

theorem shape_StmtNode_GoStmt (xGo : token.Pos) (xCall : Option ast.CallExpr)
    (iCall : SameShape CallExpr ast.CallExpr.shapePtr xCall)
    : SameShape copyStmt ast.Stmt.shape (some (.GoStmt xGo xCall)) := by
  intro y h
  rw [copyStmt] at h
  simp only [bind_eq_ok, pure_eq_ok] at h
  obtain ⟨cCall, hcCall, rfl⟩ := h
  have icCall := iCall cCall hcCall
  simp only [ast.Stmt.shape, ast.StmtNode.shape, shape_Ident, shape_IdentList, shape_BasicLit, shape_CommentGroup, shape_BadExpr_fresh, shape_Ident_fresh, shape_BasicLit_fresh, shape_BadStmt_fresh, shape_EmptyStmt_fresh, shape_BranchStmt_fresh, shape_ImportSpec_fresh, shape_BadDecl_fresh, icCall]

theorem shape_StmtNode_DeferStmt (xDefer : token.Pos) (xCall : Option ast.CallExpr)
    (iCall : SameShape CallExpr ast.CallExpr.shapePtr xCall)
    : SameShape copyStmt ast.Stmt.shape (some (.DeferStmt xDefer xCall)) := by
  intro y h
  rw [copyStmt] at h
  simp only [bind_eq_ok, pure_eq_ok] at h
  obtain ⟨cCall, hcCall, rfl⟩ := h
  have icCall := iCall cCall hcCall
  simp only [ast.Stmt.shape, ast.StmtNode.shape, shape_Ident, shape_IdentList, shape_BasicLit, shape_CommentGroup, shape_BadExpr_fresh, shape_Ident_fresh, shape_BasicLit_fresh, shape_BadStmt_fresh, shape_EmptyStmt_fresh, shape_BranchStmt_fresh, shape_ImportSpec_fresh, shape_BadDecl_fresh, icCall]

theorem shape_StmtNode_ReturnStmt (xReturn : token.Pos) (xResults : Option (List (Option ast.ExprNode)))
    (iResults : SameShape ExprList ast.Expr.shapeSlice xResults)
    : SameShape copyStmt ast.Stmt.shape (some (.ReturnStmt xReturn xResults)) := by
  intro y h
  rw [copyStmt] at h
  simp only [bind_eq_ok, pure_eq_ok] at h
  obtain ⟨cResults, hcResults, rfl⟩ := h
  have icResults := iResults cResults hcResults
  simp only [ast.Stmt.shape, ast.StmtNode.shape, shape_Ident, shape_IdentList, shape_BasicLit, shape_CommentGroup, shape_BadExpr_fresh, shape_Ident_fresh, shape_BasicLit_fresh, shape_BadStmt_fresh, shape_EmptyStmt_fresh, shape_BranchStmt_fresh, shape_ImportSpec_fresh, shape_BadDecl_fresh, icResults]

theorem shape_StmtNode_BranchStmt (x : ast.BranchStmt) : SameShape copyStmt ast.Stmt.shape (some (.BranchStmt x)) := by
  intro y h
  rw [copyStmt] at h
  simp only [bind_eq_ok, pure_eq_ok] at h
  obtain rfl := h
  simp only [ast.Stmt.shape, ast.StmtNode.shape, shape_Ident, shape_IdentList, shape_BasicLit, shape_CommentGroup, shape_BadExpr_fresh, shape_Ident_fresh, shape_BasicLit_fresh, shape_BadStmt_fresh, shape_EmptyStmt_fresh, shape_BranchStmt_fresh, shape_ImportSpec_fresh, shape_BadDecl_fresh]

theorem shape_StmtNode_BlockStmt (x : ast.BlockStmt) (ix : SameShape BlockStmt.fresh ast.BlockStmt.shape x) :
    SameShape copyStmt ast.Stmt.shape (some (.BlockStmt x)) := by
  intro y h
  rw [copyStmt] at h
  simp only [bind_eq_ok, pure_eq_ok] at h
  obtain ⟨c, hc, rfl⟩ := h
  have ic := ix c hc
  simp only [ast.Stmt.shape, ast.StmtNode.shape, shape_Ident, shape_IdentList, shape_BasicLit, shape_CommentGroup, shape_BadExpr_fresh, shape_Ident_fresh, shape_BasicLit_fresh, shape_BadStmt_fresh, shape_EmptyStmt_fresh, shape_BranchStmt_fresh, shape_ImportSpec_fresh, shape_BadDecl_fresh, ic]

theorem shape_StmtNode_IfStmt (xIf : token.Pos) (xInit : Option ast.StmtNode) (xCond : Option ast.ExprNode) (xBody : Option ast.BlockStmt) (xElse : Option ast.StmtNode)
    (iInit : SameShape copyStmt ast.Stmt.shape xInit)
    (iCond : SameShape copyExpr ast.Expr.shape xCond)
    (iBody : SameShape BlockStmt ast.BlockStmt.shapePtr xBody)
    (iElse : SameShape copyStmt ast.Stmt.shape xElse)
    : SameShape copyStmt ast.Stmt.shape (some (.IfStmt xIf xInit xCond xBody xElse)) := by
  intro y h
  rw [copyStmt] at h
  simp only [bind_eq_ok, pure_eq_ok] at h
  obtain ⟨cInit, hcInit, cCond, hcCond, cBody, hcBody, cElse, hcElse, rfl⟩ := h
  have icInit := iInit cInit hcInit
  have icCond := iCond cCond hcCond
  have icBody := iBody cBody hcBody
  have icElse := iElse cElse hcElse
  simp only [ast.Stmt.shape, ast.StmtNode.shape, shape_Ident, shape_IdentList, shape_BasicLit, shape_CommentGroup, shape_BadExpr_fresh, shape_Ident_fresh, shape_BasicLit_fresh, shape_BadStmt_fresh, shape_EmptyStmt_fresh, shape_BranchStmt_fresh, shape_ImportSpec_fresh, shape_BadDecl_fresh, icInit, icCond, icBody, icElse]

theorem shape_StmtNode_CaseClause (xCase : token.Pos) (xList : Option (List (Option ast.ExprNode))) (xColon : token.Pos) (xBody : Option (List (Option ast.StmtNode)))
    (iList : SameShape ExprList ast.Expr.shapeSlice xList)
    (iBody : SameShape StmtList ast.Stmt.shapeSlice xBody)
    : SameShape copyStmt ast.Stmt.shape (some (.CaseClause xCase xList xColon xBody)) := by
  intro y h
  rw [copyStmt] at h
  simp only [bind_eq_ok, pure_eq_ok] at h
  obtain ⟨cList, hcList, cBody, hcBody, rfl⟩ := h
  have icList := iList cList hcList
  have icBody := iBody cBody hcBody
  simp only [ast.Stmt.shape, ast.StmtNode.shape, shape_Ident, shape_IdentList, shape_BasicLit, shape_CommentGroup, shape_BadExpr_fresh, shape_Ident_fresh, shape_BasicLit_fresh, shape_BadStmt_fresh, shape_EmptyStmt_fresh, shape_BranchStmt_fresh, shape_ImportSpec_fresh, shape_BadDecl_fresh, icList, icBody]

theorem shape_StmtNode_SwitchStmt (xSwitch : token.Pos) (xInit : Option ast.StmtNode) (xTag : Option ast.ExprNode) (xBody : Option ast.BlockStmt)
    (iInit : SameShape copyStmt ast.Stmt.shape xInit)
    (iTag : SameShape copyExpr ast.Expr.shape xTag)
    (iBody : SameShape BlockStmt ast.BlockStmt.shapePtr xBody)
    : SameShape copyStmt ast.Stmt.shape (some (.SwitchStmt xSwitch xInit xTag xBody)) := by
  intro y h
  rw [copyStmt] at h
  simp only [bind_eq_ok, pure_eq_ok] at h
  obtain ⟨cInit, hcInit, cTag, hcTag, cBody, hcBody, rfl⟩ := h
  have icInit := iInit cInit hcInit
  have icTag := iTag cTag hcTag
  have icBody := iBody cBody hcBody
  simp only [ast.Stmt.shape, ast.StmtNode.shape, shape_Ident, shape_IdentList, shape_BasicLit, shape_CommentGroup, shape_BadExpr_fresh, shape_Ident_fresh, shape_BasicLit_fresh, shape_BadStmt_fresh, shape_EmptyStmt_fresh, shape_BranchStmt_fresh, shape_ImportSpec_fresh, shape_BadDecl_fresh, icInit, icTag, icBody]

theorem shape_StmtNode_TypeSwitchStmt (xSwitch : token.Pos) (xInit : Option ast.StmtNode) (xAssign : Option ast.StmtNode) (xBody : Option ast.BlockStmt)
    (iInit : SameShape copyStmt ast.Stmt.shape xInit)
    (iAssign : SameShape copyStmt ast.Stmt.shape xAssign)
    (iBody : SameShape BlockStmt ast.BlockStmt.shapePtr xBody)
    : SameShape copyStmt ast.Stmt.shape (some (.TypeSwitchStmt xSwitch xInit xAssign xBody)) := by
  intro y h
  rw [copyStmt] at h
  simp only [bind_eq_ok, pure_eq_ok] at h
  obtain ⟨cInit, hcInit, cAssign, hcAssign, cBody, hcBody, rfl⟩ := h
  have icInit := iInit cInit hcInit
  have icAssign := iAssign cAssign hcAssign
  have icBody := iBody cBody hcBody
  simp only [ast.Stmt.shape, ast.StmtNode.shape, shape_Ident, shape_IdentList, shape_BasicLit, shape_CommentGroup, shape_BadExpr_fresh, shape_Ident_fresh, shape_BasicLit_fresh, shape_BadStmt_fresh, shape_EmptyStmt_fresh, shape_BranchStmt_fresh, shape_ImportSpec_fresh, shape_BadDecl_fresh, icInit, icAssign, icBody]

theorem shape_StmtNode_CommClause (xCase : token.Pos) (xComm : Option ast.StmtNode) (xColon : token.Pos) (xBody : Option (List (Option ast.StmtNode)))
    (iComm : SameShape copyStmt ast.Stmt.shape xComm)
    (iBody : SameShape StmtList ast.Stmt.shapeSlice xBody)
    : SameShape copyStmt ast.Stmt.shape (some (.CommClause xCase xComm xColon xBody)) := by
  intro y h
  rw [copyStmt] at h
  simp only [bind_eq_ok, pure_eq_ok] at h
  obtain ⟨cComm, hcComm, cBody, hcBody, rfl⟩ := h
  have icComm := iComm cComm hcComm
  have icBody := iBody cBody hcBody
  simp only [ast.Stmt.shape, ast.StmtNode.shape, shape_Ident, shape_IdentList, shape_BasicLit, shape_CommentGroup, shape_BadExpr_fresh, shape_Ident_fresh, shape_BasicLit_fresh, shape_BadStmt_fresh, shape_EmptyStmt_fresh, shape_BranchStmt_fresh, shape_ImportSpec_fresh, shape_BadDecl_fresh, icComm, icBody]

theorem shape_StmtNode_SelectStmt (xSelect : token.Pos) (xBody : Option ast.BlockStmt)
    (iBody : SameShape BlockStmt ast.BlockStmt.shapePtr xBody)
    : SameShape copyStmt ast.Stmt.shape (some (.SelectStmt xSelect xBody)) := by
  intro y h
  rw [copyStmt] at h
  simp only [bind_eq_ok, pure_eq_ok] at h
  obtain ⟨cBody, hcBody, rfl⟩ := h
  have icBody := iBody cBody hcBody
  simp only [ast.Stmt.shape, ast.StmtNode.shape, shape_Ident, shape_IdentList, shape_BasicLit, shape_CommentGroup, shape_BadExpr_fresh, shape_Ident_fresh, shape_BasicLit_fresh, shape_BadStmt_fresh, shape_EmptyStmt_fresh, shape_BranchStmt_fresh, shape_ImportSpec_fresh, shape_BadDecl_fresh, icBody]

theorem shape_StmtNode_ForStmt (xFor : token.Pos) (xInit : Option ast.StmtNode) (xCond : Option ast.ExprNode) (xPost : Option ast.StmtNode) (xBody : Option ast.BlockStmt)
    (iInit : SameShape copyStmt ast.Stmt.shape xInit)
    (iCond : SameShape copyExpr ast.Expr.shape xCond)
    (iPost : SameShape copyStmt ast.Stmt.shape xPost)
    (iBody : SameShape BlockStmt ast.BlockStmt.shapePtr xBody)
    : SameShape copyStmt ast.Stmt.shape (some (.ForStmt xFor xInit xCond xPost xBody)) := by
  intro y h
  rw [copyStmt] at h
  simp only [bind_eq_ok, pure_eq_ok] at h
  obtain ⟨cInit, hcInit, cCond, hcCond, cPost, hcPost, cBody, hcBody, rfl⟩ := h
  have icInit := iInit cInit hcInit
  have icCond := iCond cCond hcCond
  have icPost := iPost cPost hcPost
  have icBody := iBody cBody hcBody
  simp only [ast.Stmt.shape, ast.StmtNode.shape, shape_Ident, shape_IdentList, shape_BasicLit, shape_CommentGroup, shape_BadExpr_fresh, shape_Ident_fresh, shape_BasicLit_fresh, shape_BadStmt_fresh, shape_EmptyStmt_fresh, shape_BranchStmt_fresh, shape_ImportSpec_fresh, shape_BadDecl_fresh, icInit, icCond, icPost, icBody]

theorem shape_StmtNode_RangeStmt (xFor : token.Pos) (xKey : Option ast.ExprNode) (xValue : Option ast.ExprNode) (xTokPos : token.Pos) (xTok : token.Token) (xX : Option ast.ExprNode) (xBody : Option ast.BlockStmt)
    (iKey : SameShape copyExpr ast.Expr.shape xKey)
    (iValue : SameShape copyExpr ast.Expr.shape xValue)
    (iX : SameShape copyExpr ast.Expr.shape xX)
    (iBody : SameShape BlockStmt ast.BlockStmt.shapePtr xBody)
    : SameShape copyStmt ast.Stmt.shape (some (.RangeStmt xFor xKey xValue xTokPos xTok xX xBody)) := by
  intro y h
  rw [copyStmt] at h
  simp only [bind_eq_ok, pure_eq_ok] at h
  obtain ⟨cKey, hcKey, cValue, hcValue, cX, hcX, cBody, hcBody, rfl⟩ := h
  have icKey := iKey cKey hcKey
  have icValue := iValue cValue hcValue
  have icX := iX cX hcX
  have icBody := iBody cBody hcBody
  simp only [ast.Stmt.shape, ast.StmtNode.shape, shape_Ident, shape_IdentList, shape_BasicLit, shape_CommentGroup, shape_BadExpr_fresh, shape_Ident_fresh, shape_BasicLit_fresh, shape_BadStmt_fresh, shape_EmptyStmt_fresh, shape_BranchStmt_fresh, shape_ImportSpec_fresh, shape_BadDecl_fresh, icKey, icValue, icX, icBody]

theorem shape_StmtNode_other (typ : String) : SameShape copyStmt ast.Stmt.shape (some (.other typ)) := by
  intro y h
  exact absurd h (by rw [copyStmt]; exact throw_ne_ok)

theorem shape_SpecNode_ImportSpec (x : ast.ImportSpec) : SameShape Spec ast.Spec.shape (some (.ImportSpec x)) := by
  intro y h
  rw [Spec] at h
  simp only [bind_eq_ok, pure_eq_ok] at h
  obtain rfl := h
  simp only [ast.Spec.shape, ast.SpecNode.shape, shape_Ident, shape_IdentList, shape_BasicLit, shape_CommentGroup, shape_BadExpr_fresh, shape_Ident_fresh, shape_BasicLit_fresh, shape_BadStmt_fresh, shape_EmptyStmt_fresh, shape_BranchStmt_fresh, shape_ImportSpec_fresh, shape_BadDecl_fresh]

theorem shape_SpecNode_ValueSpec (xDoc : Option ast.CommentGroup) (xNames : Option (List (Option ast.Ident))) (xType : Option ast.ExprNode) (xValues : Option (List (Option ast.ExprNode))) (xComment : Option ast.CommentGroup)
    (iType : SameShape copyExpr ast.Expr.shape xType)
    (iValues : SameShape ExprList ast.Expr.shapeSlice xValues)
    : SameShape Spec ast.Spec.shape (some (.ValueSpec xDoc xNames xType xValues xComment)) := by
  intro y h
  rw [Spec] at h
  simp only [bind_eq_ok, pure_eq_ok] at h
  obtain ⟨cValues, hcValues, cType, hcType, rfl⟩ := h
  have icValues := iValues cValues hcValues
  have icType := iType cType hcType
  simp only [ast.Spec.shape, ast.SpecNode.shape, shape_Ident, shape_IdentList, shape_BasicLit, shape_CommentGroup, shape_BadExpr_fresh, shape_Ident_fresh, shape_BasicLit_fresh, shape_BadStmt_fresh, shape_EmptyStmt_fresh, shape_BranchStmt_fresh, shape_ImportSpec_fresh, shape_BadDecl_fresh, icValues, icType]

theorem shape_SpecNode_TypeSpec (xDoc : Option ast.CommentGroup) (xName : Option ast.Ident) (xAssign : token.Pos) (xType : Option ast.ExprNode) (xComment : Option ast.CommentGroup)
    (iType : SameShape copyExpr ast.Expr.shape xType)
    : SameShape Spec ast.Spec.shape (some (.TypeSpec xDoc xName xAssign xType xComment)) := by
  intro y h
  rw [Spec] at h
  simp only [bind_eq_ok, pure_eq_ok] at h
  obtain ⟨cType, hcType, rfl⟩ := h
  have icType := iType cType hcType
  simp only [ast.Spec.shape, ast.SpecNode.shape, shape_Ident, shape_IdentList, shape_BasicLit, shape_CommentGroup, shape_BadExpr_fresh, shape_Ident_fresh, shape_BasicLit_fresh, shape_BadStmt_fresh, shape_EmptyStmt_fresh, shape_BranchStmt_fresh, shape_ImportSpec_fresh, shape_BadDecl_fresh, icType]

theorem shape_SpecNode_other (typ : String) : SameShape Spec ast.Spec.shape (some (.other typ)) := by
  intro y h
  exact absurd h (by rw [Spec]; exact throw_ne_ok)

theorem shape_DeclNode_BadDecl (x : ast.BadDecl) : SameShape copyDecl ast.Decl.shape (some (.BadDecl x)) := by
  intro y h
  rw [copyDecl] at h
  simp only [bind_eq_ok, pure_eq_ok] at h
  obtain rfl := h
  simp only [ast.Decl.shape, ast.DeclNode.shape, shape_Ident, shape_IdentList, shape_BasicLit, shape_CommentGroup, shape_BadExpr_fresh, shape_Ident_fresh, shape_BasicLit_fresh, shape_BadStmt_fresh, shape_EmptyStmt_fresh, shape_BranchStmt_fresh, shape_ImportSpec_fresh, shape_BadDecl_fresh]

theorem shape_DeclNode_GenDecl (xDoc : Option ast.CommentGroup) (xTokPos : token.Pos) (xTok : token.Token) (xLparen : token.Pos) (xSpecs : Option (List (Option ast.SpecNode))) (xRparen : token.Pos)
    (iSpecs : SameShape SpecList ast.Spec.shapeSlice xSpecs)
    : SameShape copyDecl ast.Decl.shape (some (.GenDecl xDoc xTokPos xTok xLparen xSpecs xRparen)) := by
  intro y h
  rw [copyDecl] at h
  simp only [bind_eq_ok, pure_eq_ok] at h
  obtain ⟨cSpecs, hcSpecs, rfl⟩ := h
  have icSpecs := iSpecs cSpecs hcSpecs
  simp only [ast.Decl.shape, ast.DeclNode.shape, shape_Ident, shape_IdentList, shape_BasicLit, shape_CommentGroup, shape_BadExpr_fresh, shape_Ident_fresh, shape_BasicLit_fresh, shape_BadStmt_fresh, shape_EmptyStmt_fresh, shape_BranchStmt_fresh, shape_ImportSpec_fresh, shape_BadDecl_fresh, icSpecs]

theorem shape_DeclNode_FuncDecl (xDoc : Option ast.CommentGroup) (xRecv : Option ast.FieldList) (xName : Option ast.Ident) (xType : Option ast.FuncType) (xBody : Option ast.BlockStmt)
    (iRecv : SameShape FieldList ast.FieldList.shapePtr xRecv)
    (iType : SameShape FuncType ast.FuncType.shapePtr xType)
    (iBody : SameShape BlockStmt ast.BlockStmt.shapePtr xBody)
    : SameShape copyDecl ast.Decl.shape (some (.FuncDecl xDoc xRecv xName xType xBody)) := by
  intro y h
  rw [copyDecl] at h
  simp only [bind_eq_ok, pure_eq_ok] at h
  obtain ⟨cRecv, hcRecv, cType, hcType, cBody, hcBody, rfl⟩ := h
  have icRecv := iRecv cRecv hcRecv
  have icType := iType cType hcType
  have icBody := iBody cBody hcBody
  simp only [ast.Decl.shape, ast.DeclNode.shape, shape_Ident, shape_IdentList, shape_BasicLit, shape_CommentGroup, shape_BadExpr_fresh, shape_Ident_fresh, shape_BasicLit_fresh, shape_BadStmt_fresh, shape_EmptyStmt_fresh, shape_BranchStmt_fresh, shape_ImportSpec_fresh, shape_BadDecl_fresh, icRecv, icType, icBody]

theorem shape_DeclNode_other (typ : String) : SameShape copyDecl ast.Decl.shape (some (.other typ)) := by
  intro y h
  exact absurd h (by rw [copyDecl]; exact throw_ne_ok)

theorem shape_Opt_ExprNode_none : SameShape copyExpr ast.Expr.shape none := by
  intro y h
  rw [copyExpr] at h
  simp only [bind_eq_ok, pure_eq_ok] at h
  obtain rfl := h
  simp only [ast.Expr.shape, shape_Ident, shape_IdentList, shape_BasicLit, shape_CommentGroup, shape_BadExpr_fresh, shape_Ident_fresh, shape_BasicLit_fresh, shape_BadStmt_fresh, shape_EmptyStmt_fresh, shape_BranchStmt_fresh, shape_ImportSpec_fresh, shape_BadDecl_fresh]

theorem shape_Opt_ExprNode_some (val : ast.ExprNode) (ih : SameShape copyExpr ast.Expr.shape (some val)) : SameShape copyExpr ast.Expr.shape (some val) :=
  ih

theorem shape_Slice_Field_none : OnSlice (SameShape FieldList.loop ast.Field.shapeList) none := by
  intro xs h
  cases h

theorem shape_Slice_Field_some (val : List (Option ast.Field)) (ih : SameShape FieldList.loop ast.Field.shapeList val) : OnSlice (SameShape FieldList.loop ast.Field.shapeList) (some val) := by
  intro xs h
  cases h
  exact ih

theorem shape_Opt_FieldList_none : SameShape FieldList ast.FieldList.shapePtr none := by
  intro y h
  rw [FieldList] at h
  simp only [bind_eq_ok, pure_eq_ok] at h
  obtain rfl := h
  simp only [ast.FieldList.shapePtr, shape_Ident, shape_IdentList, shape_BasicLit, shape_CommentGroup, shape_BadExpr_fresh, shape_Ident_fresh, shape_BasicLit_fresh, shape_BadStmt_fresh, shape_EmptyStmt_fresh, shape_BranchStmt_fresh, shape_ImportSpec_fresh, shape_BadDecl_fresh]

theorem shape_Opt_FieldList_some (val : ast.FieldList) (ih : SameShape FieldList.fresh ast.FieldList.shape val) : SameShape FieldList ast.FieldList.shapePtr (some val) := by
  intro y h
  rw [FieldList] at h
  simp only [bind_eq_ok, pure_eq_ok] at h
  obtain ⟨c, hc, rfl⟩ := h
  have ic := ih c hc
  simp only [ast.FieldList.shapePtr, shape_Ident, shape_IdentList, shape_BasicLit, shape_CommentGroup, shape_BadExpr_fresh, shape_Ident_fresh, shape_BasicLit_fresh, shape_BadStmt_fresh, shape_EmptyStmt_fresh, shape_BranchStmt_fresh, shape_ImportSpec_fresh, shape_BadDecl_fresh, ic]

theorem shape_Slice_ExprNode_none : SameShape ExprList ast.Expr.shapeSlice none := by
  intro y h
  rw [ExprList] at h
  simp only [bind_eq_ok, pure_eq_ok] at h
  obtain rfl := h
  simp only [ast.Expr.shapeSlice, shape_Ident, shape_IdentList, shape_BasicLit, shape_CommentGroup, shape_BadExpr_fresh, shape_Ident_fresh, shape_BasicLit_fresh, shape_BadStmt_fresh, shape_EmptyStmt_fresh, shape_BranchStmt_fresh, shape_ImportSpec_fresh, shape_BadDecl_fresh]

theorem shape_Slice_ExprNode_some (val : List (Option ast.ExprNode)) (ih : SameShape ExprList.loop ast.Expr.shapeList val) : SameShape ExprList ast.Expr.shapeSlice (some val) := by
  intro y h
  rw [ExprList] at h
  simp only [bind_eq_ok, pure_eq_ok] at h
  obtain ⟨c, hc, rfl⟩ := h
  have ic := ih c hc
  simp only [ast.Expr.shapeSlice, shape_Ident, shape_IdentList, shape_BasicLit, shape_CommentGroup, shape_BadExpr_fresh, shape_Ident_fresh, shape_BasicLit_fresh, shape_BadStmt_fresh, shape_EmptyStmt_fresh, shape_BranchStmt_fresh, shape_ImportSpec_fresh, shape_BadDecl_fresh, ic]

theorem shape_Slice_StmtNode_none : SameShape StmtList ast.Stmt.shapeSlice none := by
  intro y h
  rw [StmtList] at h
  simp only [bind_eq_ok, pure_eq_ok] at h
  obtain rfl := h
  simp only [ast.Stmt.shapeSlice, shape_Ident, shape_IdentList, shape_BasicLit, shape_CommentGroup, shape_BadExpr_fresh, shape_Ident_fresh, shape_BasicLit_fresh, shape_BadStmt_fresh, shape_EmptyStmt_fresh, shape_BranchStmt_fresh, shape_ImportSpec_fresh, shape_BadDecl_fresh]

theorem shape_Slice_StmtNode_some (val : List (Option ast.StmtNode)) (ih : SameShape StmtList.loop ast.Stmt.shapeList val) : SameShape StmtList ast.Stmt.shapeSlice (some val) := by
  intro y h
  rw [StmtList] at h
  simp only [bind_eq_ok, pure_eq_ok] at h
  obtain ⟨c, hc, rfl⟩ := h
  have ic := ih c hc
  simp only [ast.Stmt.shapeSlice, shape_Ident, shape_IdentList, shape_BasicLit, shape_CommentGroup, shape_BadExpr_fresh, shape_Ident_fresh, shape_BasicLit_fresh, shape_BadStmt_fresh, shape_EmptyStmt_fresh, shape_BranchStmt_fresh, shape_ImportSpec_fresh, shape_BadDecl_fresh, ic]

theorem shape_Opt_FuncType_none : SameShape FuncType ast.FuncType.shapePtr none := by
  intro y h
  rw [FuncType] at h
  simp only [bind_eq_ok, pure_eq_ok] at h
  obtain rfl := h
  simp only [ast.FuncType.shapePtr, shape_Ident, shape_IdentList, shape_BasicLit, shape_CommentGroup, shape_BadExpr_fresh, shape_Ident_fresh, shape_BasicLit_fresh, shape_BadStmt_fresh, shape_EmptyStmt_fresh, shape_BranchStmt_fresh, shape_ImportSpec_fresh, shape_BadDecl_fresh]

theorem shape_Opt_FuncType_some (val : ast.FuncType) (ih : SameShape FuncType.fresh ast.FuncType.shape val) : SameShape FuncType ast.FuncType.shapePtr (some val) := by
  intro y h
  rw [FuncType] at h
  simp only [bind_eq_ok, pure_eq_ok] at h
  obtain ⟨c, hc, rfl⟩ := h
  have ic := ih c hc
  simp only [ast.FuncType.shapePtr, shape_Ident, shape_IdentList, shape_BasicLit, shape_CommentGroup, shape_BadExpr_fresh, shape_Ident_fresh, shape_BasicLit_fresh, shape_BadStmt_fresh, shape_EmptyStmt_fresh, shape_BranchStmt_fresh, shape_ImportSpec_fresh, shape_BadDecl_fresh, ic]

theorem shape_Opt_BlockStmt_none : SameShape BlockStmt ast.BlockStmt.shapePtr none := by
  intro y h
  rw [BlockStmt] at h
  simp only [bind_eq_ok, pure_eq_ok] at h
  obtain rfl := h
  simp only [ast.BlockStmt.shapePtr, shape_Ident, shape_IdentList, shape_BasicLit, shape_CommentGroup, shape_BadExpr_fresh, shape_Ident_fresh, shape_BasicLit_fresh, shape_BadStmt_fresh, shape_EmptyStmt_fresh, shape_BranchStmt_fresh, shape_ImportSpec_fresh, shape_BadDecl_fresh]

theorem shape_Opt_BlockStmt_some (val : ast.BlockStmt) (ih : SameShape BlockStmt.fresh ast.BlockStmt.shape val) : SameShape BlockStmt ast.BlockStmt.shapePtr (some val) := by
  intro y h
  rw [BlockStmt] at h
  simp only [bind_eq_ok, pure_eq_ok] at h
  obtain ⟨c, hc, rfl⟩ := h
  have ic := ih c hc
  simp only [ast.BlockStmt.shapePtr, shape_Ident, shape_IdentList, shape_BasicLit, shape_CommentGroup, shape_BadExpr_fresh, shape_Ident_fresh, shape_BasicLit_fresh, shape_BadStmt_fresh, shape_EmptyStmt_fresh, shape_BranchStmt_fresh, shape_ImportSpec_fresh, shape_BadDecl_fresh, ic]

theorem shape_Opt_DeclNode_none : SameShape copyDecl ast.Decl.shape none := by
  intro y h
  rw [copyDecl] at h
  simp only [bind_eq_ok, pure_eq_ok] at h
  obtain rfl := h
  simp only [ast.Decl.shape, shape_Ident, shape_IdentList, shape_BasicLit, shape_CommentGroup, shape_BadExpr_fresh, shape_Ident_fresh, shape_BasicLit_fresh, shape_BadStmt_fresh, shape_EmptyStmt_fresh, shape_BranchStmt_fresh, shape_ImportSpec_fresh, shape_BadDecl_fresh]

theorem shape_Opt_DeclNode_some (val : ast.DeclNode) (ih : SameShape copyDecl ast.Decl.shape (some val)) : SameShape copyDecl ast.Decl.shape (some val) :=
  ih

theorem shape_Opt_StmtNode_none : SameShape copyStmt ast.Stmt.shape none := by
  intro y h
  rw [copyStmt] at h
  simp only [bind_eq_ok, pure_eq_ok] at h
  obtain rfl := h
  simp only [ast.Stmt.shape, shape_Ident, shape_IdentList, shape_BasicLit, shape_CommentGroup, shape_BadExpr_fresh, shape_Ident_fresh, shape_BasicLit_fresh, shape_BadStmt_fresh, shape_EmptyStmt_fresh, shape_BranchStmt_fresh, shape_ImportSpec_fresh, shape_BadDecl_fresh]

theorem shape_Opt_StmtNode_some (val : ast.StmtNode) (ih : SameShape copyStmt ast.Stmt.shape (some val)) : SameShape copyStmt ast.Stmt.shape (some val) :=
  ih

theorem shape_Opt_CallExpr_none : SameShape CallExpr ast.CallExpr.shapePtr none := by
  intro y h
  rw [CallExpr] at h
  simp only [bind_eq_ok, pure_eq_ok] at h
  obtain rfl := h
  simp only [ast.CallExpr.shapePtr, shape_Ident, shape_IdentList, shape_BasicLit, shape_CommentGroup, shape_BadExpr_fresh, shape_Ident_fresh, shape_BasicLit_fresh, shape_BadStmt_fresh, shape_EmptyStmt_fresh, shape_BranchStmt_fresh, shape_ImportSpec_fresh, shape_BadDecl_fresh]

theorem shape_Opt_CallExpr_some (val : ast.CallExpr) (ih : SameShape CallExpr.fresh ast.CallExpr.shape val) : SameShape CallExpr ast.CallExpr.shapePtr (some val) := by
  intro y h
  rw [CallExpr] at h
  simp only [bind_eq_ok, pure_eq_ok] at h
  obtain ⟨c, hc, rfl⟩ := h
  have ic := ih c hc
  simp only [ast.CallExpr.shapePtr, shape_Ident, shape_IdentList, shape_BasicLit, shape_CommentGroup, shape_BadExpr_fresh, shape_Ident_fresh, shape_BasicLit_fresh, shape_BadStmt_fresh, shape_EmptyStmt_fresh, shape_BranchStmt_fresh, shape_ImportSpec_fresh, shape_BadDecl_fresh, ic]

theorem shape_Slice_SpecNode_none : SameShape SpecList ast.Spec.shapeSlice none := by
  intro y h
  rw [SpecList] at h
  simp only [bind_eq_ok, pure_eq_ok] at h
  obtain rfl := h
  simp only [ast.Spec.shapeSlice, shape_Ident, shape_IdentList, shape_BasicLit, shape_CommentGroup, shape_BadExpr_fresh, shape_Ident_fresh, shape_BasicLit_fresh, shape_BadStmt_fresh, shape_EmptyStmt_fresh, shape_BranchStmt_fresh, shape_ImportSpec_fresh, shape_BadDecl_fresh]

theorem shape_Slice_SpecNode_some (val : List (Option ast.SpecNode)) (ih : SameShape SpecList.loop ast.Spec.shapeList val) : SameShape SpecList ast.Spec.shapeSlice (some val) := by
  intro y h
  rw [SpecList] at h
  simp only [bind_eq_ok, pure_eq_ok] at h
  obtain ⟨c, hc, rfl⟩ := h
  have ic := ih c hc
  simp only [ast.Spec.shapeSlice, shape_Ident, shape_IdentList, shape_BasicLit, shape_CommentGroup, shape_BadExpr_fresh, shape_Ident_fresh, shape_BasicLit_fresh, shape_BadStmt_fresh, shape_EmptyStmt_fresh, shape_BranchStmt_fresh, shape_ImportSpec_fresh, shape_BadDecl_fresh, ic]

theorem shape_List_Field_nil : SameShape FieldList.loop ast.Field.shapeList [] := by
  intro y h
  rw [FieldList.loop] at h
  simp only [bind_eq_ok, pure_eq_ok] at h
  obtain rfl := h
  simp only [ast.Field.shapeList, shape_Ident, shape_IdentList, shape_BasicLit, shape_CommentGroup, shape_BadExpr_fresh, shape_Ident_fresh, shape_BasicLit_fresh, shape_BadStmt_fresh, shape_EmptyStmt_fresh, shape_BranchStmt_fresh, shape_ImportSpec_fresh, shape_BadDecl_fresh]

theorem shape_List_Field_cons (x : Option ast.Field) (xs : List (Option ast.Field)) (ix : SameShape Field ast.Field.shapePtr x)
    (ixs : SameShape FieldList.loop ast.Field.shapeList xs) : SameShape FieldList.loop ast.Field.shapeList (x :: xs) := by
  intro y h
  rw [FieldList.loop] at h
  simp only [bind_eq_ok, pure_eq_ok] at h
  obtain ⟨c, hc, cs, hcs, rfl⟩ := h
  have ic := ix c hc
  have ics := ixs cs hcs
  simp only [ast.Field.shapeList, shape_Ident, shape_IdentList, shape_BasicLit, shape_CommentGroup, shape_BadExpr_fresh, shape_Ident_fresh, shape_BasicLit_fresh, shape_BadStmt_fresh, shape_EmptyStmt_fresh, shape_BranchStmt_fresh, shape_ImportSpec_fresh, shape_BadDecl_fresh, ic, ics]

theorem shape_List_ExprNode_nil : SameShape ExprList.loop ast.Expr.shapeList [] := by
  intro y h
  rw [ExprList.loop] at h
  simp only [bind_eq_ok, pure_eq_ok] at h
  obtain rfl := h
  simp only [ast.Expr.shapeList, shape_Ident, shape_IdentList, shape_BasicLit, shape_CommentGroup, shape_BadExpr_fresh, shape_Ident_fresh, shape_BasicLit_fresh, shape_BadStmt_fresh, shape_EmptyStmt_fresh, shape_BranchStmt_fresh, shape_ImportSpec_fresh, shape_BadDecl_fresh]

theorem shape_List_ExprNode_cons (x : Option ast.ExprNode) (xs : List (Option ast.ExprNode)) (ix : SameShape copyExpr ast.Expr.shape x)
    (ixs : SameShape ExprList.loop ast.Expr.shapeList xs) : SameShape ExprList.loop ast.Expr.shapeList (x :: xs) := by
  intro y h
  rw [ExprList.loop] at h
  simp only [bind_eq_ok, pure_eq_ok] at h
  obtain ⟨c, hc, cs, hcs, rfl⟩ := h
  have ic := ix c hc
  have ics := ixs cs hcs
  simp only [ast.Expr.shapeList, shape_Ident, shape_IdentList, shape_BasicLit, shape_CommentGroup, shape_BadExpr_fresh, shape_Ident_fresh, shape_BasicLit_fresh, shape_BadStmt_fresh, shape_EmptyStmt_fresh, shape_BranchStmt_fresh, shape_ImportSpec_fresh, shape_BadDecl_fresh, ic, ics]

theorem shape_List_StmtNode_nil : SameShape StmtList.loop ast.Stmt.shapeList [] := by
  intro y h
  rw [StmtList.loop] at h
  simp only [bind_eq_ok, pure_eq_ok] at h
  obtain rfl := h
  simp only [ast.Stmt.shapeList, shape_Ident, shape_IdentList, shape_BasicLit, shape_CommentGroup, shape_BadExpr_fresh, shape_Ident_fresh, shape_BasicLit_fresh, shape_BadStmt_fresh, shape_EmptyStmt_fresh, shape_BranchStmt_fresh, shape_ImportSpec_fresh, shape_BadDecl_fresh]

theorem shape_List_StmtNode_cons (x : Option ast.StmtNode) (xs : List (Option ast.StmtNode)) (ix : SameShape copyStmt ast.Stmt.shape x)
    (ixs : SameShape StmtList.loop ast.Stmt.shapeList xs) : SameShape StmtList.loop ast.Stmt.shapeList (x :: xs) := by
  intro y h
  rw [StmtList.loop] at h
  simp only [bind_eq_ok, pure_eq_ok] at h
  obtain ⟨c, hc, cs, hcs, rfl⟩ := h
  have ic := ix c hc
  have ics := ixs cs hcs
  simp only [ast.Stmt.shapeList, shape_Ident, shape_IdentList, shape_BasicLit, shape_CommentGroup, shape_BadExpr_fresh, shape_Ident_fresh, shape_BasicLit_fresh, shape_BadStmt_fresh, shape_EmptyStmt_fresh, shape_BranchStmt_fresh, shape_ImportSpec_fresh, shape_BadDecl_fresh, ic, ics]

theorem shape_List_SpecNode_nil : SameShape SpecList.loop ast.Spec.shapeList [] := by
  intro y h
  rw [SpecList.loop] at h
  simp only [bind_eq_ok, pure_eq_ok] at h
  obtain rfl := h
  simp only [ast.Spec.shapeList, shape_Ident, shape_IdentList, shape_BasicLit, shape_CommentGroup, shape_BadExpr_fresh, shape_Ident_fresh, shape_BasicLit_fresh, shape_BadStmt_fresh, shape_EmptyStmt_fresh, shape_BranchStmt_fresh, shape_ImportSpec_fresh, shape_BadDecl_fresh]

theorem shape_List_SpecNode_cons (x : Option ast.SpecNode) (xs : List (Option ast.SpecNode)) (ix : SameShape Spec ast.Spec.shape x)
    (ixs : SameShape SpecList.loop ast.Spec.shapeList xs) : SameShape SpecList.loop ast.Spec.shapeList (x :: xs) := by
  intro y h
  rw [SpecList.loop] at h
  simp only [bind_eq_ok, pure_eq_ok] at h
  obtain ⟨c, hc, cs, hcs, rfl⟩ := h
  have ic := ix c hc
  have ics := ixs cs hcs
  simp only [ast.Spec.shapeList, shape_Ident, shape_IdentList, shape_BasicLit, shape_CommentGroup, shape_BadExpr_fresh, shape_Ident_fresh, shape_BasicLit_fresh, shape_BadStmt_fresh, shape_EmptyStmt_fresh, shape_BranchStmt_fresh, shape_ImportSpec_fresh, shape_BadDecl_fresh, ic, ics]

theorem shape_Opt_Field_none : SameShape Field ast.Field.shapePtr none := by
  intro y h
  rw [Field] at h
  simp only [bind_eq_ok, pure_eq_ok] at h
  obtain rfl := h
  simp only [ast.Field.shapePtr, shape_Ident, shape_IdentList, shape_BasicLit, shape_CommentGroup, shape_BadExpr_fresh, shape_Ident_fresh, shape_BasicLit_fresh, shape_BadStmt_fresh, shape_EmptyStmt_fresh, shape_BranchStmt_fresh, shape_ImportSpec_fresh, shape_BadDecl_fresh]

theorem shape_Opt_Field_some (val : ast.Field) (ih : SameShape Field.fresh ast.Field.shape val) : SameShape Field ast.Field.shapePtr (some val) := by
  intro y h
  rw [Field] at h
  simp only [bind_eq_ok, pure_eq_ok] at h
  obtain ⟨c, hc, rfl⟩ := h
  have ic := ih c hc
  simp only [ast.Field.shapePtr, shape_Ident, shape_IdentList, shape_BasicLit, shape_CommentGroup, shape_BadExpr_fresh, shape_Ident_fresh, shape_BasicLit_fresh, shape_BadStmt_fresh, shape_EmptyStmt_fresh, shape_BranchStmt_fresh, shape_ImportSpec_fresh, shape_BadDecl_fresh, ic]

theorem shape_Opt_SpecNode_none : SameShape Spec ast.Spec.shape none := by
  intro y h
  rw [Spec] at h
  simp only [bind_eq_ok, pure_eq_ok] at h
  obtain rfl := h
  simp only [ast.Spec.shape, shape_Ident, shape_IdentList, shape_BasicLit, shape_CommentGroup, shape_BadExpr_fresh, shape_Ident_fresh, shape_BasicLit_fresh, shape_BadStmt_fresh, shape_EmptyStmt_fresh, shape_BranchStmt_fresh, shape_ImportSpec_fresh, shape_BadDecl_fresh]

theorem shape_Opt_SpecNode_some (val : ast.SpecNode) (ih : SameShape Spec ast.Spec.shape (some val)) : SameShape Spec ast.Spec.shape (some val) :=
  ih

theorem shape_copyExpr_present (x : ast.ExprNode) : SameShape copyExpr ast.Expr.shape (some x) :=
  @ast.ExprNode.rec
    (SameShape Field.fresh ast.Field.shape)
    (SameShape FieldList.fresh ast.FieldList.shape)
    (SameShape FuncType.fresh ast.FuncType.shape)
    (SameShape CallExpr.fresh ast.CallExpr.shape)
    (SameShape BlockStmt.fresh ast.BlockStmt.shape)
    (fun x => SameShape copyExpr ast.Expr.shape (some x))
    (fun x => SameShape copyStmt ast.Stmt.shape (some x))
    (fun x => SameShape Spec ast.Spec.shape (some x))
    (fun x => SameShape copyDecl ast.Decl.shape (some x))
    (SameShape copyExpr ast.Expr.shape)
    (OnSlice (SameShape FieldList.loop ast.Field.shapeList))
    (SameShape FieldList ast.FieldList.shapePtr)
    (SameShape ExprList ast.Expr.shapeSlice)
    (SameShape StmtList ast.Stmt.shapeSlice)
    (SameShape FuncType ast.FuncType.shapePtr)
    (SameShape BlockStmt ast.BlockStmt.shapePtr)
    (SameShape copyDecl ast.Decl.shape)
    (SameShape copyStmt ast.Stmt.shape)
    (SameShape CallExpr ast.CallExpr.shapePtr)
    (SameShape SpecList ast.Spec.shapeSlice)
    (SameShape FieldList.loop ast.Field.shapeList)
    (SameShape ExprList.loop ast.Expr.shapeList)
    (SameShape StmtList.loop ast.Stmt.shapeList)
    (SameShape SpecList.loop ast.Spec.shapeList)
    (SameShape Field ast.Field.shapePtr)
    (SameShape Spec ast.Spec.shape)
    shape_Field_mk shape_FieldList_mk shape_FuncType_mk shape_CallExpr_mk shape_BlockStmt_mk
    shape_ExprNode_BadExpr shape_ExprNode_Ident shape_ExprNode_Ellipsis shape_ExprNode_BasicLit
    shape_ExprNode_FuncLit shape_ExprNode_CompositeLit shape_ExprNode_ParenExpr
    shape_ExprNode_SelectorExpr shape_ExprNode_IndexExpr shape_ExprNode_SliceExpr
    shape_ExprNode_TypeAssertExpr shape_ExprNode_CallExpr shape_ExprNode_StarExpr
    shape_ExprNode_UnaryExpr shape_ExprNode_BinaryExpr shape_ExprNode_KeyValueExpr
    shape_ExprNode_ArrayType shape_ExprNode_StructType shape_ExprNode_FuncType
    shape_ExprNode_InterfaceType shape_ExprNode_MapType shape_ExprNode_ChanType
    shape_ExprNode_other shape_StmtNode_BadStmt shape_StmtNode_DeclStmt shape_StmtNode_EmptyStmt
    shape_StmtNode_LabeledStmt shape_StmtNode_ExprStmt shape_StmtNode_SendStmt
    shape_StmtNode_IncDecStmt shape_StmtNode_AssignStmt shape_StmtNode_GoStmt
    shape_StmtNode_DeferStmt shape_StmtNode_ReturnStmt shape_StmtNode_BranchStmt
    shape_StmtNode_BlockStmt shape_StmtNode_IfStmt shape_StmtNode_CaseClause
    shape_StmtNode_SwitchStmt shape_StmtNode_TypeSwitchStmt shape_StmtNode_CommClause
    shape_StmtNode_SelectStmt shape_StmtNode_ForStmt shape_StmtNode_RangeStmt shape_StmtNode_other
    shape_SpecNode_ImportSpec shape_SpecNode_ValueSpec shape_SpecNode_TypeSpec
    shape_SpecNode_other shape_DeclNode_BadDecl shape_DeclNode_GenDecl shape_DeclNode_FuncDecl
    shape_DeclNode_other shape_Opt_ExprNode_none shape_Opt_ExprNode_some shape_Slice_Field_none
    shape_Slice_Field_some shape_Opt_FieldList_none shape_Opt_FieldList_some
    shape_Slice_ExprNode_none shape_Slice_ExprNode_some shape_Slice_StmtNode_none
    shape_Slice_StmtNode_some shape_Opt_FuncType_none shape_Opt_FuncType_some
    shape_Opt_BlockStmt_none shape_Opt_BlockStmt_some shape_Opt_DeclNode_none
    shape_Opt_DeclNode_some shape_Opt_StmtNode_none shape_Opt_StmtNode_some
    shape_Opt_CallExpr_none shape_Opt_CallExpr_some shape_Slice_SpecNode_none
    shape_Slice_SpecNode_some shape_List_Field_nil shape_List_Field_cons shape_List_ExprNode_nil
    shape_List_ExprNode_cons shape_List_StmtNode_nil shape_List_StmtNode_cons
    shape_List_SpecNode_nil shape_List_SpecNode_cons shape_Opt_Field_none shape_Opt_Field_some
    shape_Opt_SpecNode_none shape_Opt_SpecNode_some x

theorem shape_copyExpr : ∀ (x y : ast.Expr), copyExpr x = .ok y → ast.Expr.shape y = ast.Expr.shape x
  | none => shape_Opt_ExprNode_none
  | some x => shape_copyExpr_present x

theorem shape_copyStmt_present (x : ast.StmtNode) : SameShape copyStmt ast.Stmt.shape (some x) :=
  @ast.StmtNode.rec
    (SameShape Field.fresh ast.Field.shape)
    (SameShape FieldList.fresh ast.FieldList.shape)
    (SameShape FuncType.fresh ast.FuncType.shape)
    (SameShape CallExpr.fresh ast.CallExpr.shape)
    (SameShape BlockStmt.fresh ast.BlockStmt.shape)
    (fun x => SameShape copyExpr ast.Expr.shape (some x))
    (fun x => SameShape copyStmt ast.Stmt.shape (some x))
    (fun x => SameShape Spec ast.Spec.shape (some x))
    (fun x => SameShape copyDecl ast.Decl.shape (some x))
    (SameShape copyExpr ast.Expr.shape)
    (OnSlice (SameShape FieldList.loop ast.Field.shapeList))
    (SameShape FieldList ast.FieldList.shapePtr)
    (SameShape ExprList ast.Expr.shapeSlice)
    (SameShape StmtList ast.Stmt.shapeSlice)
    (SameShape FuncType ast.FuncType.shapePtr)
    (SameShape BlockStmt ast.BlockStmt.shapePtr)
    (SameShape copyDecl ast.Decl.shape)
    (SameShape copyStmt ast.Stmt.shape)
    (SameShape CallExpr ast.CallExpr.shapePtr)
    (SameShape SpecList ast.Spec.shapeSlice)
    (SameShape FieldList.loop ast.Field.shapeList)
    (SameShape ExprList.loop ast.Expr.shapeList)
    (SameShape StmtList.loop ast.Stmt.shapeList)
    (SameShape SpecList.loop ast.Spec.shapeList)
    (SameShape Field ast.Field.shapePtr)
    (SameShape Spec ast.Spec.shape)
    shape_Field_mk shape_FieldList_mk shape_FuncType_mk shape_CallExpr_mk shape_BlockStmt_mk
    shape_ExprNode_BadExpr shape_ExprNode_Ident shape_ExprNode_Ellipsis shape_ExprNode_BasicLit
    shape_ExprNode_FuncLit shape_ExprNode_CompositeLit shape_ExprNode_ParenExpr
    shape_ExprNode_SelectorExpr shape_ExprNode_IndexExpr shape_ExprNode_SliceExpr
    shape_ExprNode_TypeAssertExpr shape_ExprNode_CallExpr shape_ExprNode_StarExpr
    shape_ExprNode_UnaryExpr shape_ExprNode_BinaryExpr shape_ExprNode_KeyValueExpr
    shape_ExprNode_ArrayType shape_ExprNode_StructType shape_ExprNode_FuncType
    shape_ExprNode_InterfaceType shape_ExprNode_MapType shape_ExprNode_ChanType
    shape_ExprNode_other shape_StmtNode_BadStmt shape_StmtNode_DeclStmt shape_StmtNode_EmptyStmt
    shape_StmtNode_LabeledStmt shape_StmtNode_ExprStmt shape_StmtNode_SendStmt
    shape_StmtNode_IncDecStmt shape_StmtNode_AssignStmt shape_StmtNode_GoStmt
    shape_StmtNode_DeferStmt shape_StmtNode_ReturnStmt shape_StmtNode_BranchStmt
    shape_StmtNode_BlockStmt shape_StmtNode_IfStmt shape_StmtNode_CaseClause
    shape_StmtNode_SwitchStmt shape_StmtNode_TypeSwitchStmt shape_StmtNode_CommClause
    shape_StmtNode_SelectStmt shape_StmtNode_ForStmt shape_StmtNode_RangeStmt shape_StmtNode_other
    shape_SpecNode_ImportSpec shape_SpecNode_ValueSpec shape_SpecNode_TypeSpec
    shape_SpecNode_other shape_DeclNode_BadDecl shape_DeclNode_GenDecl shape_DeclNode_FuncDecl
    shape_DeclNode_other shape_Opt_ExprNode_none shape_Opt_ExprNode_some shape_Slice_Field_none
    shape_Slice_Field_some shape_Opt_FieldList_none shape_Opt_FieldList_some
    shape_Slice_ExprNode_none shape_Slice_ExprNode_some shape_Slice_StmtNode_none
    shape_Slice_StmtNode_some shape_Opt_FuncType_none shape_Opt_FuncType_some
    shape_Opt_BlockStmt_none shape_Opt_BlockStmt_some shape_Opt_DeclNode_none
    shape_Opt_DeclNode_some shape_Opt_StmtNode_none shape_Opt_StmtNode_some
    shape_Opt_CallExpr_none shape_Opt_CallExpr_some shape_Slice_SpecNode_none
    shape_Slice_SpecNode_some shape_List_Field_nil shape_List_Field_cons shape_List_ExprNode_nil
    shape_List_ExprNode_cons shape_List_StmtNode_nil shape_List_StmtNode_cons
    shape_List_SpecNode_nil shape_List_SpecNode_cons shape_Opt_Field_none shape_Opt_Field_some
    shape_Opt_SpecNode_none shape_Opt_SpecNode_some x

theorem shape_copyStmt : ∀ (x y : ast.Stmt), copyStmt x = .ok y → ast.Stmt.shape y = ast.Stmt.shape x
  | none => shape_Opt_StmtNode_none
  | some x => shape_copyStmt_present x

theorem shape_Spec_present (x : ast.SpecNode) : SameShape Spec ast.Spec.shape (some x) :=
  @ast.SpecNode.rec
    (SameShape Field.fresh ast.Field.shape)
    (SameShape FieldList.fresh ast.FieldList.shape)
    (SameShape FuncType.fresh ast.FuncType.shape)
    (SameShape CallExpr.fresh ast.CallExpr.shape)
    (SameShape BlockStmt.fresh ast.BlockStmt.shape)
    (fun x => SameShape copyExpr ast.Expr.shape (some x))
    (fun x => SameShape copyStmt ast.Stmt.shape (some x))
    (fun x => SameShape Spec ast.Spec.shape (some x))
    (fun x => SameShape copyDecl ast.Decl.shape (some x))
    (SameShape copyExpr ast.Expr.shape)
    (OnSlice (SameShape FieldList.loop ast.Field.shapeList))
    (SameShape FieldList ast.FieldList.shapePtr)
    (SameShape ExprList ast.Expr.shapeSlice)
    (SameShape StmtList ast.Stmt.shapeSlice)
    (SameShape FuncType ast.FuncType.shapePtr)
    (SameShape BlockStmt ast.BlockStmt.shapePtr)
    (SameShape copyDecl ast.Decl.shape)
    (SameShape copyStmt ast.Stmt.shape)
    (SameShape CallExpr ast.CallExpr.shapePtr)
    (SameShape SpecList ast.Spec.shapeSlice)
    (SameShape FieldList.loop ast.Field.shapeList)
    (SameShape ExprList.loop ast.Expr.shapeList)
    (SameShape StmtList.loop ast.Stmt.shapeList)
    (SameShape SpecList.loop ast.Spec.shapeList)
    (SameShape Field ast.Field.shapePtr)
    (SameShape Spec ast.Spec.shape)
    shape_Field_mk shape_FieldList_mk shape_FuncType_mk shape_CallExpr_mk shape_BlockStmt_mk
    shape_ExprNode_BadExpr shape_ExprNode_Ident shape_ExprNode_Ellipsis shape_ExprNode_BasicLit
    shape_ExprNode_FuncLit shape_ExprNode_CompositeLit shape_ExprNode_ParenExpr
    shape_ExprNode_SelectorExpr shape_ExprNode_IndexExpr shape_ExprNode_SliceExpr
    shape_ExprNode_TypeAssertExpr shape_ExprNode_CallExpr shape_ExprNode_StarExpr
    shape_ExprNode_UnaryExpr shape_ExprNode_BinaryExpr shape_ExprNode_KeyValueExpr
    shape_ExprNode_ArrayType shape_ExprNode_StructType shape_ExprNode_FuncType
    shape_ExprNode_InterfaceType shape_ExprNode_MapType shape_ExprNode_ChanType
    shape_ExprNode_other shape_StmtNode_BadStmt shape_StmtNode_DeclStmt shape_StmtNode_EmptyStmt
    shape_StmtNode_LabeledStmt shape_StmtNode_ExprStmt shape_StmtNode_SendStmt
    shape_StmtNode_IncDecStmt shape_StmtNode_AssignStmt shape_StmtNode_GoStmt
    shape_StmtNode_DeferStmt shape_StmtNode_ReturnStmt shape_StmtNode_BranchStmt
    shape_StmtNode_BlockStmt shape_StmtNode_IfStmt shape_StmtNode_CaseClause
    shape_StmtNode_SwitchStmt shape_StmtNode_TypeSwitchStmt shape_StmtNode_CommClause
    shape_StmtNode_SelectStmt shape_StmtNode_ForStmt shape_StmtNode_RangeStmt shape_StmtNode_other
    shape_SpecNode_ImportSpec shape_SpecNode_ValueSpec shape_SpecNode_TypeSpec
    shape_SpecNode_other shape_DeclNode_BadDecl shape_DeclNode_GenDecl shape_DeclNode_FuncDecl
    shape_DeclNode_other shape_Opt_ExprNode_none shape_Opt_ExprNode_some shape_Slice_Field_none
    shape_Slice_Field_some shape_Opt_FieldList_none shape_Opt_FieldList_some
    shape_Slice_ExprNode_none shape_Slice_ExprNode_some shape_Slice_StmtNode_none
    shape_Slice_StmtNode_some shape_Opt_FuncType_none shape_Opt_FuncType_some
    shape_Opt_BlockStmt_none shape_Opt_BlockStmt_some shape_Opt_DeclNode_none
    shape_Opt_DeclNode_some shape_Opt_StmtNode_none shape_Opt_StmtNode_some
    shape_Opt_CallExpr_none shape_Opt_CallExpr_some shape_Slice_SpecNode_none
    shape_Slice_SpecNode_some shape_List_Field_nil shape_List_Field_cons shape_List_ExprNode_nil
    shape_List_ExprNode_cons shape_List_StmtNode_nil shape_List_StmtNode_cons
    shape_List_SpecNode_nil shape_List_SpecNode_cons shape_Opt_Field_none shape_Opt_Field_some
    shape_Opt_SpecNode_none shape_Opt_SpecNode_some x

theorem shape_Spec : ∀ (x y : ast.Spec), Spec x = .ok y → ast.Spec.shape y = ast.Spec.shape x
  | none => shape_Opt_SpecNode_none
  | some x => shape_Spec_present x

theorem shape_copyDecl_present (x : ast.DeclNode) : SameShape copyDecl ast.Decl.shape (some x) :=
  @ast.DeclNode.rec
    (SameShape Field.fresh ast.Field.shape)
    (SameShape FieldList.fresh ast.FieldList.shape)
    (SameShape FuncType.fresh ast.FuncType.shape)
    (SameShape CallExpr.fresh ast.CallExpr.shape)
    (SameShape BlockStmt.fresh ast.BlockStmt.shape)
    (fun x => SameShape copyExpr ast.Expr.shape (some x))
    (fun x => SameShape copyStmt ast.Stmt.shape (some x))
    (fun x => SameShape Spec ast.Spec.shape (some x))
    (fun x => SameShape copyDecl ast.Decl.shape (some x))
    (SameShape copyExpr ast.Expr.shape)
    (OnSlice (SameShape FieldList.loop ast.Field.shapeList))
    (SameShape FieldList ast.FieldList.shapePtr)
    (SameShape ExprList ast.Expr.shapeSlice)
    (SameShape StmtList ast.Stmt.shapeSlice)
    (SameShape FuncType ast.FuncType.shapePtr)
    (SameShape BlockStmt ast.BlockStmt.shapePtr)
    (SameShape copyDecl ast.Decl.shape)
    (SameShape copyStmt ast.Stmt.shape)
    (SameShape CallExpr ast.CallExpr.shapePtr)
    (SameShape SpecList ast.Spec.shapeSlice)
    (SameShape FieldList.loop ast.Field.shapeList)
    (SameShape ExprList.loop ast.Expr.shapeList)
    (SameShape StmtList.loop ast.Stmt.shapeList)
    (SameShape SpecList.loop ast.Spec.shapeList)
    (SameShape Field ast.Field.shapePtr)
    (SameShape Spec ast.Spec.shape)
    shape_Field_mk shape_FieldList_mk shape_FuncType_mk shape_CallExpr_mk shape_BlockStmt_mk
    shape_ExprNode_BadExpr shape_ExprNode_Ident shape_ExprNode_Ellipsis shape_ExprNode_BasicLit
    shape_ExprNode_FuncLit shape_ExprNode_CompositeLit shape_ExprNode_ParenExpr
    shape_ExprNode_SelectorExpr shape_ExprNode_IndexExpr shape_ExprNode_SliceExpr
    shape_ExprNode_TypeAssertExpr shape_ExprNode_CallExpr shape_ExprNode_StarExpr
    shape_ExprNode_UnaryExpr shape_ExprNode_BinaryExpr shape_ExprNode_KeyValueExpr
    shape_ExprNode_ArrayType shape_ExprNode_StructType shape_ExprNode_FuncType
    shape_ExprNode_InterfaceType shape_ExprNode_MapType shape_ExprNode_ChanType
    shape_ExprNode_other shape_StmtNode_BadStmt shape_StmtNode_DeclStmt shape_StmtNode_EmptyStmt
    shape_StmtNode_LabeledStmt shape_StmtNode_ExprStmt shape_StmtNode_SendStmt
    shape_StmtNode_IncDecStmt shape_StmtNode_AssignStmt shape_StmtNode_GoStmt
    shape_StmtNode_DeferStmt shape_StmtNode_ReturnStmt shape_StmtNode_BranchStmt
    shape_StmtNode_BlockStmt shape_StmtNode_IfStmt shape_StmtNode_CaseClause
    shape_StmtNode_SwitchStmt shape_StmtNode_TypeSwitchStmt shape_StmtNode_CommClause
    shape_StmtNode_SelectStmt shape_StmtNode_ForStmt shape_StmtNode_RangeStmt shape_StmtNode_other
    shape_SpecNode_ImportSpec shape_SpecNode_ValueSpec shape_SpecNode_TypeSpec
    shape_SpecNode_other shape_DeclNode_BadDecl shape_DeclNode_GenDecl shape_DeclNode_FuncDecl
    shape_DeclNode_other shape_Opt_ExprNode_none shape_Opt_ExprNode_some shape_Slice_Field_none
    shape_Slice_Field_some shape_Opt_FieldList_none shape_Opt_FieldList_some
    shape_Slice_ExprNode_none shape_Slice_ExprNode_some shape_Slice_StmtNode_none
    shape_Slice_StmtNode_some shape_Opt_FuncType_none shape_Opt_FuncType_some
    shape_Opt_BlockStmt_none shape_Opt_BlockStmt_some shape_Opt_DeclNode_none
    shape_Opt_DeclNode_some shape_Opt_StmtNode_none shape_Opt_StmtNode_some
    shape_Opt_CallExpr_none shape_Opt_CallExpr_some shape_Slice_SpecNode_none
    shape_Slice_SpecNode_some shape_List_Field_nil shape_List_Field_cons shape_List_ExprNode_nil
    shape_List_ExprNode_cons shape_List_StmtNode_nil shape_List_StmtNode_cons
    shape_List_SpecNode_nil shape_List_SpecNode_cons shape_Opt_Field_none shape_Opt_Field_some
    shape_Opt_SpecNode_none shape_Opt_SpecNode_some x

theorem shape_copyDecl : ∀ (x y : ast.Decl), copyDecl x = .ok y → ast.Decl.shape y = ast.Decl.shape x
  | none => shape_Opt_DeclNode_none
  | some x => shape_copyDecl_present x

theorem shape_FieldList_fresh (x : ast.FieldList) : SameShape FieldList.fresh ast.FieldList.shape x :=
  @ast.FieldList.rec
    (SameShape Field.fresh ast.Field.shape)
    (SameShape FieldList.fresh ast.FieldList.shape)
    (SameShape FuncType.fresh ast.FuncType.shape)
    (SameShape CallExpr.fresh ast.CallExpr.shape)
    (SameShape BlockStmt.fresh ast.BlockStmt.shape)
    (fun x => SameShape copyExpr ast.Expr.shape (some x))
    (fun x => SameShape copyStmt ast.Stmt.shape (some x))
    (fun x => SameShape Spec ast.Spec.shape (some x))
    (fun x => SameShape copyDecl ast.Decl.shape (some x))
    (SameShape copyExpr ast.Expr.shape)
    (OnSlice (SameShape FieldList.loop ast.Field.shapeList))
    (SameShape FieldList ast.FieldList.shapePtr)
    (SameShape ExprList ast.Expr.shapeSlice)
    (SameShape StmtList ast.Stmt.shapeSlice)
    (SameShape FuncType ast.FuncType.shapePtr)
    (SameShape BlockStmt ast.BlockStmt.shapePtr)
    (SameShape copyDecl ast.Decl.shape)
    (SameShape copyStmt ast.Stmt.shape)
    (SameShape CallExpr ast.CallExpr.shapePtr)
    (SameShape SpecList ast.Spec.shapeSlice)
    (SameShape FieldList.loop ast.Field.shapeList)
    (SameShape ExprList.loop ast.Expr.shapeList)
    (SameShape StmtList.loop ast.Stmt.shapeList)
    (SameShape SpecList.loop ast.Spec.shapeList)
    (SameShape Field ast.Field.shapePtr)
    (SameShape Spec ast.Spec.shape)
    shape_Field_mk shape_FieldList_mk shape_FuncType_mk shape_CallExpr_mk shape_BlockStmt_mk
    shape_ExprNode_BadExpr shape_ExprNode_Ident shape_ExprNode_Ellipsis shape_ExprNode_BasicLit
    shape_ExprNode_FuncLit shape_ExprNode_CompositeLit shape_ExprNode_ParenExpr
    shape_ExprNode_SelectorExpr shape_ExprNode_IndexExpr shape_ExprNode_SliceExpr
    shape_ExprNode_TypeAssertExpr shape_ExprNode_CallExpr shape_ExprNode_StarExpr
    shape_ExprNode_UnaryExpr shape_ExprNode_BinaryExpr shape_ExprNode_KeyValueExpr
    shape_ExprNode_ArrayType shape_ExprNode_StructType shape_ExprNode_FuncType
    shape_ExprNode_InterfaceType shape_ExprNode_MapType shape_ExprNode_ChanType
    shape_ExprNode_other shape_StmtNode_BadStmt shape_StmtNode_DeclStmt shape_StmtNode_EmptyStmt
    shape_StmtNode_LabeledStmt shape_StmtNode_ExprStmt shape_StmtNode_SendStmt
    shape_StmtNode_IncDecStmt shape_StmtNode_AssignStmt shape_StmtNode_GoStmt
    shape_StmtNode_DeferStmt shape_StmtNode_ReturnStmt shape_StmtNode_BranchStmt
    shape_StmtNode_BlockStmt shape_StmtNode_IfStmt shape_StmtNode_CaseClause
    shape_StmtNode_SwitchStmt shape_StmtNode_TypeSwitchStmt shape_StmtNode_CommClause
    shape_StmtNode_SelectStmt shape_StmtNode_ForStmt shape_StmtNode_RangeStmt shape_StmtNode_other
    shape_SpecNode_ImportSpec shape_SpecNode_ValueSpec shape_SpecNode_TypeSpec
    shape_SpecNode_other shape_DeclNode_BadDecl shape_DeclNode_GenDecl shape_DeclNode_FuncDecl
    shape_DeclNode_other shape_Opt_ExprNode_none shape_Opt_ExprNode_some shape_Slice_Field_none
    shape_Slice_Field_some shape_Opt_FieldList_none shape_Opt_FieldList_some
    shape_Slice_ExprNode_none shape_Slice_ExprNode_some shape_Slice_StmtNode_none
    shape_Slice_StmtNode_some shape_Opt_FuncType_none shape_Opt_FuncType_some
    shape_Opt_BlockStmt_none shape_Opt_BlockStmt_some shape_Opt_DeclNode_none
    shape_Opt_DeclNode_some shape_Opt_StmtNode_none shape_Opt_StmtNode_some
    shape_Opt_CallExpr_none shape_Opt_CallExpr_some shape_Slice_SpecNode_none
    shape_Slice_SpecNode_some shape_List_Field_nil shape_List_Field_cons shape_List_ExprNode_nil
    shape_List_ExprNode_cons shape_List_StmtNode_nil shape_List_StmtNode_cons
    shape_List_SpecNode_nil shape_List_SpecNode_cons shape_Opt_Field_none shape_Opt_Field_some
    shape_Opt_SpecNode_none shape_Opt_SpecNode_some x

theorem shape_FieldList : ∀ (x : Option ast.FieldList), SameShape FieldList ast.FieldList.shapePtr x
  | none => shape_Opt_FieldList_none
  | some x => shape_Opt_FieldList_some x (shape_FieldList_fresh x)

theorem shape_Field_fresh (x : ast.Field) : SameShape Field.fresh ast.Field.shape x :=
  @ast.Field.rec
    (SameShape Field.fresh ast.Field.shape)
    (SameShape FieldList.fresh ast.FieldList.shape)
    (SameShape FuncType.fresh ast.FuncType.shape)
    (SameShape CallExpr.fresh ast.CallExpr.shape)
    (SameShape BlockStmt.fresh ast.BlockStmt.shape)
    (fun x => SameShape copyExpr ast.Expr.shape (some x))
    (fun x => SameShape copyStmt ast.Stmt.shape (some x))
    (fun x => SameShape Spec ast.Spec.shape (some x))
    (fun x => SameShape copyDecl ast.Decl.shape (some x))
    (SameShape copyExpr ast.Expr.shape)
    (OnSlice (SameShape FieldList.loop ast.Field.shapeList))
    (SameShape FieldList ast.FieldList.shapePtr)
    (SameShape ExprList ast.Expr.shapeSlice)
    (SameShape StmtList ast.Stmt.shapeSlice)
    (SameShape FuncType ast.FuncType.shapePtr)
    (SameShape BlockStmt ast.BlockStmt.shapePtr)
    (SameShape copyDecl ast.Decl.shape)
    (SameShape copyStmt ast.Stmt.shape)
    (SameShape CallExpr ast.CallExpr.shapePtr)
    (SameShape SpecList ast.Spec.shapeSlice)
    (SameShape FieldList.loop ast.Field.shapeList)
    (SameShape ExprList.loop ast.Expr.shapeList)
    (SameShape StmtList.loop ast.Stmt.shapeList)
    (SameShape SpecList.loop ast.Spec.shapeList)
    (SameShape Field ast.Field.shapePtr)
    (SameShape Spec ast.Spec.shape)
    shape_Field_mk shape_FieldList_mk shape_FuncType_mk shape_CallExpr_mk shape_BlockStmt_mk
    shape_ExprNode_BadExpr shape_ExprNode_Ident shape_ExprNode_Ellipsis shape_ExprNode_BasicLit
    shape_ExprNode_FuncLit shape_ExprNode_CompositeLit shape_ExprNode_ParenExpr
    shape_ExprNode_SelectorExpr shape_ExprNode_IndexExpr shape_ExprNode_SliceExpr
    shape_ExprNode_TypeAssertExpr shape_ExprNode_CallExpr shape_ExprNode_StarExpr
    shape_ExprNode_UnaryExpr shape_ExprNode_BinaryExpr shape_ExprNode_KeyValueExpr
    shape_ExprNode_ArrayType shape_ExprNode_StructType shape_ExprNode_FuncType
    shape_ExprNode_InterfaceType shape_ExprNode_MapType shape_ExprNode_ChanType
    shape_ExprNode_other shape_StmtNode_BadStmt shape_StmtNode_DeclStmt shape_StmtNode_EmptyStmt
    shape_StmtNode_LabeledStmt shape_StmtNode_ExprStmt shape_StmtNode_SendStmt
    shape_StmtNode_IncDecStmt shape_StmtNode_AssignStmt shape_StmtNode_GoStmt
    shape_StmtNode_DeferStmt shape_StmtNode_ReturnStmt shape_StmtNode_BranchStmt
    shape_StmtNode_BlockStmt shape_StmtNode_IfStmt shape_StmtNode_CaseClause
    shape_StmtNode_SwitchStmt shape_StmtNode_TypeSwitchStmt shape_StmtNode_CommClause
    shape_StmtNode_SelectStmt shape_StmtNode_ForStmt shape_StmtNode_RangeStmt shape_StmtNode_other
    shape_SpecNode_ImportSpec shape_SpecNode_ValueSpec shape_SpecNode_TypeSpec
    shape_SpecNode_other shape_DeclNode_BadDecl shape_DeclNode_GenDecl shape_DeclNode_FuncDecl
    shape_DeclNode_other shape_Opt_ExprNode_none shape_Opt_ExprNode_some shape_Slice_Field_none
    shape_Slice_Field_some shape_Opt_FieldList_none shape_Opt_FieldList_some
    shape_Slice_ExprNode_none shape_Slice_ExprNode_some shape_Slice_StmtNode_none
    shape_Slice_StmtNode_some shape_Opt_FuncType_none shape_Opt_FuncType_some
    shape_Opt_BlockStmt_none shape_Opt_BlockStmt_some shape_Opt_DeclNode_none
    shape_Opt_DeclNode_some shape_Opt_StmtNode_none shape_Opt_StmtNode_some
    shape_Opt_CallExpr_none shape_Opt_CallExpr_some shape_Slice_SpecNode_none
    shape_Slice_SpecNode_some shape_List_Field_nil shape_List_Field_cons shape_List_ExprNode_nil
    shape_List_ExprNode_cons shape_List_StmtNode_nil shape_List_StmtNode_cons
    shape_List_SpecNode_nil shape_List_SpecNode_cons shape_Opt_Field_none shape_Opt_Field_some
    shape_Opt_SpecNode_none shape_Opt_SpecNode_some x

theorem shape_Field : ∀ (x : Option ast.Field), SameShape Field ast.Field.shapePtr x
  | none => shape_Opt_Field_none
  | some x => shape_Opt_Field_some x (shape_Field_fresh x)

theorem shape_FuncType_fresh (x : ast.FuncType) : SameShape FuncType.fresh ast.FuncType.shape x :=
  @ast.FuncType.rec
    (SameShape Field.fresh ast.Field.shape)
    (SameShape FieldList.fresh ast.FieldList.shape)
    (SameShape FuncType.fresh ast.FuncType.shape)
    (SameShape CallExpr.fresh ast.CallExpr.shape)
    (SameShape BlockStmt.fresh ast.BlockStmt.shape)
    (fun x => SameShape copyExpr ast.Expr.shape (some x))
    (fun x => SameShape copyStmt ast.Stmt.shape (some x))
    (fun x => SameShape Spec ast.Spec.shape (some x))
    (fun x => SameShape copyDecl ast.Decl.shape (some x))
    (SameShape copyExpr ast.Expr.shape)
    (OnSlice (SameShape FieldList.loop ast.Field.shapeList))
    (SameShape FieldList ast.FieldList.shapePtr)
    (SameShape ExprList ast.Expr.shapeSlice)
    (SameShape StmtList ast.Stmt.shapeSlice)
    (SameShape FuncType ast.FuncType.shapePtr)
    (SameShape BlockStmt ast.BlockStmt.shapePtr)
    (SameShape copyDecl ast.Decl.shape)
    (SameShape copyStmt ast.Stmt.shape)
    (SameShape CallExpr ast.CallExpr.shapePtr)
    (SameShape SpecList ast.Spec.shapeSlice)
    (SameShape FieldList.loop ast.Field.shapeList)
    (SameShape ExprList.loop ast.Expr.shapeList)
    (SameShape StmtList.loop ast.Stmt.shapeList)
    (SameShape SpecList.loop ast.Spec.shapeList)
    (SameShape Field ast.Field.shapePtr)
    (SameShape Spec ast.Spec.shape)
    shape_Field_mk shape_FieldList_mk shape_FuncType_mk shape_CallExpr_mk shape_BlockStmt_mk
    shape_ExprNode_BadExpr shape_ExprNode_Ident shape_ExprNode_Ellipsis shape_ExprNode_BasicLit
    shape_ExprNode_FuncLit shape_ExprNode_CompositeLit shape_ExprNode_ParenExpr
    shape_ExprNode_SelectorExpr shape_ExprNode_IndexExpr shape_ExprNode_SliceExpr
    shape_ExprNode_TypeAssertExpr shape_ExprNode_CallExpr shape_ExprNode_StarExpr
    shape_ExprNode_UnaryExpr shape_ExprNode_BinaryExpr shape_ExprNode_KeyValueExpr
    shape_ExprNode_ArrayType shape_ExprNode_StructType shape_ExprNode_FuncType
    shape_ExprNode_InterfaceType shape_ExprNode_MapType shape_ExprNode_ChanType
    shape_ExprNode_other shape_StmtNode_BadStmt shape_StmtNode_DeclStmt shape_StmtNode_EmptyStmt
    shape_StmtNode_LabeledStmt shape_StmtNode_ExprStmt shape_StmtNode_SendStmt
    shape_StmtNode_IncDecStmt shape_StmtNode_AssignStmt shape_StmtNode_GoStmt
    shape_StmtNode_DeferStmt shape_StmtNode_ReturnStmt shape_StmtNode_BranchStmt
    shape_StmtNode_BlockStmt shape_StmtNode_IfStmt shape_StmtNode_CaseClause
    shape_StmtNode_SwitchStmt shape_StmtNode_TypeSwitchStmt shape_StmtNode_CommClause
    shape_StmtNode_SelectStmt shape_StmtNode_ForStmt shape_StmtNode_RangeStmt shape_StmtNode_other
    shape_SpecNode_ImportSpec shape_SpecNode_ValueSpec shape_SpecNode_TypeSpec
    shape_SpecNode_other shape_DeclNode_BadDecl shape_DeclNode_GenDecl shape_DeclNode_FuncDecl
    shape_DeclNode_other shape_Opt_ExprNode_none shape_Opt_ExprNode_some shape_Slice_Field_none
    shape_Slice_Field_some shape_Opt_FieldList_none shape_Opt_FieldList_some
    shape_Slice_ExprNode_none shape_Slice_ExprNode_some shape_Slice_StmtNode_none
    shape_Slice_StmtNode_some shape_Opt_FuncType_none shape_Opt_FuncType_some
    shape_Opt_BlockStmt_none shape_Opt_BlockStmt_some shape_Opt_DeclNode_none
    shape_Opt_DeclNode_some shape_Opt_StmtNode_none shape_Opt_StmtNode_some
    shape_Opt_CallExpr_none shape_Opt_CallExpr_some shape_Slice_SpecNode_none
    shape_Slice_SpecNode_some shape_List_Field_nil shape_List_Field_cons shape_List_ExprNode_nil
    shape_List_ExprNode_cons shape_List_StmtNode_nil shape_List_StmtNode_cons
    shape_List_SpecNode_nil shape_List_SpecNode_cons shape_Opt_Field_none shape_Opt_Field_some
    shape_Opt_SpecNode_none shape_Opt_SpecNode_some x

theorem shape_FuncType : ∀ (x : Option ast.FuncType), SameShape FuncType ast.FuncType.shapePtr x
  | none => shape_Opt_FuncType_none
  | some x => shape_Opt_FuncType_some x (shape_FuncType_fresh x)

theorem shape_CallExpr_fresh (x : ast.CallExpr) : SameShape CallExpr.fresh ast.CallExpr.shape x :=
  @ast.CallExpr.rec
    (SameShape Field.fresh ast.Field.shape)
    (SameShape FieldList.fresh ast.FieldList.shape)
    (SameShape FuncType.fresh ast.FuncType.shape)
    (SameShape CallExpr.fresh ast.CallExpr.shape)
    (SameShape BlockStmt.fresh ast.BlockStmt.shape)
    (fun x => SameShape copyExpr ast.Expr.shape (some x))
    (fun x => SameShape copyStmt ast.Stmt.shape (some x))
    (fun x => SameShape Spec ast.Spec.shape (some x))
    (fun x => SameShape copyDecl ast.Decl.shape (some x))
    (SameShape copyExpr ast.Expr.shape)
    (OnSlice (SameShape FieldList.loop ast.Field.shapeList))
    (SameShape FieldList ast.FieldList.shapePtr)
    (SameShape ExprList ast.Expr.shapeSlice)
    (SameShape StmtList ast.Stmt.shapeSlice)
    (SameShape FuncType ast.FuncType.shapePtr)
    (SameShape BlockStmt ast.BlockStmt.shapePtr)
    (SameShape copyDecl ast.Decl.shape)
    (SameShape copyStmt ast.Stmt.shape)
    (SameShape CallExpr ast.CallExpr.shapePtr)
    (SameShape SpecList ast.Spec.shapeSlice)
    (SameShape FieldList.loop ast.Field.shapeList)
    (SameShape ExprList.loop ast.Expr.shapeList)
    (SameShape StmtList.loop ast.Stmt.shapeList)
    (SameShape SpecList.loop ast.Spec.shapeList)
    (SameShape Field ast.Field.shapePtr)
    (SameShape Spec ast.Spec.shape)
    shape_Field_mk shape_FieldList_mk shape_FuncType_mk shape_CallExpr_mk shape_BlockStmt_mk
    shape_ExprNode_BadExpr shape_ExprNode_Ident shape_ExprNode_Ellipsis shape_ExprNode_BasicLit
    shape_ExprNode_FuncLit shape_ExprNode_CompositeLit shape_ExprNode_ParenExpr
    shape_ExprNode_SelectorExpr shape_ExprNode_IndexExpr shape_ExprNode_SliceExpr
    shape_ExprNode_TypeAssertExpr shape_ExprNode_CallExpr shape_ExprNode_StarExpr
    shape_ExprNode_UnaryExpr shape_ExprNode_BinaryExpr shape_ExprNode_KeyValueExpr
    shape_ExprNode_ArrayType shape_ExprNode_StructType shape_ExprNode_FuncType
    shape_ExprNode_InterfaceType shape_ExprNode_MapType shape_ExprNode_ChanType
    shape_ExprNode_other shape_StmtNode_BadStmt shape_StmtNode_DeclStmt shape_StmtNode_EmptyStmt
    shape_StmtNode_LabeledStmt shape_StmtNode_ExprStmt shape_StmtNode_SendStmt
    shape_StmtNode_IncDecStmt shape_StmtNode_AssignStmt shape_StmtNode_GoStmt
    shape_StmtNode_DeferStmt shape_StmtNode_ReturnStmt shape_StmtNode_BranchStmt
    shape_StmtNode_BlockStmt shape_StmtNode_IfStmt shape_StmtNode_CaseClause
    shape_StmtNode_SwitchStmt shape_StmtNode_TypeSwitchStmt shape_StmtNode_CommClause
    shape_StmtNode_SelectStmt shape_StmtNode_ForStmt shape_StmtNode_RangeStmt shape_StmtNode_other
    shape_SpecNode_ImportSpec shape_SpecNode_ValueSpec shape_SpecNode_TypeSpec
    shape_SpecNode_other shape_DeclNode_BadDecl shape_DeclNode_GenDecl shape_DeclNode_FuncDecl
    shape_DeclNode_other shape_Opt_ExprNode_none shape_Opt_ExprNode_some shape_Slice_Field_none
    shape_Slice_Field_some shape_Opt_FieldList_none shape_Opt_FieldList_some
    shape_Slice_ExprNode_none shape_Slice_ExprNode_some shape_Slice_StmtNode_none
    shape_Slice_StmtNode_some shape_Opt_FuncType_none shape_Opt_FuncType_some
    shape_Opt_BlockStmt_none shape_Opt_BlockStmt_some shape_Opt_DeclNode_none
    shape_Opt_DeclNode_some shape_Opt_StmtNode_none shape_Opt_StmtNode_some
    shape_Opt_CallExpr_none shape_Opt_CallExpr_some shape_Slice_SpecNode_none
    shape_Slice_SpecNode_some shape_List_Field_nil shape_List_Field_cons shape_List_ExprNode_nil
    shape_List_ExprNode_cons shape_List_StmtNode_nil shape_List_StmtNode_cons
    shape_List_SpecNode_nil shape_List_SpecNode_cons shape_Opt_Field_none shape_Opt_Field_some
    shape_Opt_SpecNode_none shape_Opt_SpecNode_some x

theorem shape_CallExpr : ∀ (x : Option ast.CallExpr), SameShape CallExpr ast.CallExpr.shapePtr x
  | none => shape_Opt_CallExpr_none
  | some x => shape_Opt_CallExpr_some x (shape_CallExpr_fresh x)

theorem shape_BlockStmt_fresh (x : ast.BlockStmt) : SameShape BlockStmt.fresh ast.BlockStmt.shape x :=
  @ast.BlockStmt.rec
    (SameShape Field.fresh ast.Field.shape)
    (SameShape FieldList.fresh ast.FieldList.shape)
    (SameShape FuncType.fresh ast.FuncType.shape)
    (SameShape CallExpr.fresh ast.CallExpr.shape)
    (SameShape BlockStmt.fresh ast.BlockStmt.shape)
    (fun x => SameShape copyExpr ast.Expr.shape (some x))
    (fun x => SameShape copyStmt ast.Stmt.shape (some x))
    (fun x => SameShape Spec ast.Spec.shape (some x))
    (fun x => SameShape copyDecl ast.Decl.shape (some x))
    (SameShape copyExpr ast.Expr.shape)
    (OnSlice (SameShape FieldList.loop ast.Field.shapeList))
    (SameShape FieldList ast.FieldList.shapePtr)
    (SameShape ExprList ast.Expr.shapeSlice)
    (SameShape StmtList ast.Stmt.shapeSlice)
    (SameShape FuncType ast.FuncType.shapePtr)
    (SameShape BlockStmt ast.BlockStmt.shapePtr)
    (SameShape copyDecl ast.Decl.shape)
    (SameShape copyStmt ast.Stmt.shape)
    (SameShape CallExpr ast.CallExpr.shapePtr)
    (SameShape SpecList ast.Spec.shapeSlice)
    (SameShape FieldList.loop ast.Field.shapeList)
    (SameShape ExprList.loop ast.Expr.shapeList)
    (SameShape StmtList.loop ast.Stmt.shapeList)
    (SameShape SpecList.loop ast.Spec.shapeList)
    (SameShape Field ast.Field.shapePtr)
    (SameShape Spec ast.Spec.shape)
    shape_Field_mk shape_FieldList_mk shape_FuncType_mk shape_CallExpr_mk shape_BlockStmt_mk
    shape_ExprNode_BadExpr shape_ExprNode_Ident shape_ExprNode_Ellipsis shape_ExprNode_BasicLit
    shape_ExprNode_FuncLit shape_ExprNode_CompositeLit shape_ExprNode_ParenExpr
    shape_ExprNode_SelectorExpr shape_ExprNode_IndexExpr shape_ExprNode_SliceExpr
    shape_ExprNode_TypeAssertExpr shape_ExprNode_CallExpr shape_ExprNode_StarExpr
    shape_ExprNode_UnaryExpr shape_ExprNode_BinaryExpr shape_ExprNode_KeyValueExpr
    shape_ExprNode_ArrayType shape_ExprNode_StructType shape_ExprNode_FuncType
    shape_ExprNode_InterfaceType shape_ExprNode_MapType shape_ExprNode_ChanType
    shape_ExprNode_other shape_StmtNode_BadStmt shape_StmtNode_DeclStmt shape_StmtNode_EmptyStmt
    shape_StmtNode_LabeledStmt shape_StmtNode_ExprStmt shape_StmtNode_SendStmt
    shape_StmtNode_IncDecStmt shape_StmtNode_AssignStmt shape_StmtNode_GoStmt
    shape_StmtNode_DeferStmt shape_StmtNode_ReturnStmt shape_StmtNode_BranchStmt
    shape_StmtNode_BlockStmt shape_StmtNode_IfStmt shape_StmtNode_CaseClause
    shape_StmtNode_SwitchStmt shape_StmtNode_TypeSwitchStmt shape_StmtNode_CommClause
    shape_StmtNode_SelectStmt shape_StmtNode_ForStmt shape_StmtNode_RangeStmt shape_StmtNode_other
    shape_SpecNode_ImportSpec shape_SpecNode_ValueSpec shape_SpecNode_TypeSpec
    shape_SpecNode_other shape_DeclNode_BadDecl shape_DeclNode_GenDecl shape_DeclNode_FuncDecl
    shape_DeclNode_other shape_Opt_ExprNode_none shape_Opt_ExprNode_some shape_Slice_Field_none
    shape_Slice_Field_some shape_Opt_FieldList_none shape_Opt_FieldList_some
    shape_Slice_ExprNode_none shape_Slice_ExprNode_some shape_Slice_StmtNode_none
    shape_Slice_StmtNode_some shape_Opt_FuncType_none shape_Opt_FuncType_some
    shape_Opt_BlockStmt_none shape_Opt_BlockStmt_some shape_Opt_DeclNode_none
    shape_Opt_DeclNode_some shape_Opt_StmtNode_none shape_Opt_StmtNode_some
    shape_Opt_CallExpr_none shape_Opt_CallExpr_some shape_Slice_SpecNode_none
    shape_Slice_SpecNode_some shape_List_Field_nil shape_List_Field_cons shape_List_ExprNode_nil
    shape_List_ExprNode_cons shape_List_StmtNode_nil shape_List_StmtNode_cons
    shape_List_SpecNode_nil shape_List_SpecNode_cons shape_Opt_Field_none shape_Opt_Field_some
    shape_Opt_SpecNode_none shape_Opt_SpecNode_some x

theorem shape_BlockStmt : ∀ (x : Option ast.BlockStmt), SameShape BlockStmt ast.BlockStmt.shapePtr x
  | none => shape_Opt_BlockStmt_none
  | some x => shape_Opt_BlockStmt_some x (shape_BlockStmt_fresh x)

end astcopy

namespace astcopy

/-! ## The list loops -/

theorem loop_ok_iff {α : Type} (g : α → Except String α) (loop : List α → Except String (List α))
    (h0 : loop [] = pure [])
    (h1 : ∀ x xs, loop (x :: xs) = (g x >>= fun c => loop xs >>= fun cs => pure (c :: cs))) :
    ∀ xs cs, loop xs = .ok cs ↔ List.Forall₂ (fun x c => g x = .ok c) xs cs := by
  intro xs
  induction xs with
  | nil =>
    intro cs
    rw [h0, pure_eq_ok]
    constructor
    · rintro rfl
      exact List.Forall₂.nil
    · intro h
      cases h
      rfl
  | cons x xs ih =>
    intro cs
    rw [h1]
    simp only [bind_eq_ok, pure_eq_ok]
    constructor
    · rintro ⟨c, hc, ds, hds, rfl⟩
      exact List.Forall₂.cons hc ((ih ds).mp hds)
    · intro h
      cases h with
      | cons hc hds => exact ⟨_, hc, _, (ih _).mpr hds, rfl⟩

theorem forall₂_index {α β : Type} {R : α → β → Prop} {xs : List α} {cs : List β}
    (h : List.Forall₂ R xs cs) :
    cs.length = xs.length ∧ ∀ (i : Nat) (x : α), xs[i]? = some x → ∃ c, cs[i]? = some c ∧ R x c := by
  induction h with
  | nil =>
    refine ⟨rfl, ?_⟩
    intro i x hx
    simp at hx
  | @cons a b l₁ l₂ hr _ ih =>
    refine ⟨by simp [ih.1], ?_⟩
    intro i x hx
    cases i with
    | zero =>
      simp only [List.getElem?_cons_zero, Option.some.injEq] at hx
      subst hx
      exact ⟨b, List.getElem?_cons_zero, hr⟩
    | succ i =>
      rw [List.getElem?_cons_succ] at hx
      obtain ⟨c, hc, hR⟩ := ih.2 i x hx
      exact ⟨c, by rw [List.getElem?_cons_succ]; exact hc, hR⟩

theorem ExprList_loop_iff (xs cs : List ast.Expr) :
    ExprList.loop xs = .ok cs ↔ List.Forall₂ (fun x c => copyExpr x = .ok c) xs cs :=
  loop_ok_iff copyExpr ExprList.loop (by rw [ExprList.loop]) (fun x xs => by rw [ExprList.loop]) xs cs

theorem StmtList_loop_iff (xs cs : List ast.Stmt) :
    StmtList.loop xs = .ok cs ↔ List.Forall₂ (fun x c => copyStmt x = .ok c) xs cs :=
  loop_ok_iff copyStmt StmtList.loop (by rw [StmtList.loop]) (fun x xs => by rw [StmtList.loop]) xs cs

theorem SpecList_loop_iff (xs cs : List ast.Spec) :
    SpecList.loop xs = .ok cs ↔ List.Forall₂ (fun x c => Spec x = .ok c) xs cs :=
  loop_ok_iff Spec SpecList.loop (by rw [SpecList.loop]) (fun x xs => by rw [SpecList.loop]) xs cs

theorem DeclList_loop_iff (xs cs : List ast.Decl) :
    DeclList.loop xs = .ok cs ↔ List.Forall₂ (fun x c => copyDecl x = .ok c) xs cs :=
  loop_ok_iff copyDecl DeclList.loop (by rw [DeclList.loop]) (fun x xs => by rw [DeclList.loop]) xs cs

theorem NodeList_loop_iff (xs cs : List ast.Node) :
    NodeList.loop xs = .ok cs ↔ List.Forall₂ (fun x c => copyNode x = .ok c) xs cs :=
  loop_ok_iff copyNode NodeList.loop (by rw [NodeList.loop]) (fun x xs => by rw [NodeList.loop]) xs cs

theorem elems_some {α : Type} (xs : List α) : ast.elems (some xs) = xs := rfl

theorem slice_ok_iff {α : Type} (loop : List α → Except String (List α)) (xs : List α)
    (ys : Option (List α)) :
    (loop xs >>= fun cp => pure (some cp)) = .ok ys ↔ ∃ cs, loop xs = .ok cs ∧ ys = some cs := by
  simp only [bind_eq_ok, pure_eq_ok]

/-! ## Declaration lists and files -/

theorem pos_DeclList_loop : ∀ (xs cs : List ast.Decl), DeclList.loop xs = .ok cs →
    token.Zeros (ast.Decl.positionsList cs)
  | [], cs, h => by
    rw [DeclList.loop, pure_eq_ok] at h
    subst h
    exact zeros_nil
  | x :: xs, cs, h => by
    rw [DeclList.loop] at h
    simp only [bind_eq_ok, pure_eq_ok] at h
    obtain ⟨c, hc, ds, hds, rfl⟩ := h
    simp only [ast.Decl.positionsList, zeros_append]
    exact ⟨pos_copyDecl x c hc, pos_DeclList_loop xs ds hds⟩

theorem pos_DeclList (xs ys : Option (List ast.Decl)) (h : DeclList xs = .ok ys) :
    token.Zeros (ast.Decl.positionsSlice ys) := by
  cases xs with
  | none =>
    rw [DeclList, pure_eq_ok] at h
    subst h
    exact zeros_nil
  | some xs =>
    rw [DeclList] at h
    simp only [bind_eq_ok, pure_eq_ok] at h
    obtain ⟨cs, hcs, rfl⟩ := h
    exact pos_DeclList_loop xs cs hcs

theorem idem_DeclList_loop : ∀ (xs cs : List ast.Decl), DeclList.loop xs = .ok cs →
    DeclList.loop cs = .ok cs
  | [], cs, h => by
    rw [DeclList.loop, pure_eq_ok] at h
    subst h
    rfl
  | x :: xs, cs, h => by
    rw [DeclList.loop] at h
    simp only [bind_eq_ok, pure_eq_ok] at h
    obtain ⟨c, hc, ds, hds, rfl⟩ := h
    rw [DeclList.loop, idem_copyDecl x c hc, ok_bind, idem_DeclList_loop xs ds hds]
    rfl

theorem idem_DeclList (xs ys : Option (List ast.Decl)) (h : DeclList xs = .ok ys) :
    DeclList ys = .ok ys := by
  cases xs with
  | none =>
    rw [DeclList, pure_eq_ok] at h
    subst h
    rfl
  | some xs =>
    rw [DeclList] at h
    simp only [bind_eq_ok, pure_eq_ok] at h
    obtain ⟨cs, hcs, rfl⟩ := h
    rw [DeclList, idem_DeclList_loop xs cs hcs]
    rfl

theorem total_DeclList_loop : ∀ (xs : List ast.Decl), ast.Decl.inGrammarList xs = true →
    ∃ cs, DeclList.loop xs = .ok cs
  | [], _ => ⟨_, rfl⟩
  | x :: xs, h => by
    simp only [ast.Decl.inGrammarList, Bool.and_eq_true] at h
    obtain ⟨c, hc⟩ := total_copyDecl x h.1
    obtain ⟨cs, hcs⟩ := total_DeclList_loop xs h.2
    exact ⟨_, by rw [DeclList.loop, hc, ok_bind, hcs]; rfl⟩

theorem total_DeclList (xs : Option (List ast.Decl)) (h : ast.Decl.inGrammarSlice xs = true) :
    ∃ ys, DeclList xs = .ok ys := by
  cases xs with
  | none => exact ⟨_, rfl⟩
  | some xs =>
    obtain ⟨cs, hcs⟩ := total_DeclList_loop xs h
    exact ⟨_, by rw [DeclList, hcs]; rfl⟩

theorem File_ok_iff (x : ast.File) (y : Option ast.File) :
    File (some x) = .ok y ↔ ∃ cDecls, DeclList x.Decls = .ok cDecls ∧
      y = some { Doc := CommentGroup x.Doc, Package := token.NoPos, Name := Ident x.Name,
                 Decls := cDecls, Imports := some ((ast.elems x.Imports).map ImportSpec),
                 Unresolved := IdentList x.Unresolved,
                 Comments := some ((ast.elems x.Comments).map CommentGroup) } := by
  rw [File]
  simp only [bind_eq_ok, pure_eq_ok]

theorem pos_File (x : ast.File) (y : Option ast.File) (h : File (some x) = .ok y) :
    token.Zeros (ast.File.positionsPtr y) := by
  obtain ⟨cDecls, hd, rfl⟩ := (File_ok_iff x y).mp h
  simp only [ast.File.positionsPtr, ast.File.positions, zeros_append, zeros_single,
    zeros_CommentGroup, zeros_Ident, zeros_IdentList, pos_DeclList _ _ hd,
    ast.ImportSpec.positionsSlice, ast.CommentGroup.positionsSlice, zeros_ImportSpec_map,
    zeros_CommentGroup_map, and_self]

theorem idem_File (x : ast.File) (y : Option ast.File) (h : File (some x) = .ok y) :
    File y = .ok y := by
  obtain ⟨cDecls, hd, rfl⟩ := (File_ok_iff x y).mp h
  rw [File_ok_iff]
  refine ⟨cDecls, idem_DeclList _ _ hd, ?_⟩
  have hi : ((ast.elems x.Imports).map ImportSpec).map ImportSpec
      = (ast.elems x.Imports).map ImportSpec := by
    rw [List.map_map]
    exact List.map_congr_left (fun a _ => ImportSpec_idem a)
  have hc : ((ast.elems x.Comments).map CommentGroup).map CommentGroup
      = (ast.elems x.Comments).map CommentGroup := by
    rw [List.map_map]
    exact List.map_congr_left (fun a _ => CommentGroup_idem a)
  simp only [elems_some, CommentGroup_idem, Ident_idem, IdentList_idem, hi, hc]

theorem total_File (x : ast.File) (h : ast.File.inGrammar x = true) :
    ∃ y, File (some x) = .ok (some y) := by
  obtain ⟨cDecls, hd⟩ := total_DeclList x.Decls h
  exact ⟨_, (File_ok_iff x _).mpr ⟨cDecls, hd, rfl⟩⟩

/-! ## Packages -/

theorem mapSet_append_new {V : Type} (m : List (String × V)) (k : String) (v : V)
    (h : k ∉ m.map Prod.fst) : ast.mapSet m k v = m ++ [(k, v)] := by
  induction m with
  | nil => rfl
  | cons e m ih =>
    obtain ⟨k1, v1⟩ := e
    simp only [List.map_cons, List.mem_cons, not_or] at h
    have hne : ¬ k1 = k := fun e => h.1 e.symm
    simp only [ast.mapSet, hne, if_false, ih h.2, List.cons_append]

theorem foldl_mapSet_nodup {V : Type} (m acc : List (String × V))
    (h : ((acc ++ m).map Prod.fst).Nodup) :
    m.foldl (fun a e => ast.mapSet a e.1 e.2) acc = acc ++ m := by
  induction m generalizing acc with
  | nil => simp
  | cons e m ih =>
    have hk : e.1 ∉ acc.map Prod.fst := by
      intro hmem
      simp only [List.map_append, List.map_cons] at h
      have := (List.nodup_append.mp h).2.2
      exact this hmem (List.mem_cons_self _ _)
    simp only [List.foldl_cons]
    rw [mapSet_append_new acc e.1 e.2 hk]
    have h2 : ((acc ++ [(e.1, e.2)] ++ m).map Prod.fst).Nodup := by
      simpa [List.append_assoc] using h
    rw [ih _ h2]
    simp [List.append_assoc]

theorem mapSet_keys {V : Type} (m : List (String × V)) (k : String) (v : V) :
    (ast.mapSet m k v).map Prod.fst = if k ∈ m.map Prod.fst then m.map Prod.fst
      else m.map Prod.fst ++ [k] := by
  induction m with
  | nil => simp [ast.mapSet]
  | cons e m ih =>
    obtain ⟨k1, v1⟩ := e
    by_cases hk : k1 = k
    · subst hk
      simp [ast.mapSet]
    · have hk2 : ¬ k = k1 := fun e => hk e.symm
      simp only [ast.mapSet, hk, if_false, List.map_cons, ih, List.mem_cons, hk2, false_or]
      split <;> simp

theorem mapSet_nodup {V : Type} (m : List (String × V)) (k : String) (v : V)
    (h : (m.map Prod.fst).Nodup) : ((ast.mapSet m k v).map Prod.fst).Nodup := by
  rw [mapSet_keys]
  split
  · exact h
  · rename_i hk
    exact List.nodup_append.mpr ⟨h, List.nodup_singleton k, by
      intro a ha hb
      simp only [List.mem_singleton] at hb
      subst hb
      exact hk ha⟩

theorem foldl_mapSet_keys_nodup {V : Type} (l acc : List (String × V))
    (h : (acc.map Prod.fst).Nodup) :
    ((l.foldl (fun a e => ast.mapSet a e.1 e.2) acc).map Prod.fst).Nodup := by
  induction l generalizing acc with
  | nil => exact h
  | cons e l ih => exact ih _ (mapSet_nodup acc e.1 e.2 h)

theorem Package_idem (x : Option ast.Package) : Package (Package x) = Package x := by
  cases x with
  | none => rfl
  | some x =>
    have hn := foldl_mapSet_keys_nodup (ast.elems x.Files) [] List.nodup_nil
    have h := foldl_mapSet_nodup
      ((ast.elems x.Files).foldl (fun a e => ast.mapSet a e.1 e.2) []) []
      (by simpa using hn)
    simp only [Package, elems_some, h, List.nil_append]

end astcopy
namespace astcopy

/-! ## The switch of each category and the function of each variant -/

theorem copyExpr_BadExpr (x : ast.BadExpr) :
    copyExpr (some (.BadExpr x)) = pure ((BadExpr (some x)).map ast.ExprNode.BadExpr) := by
  rw [copyExpr]
  rfl

theorem copyExpr_Ident (x : ast.Ident) :
    copyExpr (some (.Ident x)) = pure ((Ident (some x)).map ast.ExprNode.Ident) := by
  rw [copyExpr]
  rfl

theorem copyExpr_Ellipsis (x : ast.Ellipsis) :
    copyExpr (some x.toExpr) = (Ellipsis (some x) >>= fun c => pure (c.map ast.Ellipsis.toExpr)) := by
  rw [Ellipsis, ast.Ellipsis.toExpr, copyExpr]
  simp only [bind_assoc, pure_bind, Option.map_some', ast.Ellipsis.toExpr]

theorem copyExpr_BasicLit (x : ast.BasicLit) :
    copyExpr (some (.BasicLit x)) = pure ((BasicLit (some x)).map ast.ExprNode.BasicLit) := by
  rw [copyExpr]
  rfl

theorem copyExpr_FuncLit (x : ast.FuncLit) :
    copyExpr (some x.toExpr) = (FuncLit (some x) >>= fun c => pure (c.map ast.FuncLit.toExpr)) := by
  rw [FuncLit, ast.FuncLit.toExpr, copyExpr]
  simp only [bind_assoc, pure_bind, Option.map_some', ast.FuncLit.toExpr]

theorem copyExpr_CompositeLit (x : ast.CompositeLit) :
    copyExpr (some x.toExpr) = (CompositeLit (some x) >>= fun c => pure (c.map ast.CompositeLit.toExpr)) := by
  rw [CompositeLit, ast.CompositeLit.toExpr, copyExpr]
  simp only [bind_assoc, pure_bind, Option.map_some', ast.CompositeLit.toExpr]

theorem copyExpr_ParenExpr (x : ast.ParenExpr) :
    copyExpr (some x.toExpr) = (ParenExpr (some x) >>= fun c => pure (c.map ast.ParenExpr.toExpr)) := by
  rw [ParenExpr, ast.ParenExpr.toExpr, copyExpr]
  simp only [bind_assoc, pure_bind, Option.map_some', ast.ParenExpr.toExpr]

theorem copyExpr_SelectorExpr (x : ast.SelectorExpr) :
    copyExpr (some x.toExpr) = (SelectorExpr (some x) >>= fun c => pure (c.map ast.SelectorExpr.toExpr)) := by
  rw [SelectorExpr, ast.SelectorExpr.toExpr, copyExpr]
  simp only [bind_assoc, pure_bind, Option.map_some', ast.SelectorExpr.toExpr]

theorem copyExpr_IndexExpr (x : ast.IndexExpr) :
    copyExpr (some x.toExpr) = (IndexExpr (some x) >>= fun c => pure (c.map ast.IndexExpr.toExpr)) := by
  rw [IndexExpr, ast.IndexExpr.toExpr, copyExpr]
  simp only [bind_assoc, pure_bind, Option.map_some', ast.IndexExpr.toExpr]

theorem copyExpr_SliceExpr (x : ast.SliceExpr) :
    copyExpr (some x.toExpr) = (SliceExpr (some x) >>= fun c => pure (c.map ast.SliceExpr.toExpr)) := by
  rw [SliceExpr, ast.SliceExpr.toExpr, copyExpr]
  simp only [bind_assoc, pure_bind, Option.map_some', ast.SliceExpr.toExpr]

theorem copyExpr_TypeAssertExpr (x : ast.TypeAssertExpr) :
    copyExpr (some x.toExpr) = (TypeAssertExpr (some x) >>= fun c => pure (c.map ast.TypeAssertExpr.toExpr)) := by
  rw [TypeAssertExpr, ast.TypeAssertExpr.toExpr, copyExpr]
  simp only [bind_assoc, pure_bind, Option.map_some', ast.TypeAssertExpr.toExpr]

theorem copyExpr_CallExpr (x : ast.CallExpr) :
    copyExpr (some (.CallExpr x)) = (CallExpr (some x) >>= fun c => pure (c.map ast.ExprNode.CallExpr)) := by
  rw [copyExpr, CallExpr]
  simp only [bind_assoc, pure_bind, Option.map_some']

theorem copyExpr_StarExpr (x : ast.StarExpr) :
    copyExpr (some x.toExpr) = (StarExpr (some x) >>= fun c => pure (c.map ast.StarExpr.toExpr)) := by
  rw [StarExpr, ast.StarExpr.toExpr, copyExpr]
  simp only [bind_assoc, pure_bind, Option.map_some', ast.StarExpr.toExpr]

theorem copyExpr_UnaryExpr (x : ast.UnaryExpr) :
    copyExpr (some x.toExpr) = (UnaryExpr (some x) >>= fun c => pure (c.map ast.UnaryExpr.toExpr)) := by
  rw [UnaryExpr, ast.UnaryExpr.toExpr, copyExpr]
  simp only [bind_assoc, pure_bind, Option.map_some', ast.UnaryExpr.toExpr]

theorem copyExpr_BinaryExpr (x : ast.BinaryExpr) :
    copyExpr (some x.toExpr) = (BinaryExpr (some x) >>= fun c => pure (c.map ast.BinaryExpr.toExpr)) := by
  rw [BinaryExpr, ast.BinaryExpr.toExpr, copyExpr]
  simp only [bind_assoc, pure_bind, Option.map_some', ast.BinaryExpr.toExpr]

theorem copyExpr_KeyValueExpr (x : ast.KeyValueExpr) :
    copyExpr (some x.toExpr) = (KeyValueExpr (some x) >>= fun c => pure (c.map ast.KeyValueExpr.toExpr)) := by
  rw [KeyValueExpr, ast.KeyValueExpr.toExpr, copyExpr]
  simp only [bind_assoc, pure_bind, Option.map_some', ast.KeyValueExpr.toExpr]

theorem copyExpr_ArrayType (x : ast.ArrayType) :
    copyExpr (some x.toExpr) = (ArrayType (some x) >>= fun c => pure (c.map ast.ArrayType.toExpr)) := by
  rw [ArrayType, ast.ArrayType.toExpr, copyExpr]
  simp only [bind_assoc, pure_bind, Option.map_some', ast.ArrayType.toExpr]

theorem copyExpr_StructType (x : ast.StructType) :
    copyExpr (some x.toExpr) = (StructType (some x) >>= fun c => pure (c.map ast.StructType.toExpr)) := by
  rw [StructType, ast.StructType.toExpr, copyExpr]
  simp only [bind_assoc, pure_bind, Option.map_some', ast.StructType.toExpr]

theorem copyExpr_FuncType (x : ast.FuncType) :
    copyExpr (some (.FuncType x)) = (FuncType (some x) >>= fun c => pure (c.map ast.ExprNode.FuncType)) := by
  rw [copyExpr, FuncType]
  simp only [bind_assoc, pure_bind, Option.map_some']

theorem copyExpr_InterfaceType (x : ast.InterfaceType) :
    copyExpr (some x.toExpr) = (InterfaceType (some x) >>= fun c => pure (c.map ast.InterfaceType.toExpr)) := by
  rw [InterfaceType, ast.InterfaceType.toExpr, copyExpr]
  simp only [bind_assoc, pure_bind, Option.map_some', ast.InterfaceType.toExpr]

theorem copyExpr_MapType (x : ast.MapType) :
    copyExpr (some x.toExpr) = (MapType (some x) >>= fun c => pure (c.map ast.MapType.toExpr)) := by
  rw [MapType, ast.MapType.toExpr, copyExpr]
  simp only [bind_assoc, pure_bind, Option.map_some', ast.MapType.toExpr]

theorem copyExpr_ChanType (x : ast.ChanType) :
    copyExpr (some x.toExpr) = (ChanType (some x) >>= fun c => pure (c.map ast.ChanType.toExpr)) := by
  rw [ChanType, ast.ChanType.toExpr, copyExpr]
  simp only [bind_assoc, pure_bind, Option.map_some', ast.ChanType.toExpr]

theorem copyStmt_BadStmt (x : ast.BadStmt) :
    copyStmt (some (.BadStmt x)) = pure ((BadStmt (some x)).map ast.StmtNode.BadStmt) := by
  rw [copyStmt]
  rfl

theorem copyStmt_DeclStmt (x : ast.DeclStmt) :
    copyStmt (some x.toStmt) = (DeclStmt (some x) >>= fun c => pure (c.map ast.DeclStmt.toStmt)) := by
  rw [DeclStmt, ast.DeclStmt.toStmt, copyStmt]
  simp only [bind_assoc, pure_bind, Option.map_some', ast.DeclStmt.toStmt]

theorem copyStmt_EmptyStmt (x : ast.EmptyStmt) :
    copyStmt (some (.EmptyStmt x)) = pure ((EmptyStmt (some x)).map ast.StmtNode.EmptyStmt) := by
  rw [copyStmt]
  rfl

theorem copyStmt_LabeledStmt (x : ast.LabeledStmt) :
    copyStmt (some x.toStmt) = (LabeledStmt (some x) >>= fun c => pure (c.map ast.LabeledStmt.toStmt)) := by
  rw [LabeledStmt, ast.LabeledStmt.toStmt, copyStmt]
  simp only [bind_assoc, pure_bind, Option.map_some', ast.LabeledStmt.toStmt]

theorem copyStmt_ExprStmt (x : ast.ExprStmt) :
    copyStmt (some x.toStmt) = (ExprStmt (some x) >>= fun c => pure (c.map ast.ExprStmt.toStmt)) := by
  rw [ExprStmt, ast.ExprStmt.toStmt, copyStmt]
  simp only [bind_assoc, pure_bind, Option.map_some', ast.ExprStmt.toStmt]

theorem copyStmt_SendStmt (x : ast.SendStmt) :
    copyStmt (some x.toStmt) = (SendStmt (some x) >>= fun c => pure (c.map ast.SendStmt.toStmt)) := by
  rw [SendStmt, ast.SendStmt.toStmt, copyStmt]
  simp only [bind_assoc, pure_bind, Option.map_some', ast.SendStmt.toStmt]

theorem copyStmt_IncDecStmt (x : ast.IncDecStmt) :
    copyStmt (some x.toStmt) = (IncDecStmt (some x) >>= fun c => pure (c.map ast.IncDecStmt.toStmt)) := by
  rw [IncDecStmt, ast.IncDecStmt.toStmt, copyStmt]
  simp only [bind_assoc, pure_bind, Option.map_some', ast.IncDecStmt.toStmt]

theorem copyStmt_AssignStmt (x : ast.AssignStmt) :
    copyStmt (some x.toStmt) = (AssignStmt (some x) >>= fun c => pure (c.map ast.AssignStmt.toStmt)) := by
  rw [AssignStmt, ast.AssignStmt.toStmt, copyStmt]
  simp only [bind_assoc, pure_bind, Option.map_some', ast.AssignStmt.toStmt]

theorem copyStmt_GoStmt (x : ast.GoStmt) :
    copyStmt (some x.toStmt) = (GoStmt (some x) >>= fun c => pure (c.map ast.GoStmt.toStmt)) := by
  rw [GoStmt, ast.GoStmt.toStmt, copyStmt]
  simp only [bind_assoc, pure_bind, Option.map_some', ast.GoStmt.toStmt]

theorem copyStmt_DeferStmt (x : ast.DeferStmt) :
    copyStmt (some x.toStmt) = (DeferStmt (some x) >>= fun c => pure (c.map ast.DeferStmt.toStmt)) := by
  rw [DeferStmt, ast.DeferStmt.toStmt, copyStmt]
  simp only [bind_assoc, pure_bind, Option.map_some', ast.DeferStmt.toStmt]

theorem copyStmt_ReturnStmt (x : ast.ReturnStmt) :
    copyStmt (some x.toStmt) = (ReturnStmt (some x) >>= fun c => pure (c.map ast.ReturnStmt.toStmt)) := by
  rw [ReturnStmt, ast.ReturnStmt.toStmt, copyStmt]
  simp only [bind_assoc, pure_bind, Option.map_some', ast.ReturnStmt.toStmt]

theorem copyStmt_BranchStmt (x : ast.BranchStmt) :
    copyStmt (some (.BranchStmt x)) = pure ((BranchStmt (some x)).map ast.StmtNode.BranchStmt) := by
  rw [copyStmt]
  rfl

theorem copyStmt_BlockStmt (x : ast.BlockStmt) :
    copyStmt (some (.BlockStmt x)) = (BlockStmt (some x) >>= fun c => pure (c.map ast.StmtNode.BlockStmt)) := by
  rw [copyStmt, BlockStmt]
  simp only [bind_assoc, pure_bind, Option.map_some']

theorem copyStmt_IfStmt (x : ast.IfStmt) :
    copyStmt (some x.toStmt) = (IfStmt (some x) >>= fun c => pure (c.map ast.IfStmt.toStmt)) := by
  rw [IfStmt, ast.IfStmt.toStmt, copyStmt]
  simp only [bind_assoc, pure_bind, Option.map_some', ast.IfStmt.toStmt]

theorem copyStmt_CaseClause (x : ast.CaseClause) :
    copyStmt (some x.toStmt) = (CaseClause (some x) >>= fun c => pure (c.map ast.CaseClause.toStmt)) := by
  rw [CaseClause, ast.CaseClause.toStmt, copyStmt]
  simp only [bind_assoc, pure_bind, Option.map_some', ast.CaseClause.toStmt]

theorem copyStmt_SwitchStmt (x : ast.SwitchStmt) :
    copyStmt (some x.toStmt) = (SwitchStmt (some x) >>= fun c => pure (c.map ast.SwitchStmt.toStmt)) := by
  rw [SwitchStmt, ast.SwitchStmt.toStmt, copyStmt]
  simp only [bind_assoc, pure_bind, Option.map_some', ast.SwitchStmt.toStmt]

theorem copyStmt_TypeSwitchStmt (x : ast.TypeSwitchStmt) :
    copyStmt (some x.toStmt) = (TypeSwitchStmt (some x) >>= fun c => pure (c.map ast.TypeSwitchStmt.toStmt)) := by
  rw [TypeSwitchStmt, ast.TypeSwitchStmt.toStmt, copyStmt]
  simp only [bind_assoc, pure_bind, Option.map_some', ast.TypeSwitchStmt.toStmt]

theorem copyStmt_CommClause (x : ast.CommClause) :
    copyStmt (some x.toStmt) = (CommClause (some x) >>= fun c => pure (c.map ast.CommClause.toStmt)) := by
  rw [CommClause, ast.CommClause.toStmt, copyStmt]
  simp only [bind_assoc, pure_bind, Option.map_some', ast.CommClause.toStmt]

theorem copyStmt_SelectStmt (x : ast.SelectStmt) :
    copyStmt (some x.toStmt) = (SelectStmt (some x) >>= fun c => pure (c.map ast.SelectStmt.toStmt)) := by
  rw [SelectStmt, ast.SelectStmt.toStmt, copyStmt]
  simp only [bind_assoc, pure_bind, Option.map_some', ast.SelectStmt.toStmt]

theorem copyStmt_ForStmt (x : ast.ForStmt) :
    copyStmt (some x.toStmt) = (ForStmt (some x) >>= fun c => pure (c.map ast.ForStmt.toStmt)) := by
  rw [ForStmt, ast.ForStmt.toStmt, copyStmt]
  simp only [bind_assoc, pure_bind, Option.map_some', ast.ForStmt.toStmt]

theorem copyStmt_RangeStmt (x : ast.RangeStmt) :
    copyStmt (some x.toStmt) = (RangeStmt (some x) >>= fun c => pure (c.map ast.RangeStmt.toStmt)) := by
  rw [RangeStmt, ast.RangeStmt.toStmt, copyStmt]
  simp only [bind_assoc, pure_bind, Option.map_some', ast.RangeStmt.toStmt]

theorem Spec_ImportSpec (x : ast.ImportSpec) :
    Spec (some (.ImportSpec x)) = pure ((ImportSpec (some x)).map ast.SpecNode.ImportSpec) := by
  rw [Spec]
  rfl

theorem Spec_ValueSpec (x : ast.ValueSpec) :
    Spec (some x.toSpec) = (ValueSpec (some x) >>= fun c => pure (c.map ast.ValueSpec.toSpec)) := by
  rw [ValueSpec, ast.ValueSpec.toSpec, Spec]
  simp only [bind_assoc, pure_bind, Option.map_some', ast.ValueSpec.toSpec]

theorem Spec_TypeSpec (x : ast.TypeSpec) :
    Spec (some x.toSpec) = (TypeSpec (some x) >>= fun c => pure (c.map ast.TypeSpec.toSpec)) := by
  rw [TypeSpec, ast.TypeSpec.toSpec, Spec]
  simp only [bind_assoc, pure_bind, Option.map_some', ast.TypeSpec.toSpec]

theorem copyDecl_BadDecl (x : ast.BadDecl) :
    copyDecl (some (.BadDecl x)) = pure ((BadDecl (some x)).map ast.DeclNode.BadDecl) := by
  rw [copyDecl]
  rfl

theorem copyDecl_GenDecl (x : ast.GenDecl) :
    copyDecl (some x.toDecl) = (GenDecl (some x) >>= fun c => pure (c.map ast.GenDecl.toDecl)) := by
  rw [GenDecl, ast.GenDecl.toDecl, copyDecl]
  simp only [bind_assoc, pure_bind, Option.map_some', ast.GenDecl.toDecl]

theorem copyDecl_FuncDecl (x : ast.FuncDecl) :
    copyDecl (some x.toDecl) = (FuncDecl (some x) >>= fun c => pure (c.map ast.FuncDecl.toDecl)) := by
  rw [FuncDecl, ast.FuncDecl.toDecl, copyDecl]
  simp only [bind_assoc, pure_bind, Option.map_some', ast.FuncDecl.toDecl]

/-! ## The copy of a present node is present -/

theorem copyExpr_present (x : ast.ExprNode) (y : ast.Expr) (h : copyExpr (some x) = .ok y) :
    ∃ n, y = some n := by
  cases x with
  | BadExpr a0 =>
    rw [copyExpr] at h
    simp only [bind_eq_ok, pure_eq_ok] at h
    obtain rfl := h
    exact ⟨_, rfl⟩
  | Ident a0 =>
    rw [copyExpr] at h
    simp only [bind_eq_ok, pure_eq_ok] at h
    obtain rfl := h
    exact ⟨_, rfl⟩
  | Ellipsis a0 a1 =>
    rw [copyExpr] at h
    simp only [bind_eq_ok, pure_eq_ok] at h
    obtain ⟨_, _, rfl⟩ := h
    exact ⟨_, rfl⟩
  | BasicLit a0 =>
    rw [copyExpr] at h
    simp only [bind_eq_ok, pure_eq_ok] at h
    obtain rfl := h
    exact ⟨_, rfl⟩
  | FuncLit a0 a1 =>
    rw [copyExpr] at h
    simp only [bind_eq_ok, pure_eq_ok] at h
    obtain ⟨_, _, _, _, rfl⟩ := h
    exact ⟨_, rfl⟩
  | CompositeLit a0 a1 a2 a3 a4 =>
    rw [copyExpr] at h
    simp only [bind_eq_ok, pure_eq_ok] at h
    obtain ⟨_, _, _, _, rfl⟩ := h
    exact ⟨_, rfl⟩
  | ParenExpr a0 a1 a2 =>
    rw [copyExpr] at h
    simp only [bind_eq_ok, pure_eq_ok] at h
    obtain ⟨_, _, rfl⟩ := h
    exact ⟨_, rfl⟩
  | SelectorExpr a0 a1 =>
    rw [copyExpr] at h
    simp only [bind_eq_ok, pure_eq_ok] at h
    obtain ⟨_, _, rfl⟩ := h
    exact ⟨_, rfl⟩
  | IndexExpr a0 a1 a2 a3 =>
    rw [copyExpr] at h
    simp only [bind_eq_ok, pure_eq_ok] at h
    obtain ⟨_, _, _, _, rfl⟩ := h
    exact ⟨_, rfl⟩
  | SliceExpr a0 a1 a2 a3 a4 a5 a6 =>
    rw [copyExpr] at h
    simp only [bind_eq_ok, pure_eq_ok] at h
    obtain ⟨_, _, _, _, _, _, _, _, rfl⟩ := h
    exact ⟨_, rfl⟩
  | TypeAssertExpr a0 a1 a2 a3 =>
    rw [copyExpr] at h
    simp only [bind_eq_ok, pure_eq_ok] at h
    obtain ⟨_, _, _, _, rfl⟩ := h
    exact ⟨_, rfl⟩
  | CallExpr a0 =>
    rw [copyExpr] at h
    simp only [bind_eq_ok, pure_eq_ok] at h
    obtain ⟨_, _, rfl⟩ := h
    exact ⟨_, rfl⟩
  | StarExpr a0 a1 =>
    rw [copyExpr] at h
    simp only [bind_eq_ok, pure_eq_ok] at h
    obtain ⟨_, _, rfl⟩ := h
    exact ⟨_, rfl⟩
  | UnaryExpr a0 a1 a2 =>
    rw [copyExpr] at h
    simp only [bind_eq_ok, pure_eq_ok] at h
    obtain ⟨_, _, rfl⟩ := h
    exact ⟨_, rfl⟩
  | BinaryExpr a0 a1 a2 a3 =>
    rw [copyExpr] at h
    simp only [bind_eq_ok, pure_eq_ok] at h
    obtain ⟨_, _, _, _, rfl⟩ := h
    exact ⟨_, rfl⟩
  | KeyValueExpr a0 a1 a2 =>
    rw [copyExpr] at h
    simp only [bind_eq_ok, pure_eq_ok] at h
    obtain ⟨_, _, _, _, rfl⟩ := h
    exact ⟨_, rfl⟩
  | ArrayType a0 a1 a2 =>
    rw [copyExpr] at h
    simp only [bind_eq_ok, pure_eq_ok] at h
    obtain ⟨_, _, _, _, rfl⟩ := h
    exact ⟨_, rfl⟩
  | StructType a0 a1 a2 =>
    rw [copyExpr] at h
    simp only [bind_eq_ok, pure_eq_ok] at h
    obtain ⟨_, _, rfl⟩ := h
    exact ⟨_, rfl⟩
  | FuncType a0 =>
    rw [copyExpr] at h
    simp only [bind_eq_ok, pure_eq_ok] at h
    obtain ⟨_, _, rfl⟩ := h
    exact ⟨_, rfl⟩
  | InterfaceType a0 a1 a2 =>
    rw [copyExpr] at h
    simp only [bind_eq_ok, pure_eq_ok] at h
    obtain ⟨_, _, rfl⟩ := h
    exact ⟨_, rfl⟩
  | MapType a0 a1 a2 =>
    rw [copyExpr] at h
    simp only [bind_eq_ok, pure_eq_ok] at h
    obtain ⟨_, _, _, _, rfl⟩ := h
    exact ⟨_, rfl⟩
  | ChanType a0 a1 a2 a3 =>
    rw [copyExpr] at h
    simp only [bind_eq_ok, pure_eq_ok] at h
    obtain ⟨_, _, rfl⟩ := h
    exact ⟨_, rfl⟩
  | other t => exact absurd h (by rw [copyExpr]; exact throw_ne_ok)

theorem copyStmt_present (x : ast.StmtNode) (y : ast.Stmt) (h : copyStmt (some x) = .ok y) :
    ∃ n, y = some n := by
  cases x with
  | BadStmt a0 =>
    rw [copyStmt] at h
    simp only [bind_eq_ok, pure_eq_ok] at h
    obtain rfl := h
    exact ⟨_, rfl⟩
  | DeclStmt a0 =>
    rw [copyStmt] at h
    simp only [bind_eq_ok, pure_eq_ok] at h
    obtain ⟨_, _, rfl⟩ := h
    exact ⟨_, rfl⟩
  | EmptyStmt a0 =>
    rw [copyStmt] at h
    simp only [bind_eq_ok, pure_eq_ok] at h
    obtain rfl := h
    exact ⟨_, rfl⟩
  | LabeledStmt a0 a1 a2 =>
    rw [copyStmt] at h
    simp only [bind_eq_ok, pure_eq_ok] at h
    obtain ⟨_, _, rfl⟩ := h
    exact ⟨_, rfl⟩
  | ExprStmt a0 =>
    rw [copyStmt] at h
    simp only [bind_eq_ok, pure_eq_ok] at h
    obtain ⟨_, _, rfl⟩ := h
    exact ⟨_, rfl⟩
  | SendStmt a0 a1 a2 =>
    rw [copyStmt] at h
    simp only [bind_eq_ok, pure_eq_ok] at h
    obtain ⟨_, _, _, _, rfl⟩ := h
    exact ⟨_, rfl⟩
  | IncDecStmt a0 a1 a2 =>
    rw [copyStmt] at h
    simp only [bind_eq_ok, pure_eq_ok] at h
    obtain ⟨_, _, rfl⟩ := h
    exact ⟨_, rfl⟩
  | AssignStmt a0 a1 a2 a3 =>
    rw [copyStmt] at h
    simp only [bind_eq_ok, pure_eq_ok] at h
    obtain ⟨_, _, _, _, rfl⟩ := h
    exact ⟨_, rfl⟩
  | GoStmt a0 a1 =>
    rw [copyStmt] at h
    simp only [bind_eq_ok, pure_eq_ok] at h
    obtain ⟨_, _, rfl⟩ := h
    exact ⟨_, rfl⟩
  | DeferStmt a0 a1 =>
    rw [copyStmt] at h
    simp only [bind_eq_ok, pure_eq_ok] at h
    obtain ⟨_, _, rfl⟩ := h
    exact ⟨_, rfl⟩
  | ReturnStmt a0 a1 =>
    rw [copyStmt] at h
    simp only [bind_eq_ok, pure_eq_ok] at h
    obtain ⟨_, _, rfl⟩ := h
    exact ⟨_, rfl⟩
  | BranchStmt a0 =>
    rw [copyStmt] at h
    simp only [bind_eq_ok, pure_eq_ok] at h
    obtain rfl := h
    exact ⟨_, rfl⟩
  | BlockStmt a0 =>
    rw [copyStmt] at h
    simp only [bind_eq_ok, pure_eq_ok] at h
    obtain ⟨_, _, rfl⟩ := h
    exact ⟨_, rfl⟩
  | IfStmt a0 a1 a2 a3 a4 =>
    rw [copyStmt] at h
    simp only [bind_eq_ok, pure_eq_ok] at h
    obtain ⟨_, _, _, _, _, _, _, _, rfl⟩ := h
    exact ⟨_, rfl⟩
  | CaseClause a0 a1 a2 a3 =>
    rw [copyStmt] at h
    simp only [bind_eq_ok, pure_eq_ok] at h
    obtain ⟨_, _, _, _, rfl⟩ := h
    exact ⟨_, rfl⟩
  | SwitchStmt a0 a1 a2 a3 =>
    rw [copyStmt] at h
    simp only [bind_eq_ok, pure_eq_ok] at h
    obtain ⟨_, _, _, _, _, _, rfl⟩ := h
    exact ⟨_, rfl⟩
  | TypeSwitchStmt a0 a1 a2 a3 =>
    rw [copyStmt] at h
    simp only [bind_eq_ok, pure_eq_ok] at h
    obtain ⟨_, _, _, _, _, _, rfl⟩ := h
    exact ⟨_, rfl⟩
  | CommClause a0 a1 a2 a3 =>
    rw [copyStmt] at h
    simp only [bind_eq_ok, pure_eq_ok] at h
    obtain ⟨_, _, _, _, rfl⟩ := h
    exact ⟨_, rfl⟩
  | SelectStmt a0 a1 =>
    rw [copyStmt] at h
    simp only [bind_eq_ok, pure_eq_ok] at h
    obtain ⟨_, _, rfl⟩ := h
    exact ⟨_, rfl⟩
  | ForStmt a0 a1 a2 a3 a4 =>
    rw [copyStmt] at h
    simp only [bind_eq_ok, pure_eq_ok] at h
    obtain ⟨_, _, _, _, _, _, _, _, rfl⟩ := h
    exact ⟨_, rfl⟩
  | RangeStmt a0 a1 a2 a3 a4 a5 a6 =>
    rw [copyStmt] at h
    simp only [bind_eq_ok, pure_eq_ok] at h
    obtain ⟨_, _, _, _, _, _, _, _, rfl⟩ := h
    exact ⟨_, rfl⟩
  | other t => exact absurd h (by rw [copyStmt]; exact throw_ne_ok)

theorem Spec_present (x : ast.SpecNode) (y : ast.Spec) (h : Spec (some x) = .ok y) :
    ∃ n, y = some n := by
  cases x with
  | ImportSpec a0 =>
    rw [Spec] at h
    simp only [bind_eq_ok, pure_eq_ok] at h
    obtain rfl := h
    exact ⟨_, rfl⟩
  | ValueSpec a0 a1 a2 a3 a4 =>
    rw [Spec] at h
    simp only [bind_eq_ok, pure_eq_ok] at h
    obtain ⟨_, _, _, _, rfl⟩ := h
    exact ⟨_, rfl⟩
  | TypeSpec a0 a1 a2 a3 a4 =>
    rw [Spec] at h
    simp only [bind_eq_ok, pure_eq_ok] at h
    obtain ⟨_, _, rfl⟩ := h
    exact ⟨_, rfl⟩
  | other t => exact absurd h (by rw [Spec]; exact throw_ne_ok)

theorem copyDecl_present (x : ast.DeclNode) (y : ast.Decl) (h : copyDecl (some x) = .ok y) :
    ∃ n, y = some n := by
  cases x with
  | BadDecl a0 =>
    rw [copyDecl] at h
    simp only [bind_eq_ok, pure_eq_ok] at h
    obtain rfl := h
    exact ⟨_, rfl⟩
  | GenDecl a0 a1 a2 a3 a4 a5 =>
    rw [copyDecl] at h
    simp only [bind_eq_ok, pure_eq_ok] at h
    obtain ⟨_, _, rfl⟩ := h
    exact ⟨_, rfl⟩
  | FuncDecl a0 a1 a2 a3 a4 =>
    rw [copyDecl] at h
    simp only [bind_eq_ok, pure_eq_ok] at h
    obtain ⟨_, _, _, _, _, _, rfl⟩ := h
    exact ⟨_, rfl⟩
  | other t => exact absurd h (by rw [copyDecl]; exact throw_ne_ok)

end astcopy

namespace mockgen

/-! ## The traversal as a fold over the calls of ast.Inspect -/

/-- One call of the closure of abortableInspect: the state after it. -/
theorem visit_aborted {α σ : Type} (g : Option (ast.Tree α) → σ → (Bool × Bool) × σ)
    (e : Option (ast.Tree α)) (s : σ) :
    abortableInspect.visit g e (true, s) = (false, (true, s)) := rfl

theorem foldl_visit_aborted {α σ : Type} (g : Option (ast.Tree α) → σ → (Bool × Bool) × σ)
    (l : List (Option (ast.Tree α))) (s : σ) :
    l.foldl (fun st e => (abortableInspect.visit g e st).2) (true, s) = (true, s) := by
  induction l with
  | nil => rfl
  | cons e l ih => rw [List.foldl_cons, visit_aborted]; exact ih

theorem visit_false_aborted {α σ : Type} (g : Option (ast.Tree α) → σ → (Bool × Bool) × σ)
    (H : ∀ n s, (g (some n) s).1.1 = true ∨ (g (some n) s).1.2 = true)
    (n : ast.Tree α) (st : Bool × σ) (h : (abortableInspect.visit g (some n) st).1 = false) :
    (abortableInspect.visit g (some n) st).2.1 = true := by
  obtain ⟨b, s⟩ := st
  cases b with
  | true => rfl
  | false =>
    have hH := H n s
    revert h hH
    simp only [abortableInspect.visit]
    rcases g (some n) s with ⟨⟨goDown, abort⟩, s1⟩
    cases abort <;> cases goDown <;> simp

theorem inspect_eq_foldl {α σ : Type} (g : Option (ast.Tree α) → σ → (Bool × Bool) × σ)
    (H : ∀ n s, (g (some n) s).1.1 = true ∨ (g (some n) s).1.2 = true) (t : ast.Tree α) :
    ∀ st, ast.Inspect (abortableInspect.visit g) t st =
      t.events.foldl (fun st e => (abortableInspect.visit g e st).2) st := by
  refine @ast.Tree.rec α
    (fun t => ∀ st, ast.Inspect (abortableInspect.visit g) t st =
      t.events.foldl (fun st e => (abortableInspect.visit g e st).2) st)
    (fun cs => ∀ st, ast.Inspect.children (abortableInspect.visit g) cs st =
      (ast.Tree.eventsList cs).foldl (fun st e => (abortableInspect.visit g e st).2) st)
    ?_ ?_ ?_ t
  · intro v p e cs ih st
    rw [ast.Inspect, ast.Tree.events, List.foldl_cons, List.foldl_append]
    have hf := visit_false_aborted g H (.node v p e cs) st
    rcases hv : abortableInspect.visit g (some (.node v p e cs)) st with ⟨go, st1⟩
    rw [hv] at hf
    cases go with
    | true => simp only [ih, List.foldl_cons, List.foldl_nil]
    | false =>
      obtain ⟨b, s1⟩ := st1
      have hb : b = true := hf rfl
      subst hb
      simp only [foldl_visit_aborted, List.foldl_cons, List.foldl_nil, visit_aborted]
  · intro st
    rfl
  · intro c cs ihc ihcs st
    rw [ast.Inspect.children, ast.Tree.eventsList, List.foldl_append, ihc, ihcs]

theorem preorder_eq_events {α : Type} (t : ast.Tree α) :
    t.preorder = t.events.filterMap id := by
  refine @ast.Tree.rec α (fun t => t.preorder = t.events.filterMap id)
    (fun cs => ast.Tree.preorderList cs = (ast.Tree.eventsList cs).filterMap id) ?_ ?_ ?_ t
  · intro v p e cs ih
    rw [ast.Tree.preorder, ast.Tree.events, ih]
    simp
  · rfl
  · intro c cs ihc ihcs
    rw [ast.Tree.preorderList, ast.Tree.eventsList, ihc, ihcs, List.filterMap_append]

/-! ## The two tests of findAtPosition and the order of positions -/

theorem before_iff (line column l c : Int) :
    (decide (line < l) || (line == l && decide (column < c))) = true ↔
      ¬ token.Position.le ⟨l, c⟩ ⟨line, column⟩ := by
  simp only [token.Position.le, Bool.or_eq_true, Bool.and_eq_true, decide_eq_true_eq,
    beq_iff_eq]
  omega

theorem notAfter_iff (line column l c : Int) :
    (decide (line < l) || (line == l && decide (column <= c))) = true ↔
      token.Position.le ⟨line, column⟩ ⟨l, c⟩ := by
  simp only [token.Position.le, Bool.or_eq_true, Bool.and_eq_true, decide_eq_true_eq,
    beq_iff_eq]

theorem le_total (a b : token.Position) : a.le b ∨ b.le a := by
  simp only [token.Position.le]
  omega

theorem le_trans {a b c : token.Position} (h1 : a.le b) (h2 : b.le c) : a.le c := by
  simp only [token.Position.le] at *
  omega

/-- The closure of findAtPosition on a node, by the cases of the claim: the node starts after
the coordinate, or its range contains the coordinate, or it ends before the coordinate. -/
theorem visit_some {α τ : Type} (f : file α) (p : ast.Tree α → Bool) (g : ast.Tree α → τ → τ)
    (line column : Int) (n : ast.Tree α) (fnd : Option (ast.Tree α)) (t : τ) :
    findAtPosition.visit f (fun n t => (p n, g n t)) line column (some n) (fnd, t) =
      if f.startsAfter ⟨line, column⟩ n then ((false, true), (fnd, t))
      else if f.contains ⟨line, column⟩ n then
        (if p n = true then ((false, true), (some n, g n t)) else ((true, false), (fnd, g n t)))
      else ((true, false), (fnd, t)) := by
  have h1 := before_iff line column (f.fset n.Pos).Line (f.fset n.Pos).Column
  have h2 := notAfter_iff line column (f.fset n.End).Line (f.fset n.End).Column
  simp only [findAtPosition.visit, file.startsAfter, file.contains, file.start, file.finish]
  by_cases hb : token.Position.le (f.fset n.Pos) ⟨line, column⟩
  · have hb1 : ¬ (decide (line < (f.fset n.Pos).Line) ||
        (line == (f.fset n.Pos).Line && decide (column < (f.fset n.Pos).Column))) = true :=
      fun h => (h1.mp h) hb
    by_cases he : token.Position.le ⟨line, column⟩ (f.fset n.End)
    · have he1 := h2.mpr he
      cases hp : p n <;> simp [hb, hb1, he, he1, hp]
    · have he1 : ¬ (decide (line < (f.fset n.End).Line) ||
          (line == (f.fset n.End).Line && decide (column <= (f.fset n.End).Column))) = true :=
        fun h => he (h2.mp h)
      simp [hb, hb1, he, he1]
  · have hb1 := h1.mpr hb
    simp [hb, hb1]

theorem visit_callback_descends {α τ : Type} (f : file α)
    (findFunc : ast.Tree α → τ → Bool × τ) (line column : Int) (n : ast.Tree α)
    (s : Option (ast.Tree α) × τ) :
    (findAtPosition.visit f findFunc line column (some n) s).1.1 = true ∨
      (findAtPosition.visit f findFunc line column (some n) s).1.2 = true := by
  simp only [findAtPosition.visit]
  split
  · exact Or.inr rfl
  · split
    · rcases findFunc n s.2 with ⟨b, t⟩
      cases b
      · exact Or.inl rfl
      · exact Or.inr rfl
    · exact Or.inl rfl

/-! ## The search of findAtPosition over the nodes in pre-order -/

theorem step_none {α τ : Type} (f : file α) (findFunc : ast.Tree α → τ → Bool × τ)
    (line column : Int) (s : Option (ast.Tree α) × τ) :
    (abortableInspect.visit (findAtPosition.visit f findFunc line column) none (false, s)).2 =
      (false, s) := rfl

theorem step_some {α τ : Type} (f : file α) (p : ast.Tree α → Bool) (g : ast.Tree α → τ → τ)
    (line column : Int) (n : ast.Tree α) (fnd : Option (ast.Tree α)) (t : τ) :
    (abortableInspect.visit (findAtPosition.visit f (fun n t => (p n, g n t)) line column)
        (some n) (false, (fnd, t))).2 =
      if f.startsAfter ⟨line, column⟩ n then (true, (fnd, t))
      else if f.contains ⟨line, column⟩ n then
        (if p n = true then (true, (some n, g n t)) else (false, (fnd, g n t)))
      else (false, (fnd, t)) := by
  simp only [abortableInspect.visit, visit_some, Bool.false_eq_true, if_false]
  by_cases hs : f.startsAfter ⟨line, column⟩ n
  · simp [hs]
  · by_cases hc : f.contains ⟨line, column⟩ n
    · by_cases hp : p n = true
      · simp [hs, hc, hp]
      · simp [hs, hc, hp]
    · simp [hs, hc]

theorem foldl_visit_find {α τ : Type} (f : file α) (p : ast.Tree α → Bool)
    (g : ast.Tree α → τ → τ) (line column : Int) (l : List (Option (ast.Tree α))) :
    ∀ (fnd : Option (ast.Tree α)) (t : τ),
    (l.foldl (fun st e => (abortableInspect.visit
        (findAtPosition.visit f (fun n t => (p n, g n t)) line column) e st).2)
      (false, (fnd, t))).2 =
    ((match (l.filterMap id).find? (fun n => decide (f.startsAfter ⟨line, column⟩ n) ||
          decide (f.isMatch ⟨line, column⟩ p n)) with
      | some n => if f.startsAfter ⟨line, column⟩ n then fnd else some n
      | none => fnd),
     (((takeThrough (fun n => decide (f.startsAfter ⟨line, column⟩ n) ||
          decide (f.isMatch ⟨line, column⟩ p n)) (l.filterMap id)).filter
        (fun n => decide (f.contains ⟨line, column⟩ n))).foldl (fun t n => g n t) t)) := by
  induction l with
  | nil => intro fnd t; rfl
  | cons e l ih =>
    intro fnd t
    cases e with
    | none =>
      rw [List.foldl_cons, step_none, ih]
      rfl
    | some n =>
      rw [List.foldl_cons, step_some]
      by_cases hs : f.startsAfter ⟨line, column⟩ n
      · have hc : ¬ f.contains ⟨line, column⟩ n := fun h => hs h.1
        simp [hs, hc, foldl_visit_aborted, takeThrough]
      · by_cases hc : f.contains ⟨line, column⟩ n
        · by_cases hp : p n = true
          · have hm : f.isMatch ⟨line, column⟩ p n := ⟨hc, hp⟩
            simp [hs, hc, hp, hm, foldl_visit_aborted, takeThrough]
          · have hm : ¬ f.isMatch ⟨line, column⟩ p n := fun h => hp h.2
            simp [hs, hc, hp, hm, ih, takeThrough]
        · have hm : ¬ f.isMatch ⟨line, column⟩ p n := fun h => hc h.1
          simp [hs, hc, hm, ih, takeThrough]

/-- The result of findAtPosition, for a predicate p with any effect g: the first node in
pre-order that starts after the coordinate or matches decides it. -/
theorem findAtPosition_eq {α τ : Type} (f : file α) (p : ast.Tree α → Bool)
    (g : ast.Tree α → τ → τ) (line column : Int) (t : τ) :
    findAtPosition f (fun n t => (p n, g n t)) line column t =
    ((match f.astFile.preorder.find? (fun n => decide (f.startsAfter ⟨line, column⟩ n) ||
          decide (f.isMatch ⟨line, column⟩ p n)) with
      | some n => if f.startsAfter ⟨line, column⟩ n then none else some n
      | none => none),
     (((takeThrough (fun n => decide (f.startsAfter ⟨line, column⟩ n) ||
          decide (f.isMatch ⟨line, column⟩ p n)) f.astFile.preorder).filter
        (fun n => decide (f.contains ⟨line, column⟩ n))).foldl (fun t n => g n t) t)) := by
  rw [findAtPosition, abortableInspect, inspect_eq_foldl _ (visit_callback_descends f _ line column),
    foldl_visit_find, preorder_eq_events]

theorem findAtPosition_pure {α : Type} (f : file α) (p : ast.Tree α → Bool)
    (line column : Int) :
    (findAtPosition f (pureFunc p) line column ()).1 =
      match f.astFile.preorder.find? (fun n => decide (f.startsAfter ⟨line, column⟩ n) ||
          decide (f.isMatch ⟨line, column⟩ p n)) with
      | some n => if f.startsAfter ⟨line, column⟩ n then none else some n
      | none => none := by
  have h : findAtPosition f (pureFunc p) line column () = _ :=
    findAtPosition_eq f p (fun _ u => u) line column ()
  exact congrArg Prod.fst h

theorem found_iff {α : Type} (f : file α) (p : ast.Tree α → Bool) (line column : Int)
    (n : ast.Tree α) :
    (findAtPosition f (pureFunc p) line column ()).1 = some n ↔
      f.astFile.preorder.find? (fun n => decide (f.startsAfter ⟨line, column⟩ n) ||
          decide (f.isMatch ⟨line, column⟩ p n)) = some n ∧ f.isMatch ⟨line, column⟩ p n := by
  rw [findAtPosition_pure]
  constructor
  · intro h
    split at h
    · rename_i m hm
      split at h
      · cases h
      · rename_i hs
        cases h
        have hstop := List.find?_some hm
        simp only [Bool.or_eq_true, decide_eq_true_eq] at hstop
        exact ⟨hm, hstop.resolve_left hs⟩
    · cases h
  · rintro ⟨hm, hmatch⟩
    rw [hm]
    have hs : ¬ f.startsAfter ⟨line, column⟩ n := fun h => h hmatch.1.1
    simp [hs]

theorem scan_sorted {α : Type} (f : file α) (p : ast.Tree α → Bool) (c : token.Position) :
    ∀ l : List (ast.Tree α), l.Pairwise (fun a b => (f.start a).le (f.start b)) →
      (match l.find? (fun n => decide (f.startsAfter c n) || decide (f.isMatch c p n)) with
        | some n => if f.startsAfter c n then none else some n
        | none => none) = l.find? (fun n => decide (f.isMatch c p n)) := by
  intro l
  induction l with
  | nil => intro _; rfl
  | cons a l ih =>
    intro hl
    rw [List.pairwise_cons] at hl
    by_cases hs : f.startsAfter c a
    · have hm : ¬ f.isMatch c p a := fun h => hs h.1.1
      have hnone : l.find? (fun n => decide (f.isMatch c p n)) = none := by
        rw [List.find?_eq_none]
        intro b hb
        have hab := hl.1 b hb
        have hsb : ¬ f.isMatch c p b := fun h => hs (le_trans hab h.1.1)
        simp [hsb]
      simp [List.find?_cons, hs, hm, hnone]
    · by_cases hm : f.isMatch c p a
      · simp [List.find?_cons, hs, hm]
      · simp only [List.find?_cons, hs, hm, decide_False, Bool.or_self]
        exact ih hl.2

theorem find_path {α : Type} (stop : ast.Tree α → Bool) (t : ast.Tree α) :
    ∀ n, t.preorder.find? stop = some n → ∃ path, t.at? path = some n ∧
      ∀ q a, q <+: path → q ≠ path → t.at? q = some a → stop a = false := by
  refine @ast.Tree.rec α
    (fun t => ∀ n, t.preorder.find? stop = some n → ∃ path, t.at? path = some n ∧
      ∀ q a, q <+: path → q ≠ path → t.at? q = some a → stop a = false)
    (fun cs => ∀ n, (ast.Tree.preorderList cs).find? stop = some n →
      ∃ (i : Nat) (c : ast.Tree α), cs[i]? = some c ∧ ∃ path, c.at? path = some n ∧
        ∀ q a, q <+: path → q ≠ path → c.at? q = some a → stop a = false)
    ?_ ?_ ?_ t
  · intro v p e cs ih n h
    rw [ast.Tree.preorder, List.find?_cons] at h
    cases hst : stop (.node v p e cs) with
    | true =>
      rw [hst] at h
      cases h
      refine ⟨[], rfl, fun q a hq hne _ => ?_⟩
      exact absurd (List.prefix_nil.mp hq) hne
    | false =>
      rw [hst] at h
      obtain ⟨i, c, hc, path, hpath, hanc⟩ := ih n h
      refine ⟨i :: path, ?_, fun q a hq hne ha => ?_⟩
      · simp only [ast.Tree.at?, ast.Tree.children, hc, hpath]
      · cases q with
        | nil =>
          cases ha
          exact hst
        | cons j q' =>
          obtain ⟨rfl, hq'⟩ := List.cons_prefix_cons.mp hq
          have hne' : q' ≠ path := fun e => hne (by rw [e])
          simp only [ast.Tree.at?, ast.Tree.children, hc] at ha
          exact hanc q' a hq' hne' ha
  · intro n h
    cases h
  · intro c cs ihc ihcs n h
    rw [ast.Tree.preorderList, List.find?_append] at h
    cases hfc : c.preorder.find? stop with
    | some m =>
      rw [hfc] at h
      obtain rfl : m = n := by simpa using h
      obtain ⟨path, hp, hanc⟩ := ihc m hfc
      exact ⟨0, c, List.getElem?_cons_zero, path, hp, hanc⟩
    | none =>
      rw [hfc] at h
      obtain ⟨i, d, hd, rest⟩ := ihcs n h
      exact ⟨i + 1, d, by simpa using hd, rest⟩

/-! ## Invariants of a traversal -/

theorem inspect_invariant {α σ : Type} (P : σ → Prop) (g : Option (ast.Tree α) → σ → Bool × σ)
    (hstep : ∀ e s, P s → P (g e s).2) (t : ast.Tree α) :
    ∀ s, P s → P (ast.Inspect g t s) := by
  refine @ast.Tree.rec α (fun t => ∀ s, P s → P (ast.Inspect g t s))
    (fun cs => ∀ s, P s → P (ast.Inspect.children g cs s)) ?_ ?_ ?_ t
  · intro v p e cs ih s hs
    rw [ast.Inspect]
    have h1 := hstep (some (.node v p e cs)) s hs
    rcases hg : g (some (.node v p e cs)) s with ⟨go, s1⟩
    rw [hg] at h1
    cases go with
    | true => exact hstep none _ (ih s1 h1)
    | false => exact h1
  · intro s hs
    exact hs
  · intro c cs ihc ihcs s hs
    rw [ast.Inspect.children]
    exact ihcs _ (ihc s hs)

theorem children_invariant {α σ : Type} (P : σ → Prop)
    (g : Option (ast.Tree α) → σ → Bool × σ) (hstep : ∀ e s, P s → P (g e s).2) :
    ∀ (cs : List (ast.Tree α)) s, P s → P (ast.Inspect.children g cs s)
  | [], _, hs => hs
  | c :: cs, s, hs => by
    rw [ast.Inspect.children]
    exact children_invariant P g hstep cs _ (inspect_invariant P g hstep c s hs)

theorem inspect_aborted {α σ : Type} (g : Option (ast.Tree α) → σ → (Bool × Bool) × σ)
    (t : ast.Tree α) (s : σ) :
    ast.Inspect (abortableInspect.visit g) t (true, s) = (true, s) :=
  inspect_invariant (fun st => st = (true, s)) _
    (fun e st h => by rw [h, visit_aborted]) t _ rfl

/-- The state after one call of the closure of abortableInspect around a recording callback. -/
theorem visit_recording {α σ : Type} (f : Option (ast.Tree α) → σ → (Bool × Bool) × σ)
    (e : Option (ast.Tree α)) (s : σ) (log : List (Option (ast.Tree α) × (Bool × Bool))) :
    abortableInspect.visit (recording f) e (false, (s, log)) =
      (if (f e s).1.2 = true then false else (f e s).1.1,
        ((f e s).1.2, ((f e s).2, log ++ [(e, (f e s).1)]))) := by
  simp only [abortableInspect.visit, recording, Bool.false_eq_true, if_false]
  rcases f e s with ⟨⟨go, ab⟩, s1⟩
  cases ab <;> rfl

theorem abort_only_last {α σ : Type} (f : Option (ast.Tree α) → σ → (Bool × Bool) × σ)
    (t : ast.Tree α) (s : σ) :
    ∀ e ∈ (abortableInspect t (recording f) (s, [])).2.dropLast, e.2.2 = false := by
  have key := inspect_invariant
    (fun st : Bool × (σ × List (Option (ast.Tree α) × (Bool × Bool))) =>
      (∀ e ∈ st.2.2.dropLast, e.2.2 = false) ∧ (st.1 = false → ∀ e ∈ st.2.2, e.2.2 = false))
    (abortableInspect.visit (recording f)) ?_ t (false, (s, [])) ?_
  · exact key.1
  · rintro e ⟨b, s1, log⟩ ⟨h1, h2⟩
    cases b with
    | true => exact ⟨h1, h2⟩
    | false =>
      rw [visit_recording]
      refine ⟨?_, ?_⟩
      · intro x hx
        rw [List.dropLast_concat] at hx
        exact h2 rfl x hx
      · intro hab x hx
        rcases List.mem_append.mp hx with hx | hx
        · exact h2 rfl x hx
        · rw [List.mem_singleton] at hx
          rw [hx]
          exact hab
  · exact ⟨fun e he => (by cases he), fun _ e he => (by cases he)⟩

theorem ignoring_log_grows {α σ : Type} (f : Option (ast.Tree α) → σ → (Bool × Bool) × σ)
    (l0 : List (Option (ast.Tree α) × (Bool × Bool))) (e : Option (ast.Tree α))
    (s : σ × List (Option (ast.Tree α) × (Bool × Bool))) (h : l0 <+: s.2) :
    l0 <+: (ignoringAbort (recording f) e s).2.2 :=
  h.trans (List.prefix_append _ _)

theorem calls_simulation {α σ : Type} (f : Option (ast.Tree α) → σ → (Bool × Bool) × σ)
    (t : ast.Tree α) :
    ∀ (a : Bool × (σ × List (Option (ast.Tree α) × (Bool × Bool))))
      (b : σ × List (Option (ast.Tree α) × (Bool × Bool))),
      ((a.1 = true ∧ a.2.2 <+: b.2) ∨ (a.1 = false ∧ a.2 = b)) →
      (((ast.Inspect (abortableInspect.visit (recording f)) t a).1 = true ∧
          (ast.Inspect (abortableInspect.visit (recording f)) t a).2.2 <+:
            (ast.Inspect (ignoringAbort (recording f)) t b).2) ∨
        ((ast.Inspect (abortableInspect.visit (recording f)) t a).1 = false ∧
          (ast.Inspect (abortableInspect.visit (recording f)) t a).2 =
            ast.Inspect (ignoringAbort (recording f)) t b)) := by
  have grow := fun l0 => inspect_invariant
    (fun st : σ × List (Option (ast.Tree α) × (Bool × Bool)) => l0 <+: st.2)
    (ignoringAbort (recording f)) (ignoring_log_grows f l0)
  have growc := fun l0 => children_invariant
    (fun st : σ × List (Option (ast.Tree α) × (Bool × Bool)) => l0 <+: st.2)
    (ignoringAbort (recording f)) (ignoring_log_grows f l0)
  have hstep : ∀ (e : Option (ast.Tree α))
      (a : Bool × (σ × List (Option (ast.Tree α) × (Bool × Bool))))
      (b : σ × List (Option (ast.Tree α) × (Bool × Bool))),
      ((a.1 = true ∧ a.2.2 <+: b.2) ∨ (a.1 = false ∧ a.2 = b)) →
      (((abortableInspect.visit (recording f) e a).2.1 = true ∧
          (abortableInspect.visit (recording f) e a).2.2.2 <+:
            (ignoringAbort (recording f) e b).2.2) ∨
        ((abortableInspect.visit (recording f) e a).2.1 = false ∧
          (abortableInspect.visit (recording f) e a).2.2 = (ignoringAbort (recording f) e b).2)) := by
    rintro e ⟨ba, sa, la⟩ ⟨sb, lb⟩ (⟨h1, h2⟩ | ⟨h1, h2⟩)
    · cases h1
      exact Or.inl ⟨rfl, ignoring_log_grows f la e (sb, lb) h2⟩
    · cases h1
      cases h2
      rw [visit_recording]
      cases hab : (f e sa).1.2
      · exact Or.inr ⟨rfl, rfl⟩
      · exact Or.inl ⟨rfl, List.prefix_refl _⟩
  refine @ast.Tree.rec α
    (fun t => ∀ a b, ((a.1 = true ∧ a.2.2 <+: b.2) ∨ (a.1 = false ∧ a.2 = b)) →
      (((ast.Inspect (abortableInspect.visit (recording f)) t a).1 = true ∧
          (ast.Inspect (abortableInspect.visit (recording f)) t a).2.2 <+:
            (ast.Inspect (ignoringAbort (recording f)) t b).2) ∨
        ((ast.Inspect (abortableInspect.visit (recording f)) t a).1 = false ∧
          (ast.Inspect (abortableInspect.visit (recording f)) t a).2 =
            ast.Inspect (ignoringAbort (recording f)) t b)))
    (fun cs => ∀ a b, ((a.1 = true ∧ a.2.2 <+: b.2) ∨ (a.1 = false ∧ a.2 = b)) →
      (((ast.Inspect.children (abortableInspect.visit (recording f)) cs a).1 = true ∧
          (ast.Inspect.children (abortableInspect.visit (recording f)) cs a).2.2 <+:
            (ast.Inspect.children (ignoringAbort (recording f)) cs b).2) ∨
        ((ast.Inspect.children (abortableInspect.visit (recording f)) cs a).1 = false ∧
          (ast.Inspect.children (abortableInspect.visit (recording f)) cs a).2 =
            ast.Inspect.children (ignoringAbort (recording f)) cs b)))
    ?_ ?_ ?_ t
  · rintro v p e cs ih ⟨ba, sa, la⟩ ⟨sb, lb⟩ hR
    rcases hR with ⟨h1, h2⟩ | ⟨h1, h2⟩
    · cases h1
      rw [inspect_aborted]
      exact Or.inl ⟨rfl, grow la _ _ h2⟩
    · cases h1
      cases h2
      rw [ast.Inspect, ast.Inspect, visit_recording]
      simp only [ignoringAbort, recording]
      rcases hf : f (some (.node v p e cs)) sa with ⟨⟨go, ab⟩, s1⟩
      cases ab with
      | true =>
        refine Or.inl ⟨rfl, ?_⟩
        cases go with
        | true =>
          exact ignoring_log_grows f _ none _ (growc _ cs _ (List.prefix_refl _))
        | false => exact List.prefix_refl _
      | false =>
        cases go with
        | true =>
          exact hstep none _ _ (ih _ _ (Or.inr ⟨rfl, rfl⟩))
        | false => exact Or.inr ⟨rfl, rfl⟩
  · intro a b hR
    exact hR
  · intro c cs ihc ihcs a b hR
    rw [ast.Inspect.children, ast.Inspect.children]
    exact ihcs _ _ (ihc a b hR)

theorem calls_initial_segment {α σ : Type}
    (f : Option (ast.Tree α) → σ → (Bool × Bool) × σ) (t : ast.Tree α) (s : σ) :
    (abortableInspect t (recording f) (s, [])).2 <+:
      (ast.Inspect (ignoringAbort (recording f)) t (s, [])).2 := by
  rcases calls_simulation f t (false, (s, [])) (s, []) (Or.inr ⟨rfl, rfl⟩) with ⟨-, h⟩ | ⟨-, h⟩
  · exact h
  · rw [abortableInspect, h]

/-! ## The nodes that findAtPosition examines -/

theorem recording_flags {α σ : Type} (f : Option (ast.Tree α) → σ → (Bool × Bool) × σ)
    (e : Option (ast.Tree α)) (s : σ × List (Option (ast.Tree α) × (Bool × Bool))) :
    (recording f e s).1 = (f e s.1).1 := rfl

theorem stepR_some {α τ : Type} (f : file α) (p : ast.Tree α → Bool) (g : ast.Tree α → τ → τ)
    (line column : Int) (n : ast.Tree α) (fnd : Option (ast.Tree α)) (t : τ)
    (log : List (Option (ast.Tree α) × (Bool × Bool))) :
    ∃ fnd1 t1, (abortableInspect.visit
        (recording (findAtPosition.visit f (fun n t => (p n, g n t)) line column))
        (some n) (false, ((fnd, t), log))).2 =
      if f.startsAfter ⟨line, column⟩ n ∨ f.isMatch ⟨line, column⟩ p n
      then (true, ((fnd1, t1), log ++ [(some n, (false, true))]))
      else (false, ((fnd1, t1), log ++ [(some n, (true, false))])) := by
  rw [visit_recording, visit_some]
  by_cases hs : f.startsAfter ⟨line, column⟩ n
  · exact ⟨fnd, t, by simp [hs]⟩
  · by_cases hc : f.contains ⟨line, column⟩ n
    · by_cases hp : p n = true
      · have hm : f.isMatch ⟨line, column⟩ p n := ⟨hc, hp⟩
        exact ⟨some n, g n t, by simp [hs, hc, hp, hm]⟩
      · have hm : ¬ f.isMatch ⟨line, column⟩ p n := fun h => hp h.2
        exact ⟨fnd, g n t, by simp [hs, hc, hp, hm]⟩
    · have hm : ¬ f.isMatch ⟨line, column⟩ p n := fun h => hc h.1
      exact ⟨fnd, t, by simp [hs, hc, hm]⟩

theorem foldl_recording {α τ : Type} (f : file α) (p : ast.Tree α → Bool)
    (g : ast.Tree α → τ → τ) (line column : Int) (l : List (Option (ast.Tree α))) :
    ∀ (fnd : Option (ast.Tree α)) (t : τ) (log : List (Option (ast.Tree α) × (Bool × Bool))),
    ((l.foldl (fun st e => (abortableInspect.visit
        (recording (findAtPosition.visit f (fun n t => (p n, g n t)) line column)) e st).2)
      (false, ((fnd, t), log))).2.2).filterMap (fun e => e.1) =
    log.filterMap (fun e => e.1) ++
      takeThrough (fun n => decide (f.startsAfter ⟨line, column⟩ n) ||
          decide (f.isMatch ⟨line, column⟩ p n)) (l.filterMap id) := by
  induction l with
  | nil => intro fnd t log; simp [takeThrough]
  | cons e l ih =>
    intro fnd t log
    cases e with
    | none =>
      rw [List.foldl_cons, visit_recording]
      have h0 : findAtPosition.visit f (fun n t => (p n, g n t)) line column none (fnd, t) =
          ((true, false), (fnd, t)) := rfl
      simp only [h0, Bool.false_eq_true, if_false]
      rw [ih]
      simp
    | some n =>
      rw [List.foldl_cons]
      obtain ⟨fnd1, t1, h1⟩ := stepR_some f p g line column n fnd t log
      rw [h1]
      by_cases hst : f.startsAfter ⟨line, column⟩ n ∨ f.isMatch ⟨line, column⟩ p n
      · have hb : (decide (f.startsAfter ⟨line, column⟩ n) ||
            decide (f.isMatch ⟨line, column⟩ p n)) = true := by simpa using hst
        rw [if_pos hst, foldl_visit_aborted]
        simp [takeThrough, hb]
      · have hb : (decide (f.startsAfter ⟨line, column⟩ n) ||
            decide (f.isMatch ⟨line, column⟩ p n)) = false := by simpa using hst
        rw [if_neg hst, ih]
        simp [takeThrough, hb]

/-- The nodes on which the closure of findAtPosition is called are the nodes in pre-order
up to and including the first one that starts after the coordinate or matches. -/
theorem examined_eq {α τ : Type} (f : file α) (p : ast.Tree α → Bool)
    (g : ast.Tree α → τ → τ) (line column : Int) (t : τ) :
    ((abortableInspect f.astFile
        (recording (findAtPosition.visit f (fun n t => (p n, g n t)) line column))
        ((none, t), [])).2).filterMap (fun e => e.1) =
      takeThrough (fun n => decide (f.startsAfter ⟨line, column⟩ n) ||
          decide (f.isMatch ⟨line, column⟩ p n)) f.astFile.preorder := by
  rw [abortableInspect, inspect_eq_foldl _ (fun n s => by
      rw [recording_flags]; exact visit_callback_descends f _ line column n s.1),
    foldl_recording, preorder_eq_events]
  rfl

theorem foldl_concat {α : Type} (l : List α) :
    ∀ acc : List α, l.foldl (fun t n => t ++ [n]) acc = acc ++ l := by
  induction l with
  | nil => intro acc; simp
  | cons a l ih => intro acc; rw [List.foldl_cons, ih]; simp

/-- The nodes on which the predicate is evaluated are the examined nodes whose range contains
the coordinate. -/
theorem evaluated_eq {α : Type} (f : file α) (p : ast.Tree α → Bool) (line column : Int) :
    (findAtPosition f (recordingFunc p) line column []).2 =
      (takeThrough (fun n => decide (f.startsAfter ⟨line, column⟩ n) ||
          decide (f.isMatch ⟨line, column⟩ p n)) f.astFile.preorder).filter
        (fun n => decide (f.contains ⟨line, column⟩ n)) := by
  have h : findAtPosition f (recordingFunc p) line column [] = _ :=
    findAtPosition_eq f p (fun n log => log ++ [n]) line column []
  rw [h]
  simp only [foldl_concat, List.nil_append]

theorem takeThrough_initial {α : Type} (stop : α → Bool) (l : List α) :
    takeThrough stop l <+: l := by
  induction l with
  | nil => exact List.prefix_refl _
  | cons a l ih =>
    rw [takeThrough]
    split
    · exact ⟨l, rfl⟩
    · exact (List.prefix_cons_inj a).mpr ih

end mockgen

namespace mockgen

/-! ## Nodes that end before the coordinate -/

theorem takeThrough_append {α : Type} (stop : α → Bool) (l1 l2 : List α)
    (h : ∀ a ∈ l1, stop a = false) :
    takeThrough stop (l1 ++ l2) = l1 ++ takeThrough stop l2 := by
  induction l1 with
  | nil => rfl
  | cons a l ih =>
    have ha : stop a = false := h a (List.mem_cons_self _ _)
    rw [List.cons_append, takeThrough, ha, ih (fun b hb => h b (List.mem_cons_of_mem _ hb))]
    rfl

theorem visit_before {α τ : Type} (f : file α) (findFunc : ast.Tree α → τ → Bool × τ)
    (line column : Int) (n : ast.Tree α) (st : Option (ast.Tree α) × τ)
    (hrange : (f.start n).le (f.finish n))
    (hafter : ¬ token.Position.le ⟨line, column⟩ (f.finish n)) :
    findAtPosition.visit f findFunc line column (some n) st = ((true, false), st) := by
  have hstart : (f.start n).le ⟨line, column⟩ :=
    le_trans hrange ((le_total _ _).resolve_left hafter)
  have h1 := before_iff line column (f.fset n.Pos).Line (f.fset n.Pos).Column
  have h2 := notAfter_iff line column (f.fset n.End).Line (f.fset n.End).Column
  have hb1 : (decide (line < (f.fset n.Pos).Line) ||
      (line == (f.fset n.Pos).Line && decide (column < (f.fset n.Pos).Column))) = false := by
    rw [Bool.eq_false_iff]
    exact fun h => (h1.mp h) hstart
  have he1 : (decide (line < (f.fset n.End).Line) ||
      (line == (f.fset n.End).Line && decide (column <= (f.fset n.End).Column))) = false := by
    rw [Bool.eq_false_iff]
    exact fun h => hafter (h2.mp h)
  simp only [findAtPosition.visit, hb1, he1, Bool.false_eq_true, if_false]

end mockgen

namespace mockgen

/-! ## The loop of copyFieldList -/

theorem identList_length (xs : Option (List (Option ast.Ident))) :
    (ast.elems (astcopy.IdentList xs)).length = (ast.elems xs).length := by
  cases xs with
  | none => rfl
  | some xs => simp [astcopy.IdentList, ast.elems]

theorem copyFieldList_loop_spec (fs : List (Option ast.Field)) :
    ∀ varI : Nat, (∀ f ∈ fs, ∃ g, f = some g ∧ ast.Field.inGrammar g = true) →
    ∃ cp, copyFieldList.loop fs varI = .ok cp ∧ cp.length = fs.length ∧
      ∀ (i : Nat) (f : ast.Field), fs[i]? = some (some f) →
        ∃ c, cp[i]? = some (some c) ∧
          1 ≤ (ast.elems c.Names).length ∧
          (unnamed (some f) = false → c.Names = astcopy.IdentList f.Names) ∧
          (unnamed (some f) = true → c.Names = some [some
            { NamePos := token.NoPos, Name := "var" ++ toString (varI + (fs.take i).countP unnamed) }]) ∧
          astcopy.Expr f.Type_ = .ok c.Type_ ∧ c.Tag = astcopy.BasicLit f.Tag ∧
          c.Doc = none ∧ c.Comment = none := by
  induction fs with
  | nil =>
    intro varI _
    exact ⟨[], rfl, rfl, fun i f h => by simp at h⟩
  | cons x fs ih =>
    intro varI hfs
    obtain ⟨g, rfl, hg⟩ := hfs x (List.mem_cons_self _ _)
    have hrest : ∀ f ∈ fs, ∃ g, f = some g ∧ ast.Field.inGrammar g = true :=
      fun f hf => hfs f (List.mem_cons_of_mem _ hf)
    have hgT : ast.Expr.inGrammar g.Type_ = true := by
      cases g with
      | mk d n t tg c => exact hg
    obtain ⟨cT, hcT⟩ := astcopy.total_copyExpr g.Type_ hgT
    have hcT2 : astcopy.Expr g.Type_ = .ok cT := hcT
    by_cases hn : (ast.elems g.Names).length = 0
    · obtain ⟨cs, hcs, hlen, hall⟩ := ih (varI + 1) hrest
      have hun : unnamed (some g) = true := by simp [unnamed, hn]
      refine ⟨some (.mk none (some [some { NamePos := token.NoPos, Name := "var" ++ toString varI }])
        cT (astcopy.BasicLit g.Tag) none) :: cs, ?_, ?_, ?_⟩
      · rw [copyFieldList.loop, if_pos hn, hcT2, astcopy.ok_bind, hcs]
        rfl
      · simp [hlen]
      · intro i f hi
        cases i with
        | zero =>
          simp only [List.getElem?_cons_zero, Option.some.injEq] at hi
          subst hi
          refine ⟨_, List.getElem?_cons_zero, ?_, ?_, ?_, hcT2, rfl, rfl, rfl⟩
          · simp [ast.Field.Names, ast.elems]
          · intro h; rw [hun] at h; cases h
          · intro _; simp [ast.Field.Names]
        | succ j =>
          rw [List.getElem?_cons_succ] at hi
          obtain ⟨c, hc, h1, h2, h3, h4⟩ := hall j f hi
          refine ⟨c, by rw [List.getElem?_cons_succ]; exact hc, h1, h2, ?_, h4⟩
          intro hu
          rw [h3 hu, List.take_succ_cons, List.countP_cons_of_pos _ _ hun]
          congr 6
          omega
    · obtain ⟨cs, hcs, hlen, hall⟩ := ih varI hrest
      have hun : unnamed (some g) = false := by simp [unnamed, hn]
      refine ⟨some (.mk none (astcopy.IdentList g.Names) cT (astcopy.BasicLit g.Tag) none) :: cs,
        ?_, ?_, ?_⟩
      · rw [copyFieldList.loop, if_neg hn, hcT2, astcopy.ok_bind, hcs]
        rfl
      · simp [hlen]
      · intro i f hi
        cases i with
        | zero =>
          simp only [List.getElem?_cons_zero, Option.some.injEq] at hi
          subst hi
          refine ⟨_, List.getElem?_cons_zero, ?_, ?_, ?_, hcT2, rfl, rfl, rfl⟩
          · show 1 ≤ (ast.elems (astcopy.IdentList g.Names)).length
            rw [identList_length]
            omega
          · intro _; rfl
          · intro h; rw [hun] at h; cases h
        | succ j =>
          rw [List.getElem?_cons_succ] at hi
          obtain ⟨c, hc, h1, h2, h3, h4⟩ := hall j f hi
          refine ⟨c, by rw [List.getElem?_cons_succ]; exact hc, h1, h2, ?_, h4⟩
          intro hu
          have hneg : ¬ unnamed (some g) = true := by rw [hun]; decide
          rw [h3 hu, List.take_succ_cons, List.countP_cons_of_neg _ _ hneg]

theorem countP_take_succ {α : Type} (p : α → Bool) (l : List α) (i : Nat) (a : α)
    (h : l[i]? = some a) (ha : p a = true) :
    (l.take (i + 1)).countP p = (l.take i).countP p + 1 := by
  induction l generalizing i with
  | nil => simp at h
  | cons b l ih =>
    cases i with
    | zero =>
      simp only [List.getElem?_cons_zero, Option.some.injEq] at h
      subst h
      simp [ha]
    | succ j =>
      rw [List.getElem?_cons_succ] at h
      rw [List.take_succ_cons, List.take_succ_cons, List.countP_cons, List.countP_cons, ih j h]
      omega

end mockgen

/-! ## The properties of the specification -/

namespace astcopy

/-- C1: copying an absent input yields an absent result. The four category entry points
Expr, Stmt, Decl and Spec return nil on the nil interface, and every copy function of a
variant or of a container returns nil on the nil pointer. -/
theorem copy_nil :
    astcopy.Expr none = .ok none ∧
    astcopy.Stmt none = .ok none ∧
    astcopy.Decl none = .ok none ∧
    astcopy.Spec none = .ok none ∧
    astcopy.BadExpr none = none ∧
    astcopy.Ident none = none ∧
    astcopy.Ellipsis none = .ok none ∧
    astcopy.BasicLit none = none ∧
    astcopy.FuncLit none = .ok none ∧
    astcopy.CompositeLit none = .ok none ∧
    astcopy.ParenExpr none = .ok none ∧
    astcopy.SelectorExpr none = .ok none ∧
    astcopy.IndexExpr none = .ok none ∧
    astcopy.SliceExpr none = .ok none ∧
    astcopy.TypeAssertExpr none = .ok none ∧
    astcopy.CallExpr none = .ok none ∧
    astcopy.StarExpr none = .ok none ∧
    astcopy.UnaryExpr none = .ok none ∧
    astcopy.BinaryExpr none = .ok none ∧
    astcopy.KeyValueExpr none = .ok none ∧
    astcopy.ArrayType none = .ok none ∧
    astcopy.StructType none = .ok none ∧
    astcopy.Field none = .ok none ∧
    astcopy.FieldList none = .ok none ∧
    astcopy.FuncType none = .ok none ∧
    astcopy.InterfaceType none = .ok none ∧
    astcopy.MapType none = .ok none ∧
    astcopy.ChanType none = .ok none ∧
    astcopy.BlockStmt none = .ok none ∧
    astcopy.ImportSpec none = none ∧
    astcopy.ValueSpec none = .ok none ∧
    astcopy.TypeSpec none = .ok none ∧
    astcopy.BadStmt none = none ∧
    astcopy.DeclStmt none = .ok none ∧
    astcopy.EmptyStmt none = none ∧
    astcopy.LabeledStmt none = .ok none ∧
    astcopy.ExprStmt none = .ok none ∧
    astcopy.SendStmt none = .ok none ∧
    astcopy.IncDecStmt none = .ok none ∧
    astcopy.AssignStmt none = .ok none ∧
    astcopy.GoStmt none = .ok none ∧
    astcopy.DeferStmt none = .ok none ∧
    astcopy.ReturnStmt none = .ok none ∧
    astcopy.BranchStmt none = none ∧
    astcopy.IfStmt none = .ok none ∧
    astcopy.CaseClause none = .ok none ∧
    astcopy.SwitchStmt none = .ok none ∧
    astcopy.TypeSwitchStmt none = .ok none ∧
    astcopy.CommClause none = .ok none ∧
    astcopy.SelectStmt none = .ok none ∧
    astcopy.ForStmt none = .ok none ∧
    astcopy.RangeStmt none = .ok none ∧
    astcopy.Comment none = none ∧
    astcopy.CommentGroup none = none ∧
    astcopy.File none = .ok none ∧
    astcopy.Package none = none ∧
    astcopy.BadDecl none = none ∧
    astcopy.GenDecl none = .ok none ∧
    astcopy.FuncDecl none = .ok none :=
  ⟨rfl, rfl, rfl, rfl, rfl, rfl, rfl, rfl, rfl, rfl, rfl, rfl, rfl, rfl, rfl, rfl, rfl, rfl, rfl, rfl, rfl, rfl, rfl, rfl, rfl, rfl, rfl, rfl, rfl, rfl, rfl, rfl, rfl, rfl, rfl, rfl, rfl, rfl, rfl, rfl, rfl, rfl, rfl, rfl, rfl, rfl, rfl, rfl, rfl, rfl, rfl, rfl, rfl, rfl, rfl, rfl, rfl, rfl, rfl⟩

/-- C2, on the code: the copy of `for k := range xs {}` is returned, and erasing every
position field of the copy and of the source does not give equal trees, because the copy has
Tok = token.ILLEGAL where the source has Tok = token.DEFINE. -/
theorem rangeStmt_copy_not_content_equal :
    ∃ y, Stmt (some sample.rangeStmt.toStmt) = .ok y ∧
      ast.Stmt.erasePos y ≠ ast.Stmt.erasePos (some sample.rangeStmt.toStmt) := by
  refine ⟨some (.RangeStmt token.NoPos (some (.Ident { NamePos := token.NoPos, Name := "k" })) none
    token.NoPos token.ILLEGAL (some (.Ident { NamePos := token.NoPos, Name := "xs" }))
    (some (.mk token.NoPos (some []) token.NoPos))), rfl, ?_⟩
  intro h
  simp only [ast.Stmt.erasePos, ast.StmtNode.erasePos, sample.rangeStmt, ast.RangeStmt.toStmt,
    Option.some.injEq, ast.StmtNode.RangeStmt.injEq] at h
  exact absurd h.2.2.2.2.1 (by decide)

/-- C3: every position field of a copy is the zero position. For a present expression,
statement, declaration, specification, field list or file in the grammar the copy is returned
and is present, and whenever a copy y of such a node is returned (whatever positions the
source carried) every position field of y, at its root and in every node below it, is
token.NoPos; a comment group is always copied, with the same result. -/
theorem copy_positions_zero :
    (∀ x : ast.ExprNode,
      (ast.ExprNode.inGrammar x = true → ∃ y, Expr (some x) = .ok (some y)) ∧
      ∀ y, Expr (some x) = .ok y → ∀ p ∈ ast.Expr.positions y, p = token.NoPos) ∧
    (∀ x : ast.StmtNode,
      (ast.StmtNode.inGrammar x = true → ∃ y, Stmt (some x) = .ok (some y)) ∧
      ∀ y, Stmt (some x) = .ok y → ∀ p ∈ ast.Stmt.positions y, p = token.NoPos) ∧
    (∀ x : ast.DeclNode,
      (ast.DeclNode.inGrammar x = true → ∃ y, Decl (some x) = .ok (some y)) ∧
      ∀ y, Decl (some x) = .ok y → ∀ p ∈ ast.Decl.positions y, p = token.NoPos) ∧
    (∀ x : ast.SpecNode,
      (ast.SpecNode.inGrammar x = true → ∃ y, Spec (some x) = .ok (some y)) ∧
      ∀ y, Spec (some x) = .ok y → ∀ p ∈ ast.Spec.positions y, p = token.NoPos) ∧
    (∀ x : ast.FieldList,
      (ast.FieldList.inGrammar x = true → ∃ y, FieldList (some x) = .ok (some y)) ∧
      ∀ y, FieldList (some x) = .ok y → ∀ p ∈ ast.FieldList.positionsPtr y, p = token.NoPos) ∧
    (∀ x : ast.CommentGroup, ∃ y, CommentGroup (some x) = some y ∧
      ∀ p ∈ ast.CommentGroup.positions y, p = token.NoPos) ∧
    (∀ x : ast.File,
      (ast.File.inGrammar x = true → ∃ y, File (some x) = .ok (some y)) ∧
      ∀ y, File (some x) = .ok y → ∀ p ∈ ast.File.positionsPtr y, p = token.NoPos) := by
  refine ⟨fun x => ⟨fun hx => ?_, fun y h => pos_copyExpr _ y h⟩,
    fun x => ⟨fun hx => ?_, fun y h => pos_copyStmt _ y h⟩,
    fun x => ⟨fun hx => ?_, fun y h => pos_copyDecl _ y h⟩,
    fun x => ⟨fun hx => ?_, fun y h => pos_Spec _ y h⟩,
    fun x => ⟨fun hx => ?_, fun y h => pos_FieldList _ y h⟩,
    fun x => ⟨_, rfl, zeros_CommentGroup_fresh x⟩,
    fun x => ⟨fun hx => total_File x hx, fun y h => pos_File x y h⟩⟩
  · obtain ⟨y, hy⟩ := total_copyExpr (some x) hx
    obtain ⟨n, rfl⟩ := copyExpr_present x y hy
    exact ⟨n, hy⟩
  · obtain ⟨y, hy⟩ := total_copyStmt (some x) hx
    obtain ⟨n, rfl⟩ := copyStmt_present x y hy
    exact ⟨n, hy⟩
  · obtain ⟨y, hy⟩ := total_copyDecl (some x) hx
    obtain ⟨n, rfl⟩ := copyDecl_present x y hy
    exact ⟨n, hy⟩
  · obtain ⟨y, hy⟩ := total_Spec (some x) hx
    obtain ⟨n, rfl⟩ := Spec_present x y hy
    exact ⟨n, hy⟩
  · obtain ⟨y, hy⟩ := total_FieldList_fresh x hx
    exact ⟨y, by rw [FieldList, hy]; rfl⟩

/-- C3 at concrete trees: the copies of the expression `f(x)[i]`, of a block, of a
declaration, of an import specification, of a field list, of a comment group and of a file,
all with positions set, are returned and hold only zero positions. -/
theorem copy_positions_zero_witness :
    (∃ y, Expr (some sample.indexed) = .ok (some y) ∧
      ∀ p ∈ ast.Expr.positions (some y), p = token.NoPos) ∧
    (∃ y, Stmt (some sample.block) = .ok (some y) ∧
      ∀ p ∈ ast.Stmt.positions (some y), p = token.NoPos) ∧
    (∃ y, Decl (some sample.varDecl) = .ok (some y) ∧
      ∀ p ∈ ast.Decl.positions (some y), p = token.NoPos) ∧
    (∃ y, Spec (some sample.importFmt) = .ok (some y) ∧
      ∀ p ∈ ast.Spec.positions (some y), p = token.NoPos) ∧
    (∃ y, FieldList (some sample.params) = .ok (some y) ∧
      ∀ p ∈ ast.FieldList.positionsPtr (some y), p = token.NoPos) ∧
    (∃ y, File (some sample.file) = .ok (some y) ∧
      ∀ p ∈ ast.File.positionsPtr (some y), p = token.NoPos) := by
  obtain ⟨hE, hS, hD, hSp, hF, -, hFile⟩ := copy_positions_zero
  refine ⟨?_, ?_, ?_, ?_, ?_, ?_⟩
  · obtain ⟨y, hy⟩ := (hE sample.indexed).1 rfl
    exact ⟨y, hy, (hE sample.indexed).2 _ hy⟩
  · obtain ⟨y, hy⟩ := (hS sample.block).1 rfl
    exact ⟨y, hy, (hS sample.block).2 _ hy⟩
  · obtain ⟨y, hy⟩ := (hD sample.varDecl).1 rfl
    exact ⟨y, hy, (hD sample.varDecl).2 _ hy⟩
  · obtain ⟨y, hy⟩ := (hSp sample.importFmt).1 rfl
    exact ⟨y, hy, (hSp sample.importFmt).2 _ hy⟩
  · obtain ⟨y, hy⟩ := (hF sample.params).1 rfl
    exact ⟨y, hy, (hF sample.params).2 _ hy⟩
  · obtain ⟨y, hy⟩ := (hFile sample.file).1 rfl
    exact ⟨y, hy, (hFile sample.file).2 _ hy⟩

theorem slice_copy_nil_iff {α : Type} (loop : List α → Except String (List α))
    (xs ys : Option (List α))
    (h : (match xs with
      | none => (pure none : Except String (Option (List α)))
      | some l => loop l >>= fun cp => pure (some cp)) = .ok ys) :
    ys = none ↔ xs = none := by
  cases xs with
  | none =>
    simp only [pure_eq_ok] at h
    simp [h]
  | some l =>
    simp only [bind_eq_ok, pure_eq_ok] at h
    obtain ⟨cs, -, rfl⟩ := h
    simp

theorem FieldList_inner (x : ast.FieldList) (y : Option ast.FieldList)
    (h : FieldList (some x) = .ok y) :
    ∃ c, y = some c ∧ (c.List_ = none ↔ x.List_ = none) := by
  rw [FieldList] at h
  simp only [bind_eq_ok, pure_eq_ok] at h
  obtain ⟨c, hc, rfl⟩ := h
  refine ⟨c, rfl, ?_⟩
  obtain ⟨a, l, b⟩ := x
  cases l with
  | none =>
    rw [FieldList.fresh, pure_eq_ok] at hc
    subst hc
    simp [ast.FieldList.List_]
  | some xs =>
    rw [FieldList.fresh] at hc
    simp only [bind_eq_ok, pure_eq_ok] at hc
    obtain ⟨cp, -, rfl⟩ := hc
    simp [ast.FieldList.List_]

/-- C4: the nil-versus-empty distinction of slices is kept. Each of NodeList, ExprList,
StmtList, DeclList, IdentList and SpecList returns nil on nil and a present slice of length
zero on a present slice of length zero, and whenever it returns, the result is nil exactly
when the input is nil. For a present FieldList (whenever the copy is returned, and it is
returned for every field list of the grammar) and for a present CommentGroup, the inner List
of the copy is nil exactly when the inner List of the source is nil. -/
theorem slice_nil_iff_nil :
    (NodeList none = .ok none ∧ NodeList (some []) = .ok (some []) ∧
      ∀ xs ys, NodeList xs = .ok ys → (ys = none ↔ xs = none)) ∧
    (ExprList none = .ok none ∧ ExprList (some []) = .ok (some []) ∧
      ∀ xs ys, ExprList xs = .ok ys → (ys = none ↔ xs = none)) ∧
    (StmtList none = .ok none ∧ StmtList (some []) = .ok (some []) ∧
      ∀ xs ys, StmtList xs = .ok ys → (ys = none ↔ xs = none)) ∧
    (DeclList none = .ok none ∧ DeclList (some []) = .ok (some []) ∧
      ∀ xs ys, DeclList xs = .ok ys → (ys = none ↔ xs = none)) ∧
    (IdentList none = none ∧ IdentList (some []) = some [] ∧
      ∀ xs, IdentList xs = none ↔ xs = none) ∧
    (SpecList none = .ok none ∧ SpecList (some []) = .ok (some []) ∧
      ∀ xs ys, SpecList xs = .ok ys → (ys = none ↔ xs = none)) ∧
    (∀ (x : ast.FieldList) y, FieldList (some x) = .ok y →
      ∃ c, y = some c ∧ (c.List_ = none ↔ x.List_ = none)) ∧
    (∀ x : ast.FieldList, ast.FieldList.inGrammar x = true →
      ∃ c, FieldList (some x) = .ok (some c) ∧ (c.List_ = none ↔ x.List_ = none)) ∧
    (∀ x : ast.CommentGroup,
      ∃ c, CommentGroup (some x) = some c ∧ (c.List_ = none ↔ x.List_ = none)) := by
  refine ⟨⟨rfl, rfl, fun xs ys h => ?_⟩, ⟨rfl, rfl, fun xs ys h => ?_⟩,
    ⟨rfl, rfl, fun xs ys h => ?_⟩, ⟨rfl, rfl, fun xs ys h => ?_⟩, ⟨rfl, rfl, fun xs => ?_⟩,
    ⟨rfl, rfl, fun xs ys h => ?_⟩, FieldList_inner, fun x hx => ?_, fun x => ?_⟩
  · refine slice_copy_nil_iff NodeList.loop xs ys ?_
    cases xs <;> exact h
  · refine slice_copy_nil_iff ExprList.loop xs ys ?_
    cases xs with
    | none => rw [ExprList] at h; exact h
    | some l => rw [ExprList] at h; exact h
  · refine slice_copy_nil_iff StmtList.loop xs ys ?_
    cases xs with
    | none => rw [StmtList] at h; exact h
    | some l => rw [StmtList] at h; exact h
  · refine slice_copy_nil_iff DeclList.loop xs ys ?_
    cases xs <;> exact h
  · cases xs <;> simp [IdentList]
  · refine slice_copy_nil_iff SpecList.loop xs ys ?_
    cases xs with
    | none => rw [SpecList] at h; exact h
    | some l => rw [SpecList] at h; exact h
  · obtain ⟨y, hy⟩ := total_FieldList (some x) hx
    obtain ⟨c, rfl, hc⟩ := FieldList_inner x y hy
    exact ⟨c, hy, hc⟩
  · obtain ⟨l⟩ := x
    cases l with
    | none => exact ⟨_, rfl, by simp [CommentGroup.fresh]⟩
    | some xs => exact ⟨_, rfl, by simp [CommentGroup.fresh]⟩

/-- C4 at concrete field lists: a present field list whose inner List is nil is copied to a
present field list whose inner List is nil, and one whose inner List is present and empty to
one whose inner List is present and empty. -/
theorem slice_nil_iff_nil_witness :
    (∃ c, FieldList (some (.mk 3 none 4)) = .ok (some c) ∧ c.List_ = none) ∧
    (∃ c, FieldList (some (.mk 3 (some []) 4)) = .ok (some c) ∧ c.List_ = some []) := by
  obtain ⟨c, hc, hi⟩ := slice_nil_iff_nil.2.2.2.2.2.2.2.1 (.mk 3 none 4) rfl
  exact ⟨⟨c, hc, hi.mpr rfl⟩, ⟨_, rfl, rfl⟩⟩

theorem slice_elementwise {α : Type} (g : α → Except String α)
    (loop : List α → Except String (List α))
    (hl : ∀ xs cs, loop xs = .ok cs ↔ List.Forall₂ (fun x c => g x = .ok c) xs cs)
    (xs : List α) (ys : Option (List α))
    (h : (loop xs >>= fun cp => pure (some cp)) = .ok ys) :
    ∃ cs, ys = some cs ∧ cs.length = xs.length ∧
      ∀ (i : Nat) (x : α), xs[i]? = some x → ∃ c, cs[i]? = some c ∧ g x = .ok c := by
  simp only [bind_eq_ok, pure_eq_ok] at h
  obtain ⟨cs, hcs, rfl⟩ := h
  obtain ⟨hlen, hidx⟩ := forall₂_index ((hl xs cs).mp hcs)
  exact ⟨cs, rfl, hlen, hidx⟩

theorem slice_of_elements {α : Type} (g : α → Except String α)
    (loop : List α → Except String (List α))
    (hl : ∀ xs cs, loop xs = .ok cs ↔ List.Forall₂ (fun x c => g x = .ok c) xs cs)
    (xs cs : List α) (h : List.Forall₂ (fun x c => g x = .ok c) xs cs) :
    (loop xs >>= fun cp => pure (some cp)) = .ok (some cs) := by
  rw [(hl xs cs).mpr h]
  rfl

/-- C5: the list copies are element-wise and keep the order. Whenever ExprList, StmtList,
DeclList or SpecList returns on a present list xs, the result is a present list of the same
length whose element at each index i is what the entry point of the category returns on
xs[i]; an absent element is copied to an absent element at the same index; and when the
entry point returns c_i on each xs[i], the list function returns the list of the c_i.
IdentList always returns, with Ident(xs[i]) at index i. -/
theorem list_copy_elementwise :
    (∀ (xs : List ast.Expr) ys, ExprList (some xs) = .ok ys →
      ∃ cs, ys = some cs ∧ cs.length = xs.length ∧
        ∀ (i : Nat) (x : ast.Expr), xs[i]? = some x → ∃ c, cs[i]? = some c ∧ Expr x = .ok c) ∧
    (∀ (xs : List ast.Stmt) ys, StmtList (some xs) = .ok ys →
      ∃ cs, ys = some cs ∧ cs.length = xs.length ∧
        ∀ (i : Nat) (x : ast.Stmt), xs[i]? = some x → ∃ c, cs[i]? = some c ∧ Stmt x = .ok c) ∧
    (∀ (xs : List ast.Decl) ys, DeclList (some xs) = .ok ys →
      ∃ cs, ys = some cs ∧ cs.length = xs.length ∧
        ∀ (i : Nat) (x : ast.Decl), xs[i]? = some x → ∃ c, cs[i]? = some c ∧ Decl x = .ok c) ∧
    (∀ (xs : List ast.Spec) ys, SpecList (some xs) = .ok ys →
      ∃ cs, ys = some cs ∧ cs.length = xs.length ∧
        ∀ (i : Nat) (x : ast.Spec), xs[i]? = some x → ∃ c, cs[i]? = some c ∧ Spec x = .ok c) ∧
    (∀ xs : List (Option ast.Ident),
      ∃ cs, IdentList (some xs) = some cs ∧ cs.length = xs.length ∧
        ∀ (i : Nat) (x : Option ast.Ident), xs[i]? = some x → cs[i]? = some (Ident x)) ∧
    (∀ c, Expr none = .ok c → c = none) ∧ (∀ c, Stmt none = .ok c → c = none) ∧
    (∀ c, Decl none = .ok c → c = none) ∧ (∀ c, Spec none = .ok c → c = none) ∧
    Ident none = none ∧
    (∀ xs cs, List.Forall₂ (fun x c => Expr x = .ok c) xs cs →
      ExprList (some xs) = .ok (some cs)) ∧
    (∀ xs cs, List.Forall₂ (fun x c => Stmt x = .ok c) xs cs →
      StmtList (some xs) = .ok (some cs)) ∧
    (∀ xs cs, List.Forall₂ (fun x c => Decl x = .ok c) xs cs →
      DeclList (some xs) = .ok (some cs)) ∧
    (∀ xs cs, List.Forall₂ (fun x c => Spec x = .ok c) xs cs →
      SpecList (some xs) = .ok (some cs)) := by
  refine ⟨fun xs ys h => ?_, fun xs ys h => ?_, fun xs ys h => ?_, fun xs ys h => ?_,
    fun xs => ⟨_, rfl, by simp, fun i x hx => by simp [hx]⟩,
    fun c h => ?_, fun c h => ?_, fun c h => ?_, fun c h => ?_, rfl,
    fun xs cs h => ?_, fun xs cs h => ?_, fun xs cs h => ?_, fun xs cs h => ?_⟩
  · rw [ExprList] at h
    exact slice_elementwise copyExpr ExprList.loop ExprList_loop_iff xs ys h
  · rw [StmtList] at h
    exact slice_elementwise copyStmt StmtList.loop StmtList_loop_iff xs ys h
  · exact slice_elementwise copyDecl DeclList.loop DeclList_loop_iff xs ys h
  · rw [SpecList] at h
    exact slice_elementwise Spec SpecList.loop SpecList_loop_iff xs ys h
  · exact ((pure_eq_ok (ε := String)).mp (by rw [← h]; rfl))
  · exact ((pure_eq_ok (ε := String)).mp (by rw [← h]; rfl))
  · exact ((pure_eq_ok (ε := String)).mp (by rw [← h]; rfl))
  · exact ((pure_eq_ok (ε := String)).mp (by rw [← h]; rfl))
  · rw [ExprList]
    exact slice_of_elements copyExpr ExprList.loop ExprList_loop_iff xs cs h
  · rw [StmtList]
    exact slice_of_elements copyStmt StmtList.loop StmtList_loop_iff xs cs h
  · exact slice_of_elements copyDecl DeclList.loop DeclList_loop_iff xs cs h
  · rw [SpecList]
    exact slice_of_elements Spec SpecList.loop SpecList_loop_iff xs cs h

/-- C5 at a concrete list: the copy of the three expressions `a`, nil, `b` has length three,
with the copy of `a` at index 0, nil at index 1 and the copy of `b` at index 2. -/
theorem list_copy_elementwise_witness :
    ∃ cs, ExprList (some [sample.ident "a", none, sample.ident "b"]) = .ok (some cs) ∧
      cs.length = 3 ∧ cs[1]? = some none ∧
      (∃ c, cs[0]? = some c ∧ Expr (sample.ident "a") = .ok c) ∧
      (∃ c, cs[2]? = some c ∧ Expr (sample.ident "b") = .ok c) := by
  obtain ⟨cs, hcs, hlen, hidx⟩ := list_copy_elementwise.1
    [sample.ident "a", none, sample.ident "b"] _ rfl
  obtain ⟨c1, hc1, he1⟩ := hidx 1 none rfl
  have h1 : c1 = none := list_copy_elementwise.2.2.2.2.2.1 c1 he1
  subst h1
  cases hcs
  exact ⟨_, rfl, hlen, hc1, hidx 0 _ rfl, hidx 2 _ rfl⟩

theorem forall₂_of_mem {α β : Type} {R : α → β → Prop} {xs : List α} {cs : List β}
    (h : List.Forall₂ R xs cs) (x : α) (hx : x ∈ xs) : ∃ c, R x c := by
  induction h with
  | nil => cases hx
  | cons hr _ ih =>
    cases hx with
    | head => exact ⟨_, hr⟩
    | tail _ hm => exact ih hm

/-- C6, on the code: Node on the nil interface does not return nil; it reaches the default
branch of the type switch, which panics with "unhandled node". NodeList on the list holding
one nil node fails the same way, and NodeList returns on no list that holds a nil node. -/
theorem node_nil_unhandled :
    Node none = .error "unhandled node" ∧
    NodeList (some [none]) = .error "unhandled node" ∧
    ∀ (xs : List ast.Node) ys, none ∈ xs → NodeList (some xs) ≠ .ok ys := by
  refine ⟨rfl, rfl, fun xs ys hmem h => ?_⟩
  have h2 : (NodeList.loop xs >>= fun cp => pure (some cp)) = .ok ys := h
  simp only [bind_eq_ok, pure_eq_ok] at h2
  obtain ⟨cs, hcs, -⟩ := h2
  obtain ⟨c, hc⟩ := forall₂_of_mem ((NodeList_loop_iff xs cs).mp hcs) none hmem
  exact throw_ne_ok hc

/-- C7, on the code: File never returns a file whose Imports or Comments is nil. Both are
made with make and the length of the source slice, so they are present slices even when the
source slice is nil; the zero value `ast.File{}`, whose Imports and Comments are nil, is
copied to a file whose Imports and Comments are present and empty. -/
theorem file_nil_index_made_present :
    (∀ (x : ast.File) y, File (some x) = .ok y → ∃ c, y = some c ∧
      c.Imports = some ((ast.elems x.Imports).map ImportSpec) ∧
      c.Comments = some ((ast.elems x.Comments).map CommentGroup)) ∧
    (∃ c, File (some sample.emptyFile) = .ok (some c) ∧
      sample.emptyFile.Imports = none ∧ c.Imports = some [] ∧
      sample.emptyFile.Comments = none ∧ c.Comments = some []) := by
  refine ⟨fun x y h => ?_, ⟨_, rfl, rfl, rfl, rfl, rfl⟩⟩
  obtain ⟨cDecls, -, rfl⟩ := (File_ok_iff x y).mp h
  exact ⟨_, rfl, rfl, rfl⟩

/-- The tag fields that the copy functions set: the operator or token of UnaryExpr,
BinaryExpr, IncDecStmt, AssignStmt, BranchStmt and GenDecl, the direction of ChanType, and the
flags Slice3, Incomplete and Implicit are those of the source whenever the copy is returned. -/
theorem tags_copied :
    (∀ (x : ast.UnaryExpr) y, UnaryExpr (some x) = .ok y → ∃ c, y = some c ∧ c.Op = x.Op) ∧
    (∀ (x : ast.BinaryExpr) y, BinaryExpr (some x) = .ok y → ∃ c, y = some c ∧ c.Op = x.Op) ∧
    (∀ (x : ast.IncDecStmt) y, IncDecStmt (some x) = .ok y → ∃ c, y = some c ∧ c.Tok = x.Tok) ∧
    (∀ (x : ast.AssignStmt) y, AssignStmt (some x) = .ok y → ∃ c, y = some c ∧ c.Tok = x.Tok) ∧
    (∀ x : ast.BranchStmt, ∃ c, BranchStmt (some x) = some c ∧ c.Tok = x.Tok) ∧
    (∀ (x : ast.GenDecl) y, GenDecl (some x) = .ok y → ∃ c, y = some c ∧ c.Tok = x.Tok) ∧
    (∀ (x : ast.ChanType) y, ChanType (some x) = .ok y → ∃ c, y = some c ∧ c.Dir = x.Dir) ∧
    (∀ (x : ast.SliceExpr) y, SliceExpr (some x) = .ok y →
      ∃ c, y = some c ∧ c.Slice3 = x.Slice3) ∧
    (∀ (x : ast.CompositeLit) y, CompositeLit (some x) = .ok y →
      ∃ c, y = some c ∧ c.Incomplete = x.Incomplete) ∧
    (∀ (x : ast.StructType) y, StructType (some x) = .ok y →
      ∃ c, y = some c ∧ c.Incomplete = x.Incomplete) ∧
    (∀ (x : ast.InterfaceType) y, InterfaceType (some x) = .ok y →
      ∃ c, y = some c ∧ c.Incomplete = x.Incomplete) ∧
    (∀ x : ast.EmptyStmt, ∃ c, EmptyStmt (some x) = some c ∧ c.Implicit = x.Implicit) := by
  refine ⟨fun x y h => ?_, fun x y h => ?_, fun x y h => ?_, fun x y h => ?_,
    fun x => ⟨_, rfl, rfl⟩, fun x y h => ?_, fun x y h => ?_, fun x y h => ?_,
    fun x y h => ?_, fun x y h => ?_, fun x y h => ?_, fun x => ⟨_, rfl, rfl⟩⟩
  · rw [UnaryExpr] at h
    simp only [bind_eq_ok, pure_eq_ok] at h
    obtain ⟨_, _, rfl⟩ := h
    exact ⟨_, rfl, rfl⟩
  · rw [BinaryExpr] at h
    simp only [bind_eq_ok, pure_eq_ok] at h
    obtain ⟨_, _, _, _, rfl⟩ := h
    exact ⟨_, rfl, rfl⟩
  · rw [IncDecStmt] at h
    simp only [bind_eq_ok, pure_eq_ok] at h
    obtain ⟨_, _, rfl⟩ := h
    exact ⟨_, rfl, rfl⟩
  · rw [AssignStmt] at h
    simp only [bind_eq_ok, pure_eq_ok] at h
    obtain ⟨_, _, _, _, rfl⟩ := h
    exact ⟨_, rfl, rfl⟩
  · rw [GenDecl] at h
    simp only [bind_eq_ok, pure_eq_ok] at h
    obtain ⟨_, _, rfl⟩ := h
    exact ⟨_, rfl, rfl⟩
  · rw [ChanType] at h
    simp only [bind_eq_ok, pure_eq_ok] at h
    obtain ⟨_, _, rfl⟩ := h
    exact ⟨_, rfl, rfl⟩
  · rw [SliceExpr] at h
    simp only [bind_eq_ok, pure_eq_ok] at h
    obtain ⟨_, _, _, _, _, _, _, _, rfl⟩ := h
    exact ⟨_, rfl, rfl⟩
  · rw [CompositeLit] at h
    simp only [bind_eq_ok, pure_eq_ok] at h
    obtain ⟨_, _, _, _, rfl⟩ := h
    exact ⟨_, rfl, rfl⟩
  · rw [StructType] at h
    simp only [bind_eq_ok, pure_eq_ok] at h
    obtain ⟨_, _, rfl⟩ := h
    exact ⟨_, rfl, rfl⟩
  · rw [InterfaceType] at h
    simp only [bind_eq_ok, pure_eq_ok] at h
    obtain ⟨_, _, rfl⟩ := h
    exact ⟨_, rfl, rfl⟩

/-- C8, on the code: RangeStmt does not copy Tok. Whenever RangeStmt returns on a present
statement, the copy has Tok = token.ILLEGAL, the zero value, whatever the source has; so does
the copy that Stmt returns; the copy of `for k := range xs {}` has token.ILLEGAL where the
source has token.DEFINE. -/
theorem rangeStmt_tok_not_copied :
    (∀ (x : ast.RangeStmt) y, RangeStmt (some x) = .ok y →
      ∃ c, y = some c ∧ c.Tok = token.ILLEGAL) ∧
    (∀ (x : ast.RangeStmt) y, Stmt (some x.toStmt) = .ok y →
      ∃ c : ast.RangeStmt, y = some c.toStmt ∧ c.Tok = token.ILLEGAL) ∧
    (∃ c, RangeStmt (some sample.rangeStmt) = .ok (some c) ∧ c.Tok = token.ILLEGAL ∧
      sample.rangeStmt.Tok = token.DEFINE ∧ token.DEFINE ≠ token.ILLEGAL) := by
  have h1 : ∀ (x : ast.RangeStmt) y, RangeStmt (some x) = .ok y →
      ∃ c, y = some c ∧ c.Tok = token.ILLEGAL := by
    intro x y h
    rw [RangeStmt] at h
    simp only [bind_eq_ok, pure_eq_ok] at h
    obtain ⟨_, _, _, _, _, _, _, _, rfl⟩ := h
    exact ⟨_, rfl, rfl⟩
  refine ⟨h1, fun x y h => ?_, ⟨_, rfl, rfl, rfl, by decide⟩⟩
  have h2 : copyStmt (some x.toStmt) = .ok y := h
  rw [copyStmt_RangeStmt] at h2
  simp only [bind_eq_ok, pure_eq_ok] at h2
  obtain ⟨c, hc, rfl⟩ := h2
  obtain ⟨d, rfl, hd⟩ := h1 x c hc
  exact ⟨d, rfl, hd⟩

/-- C9: copying a copy gives the copy again. Whenever Expr, Stmt, Decl, Spec, FieldList or
File returns y on x (absent or present), it returns y on y; CommentGroup and Package, which
always return, give the same result when applied to their result. -/
theorem copy_idempotent :
    (∀ x y, Expr x = .ok y → Expr y = .ok y) ∧
    (∀ x y, Stmt x = .ok y → Stmt y = .ok y) ∧
    (∀ x y, Decl x = .ok y → Decl y = .ok y) ∧
    (∀ x y, Spec x = .ok y → Spec y = .ok y) ∧
    (∀ x y, FieldList x = .ok y → FieldList y = .ok y) ∧
    (∀ x, CommentGroup (CommentGroup x) = CommentGroup x) ∧
    (∀ x y, File x = .ok y → File y = .ok y) ∧
    (∀ x, Package (Package x) = Package x) := by
  refine ⟨idem_copyExpr, idem_copyStmt, idem_copyDecl, idem_Spec, idem_FieldList,
    CommentGroup_idem, fun x y h => ?_, Package_idem⟩
  cases x with
  | none =>
    have : y = none := (pure_eq_ok (ε := String)).mp (by rw [← h]; rfl)
    subst this
    rfl
  | some x => exact idem_File x y h

/-- C9 at concrete trees: the copies of the expression `f(x)[i]`, of a block, of a
declaration, of a file and of a package are returned, and copying them returns them again. -/
theorem copy_idempotent_witness :
    (∃ y, Expr (some sample.indexed) = .ok y ∧ Expr y = .ok y) ∧
    (∃ y, Stmt (some sample.block) = .ok y ∧ Stmt y = .ok y) ∧
    (∃ y, Decl (some sample.varDecl) = .ok y ∧ Decl y = .ok y) ∧
    (∃ y, File (some sample.file) = .ok y ∧ File y = .ok y) ∧
    (∃ y, Package (some sample.pkg) = some y ∧ Package (some y) = some y) :=
  ⟨⟨_, rfl, copy_idempotent.1 (some sample.indexed) _ rfl⟩,
    ⟨_, rfl, copy_idempotent.2.1 (some sample.block) _ rfl⟩,
    ⟨_, rfl, copy_idempotent.2.2.1 (some sample.varDecl) _ rfl⟩,
    ⟨_, rfl, copy_idempotent.2.2.2.2.2.2.1 (some sample.file) _ rfl⟩,
    ⟨_, rfl, copy_idempotent.2.2.2.2.2.2.2 (some sample.pkg)⟩⟩

/-- C10: each category entry point is total over its category. On every expression,
statement, declaration or specification, absent or present and of any depth, in which every
interface value (at the root and in every child, of whatever category) holds a variant of
the grammar, Expr, Stmt, Decl and Spec return a result: they reach no panic, so none of the
"unhandled" branches. -/
theorem entry_points_total :
    (∀ x : ast.Expr, ast.Expr.inGrammar x = true →
      (∃ y, Expr x = .ok y) ∧ ∀ msg, Expr x ≠ .error msg) ∧
    (∀ x : ast.Stmt, ast.Stmt.inGrammar x = true →
      (∃ y, Stmt x = .ok y) ∧ ∀ msg, Stmt x ≠ .error msg) ∧
    (∀ x : ast.Decl, ast.Decl.inGrammar x = true →
      (∃ y, Decl x = .ok y) ∧ ∀ msg, Decl x ≠ .error msg) ∧
    (∀ x : ast.Spec, ast.Spec.inGrammar x = true →
      (∃ y, Spec x = .ok y) ∧ ∀ msg, Spec x ≠ .error msg) := by
  have key : ∀ {α : Type} (r : Except String α), (∃ y, r = .ok y) →
      (∃ y, r = .ok y) ∧ ∀ msg, r ≠ .error msg := by
    intro α r h
    refine ⟨h, fun msg hm => ?_⟩
    obtain ⟨y, hy⟩ := h
    rw [hy] at hm
    cases hm
  exact ⟨fun x hx => key _ (total_copyExpr x hx), fun x hx => key _ (total_copyStmt x hx),
    fun x hx => key _ (total_copyDecl x hx), fun x hx => key _ (total_Spec x hx)⟩

/-- C10 at concrete trees: the expression `f(x)[i]`, a block holding a declaration statement
and a nil statement, a declaration with a specification inside, and an import specification
are in the grammar, and the entry points return on them. -/
theorem entry_points_total_witness :
    (ast.Expr.inGrammar (some sample.indexed) = true ∧ ∃ y, Expr (some sample.indexed) = .ok y) ∧
    (ast.Stmt.inGrammar (some sample.block) = true ∧ ∃ y, Stmt (some sample.block) = .ok y) ∧
    (ast.Decl.inGrammar (some sample.varDecl) = true ∧
      ∃ y, Decl (some sample.varDecl) = .ok y) ∧
    (ast.Spec.inGrammar (some sample.importFmt) = true ∧
      ∃ y, Spec (some sample.importFmt) = .ok y) :=
  ⟨⟨rfl, (entry_points_total.1 (some sample.indexed) rfl).1⟩,
    ⟨rfl, (entry_points_total.2.1 (some sample.block) rfl).1⟩,
    ⟨rfl, (entry_points_total.2.2.1 (some sample.varDecl) rfl).1⟩,
    ⟨rfl, (entry_points_total.2.2.2 (some sample.importFmt) rfl).1⟩⟩

end astcopy

namespace astcopy

/-- C11, against the claim as stated: the errors of two inputs of different unsupported
types are equal, so they do not identify the type. On the types "A" and "B", Expr, Stmt,
Decl, Spec and Node each fail with the same error. -/
theorem unsupported_errors_not_distinguishable :
    "A" ≠ "B" ∧
    Expr (some (.other "A")) = Expr (some (.other "B")) ∧
    Stmt (some (.other "A")) = Stmt (some (.other "B")) ∧
    Decl (some (.other "A")) = Decl (some (.other "B")) ∧
    Spec (some (.other "A")) = Spec (some (.other "B")) ∧
    Node (some (.other "A")) = Node (some (.other "B")) ∧
    ¬ ∀ t1 t2 : String, t1 ≠ t2 → Expr (some (.other t1)) ≠ Expr (some (.other t2)) :=
  ⟨by decide, rfl, rfl, rfl, rfl, rfl, fun h => h "A" "B" (by decide) rfl⟩

/-- C11, as amended: on an input whose concrete type typ lies outside the grammar, each
entry point returns no result and panics with a constant message that names the category of
the switch that was reached and not the type: "unhandled expr" for Expr, "unhandled stmt" for
Stmt, "unhandled decl" for Decl, "unhandled spec" for Spec, "unhandled node" for Node; Node
on a value that is an expression, statement, declaration or specification of an unsupported
type panics with the message of that category. -/
theorem unsupported_panics_constant (typ : String) :
    Expr (some (.other typ)) = .error "unhandled expr" ∧
    Stmt (some (.other typ)) = .error "unhandled stmt" ∧
    Decl (some (.other typ)) = .error "unhandled decl" ∧
    Spec (some (.other typ)) = .error "unhandled spec" ∧
    Node (some (.other typ)) = .error "unhandled node" ∧
    Node (some (.Expr (.other typ))) = .error "unhandled expr" ∧
    Node (some (.Stmt (.other typ))) = .error "unhandled stmt" ∧
    Node (some (.Decl (.other typ))) = .error "unhandled decl" ∧
    Node (some (.Spec (.other typ))) = .error "unhandled spec" :=
  ⟨rfl, rfl, rfl, rfl, rfl, rfl, rfl, rfl, rfl⟩

/-- The cases that the type switch of copyNode has: on a present expression, statement,
declaration, specification, field list, comment, comment group, file or package, Node gives
the result of Expr, Stmt, Decl, Spec, FieldList, Comment, CommentGroup, File or Package, as
an ast.Node. -/
theorem node_delegates :
    (∀ x : ast.ExprNode, Node (some (.Expr x)) = (Expr (some x)).map ast.Expr.toNode) ∧
    (∀ x : ast.StmtNode, Node (some (.Stmt x)) = (Stmt (some x)).map ast.Stmt.toNode) ∧
    (∀ x : ast.DeclNode, Node (some (.Decl x)) = (Decl (some x)).map ast.Decl.toNode) ∧
    (∀ x : ast.SpecNode, Node (some (.Spec x)) = (Spec (some x)).map ast.Spec.toNode) ∧
    (∀ x : ast.FieldList, Node (some (.FieldList x)) =
      (FieldList (some x)).map (Option.map ast.NodeVal.FieldList)) ∧
    (∀ x : ast.Comment, Node (some (.Comment x)) =
      .ok ((Comment (some x)).map ast.NodeVal.Comment)) ∧
    (∀ x : ast.CommentGroup, Node (some (.CommentGroup x)) =
      .ok ((CommentGroup (some x)).map ast.NodeVal.CommentGroup)) ∧
    (∀ x : ast.File, Node (some (.File x)) = (File (some x)).map (Option.map ast.NodeVal.File)) ∧
    (∀ x : ast.Package, Node (some (.Package x)) =
      .ok ((Package (some x)).map ast.NodeVal.Package)) := by
  refine ⟨fun x => rfl, fun x => rfl, fun x => rfl, fun x => rfl, fun x => ?_, fun x => rfl,
    fun x => rfl, fun x => rfl, fun x => rfl⟩
  show copyNode _ = _
  rw [copyNode, FieldList]
  cases FieldList.fresh x <;> rfl

/-- C12, on the code: Node does not delegate to Field. The type switch of copyNode has no
case for *ast.Field, so Node on every present field reaches the default branch and panics
with "unhandled node", also on the field `a int`, which Field copies. -/
theorem node_field_unhandled :
    (∀ x : ast.Field, Node (some (.Field x)) = .error "unhandled node") ∧
    (∃ c, Field (some sample.field) = .ok (some c)) ∧
    Node (some (.Field sample.field)) = .error "unhandled node" :=
  ⟨fun _ => rfl, ⟨_, rfl⟩, rfl⟩

/-- C13: Package copies the file mapping shallowly. For a present package x (the keys of
its map being distinct), Package returns a package with the Name of x and a map with the
keys of x.Files, in which the lookup of every key gives what it gives in x.Files: the file
value of x itself, with every field as it is. -/
theorem package_files_shallow (x : ast.Package)
    (hkeys : ((ast.elems x.Files).map Prod.fst).Nodup) :
    ∃ y m, Package (some x) = some y ∧ y.Name = x.Name ∧ y.Files = some m ∧
      m.map Prod.fst = (ast.elems x.Files).map Prod.fst ∧
      ∀ k, ast.mapGet m k = ast.mapGet (ast.elems x.Files) k := by
  have h := foldl_mapSet_nodup (ast.elems x.Files) [] (by simpa using hkeys)
  refine ⟨_, _, rfl, rfl, rfl, ?_, fun k => ?_⟩
  · rw [h, List.nil_append]
  · rw [h, List.nil_append]

/-- C13 at a concrete package: the package with the files `a.go` and `b.go` is copied to a
package with the same name and keys and the same lookups; under `a.go` the copy holds the
file of the source with its positions (Package = 9), which is not what File returns on it. -/
theorem package_files_shallow_witness :
    ((ast.elems sample.pkg.Files).map Prod.fst).Nodup ∧
    (∃ y m, Package (some sample.pkg) = some y ∧ y.Name = sample.pkg.Name ∧ y.Files = some m ∧
      m.map Prod.fst = (ast.elems sample.pkg.Files).map Prod.fst ∧
      ∀ k, ast.mapGet m k = ast.mapGet (ast.elems sample.pkg.Files) k) ∧
    (∃ y m, Package (some sample.pkg) = some y ∧ y.Files = some m ∧
      ast.mapGet m "a.go" = some (some sample.file) ∧
      sample.file.Package = 9 ∧
      File (some sample.file) ≠ .ok (some sample.file)) := by
  have hk : ((ast.elems sample.pkg.Files).map Prod.fst).Nodup := by decide
  refine ⟨hk, package_files_shallow sample.pkg hk, ⟨_, _, rfl, rfl, rfl, rfl, ?_⟩⟩
  intro h
  obtain ⟨c, -, h2⟩ := (File_ok_iff sample.file _).mp h
  have h3 : (some sample.file).map ast.File.Package = some token.NoPos := by rw [h2]; rfl
  exact absurd h3 (by decide)

end astcopy

namespace mockgen

/-- C14: on a tree whose node start positions are non-decreasing in pre-order, findAtPosition
returns the first node in pre-order whose range [start, end] contains the coordinate (line,
column), in the order by line and then column with both ends included, and that satisfies
the predicate; it returns nil when there is no such node. -/
theorem findAtPosition_first_match {α : Type} (f : file α) (p : ast.Tree α → Bool)
    (line column : Int)
    (hsorted : List.Chain' (fun a b => (f.start a).le (f.start b)) f.astFile.preorder) :
    (findAtPosition f (pureFunc p) line column ()).1 =
      f.astFile.preorder.find? (fun n => decide (f.isMatch ⟨line, column⟩ p n)) := by
  haveI : IsTrans (ast.Tree α) (fun a b => (f.start a).le (f.start b)) :=
    ⟨fun _ _ _ h1 h2 => le_trans h1 h2⟩
  rw [findAtPosition_pure]
  exact scan_sorted f p ⟨line, column⟩ _ (List.chain'_iff_pairwise.mp hsorted)

/-- C14 at the tree of the specification: with the declaration D1 on lines 1 to 3, the
declaration D2 on lines 5 to 7 and the predicate "is a declaration", the start positions are
non-decreasing in pre-order, (2,1) gives D1, (4,1) gives nil and (6,1) gives D2. -/
theorem findAtPosition_first_match_witness :
    List.Chain' (fun a b => (sample.twoDecls.start a).le (sample.twoDecls.start b))
      sample.twoDecls.astFile.preorder ∧
    (findAtPosition sample.twoDecls (pureFunc sample.isDecl) 2 1 ()).1 = some sample.d1 ∧
    (findAtPosition sample.twoDecls (pureFunc sample.isDecl) 4 1 ()).1 = none ∧
    (findAtPosition sample.twoDecls (pureFunc sample.isDecl) 6 1 ()).1 = some sample.d2 := by
  have h : List.Chain' (fun a b => (sample.twoDecls.start a).le (sample.twoDecls.start b))
      sample.twoDecls.astFile.preorder :=
    List.Chain.cons (by decide) (List.Chain.cons (by decide) (List.Chain.cons (by decide)
      (List.Chain.cons (by decide) List.Chain.nil)))
  exact ⟨h, (findAtPosition_first_match sample.twoDecls sample.isDecl 2 1 h).trans rfl,
    (findAtPosition_first_match sample.twoDecls sample.isDecl 4 1 h).trans rfl,
    (findAtPosition_first_match sample.twoDecls sample.isDecl 6 1 h).trans rfl⟩

/-- C15: with no assumption on the order of the positions, a node n that findAtPosition
returns is a node of the tree, start(n) <= coordinate <= end(n) in the order by line and then
column, and the predicate holds of n; so when no node of the tree both contains the
coordinate and satisfies the predicate, the result is nil. -/
theorem findAtPosition_sound {α : Type} (f : file α) (p : ast.Tree α → Bool)
    (line column : Int) :
    (∀ n, (findAtPosition f (pureFunc p) line column ()).1 = some n →
      n ∈ f.astFile.preorder ∧
      (f.start n).le ⟨line, column⟩ ∧ token.Position.le ⟨line, column⟩ (f.finish n) ∧
      p n = true) ∧
    ((∀ n ∈ f.astFile.preorder, ¬ (f.contains ⟨line, column⟩ n ∧ p n = true)) →
      (findAtPosition f (pureFunc p) line column ()).1 = none) := by
  have h1 : ∀ n, (findAtPosition f (pureFunc p) line column ()).1 = some n →
      n ∈ f.astFile.preorder ∧
      (f.start n).le ⟨line, column⟩ ∧ token.Position.le ⟨line, column⟩ (f.finish n) ∧
      p n = true := by
    intro n h
    obtain ⟨hfind, hm⟩ := (found_iff f p line column n).mp h
    exact ⟨List.mem_of_find?_eq_some hfind, hm.1.1, hm.1.2, hm.2⟩
  refine ⟨h1, fun hno => ?_⟩
  cases hr : (findAtPosition f (pureFunc p) line column ()).1 with
  | none => rfl
  | some n =>
    obtain ⟨hmem, hs, he, hp⟩ := h1 n hr
    exact absurd ⟨⟨hs, he⟩, hp⟩ (hno n hmem)

/-- C15 at concrete trees: in the file that lists D2 before D1, (6,1) gives D2, which is a
node of the tree, contains (6,1) and is a declaration; in the file with D1 and D2, no
declaration contains (4,1) and the result is nil. -/
theorem findAtPosition_sound_witness :
    ((findAtPosition sample.shuffled (pureFunc sample.isDecl) 6 1 ()).1 = some sample.d2 ∧
      sample.d2 ∈ sample.shuffled.astFile.preorder ∧
      (sample.shuffled.start sample.d2).le ⟨6, 1⟩ ∧
      token.Position.le ⟨6, 1⟩ (sample.shuffled.finish sample.d2) ∧
      sample.isDecl sample.d2 = true) ∧
    ((∀ n ∈ sample.twoDecls.astFile.preorder,
        ¬ (sample.twoDecls.contains ⟨4, 1⟩ n ∧ sample.isDecl n = true)) ∧
      (findAtPosition sample.twoDecls (pureFunc sample.isDecl) 4 1 ()).1 = none) := by
  have hno : ∀ n ∈ sample.twoDecls.astFile.preorder,
      ¬ (sample.twoDecls.contains ⟨4, 1⟩ n ∧ sample.isDecl n = true) := by
    intro n hn
    simp only [sample.twoDecls, sample.d1, sample.d2, ast.Tree.preorder, ast.Tree.preorderList,
      List.append_nil, List.cons_append, List.nil_append, List.mem_cons, List.mem_singleton,
      List.not_mem_nil, or_false] at hn
    rcases hn with rfl | rfl | rfl | rfl | rfl <;> decide
  exact ⟨⟨rfl, (findAtPosition_sound sample.shuffled sample.isDecl 6 1).1 sample.d2 rfl⟩,
    hno, (findAtPosition_sound sample.twoDecls sample.isDecl 4 1).2 hno⟩

/-- C16: outer-match preference. A node that findAtPosition returns lies at a path of the
tree none of whose proper ancestors contains the coordinate and satisfies the predicate: the
result is never strictly nested inside a node that matches. And when the node given as the
root matches, it is the result, whatever matches below it. -/
theorem findAtPosition_outermost {α : Type} (f : file α) (p : ast.Tree α → Bool)
    (line column : Int) :
    (∀ n, (findAtPosition f (pureFunc p) line column ()).1 = some n →
      ∃ path, f.astFile.at? path = some n ∧
        ∀ q a, q <+: path → q ≠ path → f.astFile.at? q = some a →
          ¬ (f.contains ⟨line, column⟩ a ∧ p a = true)) ∧
    (f.contains ⟨line, column⟩ f.astFile ∧ p f.astFile = true →
      (findAtPosition f (pureFunc p) line column ()).1 = some f.astFile) := by
  refine ⟨fun n h => ?_, fun hm => ?_⟩
  · obtain ⟨hfind, -⟩ := (found_iff f p line column n).mp h
    obtain ⟨path, hpath, hanc⟩ := find_path _ f.astFile n hfind
    refine ⟨path, hpath, fun q a hq hne ha hmatch => ?_⟩
    have hstop := hanc q a hq hne ha
    have hma : f.isMatch ⟨line, column⟩ p a := hmatch
    simp [hma] at hstop
  · rw [found_iff]
    refine ⟨?_, hm⟩
    have hma : f.isMatch ⟨line, column⟩ p f.astFile := hm
    cases hf : f.astFile with
    | node v s e cs =>
      rw [hf] at hma
      simp [ast.Tree.preorder, List.find?_cons, hma]

/-- C16 at a concrete tree: outerSpec encloses innerSpec, both contain (3,1) and both are
type specifications; in the file that holds outerSpec, and on outerSpec itself, the result at
(3,1) is outerSpec, at the path [0, 0], whose proper ancestors do not match. -/
theorem findAtPosition_outermost_witness :
    (sample.nested.contains ⟨3, 1⟩ sample.innerSpec ∧ sample.isTypeSpec sample.innerSpec = true) ∧
    (sample.nested.contains ⟨3, 1⟩ sample.outerSpec ∧ sample.isTypeSpec sample.outerSpec = true) ∧
    sample.outerSpec.at? [0, 0] = some sample.innerSpec ∧
    (findAtPosition sample.nested (pureFunc sample.isTypeSpec) 3 1 ()).1 = some sample.outerSpec ∧
    (∃ path, sample.nested.astFile.at? path = some sample.outerSpec ∧
      ∀ q a, q <+: path → q ≠ path → sample.nested.astFile.at? q = some a →
        ¬ (sample.nested.contains ⟨3, 1⟩ a ∧ sample.isTypeSpec a = true)) ∧
    (findAtPosition { astFile := sample.outerSpec, fset := sample.fset }
      (pureFunc sample.isTypeSpec) 3 1 ()).1 = some sample.outerSpec :=
  ⟨by decide, by decide, rfl, rfl,
    (findAtPosition_outermost sample.nested sample.isTypeSpec 3 1).1 sample.outerSpec rfl,
    (findAtPosition_outermost { astFile := sample.outerSpec, fset := sample.fset }
      sample.isTypeSpec 3 1).2 (by decide)⟩

/-- C17: early termination. For every callback f, tree and initial state: no call of f but
the last one made by abortableInspect returned abort = true, so f is not called again once
it has; the calls made are a prefix of the calls that ast.Inspect makes with the goDown
answers of f when abort is not looked at. In findAtPosition, for every predicate p (with any
effect g), the nodes on which the closure is called are the nodes in pre-order up to and
including the first that starts strictly after the coordinate or matches, a prefix of the
pre-order sequence, and the predicate is evaluated on those of them whose range contains the
coordinate, so on no node after that one. -/
theorem traversal_stops_at_abort :
    (∀ {α σ : Type} (f : Option (ast.Tree α) → σ → (Bool × Bool) × σ) (t : ast.Tree α) (s : σ),
      (∀ e ∈ (abortableInspect t (recording f) (s, [])).2.dropLast, e.2.2 = false) ∧
      (abortableInspect t (recording f) (s, [])).2 <+:
        (ast.Inspect (ignoringAbort (recording f)) t (s, [])).2) ∧
    (∀ {α τ : Type} (f : file α) (p : ast.Tree α → Bool) (g : ast.Tree α → τ → τ)
        (line column : Int) (t : τ),
      ((abortableInspect f.astFile
          (recording (findAtPosition.visit f (fun n t => (p n, g n t)) line column))
          ((none, t), [])).2).filterMap (fun e => e.1) =
        takeThrough (fun n => decide (f.startsAfter ⟨line, column⟩ n) ||
          decide (f.isMatch ⟨line, column⟩ p n)) f.astFile.preorder ∧
      takeThrough (fun n => decide (f.startsAfter ⟨line, column⟩ n) ||
          decide (f.isMatch ⟨line, column⟩ p n)) f.astFile.preorder <+: f.astFile.preorder) ∧
    (∀ {α : Type} (f : file α) (p : ast.Tree α → Bool) (line column : Int),
      (findAtPosition f (recordingFunc p) line column []).2 =
        (takeThrough (fun n => decide (f.startsAfter ⟨line, column⟩ n) ||
          decide (f.isMatch ⟨line, column⟩ p n)) f.astFile.preorder).filter
          (fun n => decide (f.contains ⟨line, column⟩ n))) ∧
    ((abortableInspect sample.twoDecls.astFile
        (recording (findAtPosition.visit sample.twoDecls (pureFunc sample.isDecl) 2 1))
        ((none, ()), [])).2.filterMap (fun e => e.1) = [sample.twoDecls.astFile, sample.d1] ∧
      (findAtPosition sample.twoDecls (recordingFunc sample.isDecl) 2 1 []).2 =
        [sample.twoDecls.astFile, sample.d1] ∧
      (abortableInspect sample.twoDecls.astFile
        (recording (findAtPosition.visit sample.twoDecls (pureFunc sample.isDecl) 4 1))
        ((none, ()), [])).2.filterMap (fun e => e.1) =
        [sample.twoDecls.astFile, sample.d1, .node "Ident" 106 107 [], sample.d2] ∧
      (findAtPosition sample.twoDecls (recordingFunc sample.isDecl) 4 1 []).2 =
        [sample.twoDecls.astFile]) :=
  ⟨fun f t s => ⟨abort_only_last f t s, calls_initial_segment f t s⟩,
    fun f p g line column t => ⟨examined_eq f p g line column t, takeThrough_initial _ _⟩,
    fun f p line column => evaluated_eq f p line column,
    rfl, rfl, rfl, rfl⟩

end mockgen

namespace astcopy

/-- C18: the copy has the shape of its source. For a present expression, statement,
declaration or specification x of the grammar the copy is returned and is present, and
every copy y that is returned has the shape of x: the same variant, each child field present
exactly when it is present in x and then of the same shape, each child slice nil exactly
when it is nil in x and then of the same length, with elements of the same shapes. -/
theorem copy_same_shape :
    (∀ x : ast.ExprNode,
      (ast.ExprNode.inGrammar x = true → ∃ y, Expr (some x) = .ok (some y)) ∧
      ∀ y, Expr (some x) = .ok y → ast.Expr.shape y = ast.Expr.shape (some x)) ∧
    (∀ x : ast.StmtNode,
      (ast.StmtNode.inGrammar x = true → ∃ y, Stmt (some x) = .ok (some y)) ∧
      ∀ y, Stmt (some x) = .ok y → ast.Stmt.shape y = ast.Stmt.shape (some x)) ∧
    (∀ x : ast.DeclNode,
      (ast.DeclNode.inGrammar x = true → ∃ y, Decl (some x) = .ok (some y)) ∧
      ∀ y, Decl (some x) = .ok y → ast.Decl.shape y = ast.Decl.shape (some x)) ∧
    (∀ x : ast.SpecNode,
      (ast.SpecNode.inGrammar x = true → ∃ y, Spec (some x) = .ok (some y)) ∧
      ∀ y, Spec (some x) = .ok y → ast.Spec.shape y = ast.Spec.shape (some x)) := by
  refine ⟨fun x => ⟨fun hx => ?_, fun y h => shape_copyExpr _ y h⟩,
    fun x => ⟨fun hx => ?_, fun y h => shape_copyStmt _ y h⟩,
    fun x => ⟨fun hx => ?_, fun y h => shape_copyDecl _ y h⟩,
    fun x => ⟨fun hx => ?_, fun y h => shape_Spec _ y h⟩⟩
  · obtain ⟨y, hy⟩ := total_copyExpr (some x) hx
    obtain ⟨n, rfl⟩ := copyExpr_present x y hy
    exact ⟨n, hy⟩
  · obtain ⟨y, hy⟩ := total_copyStmt (some x) hx
    obtain ⟨n, rfl⟩ := copyStmt_present x y hy
    exact ⟨n, hy⟩
  · obtain ⟨y, hy⟩ := total_copyDecl (some x) hx
    obtain ⟨n, rfl⟩ := copyDecl_present x y hy
    exact ⟨n, hy⟩
  · obtain ⟨y, hy⟩ := total_Spec (some x) hx
    obtain ⟨n, rfl⟩ := Spec_present x y hy
    exact ⟨n, hy⟩

/-- C18 at concrete trees: the copies of the expression `f(x)[i]`, of a block (a present
statement list of length 2 with a nil second element), of a declaration and of an import
specification are returned and have the shape of their source; the shape of the block is
written out. -/
theorem copy_same_shape_witness :
    (∃ y, Expr (some sample.indexed) = .ok (some y) ∧
      ast.Expr.shape (some y) = ast.Expr.shape (some sample.indexed)) ∧
    (∃ y, Stmt (some sample.block) = .ok (some y) ∧
      ast.Stmt.shape (some y) = ast.Stmt.shape (some sample.block) ∧
      ast.Stmt.shape (some y) = .node "BlockStmt" [.slice [.node "DeclStmt" [.node "GenDecl"
        [.absent, .slice [.node "ValueSpec" [.absent, .slice [.node "Ident" []], .absent,
          .slice [.node "IndexExpr" [.node "CallExpr" [.node "Ident" [],
            .slice [.node "Ident" []]], .node "Ident" []]], .absent]]]], .absent]]) ∧
    (∃ y, Decl (some sample.varDecl) = .ok (some y) ∧
      ast.Decl.shape (some y) = ast.Decl.shape (some sample.varDecl)) ∧
    (∃ y, Spec (some sample.importFmt) = .ok (some y) ∧
      ast.Spec.shape (some y) = ast.Spec.shape (some sample.importFmt)) := by
  obtain ⟨hE, hS, hD, hSp⟩ := copy_same_shape
  refine ⟨?_, ?_, ?_, ?_⟩
  · obtain ⟨y, hy⟩ := (hE sample.indexed).1 rfl
    exact ⟨y, hy, (hE sample.indexed).2 _ hy⟩
  · obtain ⟨y, hy⟩ := (hS sample.block).1 rfl
    exact ⟨y, hy, (hS sample.block).2 _ hy, ((hS sample.block).2 _ hy).trans rfl⟩
  · obtain ⟨y, hy⟩ := (hD sample.varDecl).1 rfl
    exact ⟨y, hy, (hD sample.varDecl).2 _ hy⟩
  · obtain ⟨y, hy⟩ := (hSp sample.importFmt).1 rfl
    exact ⟨y, hy, (hSp sample.importFmt).2 _ hy⟩

/-- C20: the leaf rule. The copy of a present identifier, basic literal or comment is a new
value made of the scalar content of the source and nothing else: Name for Ident, Kind and
Value for BasicLit, Text for Comment; its position is the zero position. -/
theorem leaf_copy_scalars :
    (∀ x : ast.Ident, Ident (some x) = some { NamePos := token.NoPos, Name := x.Name }) ∧
    (∀ x : ast.BasicLit, BasicLit (some x) =
      some { ValuePos := token.NoPos, Kind := x.Kind, Value := x.Value }) ∧
    (∀ x : ast.Comment, Comment (some x) = some { Slash := token.NoPos, Text := x.Text }) ∧
    (∀ (x : ast.Ident) y, Ident (some x) = some y → y.Name = x.Name) ∧
    (∀ (x : ast.BasicLit) y, BasicLit (some x) = some y → y.Kind = x.Kind ∧ y.Value = x.Value) ∧
    (∀ (x : ast.Comment) y, Comment (some x) = some y → y.Text = x.Text) := by
  refine ⟨fun _ => rfl, fun _ => rfl, fun _ => rfl, fun x y h => ?_, fun x y h => ?_,
    fun x y h => ?_⟩
  · cases h; rfl
  · cases h; exact ⟨rfl, rfl⟩
  · cases h; rfl

end astcopy

namespace mockgen

/-- C21: a node that lies entirely before the coordinate (start <= end < coordinate) does
not stop the search and is not tested. On such a node the closure of findAtPosition, with any
predicate and any state, returns goDown = true and abort = false and leaves found and the
variables of the predicate as they are. The nodes on which the predicate is evaluated all
have a range that contains the coordinate. When such a node n is reached (no node before it
in pre-order starts after the coordinate or matches), the nodes examined are those before n,
n, and then what the search examines of the nodes after n in pre-order, its children first
and then its siblings. -/
theorem node_before_coordinate_skipped :
    (∀ {α τ : Type} (f : file α) (findFunc : ast.Tree α → τ → Bool × τ) (line column : Int)
        (n : ast.Tree α) (st : Option (ast.Tree α) × τ),
      (f.start n).le (f.finish n) → ¬ token.Position.le ⟨line, column⟩ (f.finish n) →
      findAtPosition.visit f findFunc line column (some n) st = ((true, false), st)) ∧
    (∀ {α : Type} (f : file α) (p : ast.Tree α → Bool) (line column : Int),
      ∀ m ∈ (findAtPosition f (recordingFunc p) line column []).2,
        f.contains ⟨line, column⟩ m) ∧
    (∀ {α τ : Type} (f : file α) (p : ast.Tree α → Bool) (g : ast.Tree α → τ → τ)
        (line column : Int) (t : τ) (l1 : List (ast.Tree α)) (n : ast.Tree α)
        (l2 : List (ast.Tree α)),
      f.astFile.preorder = l1 ++ n :: l2 →
      (∀ m ∈ l1, ¬ f.startsAfter ⟨line, column⟩ m ∧ ¬ f.isMatch ⟨line, column⟩ p m) →
      (f.start n).le (f.finish n) → ¬ token.Position.le ⟨line, column⟩ (f.finish n) →
      ((abortableInspect f.astFile
          (recording (findAtPosition.visit f (fun n t => (p n, g n t)) line column))
          ((none, t), [])).2).filterMap (fun e => e.1) =
        l1 ++ n :: takeThrough (fun n => decide (f.startsAfter ⟨line, column⟩ n) ||
          decide (f.isMatch ⟨line, column⟩ p n)) l2) := by
  refine ⟨fun f findFunc line column n st h1 h2 => visit_before f findFunc line column n st h1 h2,
    fun f p line column m hm => ?_, fun f p g line column t l1 n l2 hpre hl1 hrange hafter => ?_⟩
  · rw [evaluated_eq, List.mem_filter] at hm
    exact of_decide_eq_true hm.2
  · rw [examined_eq, hpre, takeThrough_append]
    · have hs : ¬ f.startsAfter ⟨line, column⟩ n :=
        fun h => h (le_trans hrange ((le_total _ _).resolve_left hafter))
      have hm : ¬ f.isMatch ⟨line, column⟩ p n := fun h => hafter h.1.2
      simp [takeThrough, hs, hm]
    · intro a ha
      simp [(hl1 a ha).1, (hl1 a ha).2]

/-- C21 at a concrete tree: in the file with D1 on lines 1 to 3 and D2 on lines 5 to 7, at
(4,1), D1 lies before the coordinate; the closure continues on it, the search goes on to the
identifier inside D1 and to D2, and the predicate is evaluated on the file node only. -/
theorem node_before_coordinate_skipped_witness :
    ((sample.twoDecls.start sample.d1).le (sample.twoDecls.finish sample.d1) ∧
      ¬ token.Position.le ⟨4, 1⟩ (sample.twoDecls.finish sample.d1)) ∧
    findAtPosition.visit sample.twoDecls (recordingFunc sample.isDecl) 4 1 (some sample.d1)
      (none, []) = ((true, false), (none, [])) ∧
    (abortableInspect sample.twoDecls.astFile
        (recording (findAtPosition.visit sample.twoDecls (pureFunc sample.isDecl) 4 1))
        ((none, ()), [])).2.filterMap (fun e => e.1) =
      [sample.twoDecls.astFile, sample.d1, .node "Ident" 106 107 [], sample.d2] ∧
    (findAtPosition sample.twoDecls (recordingFunc sample.isDecl) 4 1 []).2 =
      [sample.twoDecls.astFile] ∧
    (∀ m ∈ (findAtPosition sample.twoDecls (recordingFunc sample.isDecl) 4 1 []).2,
      sample.twoDecls.contains ⟨4, 1⟩ m) :=
  ⟨⟨by decide, by decide⟩,
    node_before_coordinate_skipped.1 sample.twoDecls (recordingFunc sample.isDecl) 4 1 sample.d1
      (none, []) (by decide) (by decide),
    rfl, rfl, node_before_coordinate_skipped.2.1 sample.twoDecls sample.isDecl 4 1⟩

/-- C22: the ordering assumption is needed for completeness. In the file that lists D2 (lines
5 to 7) before D1 (lines 1 to 3) the start positions in pre-order are not non-decreasing; D1
is a node of the tree, contains (2,1) and is a declaration; yet findAtPosition returns nil at
(2,1): the nodes examined are the file node and D2, and D2 starts strictly after (2,1). -/
theorem ordering_needed_for_completeness :
    ∃ (f : file String) (p : ast.Tree String → Bool) (line column : Int) (n m : ast.Tree String),
      ¬ List.Chain' (fun a b => (f.start a).le (f.start b)) f.astFile.preorder ∧
      n ∈ f.astFile.preorder ∧ f.contains ⟨line, column⟩ n ∧ p n = true ∧
      (findAtPosition f (pureFunc p) line column ()).1 = none ∧
      (abortableInspect f.astFile (recording (findAtPosition.visit f (pureFunc p) line column))
        ((none, ()), [])).2.filterMap (fun e => e.1) = [f.astFile, m] ∧
      f.startsAfter ⟨line, column⟩ m := by
  refine ⟨sample.shuffled, sample.isDecl, 2, 1, sample.d1, sample.d2, ?_, ?_, by decide, rfl,
    rfl, rfl, by decide⟩
  · intro h
    have h2 : List.Chain' (fun a b => (sample.shuffled.start a).le (sample.shuffled.start b))
        [sample.shuffled.astFile, sample.d2, .node "Ident" 506 507 [], sample.d1,
          .node "Ident" 106 107 []] := h
    simp only [List.chain'_cons] at h2
    exact absurd h2.2.2.1 (by decide)
  · show sample.d1 ∈ [sample.shuffled.astFile, sample.d2, .node "Ident" 506 507 [], sample.d1,
      .node "Ident" 106 107 []]
    simp

/-- C23, against the claim as stated: copyFieldList does not return on every present field
list. On the present list that holds one nil field it dereferences a nil pointer, and on the
present list with one field whose type is a value of a type "T" outside the grammar it panics
with "unhandled expr"; so it is false that it returns a list on every present field list. -/
theorem copyFieldList_fails_on_present_list :
    copyFieldList (some (.mk 1 (some [none]) 2)) = .error nilDereference ∧
    copyFieldList (some (.mk 1 (some [some (.mk none none (some (.other "T")) none none)]) 2)) =
      .error "unhandled expr" ∧
    ¬ ∀ list : ast.FieldList, ∃ y, copyFieldList (some list) = .ok y := by
  refine ⟨rfl, rfl, fun h => ?_⟩
  obtain ⟨y, hy⟩ := h (.mk 1 (some [none]) 2)
  have h2 : (Except.error nilDereference : Except String (Option ast.FieldList)) = .ok y := hy
  cases h2

/-- C23, as amended: for a present field list whose fields are present (no nil pointer in the
list) and have a type of the grammar,
copyFieldList returns a present field list with a present List of the same length. The field
c at index i, made from the field f, has at least one name: when f has names, the names that
IdentList gives for them (the copies of the names, in order); when f has none (Names nil or
empty), the one name "var" followed by k in decimal, where k counts the fields without names
up to and including f. The type of c is the copy Expr gives of the type of f, its tag the
copy BasicLit gives of the tag of f, and its Doc and Comment are nil. -/
theorem copyFieldList_names (list : ast.FieldList)
    (hfields : ∀ f ∈ ast.elems list.List_, ∃ g, f = some g ∧ ast.Field.inGrammar g = true) :
    ∃ cp, copyFieldList (some list) = .ok (some (.mk token.NoPos (some cp) token.NoPos)) ∧
      cp.length = (ast.elems list.List_).length ∧
      ∀ (i : Nat) (f : ast.Field), (ast.elems list.List_)[i]? = some (some f) →
        ∃ c, cp[i]? = some (some c) ∧
          1 ≤ (ast.elems c.Names).length ∧
          (unnamed (some f) = false → c.Names = astcopy.IdentList f.Names) ∧
          (unnamed (some f) = true → c.Names = some [some
            { NamePos := token.NoPos, Name := "var" ++
                toString (((ast.elems list.List_).take (i + 1)).countP unnamed) }]) ∧
          astcopy.Expr f.Type_ = .ok c.Type_ ∧ c.Tag = astcopy.BasicLit f.Tag ∧
          c.Doc = none ∧ c.Comment = none := by
  obtain ⟨cp, hcp, hlen, hall⟩ := copyFieldList_loop_spec (ast.elems list.List_) 1 hfields
  refine ⟨cp, ?_, hlen, fun i f hi => ?_⟩
  · rw [copyFieldList, hcp]
    rfl
  · obtain ⟨c, hc, h1, h2, h3, h4⟩ := hall i f hi
    refine ⟨c, hc, h1, h2, fun hu => ?_, h4⟩
    rw [h3 hu, countP_take_succ unnamed _ i (some f) hi hu, Nat.add_comm]

/-- C23 at a concrete list: `(a int, string, b, c bool, error)`, with positions, a tag and
comments on the first field, a nil Names in the second and an empty Names in the last, is
copied to `(a int, var1 string, b, c bool, var2 error)` without the comments. -/
theorem copyFieldList_names_witness :
    (∀ f ∈ ast.elems sample.mixedParams.List_, ∃ g, f = some g ∧ ast.Field.inGrammar g = true) ∧
    (∃ cp, copyFieldList (some sample.mixedParams) =
        .ok (some (.mk token.NoPos (some cp) token.NoPos)) ∧
      cp.length = (ast.elems sample.mixedParams.List_).length ∧
      ∀ (i : Nat) (f : ast.Field), (ast.elems sample.mixedParams.List_)[i]? = some (some f) →
        ∃ c, cp[i]? = some (some c) ∧
          1 ≤ (ast.elems c.Names).length ∧
          (unnamed (some f) = false → c.Names = astcopy.IdentList f.Names) ∧
          (unnamed (some f) = true → c.Names = some [some
            { NamePos := token.NoPos, Name := "var" ++
                toString (((ast.elems sample.mixedParams.List_).take (i + 1)).countP unnamed) }]) ∧
          astcopy.Expr f.Type_ = .ok c.Type_ ∧ c.Tag = astcopy.BasicLit f.Tag ∧
          c.Doc = none ∧ c.Comment = none) ∧
    copyFieldList (some sample.mixedParams) = .ok (some (.mk 0 (some [
      some (.mk none (some [some { NamePos := 0, Name := "a" }])
        (some (.Ident { NamePos := 0, Name := "int" }))
        (some { ValuePos := 0, Kind := token.STRING, Value := "\"t\"" }) none),
      some (.mk none (some [some { NamePos := 0, Name := "var1" }])
        (some (.Ident { NamePos := 0, Name := "string" })) none none),
      some (.mk none (some [some { NamePos := 0, Name := "b" }, some { NamePos := 0, Name := "c" }])
        (some (.Ident { NamePos := 0, Name := "bool" })) none none),
      some (.mk none (some [some { NamePos := 0, Name := "var2" }])
        (some (.Ident { NamePos := 0, Name := "error" })) none none)]) 0)) := by
  have h : ∀ f ∈ ast.elems sample.mixedParams.List_,
      ∃ g, f = some g ∧ ast.Field.inGrammar g = true := by
    intro f hf
    have hf2 : f ∈ [some (ast.Field.mk (some sample.doc) (some [some { NamePos := 2, Name := "a" }])
        (sample.ident "int") (some { ValuePos := 9, Kind := token.STRING, Value := "\"t\"" })
        (some sample.doc)),
      some (.mk none none (sample.ident "string") none none),
      some (.mk none (some [some { NamePos := 20, Name := "b" }, some { NamePos := 23, Name := "c" }])
        (sample.ident "bool") none none),
      some (.mk none (some []) (sample.ident "error") none none)] := hf
    simp only [List.mem_cons, List.mem_singleton, List.not_mem_nil, or_false] at hf2
    rcases hf2 with rfl | rfl | rfl | rfl <;> exact ⟨_, rfl, rfl⟩
  exact ⟨h, copyFieldList_names sample.mixedParams h, rfl⟩

end mockgen
